import Mathlib

/-! ## The peer handshake engine of libtransmission (`handshake.c`)

A shallow embedding of `libtransmission/handshake.c`: the handshake session, the
byte pipe it drives, the eleven read transitions, the `canRead` driver loop, the
error handler and the completion routine, followed by theorems about them.

Bytes are natural numbers (a byte read as part of an integer is taken modulo 256),
buffers are lists of bytes, and every C function that mutates the session or the
pipe becomes a function on `World`.
-/

namespace Handshake

/-! ## Constants of `handshake.c` -/

/-- The protocol name literal `"\023BitTorrent protocol"`. -/
def HANDSHAKE_NAME : List Nat :=
  [19, 66, 105, 116, 84, 111, 114, 114, 101, 110, 116, 32, 112, 114, 111, 116, 111, 99, 111, 108]

@[simp] def HANDSHAKE_NAME_LEN : Nat := 20
@[simp] def HANDSHAKE_FLAGS_LEN : Nat := 8
@[simp] def HANDSHAKE_SIZE : Nat := 68
@[simp] def INCOMING_HANDSHAKE_LEN : Nat := 48
@[simp] def PadA_MAXLEN : Nat := 512
@[simp] def PadB_MAXLEN : Nat := 512
@[simp] def PadC_MAXLEN : Nat := 512
@[simp] def PadD_MAXLEN : Nat := 512
@[simp] def VC_LENGTH : Nat := 8
@[simp] def CRYPTO_PROVIDE_PLAINTEXT : Nat := 1
@[simp] def CRYPTO_PROVIDE_CRYPTO : Nat := 2

/-- Modelled from the spec: `KEY_LEN = 96` (the constant lives in the crypto header). -/
@[simp] def KEY_LEN : Nat := 96
/-- Modelled from the spec: `SHA_DIGEST_LENGTH = 20`. -/
@[simp] def SHA_DIGEST_LENGTH : Nat := 20
/-- Modelled from the spec: `PEER_ID_LEN = 20`. -/
@[simp] def PEER_ID_LEN : Nat := 20

/-- Modelled from the spec: the pipe's encryption type `None`; its value matches
`crypto_select = PLAINTEXT`, since `readPadD` hands `crypto_select` to the pipe as is. -/
@[simp] def PEER_ENCRYPTION_NONE : Nat := 1
/-- Modelled from the spec: the pipe's encryption type `RC4`; its value matches
`crypto_select = CRYPTO`. -/
@[simp] def PEER_ENCRYPTION_RC4 : Nat := 2

/-- The four-byte request names handed to the hash. -/
def req1Name : List Nat := [114, 101, 113, 49]
def req2Name : List Nat := [114, 101, 113, 50]
def req3Name : List Nat := [114, 101, 113, 51]

/-! ## Types -/

inductive tr_encryption_mode
  | TR_CLEAR_PREFERRED
  | TR_ENCRYPTION_PREFERRED
  | TR_ENCRYPTION_REQUIRED
  deriving DecidableEq, Repr

inductive handshake_state_t
  | AWAITING_HANDSHAKE
  | AWAITING_PEER_ID
  | AWAITING_YA
  | AWAITING_PAD_A
  | AWAITING_CRYPTO_PROVIDE
  | AWAITING_PAD_C
  | AWAITING_IA
  | AWAITING_YB
  | AWAITING_VC
  | AWAITING_CRYPTO_SELECT
  | AWAITING_PAD_D
  deriving DecidableEq, Repr

inductive ReadState
  | READ_NOW
  | READ_LATER
  | READ_ERR
  deriving DecidableEq, Repr

inductive tr_peer_socket_type
  | TR_PEER_SOCKET_TYPE_TCP
  | TR_PEER_SOCKET_TYPE_UTP
  deriving DecidableEq, Repr

open tr_encryption_mode handshake_state_t ReadState tr_peer_socket_type

/-- The fields of `struct tr_handshake` that hold data. `freed` records that
`tr_handshakeFree` has run on the session; C code that keeps using the pointer
afterwards reads the values the fields had at that moment. -/
structure tr_handshake where
  haveReadAnythingFromPeer : Bool
  havePeerID : Bool
  haveSentBitTorrentHandshake : Bool
  state : handshake_state_t
  encryptionMode : tr_encryption_mode
  pad_c_len : Nat
  pad_d_len : Nat
  ia_len : Nat
  crypto_select : Nat
  crypto_provide : Nat
  myReq1 : List Nat
  freed : Bool
  deriving DecidableEq, Repr

/-- Modelled from the spec: a torrent of the registry, with what the handshake asks of it:
its info-hash, our peer id for it, whether it runs, whether we are a seed, and whether
the peer manager knows the peer at the pipe's address as a seed. -/
structure tr_torrent where
  hash : List Nat
  peer_id : List Nat
  isRunning : Bool
  isSeed : Bool
  peerIsSeed : Bool
  deriving DecidableEq, Repr

/-- Modelled from the spec: the enclosing process context, used to look up torrents. -/
structure tr_session where
  torrents : List tr_torrent
  dhtEnabled : Bool
  deriving DecidableEq, Repr

/-- Modelled from the spec: the state of one RC4 stream, a keystream (named by direction,
shared secret and SKEY) and the offset reached in it. -/
structure tr_rc4_ctx where
  a2b : Bool
  secret : List Nat
  skey : List Nat
  pos : Nat
  deriving DecidableEq, Repr

/-- One call of `tr_peerIoWriteBytes` or `tr_peerIoWriteBuf`: the bytes handed over, the pipe's
encryption type at that moment, and the bytes that go on the wire. -/
structure tr_write where
  data : List Nat
  encryption_type : Nat
  wire : List Nat
  deriving DecidableEq, Repr

/-- Modelled from the spec: the byte pipe and the cryptographic context bound to it. -/
structure tr_peerIo where
  isIncoming : Bool
  socketType : tr_peer_socket_type
  encryption_type : Nat
  torrentHash : Option (List Nat)
  peersId : Option (List Nat)
  dhtSupported : Bool
  ltepSupported : Bool
  fextSupported : Bool
  inbuf : List Nat
  writes : List tr_write
  mySecret : Option (List Nat)
  enc_key : tr_rc4_ctx
  dec_key : tr_rc4_ctx
  funcsInstalled : Bool
  refCount : Nat
  deriving DecidableEq, Repr

/-- One invocation of the done callback: its arguments and what it returned. -/
structure DoneCall where
  haveReadAnythingFromPeer : Bool
  isConnected : Bool
  peer_id : Option (List Nat)
  result : Bool
  deriving DecidableEq, Repr

/-- Everything the handshake code can read or change. -/
structure World where
  hs : tr_handshake
  io : tr_peerIo
  /-- the invocations of the done callback so far -/
  doneCalls : List DoneCall
  /-- the transitions `canRead` dispatched so far: the state, and whether the session
  had already been freed -/
  dispatched : List (handshake_state_t × Bool)
  /-- the torrents for which the peer was marked as not supporting uTP -/
  utpFailed : List (List Nat)
  /-- the reconnect attempts so far, with their result -/
  reconnects : List Bool
  /-- the random draws made so far -/
  randCount : Nat
  /-- the timeout timer has been released -/
  timerFreed : Bool
  deriving DecidableEq, Repr

/-- The collaborators of the engine that are not part of `handshake.c`. -/
structure Env where
  session : tr_session
  /-- SHA-1 of the concatenated input -/
  sha1 : List Nat → List Nat
  /-- the RC4 keystream for a direction (initiator to responder or back), a secret S and SKEY -/
  keystream : Bool → List Nat → List Nat → Nat → Nat
  /-- our Diffie-Hellman public key -/
  myPublicKey : List Nat
  /-- the shared secret for a peer's public key, when the key is accepted -/
  computeSecret : List Nat → Option (List Nat)
  /-- the done callback: given the number of earlier invocations, `haveReadAnythingFromPeer`,
  `isConnected` and the peer id, its boolean result -/
  doneCB : Nat → Bool → Bool → Option (List Nat) → Bool
  /-- the n-th draw of `tr_rand_int`, before reduction to the requested range -/
  randInt : Nat → Nat
  /-- byte i of the n-th draw of `tr_rand_buffer` -/
  randByte : Nat → Nat → Nat
  /-- the n-th reconnect attempt: the socket type of the new connection when it succeeds -/
  reconnect : Nat → Option tr_peer_socket_type
  ETIMEDOUT : Nat
  ECONNREFUSED : Nat

/-! ## The collaborators -/

/-- Modelled from the spec: torrent lookup by info-hash. -/
def tr_torrentFindFromHash (session : tr_session) (hash : List Nat) : Option tr_torrent :=
  session.torrents.find? (fun t => decide (t.hash = hash))

/-- Modelled from the spec: torrent lookup by obfuscated hash `SHA1("req2" ‖ SKEY)`. -/
def tr_torrentFindFromObfuscatedHash (env : Env) (obfuscated : List Nat) : Option tr_torrent :=
  env.session.torrents.find? (fun t => decide (env.sha1 (req2Name ++ t.hash) = obfuscated))

/-- Modelled from the spec: a stream cipher XORs the bytes with the keystream from an offset on. -/
def rc4Apply (ks : Nat → Nat) : Nat → List Nat → List Nat
  | _, [] => []
  | pos, b :: bs => (b ^^^ ks pos) :: rc4Apply ks (pos + 1) bs

/-- Modelled from the spec: the keystream of a stream, fixed by its direction, S and SKEY. -/
def ctxKeystream (env : Env) (c : tr_rc4_ctx) : Nat → Nat :=
  env.keystream c.a2b c.secret c.skey

/-- Modelled from the spec: a fresh decryption stream; the incoming side decrypts what the
initiator encrypts. -/
def tr_cryptoDecryptInit (io : tr_peerIo) : tr_peerIo :=
  { io with dec_key :=
      { a2b := io.isIncoming, secret := io.mySecret.getD [], skey := io.torrentHash.getD [], pos := 0 } }

/-- Modelled from the spec: a fresh encryption stream; the outgoing side encrypts in the
initiator-to-responder direction. -/
def tr_cryptoEncryptInit (io : tr_peerIo) : tr_peerIo :=
  { io with enc_key :=
      { a2b := !io.isIncoming, secret := io.mySecret.getD [], skey := io.torrentHash.getD [], pos := 0 } }

/-- Modelled from the spec: decrypt bytes with the decryption stream and advance it. -/
def tr_cryptoDecrypt (env : Env) (io : tr_peerIo) (bytes : List Nat) : List Nat × tr_peerIo :=
  (rc4Apply (ctxKeystream env io.dec_key) io.dec_key.pos bytes,
   { io with dec_key := { io.dec_key with pos := io.dec_key.pos + bytes.length } })

/-- Modelled from the spec: encrypt bytes with the encryption stream and advance it. -/
def tr_cryptoEncrypt (env : Env) (io : tr_peerIo) (bytes : List Nat) : List Nat × tr_peerIo :=
  (rc4Apply (ctxKeystream env io.enc_key) io.enc_key.pos bytes,
   { io with enc_key := { io.enc_key with pos := io.enc_key.pos + bytes.length } })

/-- Modelled from the spec: `SHA1(name ‖ S)` for the secret S of the pipe's crypto context. -/
def computeRequestHash (env : Env) (io : tr_peerIo) (name : List Nat) : List Nat :=
  env.sha1 (name ++ io.mySecret.getD [])

/-- Modelled from the spec: compute the shared secret S from the peer's public key. -/
def tr_cryptoComputeSecret (env : Env) (io : tr_peerIo) (peerKey : List Nat) : Bool × tr_peerIo :=
  match env.computeSecret peerKey with
  | none => (false, io)
  | some s => (true, { io with mySecret := some s })

/-- Modelled from the spec: whether the pipe is in RC4 mode. -/
def tr_peerIoIsEncrypted (io : tr_peerIo) : Bool :=
  decide (io.encryption_type = PEER_ENCRYPTION_RC4)

/-- Modelled from the spec: whether an info-hash is bound to the pipe. -/
def tr_peerIoHasTorrentHash (io : tr_peerIo) : Bool := io.torrentHash.isSome

/-- Modelled from the spec: set the encryption mode of the pipe. -/
def tr_peerIoSetEncryption (io : tr_peerIo) (encryption_type : Nat) : tr_peerIo :=
  { io with encryption_type := encryption_type }

/-- Modelled from the spec: bind an info-hash to the pipe; it keys the fresh streams. -/
def tr_peerIoSetTorrentHash (io : tr_peerIo) (hash : List Nat) : tr_peerIo :=
  { io with torrentHash := some hash }

/-- Modelled from the spec: record on the pipe whether the peer supports DHT. -/
def tr_peerIoEnableDHT (io : tr_peerIo) (flag : Bool) : tr_peerIo :=
  { io with dhtSupported := flag }

/-- Modelled from the spec: record on the pipe whether the peer supports LTEP. -/
def tr_peerIoEnableLTEP (io : tr_peerIo) (flag : Bool) : tr_peerIo :=
  { io with ltepSupported := flag }

/-- Modelled from the spec: record on the pipe whether the peer supports the fast extension. -/
def tr_peerIoEnableFEXT (io : tr_peerIo) (flag : Bool) : tr_peerIo :=
  { io with fextSupported := flag }

/-- Modelled from the spec: record the peer id on the pipe. -/
def tr_peerIoSetPeersId (io : tr_peerIo) (peer_id : List Nat) : tr_peerIo :=
  { io with peersId := some peer_id }

/-- `evbuffer_drain`: drop bytes from the head of the input buffer, the cipher untouched. -/
def evbuffer_drain (io : tr_peerIo) (n : Nat) : tr_peerIo :=
  { io with inbuf := io.inbuf.drop n }

/-- `evbuffer_remove`: take bytes from the head of the input buffer, the cipher untouched. -/
def evbuffer_remove (io : tr_peerIo) (n : Nat) : List Nat × tr_peerIo :=
  (io.inbuf.take n, { io with inbuf := io.inbuf.drop n })

/-- Modelled from the spec: read bytes through the pipe, decrypted when the pipe is in RC4 mode. -/
def tr_peerIoReadBytes (env : Env) (io : tr_peerIo) (n : Nat) : List Nat × tr_peerIo :=
  let r := evbuffer_remove io n
  if r.2.encryption_type = PEER_ENCRYPTION_RC4 then tr_cryptoDecrypt env r.2 r.1 else r

/-- Big-endian value of two bytes. -/
def be16 (bs : List Nat) : Nat := (bs.getD 0 0 % 256) * 256 + bs.getD 1 0 % 256

/-- Big-endian value of four bytes. -/
def be32 (bs : List Nat) : Nat :=
  (((bs.getD 0 0 % 256) * 256 + bs.getD 1 0 % 256) * 256 + bs.getD 2 0 % 256) * 256 + bs.getD 3 0 % 256

/-- The two bytes of a 16-bit value, big-endian. -/
def u16Bytes (n : Nat) : List Nat := [n / 256 % 256, n % 256]

/-- The four bytes of a 32-bit value, big-endian. -/
def u32Bytes (n : Nat) : List Nat := [n / 16777216 % 256, n / 65536 % 256, n / 256 % 256, n % 256]

/-- Modelled from the spec: read a big-endian 16-bit value through the pipe. -/
def tr_peerIoReadUint16 (env : Env) (io : tr_peerIo) : Nat × tr_peerIo :=
  let r := tr_peerIoReadBytes env io 2
  (be16 r.1, r.2)

/-- Modelled from the spec: read a big-endian 32-bit value through the pipe. -/
def tr_peerIoReadUint32 (env : Env) (io : tr_peerIo) : Nat × tr_peerIo :=
  let r := tr_peerIoReadBytes env io 4
  (be32 r.1, r.2)

/-- Modelled from the spec: drain bytes through the pipe, so that the cipher advances with them. -/
def tr_peerIoDrain (env : Env) (io : tr_peerIo) (n : Nat) : tr_peerIo :=
  (tr_peerIoReadBytes env io n).2

/-- Modelled from the spec: decrypt in place the first bytes already in the input buffer. -/
def tr_peerIoDecryptBuf (env : Env) (io : tr_peerIo) (n : Nat) : tr_peerIo :=
  let r := tr_cryptoDecrypt env io (io.inbuf.take n)
  { r.2 with inbuf := r.1 ++ io.inbuf.drop n }

/-- Modelled from the spec: hand bytes to the pipe, which encrypts them when in RC4 mode. -/
def tr_peerIoWriteBytes (env : Env) (io : tr_peerIo) (bytes : List Nat) : tr_peerIo :=
  if io.encryption_type = PEER_ENCRYPTION_RC4 then
    let r := tr_cryptoEncrypt env io bytes
    { r.2 with writes := io.writes ++ [{ data := bytes, encryption_type := io.encryption_type, wire := r.1 }] }
  else
    { io with writes := io.writes ++ [{ data := bytes, encryption_type := io.encryption_type, wire := bytes }] }

/-- `evbuffer_search`: the position of the first occurrence of `what` in the buffer. -/
def evbuffer_search (what : List Nat) : List Nat → Option Nat
  | [] => if what = [] then some 0 else none
  | b :: rest =>
    if (b :: rest).take what.length = what then some 0
    else (evbuffer_search what rest).map (fun p => p + 1)

/-- `tr_rand_int (upper)` followed by `tr_rand_buffer` of that length: the n-th padding. -/
def randomPad (env : Env) (n : Nat) (upper : Nat) : List Nat :=
  (List.range (env.randInt n % upper)).map (env.randByte n)

/-- Modelled from the spec: `tr_peerIoWriteBuf`, the pipe takes over the whole buffer, which is left empty. -/
def tr_peerIoWriteBuf (env : Env) (io : tr_peerIo) (buf : List Nat) : tr_peerIo :=
  tr_peerIoWriteBytes env io buf

/-- Modelled from the spec: ask the pipe for a new connection; on success the pipe is on
the socket type of the new connection. The second component is true when it succeeded
(the C function returns 0). -/
def tr_peerIoReconnect (env : Env) (w : World) : Bool × World :=
  match env.reconnect w.reconnects.length with
  | none => (false, { w with reconnects := w.reconnects ++ [false] })
  | some t => (true, { w with io := { w.io with socketType := t }, reconnects := w.reconnects ++ [true] })

/-! ## `handshake.c` -/

def HANDSHAKE_HAS_LTEP (bits : List Nat) : Bool := decide (bits.getD 5 0 &&& 0x10 ≠ 0)
def HANDSHAKE_HAS_FASTEXT (bits : List Nat) : Bool := decide (bits.getD 7 0 &&& 0x04 ≠ 0)
def HANDSHAKE_HAS_DHT (bits : List Nat) : Bool := decide (bits.getD 7 0 &&& 0x01 ≠ 0)

def HANDSHAKE_SET_LTEP (bits : List Nat) : List Nat := bits.set 5 (bits.getD 5 0 ||| 0x10)
def HANDSHAKE_SET_FASTEXT (bits : List Nat) : List Nat := bits.set 7 (bits.getD 7 0 ||| 0x04)
def HANDSHAKE_SET_DHT (bits : List Nat) : List Nat := bits.set 7 (bits.getD 7 0 ||| 0x01)

def setState (w : World) (state : handshake_state_t) : World :=
  { w with hs := { w.hs with state := state } }

def setReadState (w : World) (state : handshake_state_t) : World :=
  setState w state

/-- The lookup at the head of `buildHandshakeMessage`: our peer id for the torrent bound to
the pipe, when that torrent is known and running. -/
def buildHandshakePeerId (env : Env) (w : World) : Option (List Nat) :=
  match w.io.torrentHash with
  | none => none
  | some torrentHash =>
    match tr_torrentFindFromHash env.session torrentHash with
    | none => none
    | some tor => if tor.isRunning then some tor.peer_id else none

def buildHandshakeMessage (env : Env) (w : World) : Option (List Nat) :=
  match buildHandshakePeerId env w with
  | none => none
  | some peer_id =>
    let flags := HANDSHAKE_SET_FASTEXT (HANDSHAKE_SET_LTEP (List.replicate HANDSHAKE_FLAGS_LEN 0))
    let flags := if env.session.dhtEnabled then HANDSHAKE_SET_DHT flags else flags
    some (HANDSHAKE_NAME ++ flags ++ w.io.torrentHash.getD [] ++ peer_id)

def fireDoneFunc (env : Env) (w : World) (isConnected : Bool) : Bool × World :=
  let peer_id := if isConnected && w.hs.havePeerID then w.io.peersId else none
  let success := env.doneCB w.doneCalls.length w.hs.haveReadAnythingFromPeer isConnected peer_id
  (success, { w with doneCalls := w.doneCalls ++
      [{ haveReadAnythingFromPeer := w.hs.haveReadAnythingFromPeer, isConnected := isConnected,
         peer_id := peer_id, result := success }] })

def tr_handshakeFree (w : World) : World :=
  { w with io := { w.io with refCount := w.io.refCount - 1 },
           timerFreed := true,
           hs := { w.hs with freed := true } }

def tr_handshakeDone (env : Env) (w : World) (isOK : Bool) : ReadState × World :=
  let w1 : World := { w with io := { w.io with funcsInstalled := false } }
  let r := fireDoneFunc env w1 isOK
  (if r.1 then READ_NOW else READ_ERR, tr_handshakeFree r.2)

/-! ### Outgoing connections -/

def sendYa (env : Env) (w : World) : World :=
  let outbuf := env.myPublicKey ++ randomPad env w.randCount PadA_MAXLEN
  setReadState { w with io := tr_peerIoWriteBytes env w.io outbuf, randCount := w.randCount + 1 }
    AWAITING_YB

/-- In the clear-preferred branch `CHECK (false && ...)` flags the call as unexpected and the
function goes on to return `provide = 0`. -/
def getCryptoProvide (encryptionMode : tr_encryption_mode) : Nat :=
  match encryptionMode with
  | TR_ENCRYPTION_REQUIRED => 0 ||| CRYPTO_PROVIDE_CRYPTO
  | TR_ENCRYPTION_PREFERRED => 0 ||| CRYPTO_PROVIDE_CRYPTO
  | TR_CLEAR_PREFERRED => 0

/-- The `choices` array `getCryptoSelect` fills in for a mode. -/
def getCryptoSelectChoices (encryptionMode : tr_encryption_mode) : List Nat :=
  match encryptionMode with
  | TR_ENCRYPTION_REQUIRED => [CRYPTO_PROVIDE_CRYPTO]
  | TR_ENCRYPTION_PREFERRED => [CRYPTO_PROVIDE_CRYPTO, CRYPTO_PROVIDE_PLAINTEXT]
  | TR_CLEAR_PREFERRED => [CRYPTO_PROVIDE_PLAINTEXT, CRYPTO_PROVIDE_CRYPTO]

/-- The loop of `getCryptoSelect` over the choices. -/
def getCryptoSelectLoop (crypto_provide : Nat) : List Nat → Nat
  | [] => 0
  | c :: cs => if crypto_provide &&& c ≠ 0 then c else getCryptoSelectLoop crypto_provide cs

def getCryptoSelect (encryptionMode : tr_encryption_mode) (crypto_provide : Nat) : Nat :=
  getCryptoSelectLoop crypto_provide (getCryptoSelectChoices encryptionMode)

/-- The loop `buf[i] = req2[i] ^ req3[i]` over the `SHA_DIGEST_LENGTH` bytes. -/
def xorDigest (req2 req3 : List Nat) : List Nat :=
  (List.range SHA_DIGEST_LENGTH).map (fun i => req2.getD i 0 ^^^ req3.getD i 0)

def readYb (env : Env) (w : World) : ReadState × World :=
  if w.io.inbuf.length < HANDSHAKE_NAME_LEN then (READ_LATER, w)
  else if w.io.inbuf.take HANDSHAKE_NAME_LEN ≠ HANDSHAKE_NAME ∧ w.io.inbuf.length < KEY_LEN then
    (READ_LATER, w)
  else if w.io.inbuf.take HANDSHAKE_NAME_LEN = HANDSHAKE_NAME then
    (READ_NOW, setState w AWAITING_HANDSHAKE)
  else
    let hs1 := { w.hs with haveReadAnythingFromPeer := true }
    let yb := evbuffer_remove w.io KEY_LEN
    let s := tr_cryptoComputeSecret env yb.2 yb.1
    if s.1 = false then tr_handshakeDone env { w with hs := hs1, io := s.2 } false
    else
      let req1 := computeRequestHash env s.2 req1Name
      let req2 := env.sha1 (req2Name ++ s.2.torrentHash.getD [])
      let req3 := computeRequestHash env s.2 req3Name
      let io1 := tr_peerIoWriteBuf env s.2 (req1 ++ xorDigest req2 req3)
      let io2 := tr_peerIoSetEncryption (tr_cryptoEncryptInit io1) PEER_ENCRYPTION_RC4
      let outbuf := List.replicate VC_LENGTH 0 ++ u32Bytes (getCryptoProvide w.hs.encryptionMode) ++ u16Bytes 0
      let w1 : World := { w with hs := hs1, io := io2 }
      match buildHandshakeMessage env w1 with
      | none => tr_handshakeDone env w1 false
      | some msg =>
        let outbuf := outbuf ++ u16Bytes HANDSHAKE_SIZE ++ msg
        let w2 := setReadState { w1 with hs := { w1.hs with haveSentBitTorrentHandshake := true } } AWAITING_VC
        (READ_LATER, { w2 with io := tr_peerIoWriteBuf env w2.io outbuf })

/-- The `for (;;)` loop of `readVC` over the input buffer: whether it left through `break`,
and the pipe as the loop leaves it. -/
def readVCLoop (env : Env) : List Nat → tr_peerIo → Bool × tr_peerIo
  | [], io => (false, { io with inbuf := [] })
  | b :: rest, io =>
    if (b :: rest).length < VC_LENGTH then (false, { io with inbuf := b :: rest })
    else
      let tmp := tr_cryptoDecrypt env (tr_cryptoDecryptInit io) ((b :: rest).take VC_LENGTH)
      if tmp.1 = List.replicate VC_LENGTH 0 then (true, { tmp.2 with inbuf := b :: rest })
      else readVCLoop env rest tmp.2

def readVC (env : Env) (w : World) : ReadState × World :=
  let r := readVCLoop env w.io.inbuf w.io
  if r.1 = false then (READ_LATER, { w with io := r.2 })
  else (READ_NOW, setState { w with io := evbuffer_drain r.2 VC_LENGTH } AWAITING_CRYPTO_SELECT)

def readCryptoSelect (env : Env) (w : World) : ReadState × World :=
  if w.io.inbuf.length < 4 + 2 then (READ_LATER, w)
  else
    let cs := tr_peerIoReadUint32 env w.io
    let w1 : World := { w with io := cs.2, hs := { w.hs with crypto_select := cs.1 } }
    if cs.1 &&& getCryptoProvide w.hs.encryptionMode = 0 then tr_handshakeDone env w1 false
    else
      let pd := tr_peerIoReadUint16 env w1.io
      let w2 : World := { w1 with io := pd.2 }
      if pd.1 > PadD_MAXLEN then tr_handshakeDone env w2 false
      else (READ_NOW, setState { w2 with hs := { w2.hs with pad_d_len := pd.1 } } AWAITING_PAD_D)

def readPadD (env : Env) (w : World) : ReadState × World :=
  if w.io.inbuf.length < w.hs.pad_d_len then (READ_LATER, w)
  else
    let io1 := tr_peerIoDrain env w.io w.hs.pad_d_len
    let io2 := tr_peerIoSetEncryption io1 w.hs.crypto_select
    (READ_NOW, setState { w with io := io2 } AWAITING_HANDSHAKE)

/-! ### Incoming and outgoing connections -/

/-- The end of `readHandshake`: reply with our handshake unless it was sent already. -/
def readHandshakeReply (env : Env) (w : World) : ReadState × World :=
  if w.hs.haveSentBitTorrentHandshake = false then
    match buildHandshakeMessage env w with
    | none => tr_handshakeDone env w false
    | some msg =>
      (READ_NOW, setReadState
        { w with io := tr_peerIoWriteBytes env w.io msg,
                 hs := { w.hs with haveSentBitTorrentHandshake := true } } AWAITING_PEER_ID)
  else (READ_NOW, setReadState w AWAITING_PEER_ID)

/-- The body of `readHandshake` from "confirm the protocol" on. -/
def readHandshakeParse (env : Env) (w : World) : ReadState × World :=
  let name := tr_peerIoReadBytes env w.io HANDSHAKE_NAME_LEN
  if name.1 ≠ HANDSHAKE_NAME then tr_handshakeDone env { w with io := name.2 } false
  else
    let reserved := tr_peerIoReadBytes env name.2 HANDSHAKE_FLAGS_LEN
    let io1 := tr_peerIoEnableDHT reserved.2 (HANDSHAKE_HAS_DHT reserved.1)
    let io1 := tr_peerIoEnableLTEP io1 (HANDSHAKE_HAS_LTEP reserved.1)
    let io1 := tr_peerIoEnableFEXT io1 (HANDSHAKE_HAS_FASTEXT reserved.1)
    let hash := tr_peerIoReadBytes env io1 SHA_DIGEST_LENGTH
    let w1 : World := { w with io := hash.2 }
    if w1.io.isIncoming = true ∧ tr_peerIoHasTorrentHash w1.io = false then
      match tr_torrentFindFromHash env.session hash.1 with
      | none => tr_handshakeDone env w1 false
      | some tor =>
        if tor.isRunning = false then tr_handshakeDone env w1 false
        else readHandshakeReply env { w1 with io := tr_peerIoSetTorrentHash w1.io hash.1 }
    else if w1.io.torrentHash ≠ some hash.1 then tr_handshakeDone env w1 false
    else readHandshakeReply env w1

def readHandshake (env : Env) (w : World) : ReadState × World :=
  if w.io.inbuf.length < INCOMING_HANDSHAKE_LEN then (READ_LATER, w)
  else
    let w1 : World := { w with hs := { w.hs with haveReadAnythingFromPeer := true } }
    if w.io.inbuf.take HANDSHAKE_NAME_LEN = HANDSHAKE_NAME then
      if w.hs.encryptionMode = TR_ENCRYPTION_REQUIRED then tr_handshakeDone env w1 false
      else if tr_peerIoIsEncrypted w.io = true then tr_handshakeDone env w1 false
      else readHandshakeParse env w1
    else
      if w.io.isIncoming = true ∧ tr_peerIoHasTorrentHash w.io = false then
        (READ_NOW, setState w1 AWAITING_YA)
      else if tr_peerIoIsEncrypted w.io = false then tr_handshakeDone env w1 false
      else readHandshakeParse env w1

def readPeerId (env : Env) (w : World) : ReadState × World :=
  if w.io.inbuf.length < PEER_ID_LEN then (READ_LATER, w)
  else
    let peer_id := tr_peerIoReadBytes env w.io PEER_ID_LEN
    let w1 : World :=
      { w with io := tr_peerIoSetPeersId peer_id.2 peer_id.1,
               hs := { w.hs with havePeerID := true } }
    let tor := w1.io.torrentHash.bind (tr_torrentFindFromHash env.session)
    let connected_to_self : Bool :=
      match tor with
      | none => false
      | some t => decide (peer_id.1 = t.peer_id)
    tr_handshakeDone env w1 (!connected_to_self)

/-! ### Incoming connections -/

def readYa (env : Env) (w : World) : ReadState × World :=
  if w.io.inbuf.length < KEY_LEN then (READ_LATER, w)
  else
    let ya := evbuffer_remove w.io KEY_LEN
    let s := tr_cryptoComputeSecret env ya.2 ya.1
    if s.1 = false then tr_handshakeDone env { w with io := s.2 } false
    else
      let hs1 := { w.hs with myReq1 := computeRequestHash env s.2 req1Name }
      let outbuf := env.myPublicKey ++ randomPad env w.randCount PadB_MAXLEN
      let w1 := setReadState { w with hs := hs1, io := s.2, randCount := w.randCount + 1 } AWAITING_PAD_A
      (READ_NOW, { w1 with io := tr_peerIoWriteBytes env w1.io outbuf })

def readPadA (_env : Env) (w : World) : ReadState × World :=
  match evbuffer_search w.hs.myReq1 w.io.inbuf with
  | some pos =>
    (READ_NOW, setState { w with io := evbuffer_drain w.io pos } AWAITING_CRYPTO_PROVIDE)
  | none =>
    if w.io.inbuf.length > SHA_DIGEST_LENGTH then
      (READ_LATER, { w with io := evbuffer_drain w.io (w.io.inbuf.length - SHA_DIGEST_LENGTH) })
    else (READ_LATER, w)

/-- The body of `readCryptoProvide` from "next part: ENCRYPT(VC, crypto_provide, len(PadC)" on. -/
def readCryptoProvideParse (env : Env) (w : World) : ReadState × World :=
  let io1 := tr_peerIoSetEncryption (tr_cryptoEncryptInit (tr_cryptoDecryptInit w.io)) PEER_ENCRYPTION_RC4
  let vc_in := tr_peerIoReadBytes env io1 VC_LENGTH
  let cp := tr_peerIoReadUint32 env vc_in.2
  let hs1 := { w.hs with crypto_provide := cp.1 }
  let padc_len := tr_peerIoReadUint16 env cp.2
  let w1 : World := { w with hs := hs1, io := padc_len.2 }
  if padc_len.1 > PadC_MAXLEN then tr_handshakeDone env w1 false
  else (READ_NOW, setState { w1 with hs := { w1.hs with pad_c_len := padc_len.1 } } AWAITING_PAD_C)

def readCryptoProvide (env : Env) (w : World) : ReadState × World :=
  if w.io.inbuf.length < SHA_DIGEST_LENGTH + SHA_DIGEST_LENGTH + VC_LENGTH + 4 + 2 then (READ_LATER, w)
  else
    let io1 := evbuffer_drain w.io SHA_DIGEST_LENGTH
    let req2 := evbuffer_remove io1 SHA_DIGEST_LENGTH
    let req3 := computeRequestHash env req2.2 req3Name
    let obfuscatedTorrentHash := xorDigest req2.1 req3
    match tr_torrentFindFromObfuscatedHash env obfuscatedTorrentHash with
    | some tor =>
      let w1 : World := { w with io := tr_peerIoSetTorrentHash req2.2 tor.hash }
      if tor.isRunning = false then tr_handshakeDone env w1 false
      else if tor.isSeed = true ∧ tor.peerIsSeed = true then tr_handshakeDone env w1 false
      else readCryptoProvideParse env w1
    | none => tr_handshakeDone env { w with io := req2.2 } false

def readPadC (env : Env) (w : World) : ReadState × World :=
  if w.io.inbuf.length < w.hs.pad_c_len + 2 then (READ_LATER, w)
  else
    let io1 := evbuffer_drain w.io w.hs.pad_c_len
    let ia_len := tr_peerIoReadUint16 env io1
    (READ_NOW, setState { w with io := ia_len.2, hs := { w.hs with ia_len := ia_len.1 } } AWAITING_IA)

def readIA (env : Env) (w : World) : ReadState × World :=
  if w.io.inbuf.length < w.hs.ia_len then (READ_LATER, w)
  else
    let crypto_select := getCryptoSelect w.hs.encryptionMode w.hs.crypto_provide
    if crypto_select = 0 then tr_handshakeDone env w false
    else
      let outbuf := List.replicate VC_LENGTH 0 ++ u32Bytes crypto_select ++ u16Bytes 0
      let r : List Nat × tr_peerIo :=
        if crypto_select = CRYPTO_PROVIDE_PLAINTEXT then
          let io1 := tr_peerIoWriteBuf env w.io outbuf
          let io2 := tr_peerIoDecryptBuf env io1 w.hs.ia_len
          ([], tr_peerIoSetEncryption io2 PEER_ENCRYPTION_NONE)
        else (outbuf, w.io)
      let w1 : World := { w with io := r.2 }
      match buildHandshakeMessage env w1 with
      | none => tr_handshakeDone env w1 false
      | some msg =>
        let w2 : World := { w1 with hs := { w1.hs with haveSentBitTorrentHandshake := true } }
        (READ_NOW, setState { w2 with io := tr_peerIoWriteBuf env w2.io (r.1 ++ msg) } AWAITING_HANDSHAKE)

/-! ### The driver -/

/-- The `switch` of `canRead` for the states that stay in the loop. -/
def canReadSwitch (env : Env) (w : World) : ReadState × World :=
  match w.hs.state with
  | AWAITING_HANDSHAKE => readHandshake env w
  | AWAITING_PEER_ID => readPeerId env w
  | AWAITING_YA => readYa env w
  | AWAITING_PAD_A => readPadA env w
  | AWAITING_CRYPTO_PROVIDE => readCryptoProvide env w
  | AWAITING_PAD_C => readPadC env w
  | AWAITING_IA => readIA env w
  | AWAITING_YB => readYb env w
  | AWAITING_VC => readVC env w
  | AWAITING_CRYPTO_SELECT => readCryptoSelect env w
  | AWAITING_PAD_D => readPadD env w

/-- One pass through the body of the `do ... while` of `canRead`: read the state of the
session (freed or not), note the dispatch and run the transition. -/
def canReadStep (env : Env) (w : World) : ReadState × World :=
  canReadSwitch env { w with dispatched := w.dispatched ++ [(w.hs.state, w.hs.freed)] }

/-- The `do ... while (ret == READ_NOW)` loop of `canRead`, with a bound on the number of
passes: `none` when the bound is reached before the loop ends. -/
def canRead (env : Env) : Nat → World → Option (ReadState × World)
  | 0, _ => none
  | fuel + 1, w =>
    let r := canReadStep env w
    if w.hs.state = AWAITING_PEER_ID then some r
    else if r.1 = READ_NOW then canRead env fuel r.2
    else some r

/-- The body of `tr_handshakeAbort` behind its NULL check: `tr_handshakeDone (handshake,
false)`. It is the behaviour of the call while the session exists. On a session that was
freed already the C call reads freed memory and has no defined behaviour; the value of this
function there follows the fields as `tr_handshakeFree` left them and stands for no
behaviour of the program (see `abortCall`). -/
def tr_handshakeAbort (env : Env) (w : World) : World :=
  (tr_handshakeDone env w false).2

def sendPlainTextHandshake (env : Env) (w : World) : World :=
  match buildHandshakeMessage env w with
  | none => (tr_handshakeDone env w false).2
  | some msg =>
    let w1 := setReadState { w with hs := { w.hs with haveSentBitTorrentHandshake := true } } AWAITING_HANDSHAKE
    { w1 with io := tr_peerIoWriteBytes env w1.io msg }

/-- The end of `gotError`: retry in plaintext, or give up. -/
def gotErrorFinish (env : Env) (w : World) (resendPlainHandshake : Bool) : World :=
  if resendPlainHandshake = true ∧ w.hs.encryptionMode ≠ TR_ENCRYPTION_REQUIRED then
    let r := tr_peerIoReconnect env w
    if r.1 = true then
      sendPlainTextHandshake env { r.2 with io := tr_peerIoSetEncryption r.2.io PEER_ENCRYPTION_NONE }
    else (tr_handshakeDone env r.2 false).2
  else (tr_handshakeDone env w false).2

/-- The second `if` of `gotError`, on TCP in `AWAITING_YB`. -/
def gotErrorTcp (env : Env) (w : World) (resendPlainHandshake : Bool) : World :=
  if w.io.socketType = TR_PEER_SOCKET_TYPE_TCP ∧ w.hs.state = AWAITING_YB then
    gotErrorFinish env w true
  else gotErrorFinish env w resendPlainHandshake

def gotError (env : Env) (w : World) (errcode : Nat) : World :=
  if w.io.socketType = TR_PEER_SOCKET_TYPE_UTP ∧ w.io.isIncoming = false ∧
      (w.hs.state = AWAITING_YB ∨
        (w.hs.state = AWAITING_HANDSHAKE ∧ w.hs.haveReadAnythingFromPeer = false)) then
    let tor : Option tr_torrent :=
      if tr_peerIoHasTorrentHash w.io = true then
        w.io.torrentHash.bind (tr_torrentFindFromHash env.session)
      else none
    let w1 : World :=
      match tor with
      | some t =>
        if errcode = env.ETIMEDOUT ∨ errcode = env.ECONNREFUSED then
          { w with utpFailed := w.utpFailed ++ [t.hash] }
        else w
      | none => w
    if w1.hs.state = AWAITING_YB then
      let r := tr_peerIoReconnect env w1
      if r.1 = true then
        sendYa env { r.2 with io := tr_peerIoSetEncryption r.2.io PEER_ENCRYPTION_NONE }
      else gotErrorTcp env r.2 false
    else gotErrorTcp env w1 true
  else gotErrorTcp env w false

def handshakeTimeout (env : Env) (w : World) : World :=
  tr_handshakeAbort env w

/-- The session as `tr_new0` leaves it, with the encryption mode stored. -/
def newHandshake (encryptionMode : tr_encryption_mode) : tr_handshake :=
  { haveReadAnythingFromPeer := false, havePeerID := false, haveSentBitTorrentHandshake := false,
    state := AWAITING_HANDSHAKE, encryptionMode := encryptionMode,
    pad_c_len := 0, pad_d_len := 0, ia_len := 0, crypto_select := 0, crypto_provide := 0,
    myReq1 := List.replicate SHA_DIGEST_LENGTH 0, freed := false }

def tr_handshakeNew (env : Env) (io : tr_peerIo) (encryptionMode : tr_encryption_mode) : World :=
  let io1 : tr_peerIo := { io with refCount := io.refCount + 1, funcsInstalled := true }
  let w : World :=
    { hs := newHandshake encryptionMode, io := tr_peerIoSetEncryption io1 PEER_ENCRYPTION_NONE,
      doneCalls := [], dispatched := [], utpFailed := [], reconnects := [], randCount := 0,
      timerFreed := false }
  if w.io.isIncoming = true then setReadState w AWAITING_HANDSHAKE
  else if encryptionMode ≠ TR_CLEAR_PREFERRED then sendYa env w
  else sendPlainTextHandshake env w

/-! ### Events and runs -/

/-- What can happen to a session: bytes arrive on the pipe, the pipe reports a transport
error with an errno, the timeout timer fires, or the owner aborts the handshake. -/
inductive Input
  | readable (bytes : List Nat)
  | error (errcode : Nat)
  | timeout
  | abort
  deriving DecidableEq, Repr

/-- Bytes arrive on the pipe: they are appended to its input buffer. -/
def arrive (w : World) (bytes : List Nat) : World :=
  { w with io := { w.io with inbuf := w.io.inbuf ++ bytes } }

/-- Deliver one event. The pipe calls `canRead` and `gotError` only while they are installed,
and the timer fires only while it exists; `tr_handshakeAbort` is called by the owner. The
bound is the one of `canRead`. -/
def deliver (env : Env) (fuel : Nat) (w : World) : Input → Option World
  | Input.readable bytes =>
    let w1 := arrive w bytes
    if w1.io.funcsInstalled = true then (canRead env fuel w1).map (fun r => r.2) else some w1
  | Input.error errcode =>
    if w.io.funcsInstalled = true then some (gotError env w errcode) else some w
  | Input.timeout =>
    if w.timerFreed = false then some (handshakeTimeout env w) else some w
  | Input.abort => some (tr_handshakeAbort env w)

/-- Deliver a list of events in order. -/
def run (env : Env) (fuel : Nat) : World → List Input → Option World
  | w, [] => some w
  | w, i :: rest => (deliver env fuel w i).bind (fun w1 => run env fuel w1 rest)

/-- The session states a run can be in between two transitions: the state after
`tr_handshakeNew`, and from a reachable state the state after bytes arrived, after one
pass of the `canRead` loop, after `gotError`, and after `tr_handshakeAbort`. -/
inductive Reachable (env : Env) : World → Prop
  | init (io : tr_peerIo) (encryptionMode : tr_encryption_mode) :
      Reachable env (tr_handshakeNew env io encryptionMode)
  | arrive (w : World) (bytes : List Nat) : Reachable env w → Reachable env (arrive w bytes)
  | step (w : World) : Reachable env w → Reachable env (canReadStep env w).2
  | error (w : World) (errcode : Nat) : Reachable env w → Reachable env (gotError env w errcode)
  | abort (w : World) : Reachable env w → Reachable env (tr_handshakeAbort env w)

/-! ### The negotiation policy as the specification words it -/

/-- The specification's priority list of a responder's encryption mode. -/
def specPriority (encryptionMode : tr_encryption_mode) : List Nat :=
  match encryptionMode with
  | TR_ENCRYPTION_REQUIRED => [2]
  | TR_ENCRYPTION_PREFERRED => [2, 1]
  | TR_CLEAR_PREFERRED => [1, 2]

/-- The specification's choice: the first option of the priority list that the peer offered,
and 0 when the peer offered none of them. -/
def specFirstOffered (priority : List Nat) (crypto_provide : Nat) : Nat :=
  match priority.find? (fun c => decide (crypto_provide &&& c ≠ 0)) with
  | some c => c
  | none => 0

/-! ### Sample collaborators, for concrete runs -/

/-- A sample info-hash. -/
def sampleHash : List Nat := List.replicate 20 1

/-- Our sample peer id. -/
def sampleId : List Nat := List.replicate 20 2

/-- A sample peer id of another peer. -/
def otherId : List Nat := List.replicate 20 3

def sampleTorrent : tr_torrent :=
  { hash := sampleHash, peer_id := sampleId, isRunning := true, isSeed := false, peerIsSeed := false }

/-- A sample environment: one running torrent, a toy hash and a toy keystream, and a done
callback that reports more work exactly when the handshake succeeded. -/
def sampleEnv : Env :=
  { session := { torrents := [sampleTorrent], dhtEnabled := true },
    sha1 := fun x => List.replicate 20 (x.sum % 256),
    keystream := fun a2b s k i => (7 * i + (if a2b then 1 else 2) + s.sum + k.sum) % 256,
    myPublicKey := List.replicate 96 5,
    computeSecret := fun _ => some [4, 2],
    doneCB := fun _ _ isConnected _ => isConnected,
    randInt := fun _ => 3,
    randByte := fun n i => (n + i) % 256,
    reconnect := fun _ => some TR_PEER_SOCKET_TYPE_TCP,
    ETIMEDOUT := 110,
    ECONNREFUSED := 111 }

/-- The sample environment with a done callback that always reports more work. -/
def eagerEnv : Env := { sampleEnv with doneCB := fun _ _ _ _ => true }

def zeroCtx : tr_rc4_ctx := { a2b := false, secret := [], skey := [], pos := 0 }

/-- A sample pipe as the connection layer hands it over: incoming without an info-hash, or
outgoing for the sample torrent. -/
def samplePipe (isIncoming : Bool) : tr_peerIo :=
  { isIncoming := isIncoming, socketType := TR_PEER_SOCKET_TYPE_TCP,
    encryption_type := PEER_ENCRYPTION_NONE,
    torrentHash := if isIncoming then none else some sampleHash,
    peersId := none, dhtSupported := false, ltepSupported := false, fextSupported := false,
    inbuf := [], writes := [], mySecret := none, enc_key := zeroCtx, dec_key := zeroCtx,
    funcsInstalled := false, refCount := 1 }

/-- A plaintext BT handshake of a peer: protocol name, reserved bytes, info-hash, peer id. -/
def plainHandshake (reserved hash peer_id : List Nat) : List Nat :=
  HANDSHAKE_NAME ++ reserved ++ hash ++ peer_id

/-- The reserved bytes `00 00 00 00 00 10 00 05`. -/
def sampleReserved : List Nat := [0, 0, 0, 0, 0, 16, 0, 5]

/-- An incoming session in the given mode after a peer's plaintext handshake arrived. -/
def plainIncomingWorld (env : Env) (m : tr_encryption_mode) (peer_id : List Nat) : World :=
  arrive (tr_handshakeNew env (samplePipe true) m) (plainHandshake sampleReserved sampleHash peer_id)

/-- The 68 bytes of our own BT handshake for an info-hash and our peer id: protocol name,
reserved bytes with LTEP and FastExt set and DHT set when the session has it enabled,
info-hash, peer id. -/
def ourHandshake (env : Env) (hash peer_id : List Nat) : List Nat :=
  HANDSHAKE_NAME ++
    (if env.session.dhtEnabled then [0, 0, 0, 0, 0, 16, 0, 5] else [0, 0, 0, 0, 0, 16, 0, 4]) ++
    hash ++ peer_id

/-- A session in `AWAITING_PEER_ID` on a pipe bound to the sample torrent, with a peer id
buffered. -/
def peerIdWorld (peer_id : List Nat) : World :=
  { hs := { newHandshake TR_ENCRYPTION_PREFERRED with
              state := AWAITING_PEER_ID, haveReadAnythingFromPeer := true,
              haveSentBitTorrentHandshake := true },
    io := { samplePipe true with torrentHash := some sampleHash, inbuf := peer_id,
                                 funcsInstalled := true },
    doneCalls := [], dispatched := [], utpFailed := [], reconnects := [], randCount := 0,
    timerFreed := false }

/-- The shared secret the sample environment computes. -/
def sampleSecret : List Nat := [4, 2]

/-- A sample Diffie-Hellman public key of a peer. -/
def sampleKey : List Nat := List.replicate 96 9

/-- MSE message 3 as a peer of the sample environment sends it for the sample torrent: the two
hashes in the clear, then encrypted VC, `crypto_provide = CRYPTO`, the PadC length field, PadC,
the IA length field and IA. -/
def sampleMessage3 (padC : List Nat) (padCLen iaLen : Nat) (ia : List Nat) : List Nat :=
  sampleEnv.sha1 (req1Name ++ sampleSecret) ++
  xorDigest (sampleEnv.sha1 (req2Name ++ sampleHash)) (sampleEnv.sha1 (req3Name ++ sampleSecret)) ++
  rc4Apply (sampleEnv.keystream true sampleSecret sampleHash) 0
    (List.replicate 8 0 ++ u32Bytes 2 ++ u16Bytes padCLen ++ padC ++ u16Bytes iaLen ++ ia)

/-- MSE message 4 as a peer of the sample environment sends it: encrypted VC, `crypto_select`
and the PadD length field. -/
def sampleMessage4 (crypto_select padDLen : Nat) : List Nat :=
  rc4Apply (sampleEnv.keystream false sampleSecret sampleHash) 0
    (List.replicate 8 0 ++ u32Bytes crypto_select ++ u16Bytes padDLen)

/-- The length fields of a session, together. -/
def lengthsOf (w : World) : Nat × Nat × Nat := (w.hs.pad_c_len, w.hs.pad_d_len, w.hs.ia_len)

/-- The padding lengths are at most 512 and the IA length fits 16 bits. -/
def LengthsBounded (w : World) : Prop :=
  w.hs.pad_c_len ≤ 512 ∧ w.hs.pad_d_len ≤ 512 ∧ w.hs.ia_len < 65536

/-- The PadC length field a responder receives: the two bytes at offset 52 of the buffered
message 3, decrypted at keystream offset 12 of the initiator-to-responder stream for the
pipe's secret and the hash of the torrent found. -/
def receivedPadCLen (env : Env) (w : World) (tor : tr_torrent) : Nat :=
  be16 (rc4Apply (env.keystream w.io.isIncoming (w.io.mySecret.getD []) tor.hash) 12
    ((w.io.inbuf.drop 52).take 2))

/-- The obfuscated hash a responder recovers from the buffered message 3. -/
def receivedObfuscatedHash (env : Env) (w : World) : List Nat :=
  xorDigest ((w.io.inbuf.drop 20).take 20) (computeRequestHash env w.io req3Name)

/-- The marker `what`, which follows the padding `pre`, does not occur at an offset inside the
padding. -/
def NoEarlierMatch (what pre : List Nat) : Prop :=
  ∀ q, q < pre.length → ((pre ++ what).drop q).take what.length ≠ what

instance (what pre : List Nat) : Decidable (NoEarlierMatch what pre) := by
  unfold NoEarlierMatch; infer_instance

/-- The first eight keystream bytes of a fresh decryption stream of a pipe: `ENCRYPT(VC)` as
the peer sends it. -/
def encryptedVC (env : Env) (io : tr_peerIo) : List Nat :=
  rc4Apply (ctxKeystream env (tr_cryptoDecryptInit io).dec_key) 0 (List.replicate 8 0)

/-- The bytes a session put on the wire after its first `n` writes. -/
def wireFrom (w : World) (n : Nat) : List Nat :=
  ((w.io.writes.drop n).map (fun r => r.wire)).flatten

/-- Two sessions in Preferred mode piped head to head: an initiator on `ioA` and a responder
on `ioB`. Whatever one side writes is delivered to the other as one readable event: message
1 to the responder, its answer to the initiator, message 3 to the responder and its answer
to the initiator. -/
def headToHead (envA envB : Env) (ioA ioB : tr_peerIo) (fuel : Nat) : Option (World × World) :=
  let a0 := tr_handshakeNew envA ioA TR_ENCRYPTION_PREFERRED
  let b0 := tr_handshakeNew envB ioB TR_ENCRYPTION_PREFERRED
  (deliver envB fuel b0 (Input.readable (wireFrom a0 ioA.writes.length))).bind fun b1 =>
  (deliver envA fuel a0 (Input.readable (wireFrom b1 b0.io.writes.length))).bind fun a1 =>
  (deliver envB fuel b1 (Input.readable (wireFrom a1 a0.io.writes.length))).bind fun b2 =>
  (deliver envA fuel a1 (Input.readable (wireFrom b2 b1.io.writes.length))).bind fun a2 =>
  some (a2, b2)

/-- The sample environment of the other side: its peer id for the sample torrent is
`otherId`, its public key is `sampleKey`, and its padding has the given length and bytes. -/
def peerEnv (padLen : Nat) (pad : Nat → Nat) : Env :=
  { sampleEnv with
    session := { torrents := [{ sampleTorrent with peer_id := otherId }], dhtEnabled := true },
    myPublicKey := sampleKey,
    randInt := fun _ => padLen,
    randByte := fun _ i => pad i }

/-- The conditions of a head-to-head handshake between an initiator (environment `envA`,
pipe `ioA`) and a responder (`envB`, `ioB`) for the torrent with info-hash `H`: shared hash
and cipher, public keys that yield the same secret `S` on both sides, the torrent known and
running on both sides with distinct peer ids, the responder not turning the peer away as a
seed facing a seed (`readCryptoProvide` ends the session when the torrent is a seed and the
peer is known as one), and no accidental coincidence in the bytes: neither public key begins
with the protocol name, neither padding contains its resynchronisation marker early, and the
encrypted protocol name differs from the plain one. -/
structure HeadToHeadSetup (envA envB : Env) (ioA ioB : tr_peerIo) (H S : List Nat)
    (torA torB : tr_torrent) : Prop where
  sha1_shared : envB.sha1 = envA.sha1
  keystream_shared : envB.keystream = envA.keystream
  initiator_outgoing : ioA.isIncoming = false
  initiator_bound : ioA.torrentHash = some H
  initiator_empty : ioA.inbuf = []
  responder_incoming : ioB.isIncoming = true
  responder_fresh : ioB.torrentHash = none
  responder_empty : ioB.inbuf = []
  keyA_length : envA.myPublicKey.length = 96
  keyB_length : envB.myPublicKey.length = 96
  secretA : envA.computeSecret envB.myPublicKey = some S
  secretB : envB.computeSecret envA.myPublicKey = some S
  req1_length : (envA.sha1 (req1Name ++ S)).length = 20
  req2_length : (envA.sha1 (req2Name ++ H)).length = 20
  hash_length : H.length = 20
  torrentA : tr_torrentFindFromHash envA.session H = some torA
  runningA : torA.isRunning = true
  idA_length : torA.peer_id.length = 20
  torrentB : tr_torrentFindFromHash envB.session H = some torB
  obfuscatedB : tr_torrentFindFromObfuscatedHash envB (envA.sha1 (req2Name ++ H)) = some torB
  runningB : torB.isRunning = true
  not_both_seeds : ¬ (torB.isSeed = true ∧ torB.peerIsSeed = true)
  idB_length : torB.peer_id.length = 20
  distinct_ids : torA.peer_id ≠ torB.peer_id
  keyA_not_name : envA.myPublicKey.take 20 ≠ HANDSHAKE_NAME
  keyB_not_name : envB.myPublicKey.take 20 ≠ HANDSHAKE_NAME
  padA_clean : NoEarlierMatch (envA.sha1 (req1Name ++ S)) (randomPad envA 0 512)
  padB_clean :
    NoEarlierMatch (rc4Apply (envA.keystream false S H) 0 (List.replicate 8 0)) (randomPad envB 0 512)
  nameA_masked : rc4Apply (envA.keystream true S H) 16 HANDSHAKE_NAME ≠ HANDSHAKE_NAME
  nameB_masked : rc4Apply (envA.keystream false S H) 14 HANDSHAKE_NAME ≠ HANDSHAKE_NAME

/-- A padding whose first bytes are `ENCRYPT(VC)` of the sample responder: the first eight
keystream bytes of the responder-to-initiator stream. -/
def markerPad (i : Nat) : Nat :=
  (rc4Apply (sampleEnv.keystream false sampleSecret sampleHash) 0 (List.replicate 8 0)).getD i 0

/-- The world after `n` passes of the `canRead` loop, whatever they return. -/
def passes (env : Env) : Nat → World → World
  | 0, w => w
  | n + 1, w => passes env n (canReadStep env w).2

/-- A responder of the sample environment that has received a public key and message 3 and
has run the first `n` transitions on them. -/
def responderAfter (n : Nat) (padC : List Nat) (padCLen iaLen : Nat) (ia : List Nat) : World :=
  passes sampleEnv n
    (arrive (tr_handshakeNew sampleEnv (samplePipe true) TR_ENCRYPTION_PREFERRED)
      (sampleKey ++ sampleMessage3 padC padCLen iaLen ia))

/-- An initiator of the sample environment that has received a public key and then message 4
and has run the first `n` transitions on message 4. -/
def initiatorAfter (n : Nat) (crypto_select padDLen : Nat) : World :=
  passes sampleEnv n
    (arrive (passes sampleEnv 1
      (arrive (tr_handshakeNew sampleEnv (samplePipe false) TR_ENCRYPTION_PREFERRED) sampleKey))
      (sampleMessage4 crypto_select padDLen))

/-- What the state of a session says about its pipe and its flags. -/
def StateFacts (w : World) : Prop :=
  match w.hs.state with
  | AWAITING_HANDSHAKE => True
  | AWAITING_PEER_ID => True
  | AWAITING_YA => w.io.isIncoming = true ∧ w.io.torrentHash = none
  | AWAITING_PAD_A => w.io.isIncoming = true ∧ w.io.torrentHash = none
  | AWAITING_CRYPTO_PROVIDE => w.io.isIncoming = true ∧ w.io.torrentHash = none
  | AWAITING_PAD_C => w.io.encryption_type = 2 ∧ w.hs.haveSentBitTorrentHandshake = false
  | AWAITING_IA => w.io.encryption_type = 2 ∧ w.hs.haveSentBitTorrentHandshake = false
  | AWAITING_YB =>
    w.io.isIncoming = false ∧ w.io.encryption_type = 1 ∧
      w.hs.encryptionMode ≠ TR_CLEAR_PREFERRED ∧ w.hs.haveSentBitTorrentHandshake = false
  | AWAITING_VC =>
    w.io.isIncoming = false ∧ w.io.encryption_type = 2 ∧ w.hs.haveSentBitTorrentHandshake = true
  | AWAITING_CRYPTO_SELECT =>
    w.io.isIncoming = false ∧ w.io.encryption_type = 2 ∧ w.hs.haveSentBitTorrentHandshake = true
  | AWAITING_PAD_D =>
    w.io.isIncoming = false ∧ w.io.encryption_type = 2 ∧ w.hs.haveSentBitTorrentHandshake = true

/-- An incoming pipe without a bound info-hash is unencrypted and our handshake has not been
sent on it. -/
def FreshFacts (w : World) : Prop :=
  w.io.isIncoming = true → w.io.torrentHash = none →
    w.io.encryption_type = 1 ∧ w.hs.haveSentBitTorrentHandshake = false

/-- The invariant of a session that has not been freed. -/
def SessionInvariant (w : World) : Prop :=
  w.hs.freed = false → FreshFacts w ∧ StateFacts w

/-- The twenty bytes `readHandshake` compares with the protocol name: the head of the input
as the pipe delivers it. -/
def receivedName (env : Env) (w : World) : List Nat :=
  (tr_peerIoReadBytes env w.io HANDSHAKE_NAME_LEN).1

/-- The eight reserved bytes `readHandshake` reads after the protocol name, as the pipe
delivers them. -/
def receivedReserved (env : Env) (w : World) : List Nat :=
  (tr_peerIoReadBytes env (tr_peerIoReadBytes env w.io HANDSHAKE_NAME_LEN).2 HANDSHAKE_FLAGS_LEN).1

/-- The sample environment with its torrent stopped. -/
def stoppedEnv : Env :=
  { sampleEnv with
    session := { torrents := [{ sampleTorrent with isRunning := false }], dhtEnabled := true } }

/-- An outgoing session in Preferred mode whose peer answered the public key with the
plaintext handshake of another client for the sample torrent, after `readYb` recognised the
protocol name: the session is in `AWAITING_HANDSHAKE` with the peer's handshake buffered. -/
def answeredInPlain (env : Env) : World :=
  passes env 1
    (arrive (tr_handshakeNew env (samplePipe false) TR_ENCRYPTION_PREFERRED)
      (ourHandshake sampleEnv sampleHash otherId))

/-- A session of the other client, on a pipe bound to the sample torrent. -/
def otherClient : World :=
  tr_handshakeNew (peerEnv 0 (fun i => i)) (samplePipe false) TR_ENCRYPTION_PREFERRED

/-- An initiator of the sample environment in Preferred mode that has received a peer's
public key. -/
def initiatorWithKey : World :=
  arrive (tr_handshakeNew sampleEnv (samplePipe false) TR_ENCRYPTION_PREFERRED) sampleKey

/-- MSE message 3 as a peer of the sample environment sends it for the sample torrent with a
given `crypto_provide`, an empty PadC and an empty initial payload. -/
def sampleOffer (crypto_provide : Nat) : List Nat :=
  sampleEnv.sha1 (req1Name ++ sampleSecret) ++
  xorDigest (sampleEnv.sha1 (req2Name ++ sampleHash)) (sampleEnv.sha1 (req3Name ++ sampleSecret)) ++
  rc4Apply (sampleEnv.keystream true sampleSecret sampleHash) 0
    (List.replicate 8 0 ++ u32Bytes crypto_provide ++ u16Bytes 0 ++ u16Bytes 0)

/-- A responder of the sample environment in the given mode that has received a public key
and message 3 with the given `crypto_provide`, and has run the transitions up to
`AWAITING_IA`. -/
def responderOffered (m : tr_encryption_mode) (crypto_provide : Nat) : World :=
  passes sampleEnv 5
    (arrive (tr_handshakeNew sampleEnv (samplePipe true) m) (sampleKey ++ sampleOffer crypto_provide))

/-- The done call of a failed handshake, as `tr_handshakeDone (handshake, false)` makes it in
a world. -/
def failedCall (env : Env) (w : World) : DoneCall :=
  { haveReadAnythingFromPeer := w.hs.haveReadAnythingFromPeer, isConnected := false,
    peer_id := none,
    result := env.doneCB w.doneCalls.length w.hs.haveReadAnythingFromPeer false none }

/-- A responder of `stoppedEnv`, whose torrent is not running, that has received a public key
and message 3 for that torrent and has found the end of PadA. -/
def stoppedResponder : World :=
  passes stoppedEnv 3
    (arrive (tr_handshakeNew stoppedEnv (samplePipe true) TR_ENCRYPTION_PREFERRED)
      (sampleKey ++ sampleMessage3 [] 0 0 []))

/-- What a responder of the sample environment has received when the peer's public key and
the first hash of message 3 are in, and nothing more. -/
def keyAndFirstHash : List Nat :=
  sampleKey ++ sampleEnv.sha1 (req1Name ++ sampleSecret)

/-- A responder of the sample environment after `canRead` has run on `keyAndFirstHash` until
it asked for more bytes. -/
def responderAwaitingOffer : World :=
  passes sampleEnv 4
    (arrive (tr_handshakeNew sampleEnv (samplePipe true) TR_ENCRYPTION_PREFERRED) keyAndFirstHash)

/-- The sample outgoing pipe, over uTP. -/
def utpPipe : tr_peerIo := { samplePipe false with socketType := TR_PEER_SOCKET_TYPE_UTP }

/-- An initiator of the sample environment in `AWAITING_VC` whose buffer holds three bytes of
PadB followed by message 4. -/
def vcWorld : World :=
  arrive (passes sampleEnv 1 initiatorWithKey) ([1, 2, 3] ++ sampleMessage4 2 0)

/-- Repeated `readPadA` calls over successive arrivals: `readPadA` runs on what is buffered and,
while it asks for more bytes, the next arrival is appended to the buffer and it runs again. -/
def readPadAOver (env : Env) (w : World) : List (List Nat) → ReadState × World
  | [] => readPadA env w
  | c :: cs =>
    if (readPadA env w).1 = READ_LATER then readPadAOver env (arrive (readPadA env w).2 c) cs
    else readPadA env w

/-- A responder of the sample environment in `AWAITING_PAD_A` with three bytes of PadA
buffered. -/
def padAWorld : World :=
  passes sampleEnv 2
    (arrive (tr_handshakeNew sampleEnv (samplePipe true) TR_ENCRYPTION_PREFERRED)
      (sampleKey ++ [7, 7, 7]))

/-- What `readCryptoProvide` does after the torrent lookup, for the result of the lookup. -/
def afterLookup (env : Env) (w : World) : Option tr_torrent → ReadState × World
  | some tor =>
    if tor.isRunning = false then
      tr_handshakeDone env
        { w with io := tr_peerIoSetTorrentHash (evbuffer_drain (evbuffer_drain w.io 20) 20) tor.hash }
        false
    else if tor.isSeed = true ∧ tor.peerIsSeed = true then
      tr_handshakeDone env
        { w with io := tr_peerIoSetTorrentHash (evbuffer_drain (evbuffer_drain w.io 20) 20) tor.hash }
        false
    else
      readCryptoProvideParse env
        { w with io := tr_peerIoSetTorrentHash (evbuffer_drain (evbuffer_drain w.io 20) 20) tor.hash }
  | none => tr_handshakeDone env { w with io := evbuffer_drain (evbuffer_drain w.io 20) 20 } false

/-- The number of reconnect attempts of a session that succeeded. -/
def successfulReconnects (w : World) : Nat := (w.reconnects.filter (fun b => b)).length

/-- What a read transition leaves alone: the reconnect log and the socket type; it installs no
callbacks and never enters `AWAITING_YB`. -/
def ReadFrame (w w' : World) : Prop :=
  w'.reconnects = w.reconnects ∧ w'.io.socketType = w.io.socketType ∧
  (w'.io.funcsInstalled = true → w.io.funcsInstalled = true) ∧
  (w'.hs.state = AWAITING_YB → w.hs.state = AWAITING_YB)

/-- No retry is left: while the callbacks are installed the pipe is on TCP and the session
is not waiting for Yb. -/
def LadderSpent (w : World) : Prop :=
  w.io.funcsInstalled = true →
    w.io.socketType = TR_PEER_SOCKET_TYPE_TCP ∧ w.hs.state ≠ AWAITING_YB

/-- Where a session stands on the fallback ladder: at most two reconnects succeeded; while
the callbacks are installed, none succeeded if the pipe is still on uTP and at most one if the
session awaits Yb. -/
def LadderInvariant (w : World) : Prop :=
  successfulReconnects w ≤ 2 ∧
  (w.io.funcsInstalled = true →
    (w.io.socketType = TR_PEER_SOCKET_TYPE_UTP → successfulReconnects w = 0) ∧
    (w.hs.state = AWAITING_YB → successfulReconnects w ≤ 1))

/-- The error handler gave up: the session was ended with `tr_handshakeDone (handshake, false)`
and no further reconnect succeeded. -/
def EndsSession (env : Env) (w w' : World) : Prop :=
  ∃ w1, successfulReconnects w1 = successfulReconnects w ∧ w' = (tr_handshakeDone env w1 false).2

/-- The error handler reconnected with success, to TCP, and sent Ya again. -/
def ResendsYa (env : Env) (w w' : World) : Prop :=
  ∃ w1, w1.reconnects = w.reconnects ++ [true] ∧
    w1.io.socketType = TR_PEER_SOCKET_TYPE_TCP ∧ w' = sendYa env w1

/-- The error handler reconnected with success, to TCP, and went on with
`sendPlainTextHandshake`. -/
def ResendsPlain (env : Env) (w w' : World) : Prop :=
  ∃ w1, w1.reconnects = w.reconnects ++ [true] ∧
    w1.io.socketType = TR_PEER_SOCKET_TYPE_TCP ∧ w' = sendPlainTextHandshake env w1

/-- A session that climbed the whole ladder: an outgoing uTP session in Preferred mode after
two transport errors, each answered by a successful reconnect. -/
def twiceReconnected : World :=
  gotError sampleEnv
    (gotError sampleEnv (tr_handshakeNew sampleEnv utpPipe TR_ENCRYPTION_PREFERRED)
      sampleEnv.ETIMEDOUT)
    sampleEnv.ETIMEDOUT

/-- A bound on the number of passes the loop of `canRead` still makes from a state: the length
of the longest chain of transitions from it. From `AWAITING_HANDSHAKE` the chain through the
encrypted handshake is open only on an incoming pipe without a bound info-hash. -/
def passesLeft (w : World) : Nat :=
  match w.hs.state with
  | AWAITING_HANDSHAKE =>
    if w.io.isIncoming = true ∧ tr_peerIoHasTorrentHash w.io = false then 8 else 2
  | AWAITING_PEER_ID => 1
  | AWAITING_YA => 7
  | AWAITING_PAD_A => 6
  | AWAITING_CRYPTO_PROVIDE => 5
  | AWAITING_PAD_C => 4
  | AWAITING_IA => 3
  | AWAITING_YB => 3
  | AWAITING_VC => 5
  | AWAITING_CRYPTO_SELECT => 4
  | AWAITING_PAD_D => 3

/-- A transition that asks for another pass leaves the session alive and closer to the end of
the loop. -/
def Descends (w : World) (r : ReadState × World) : Prop :=
  r.1 = READ_NOW → r.2.hs.freed = false ∧ passesLeft r.2 < passesLeft w

/-- A single readable event that takes a responder through the whole encrypted handshake: the
peer's public key, message 3 with an empty PadC and the peer's BT handshake as the initial
payload. -/
def wholeHandshake : List Nat :=
  sampleKey ++ sampleMessage3 [] 0 68 (plainHandshake sampleReserved sampleHash otherId)

/-- The callbacks of the pipe are installed only while the session exists. -/
def Attached (w : World) : Prop :=
  w.io.funcsInstalled = true → w.hs.freed = false

/-- The messages of the key exchange, which carry no BT handshake: a public key followed by
random padding (Ya and Yb), and the two hashes that open message 3. -/
def KeyExchangeMessage (env : Env) (data : List Nat) : Prop :=
  (∃ n upper, data = env.myPublicKey ++ randomPad env n upper) ∨
  (∃ S H, data = env.sha1 (req1Name ++ S) ++
    xorDigest (env.sha1 (req2Name ++ H)) (env.sha1 (req3Name ++ S)))

/-- The writes of `new` extend those of `old`, and each write that was added went out with the
pipe in RC4 mode unless it is a message of the key exchange. -/
def CleanWrites (env : Env) (old new : List tr_write) : Prop :=
  ∃ added, new = old ++ added ∧
    ∀ r ∈ added, r.encryption_type = PEER_ENCRYPTION_RC4 ∨ KeyExchangeMessage env r.data

/-- What holds of a session in Required mode, freed or not: the mode stays Required, and in
`AWAITING_PAD_C` and `AWAITING_IA` the pipe is in RC4 mode. -/
def RequiredFacts (w : World) : Prop :=
  w.hs.encryptionMode = TR_ENCRYPTION_REQUIRED ∧
  (w.hs.state = AWAITING_PAD_C ∨ w.hs.state = AWAITING_IA →
    w.io.encryption_type = PEER_ENCRYPTION_RC4)

/-- A step of a session in Required mode: the facts of the mode hold afterwards and what the
step wrote is clean. -/
def RequiredStep (env : Env) (w w' : World) : Prop :=
  RequiredFacts w' ∧ CleanWrites env w.io.writes w'.io.writes

/-- The writes of `new` extend those of `old`, and each write that was added went out with the
pipe in RC4 mode. -/
def EncryptedWrites (old new : List tr_write) : Prop :=
  ∃ added, new = old ++ added ∧ ∀ r ∈ added, r.encryption_type = PEER_ENCRYPTION_RC4

/-- The writes of `new` extend those of `old`, and each write that was added went out with the
pipe in RC4 mode unless it holds just the two hashes that open message 3. -/
def HashesOrEncrypted (env : Env) (old new : List tr_write) : Prop :=
  ∃ added, new = old ++ added ∧
    ∀ r ∈ added, r.encryption_type = PEER_ENCRYPTION_RC4 ∨
      ∃ S H, r.data = env.sha1 (req1Name ++ S) ++
        xorDigest (env.sha1 (req2Name ++ H)) (env.sha1 (req3Name ++ S))

/-- The session and the pipe as `tr_handshakeNew` sets them up before it sends anything. -/
def freshSession (io : tr_peerIo) (encryptionMode : tr_encryption_mode) : World :=
  { hs := newHandshake encryptionMode,
    io := tr_peerIoSetEncryption
      { io with refCount := io.refCount + 1, funcsInstalled := true } PEER_ENCRYPTION_NONE,
    doneCalls := [], dispatched := [], utpFailed := [], reconnects := [], randCount := 0,
    timerFreed := false }

/-- A responder of the sample environment in Required mode after a single readable event
brought the whole encrypted handshake and the loop of `canRead` made its eight passes. -/
def requiredResponder : World :=
  passes sampleEnv 8
    (arrive (tr_handshakeNew sampleEnv (samplePipe true) TR_ENCRYPTION_REQUIRED) wholeHandshake)

/-- An initiator of the sample environment in Required mode over uTP after two transport
errors: the first is answered by a reconnect and a second Ya, the second ends the session. -/
def requiredInitiator : World :=
  gotError sampleEnv
    (gotError sampleEnv (tr_handshakeNew sampleEnv utpPipe TR_ENCRYPTION_REQUIRED)
      sampleEnv.ETIMEDOUT)
    sampleEnv.ETIMEDOUT

/-- A call of `tr_handshakeAbort` by the owner of a session. The function tests its argument
against NULL only and hands it to `tr_handshakeDone`, which begins by reading
`handshake->io`. While the session exists the call has the result of `tr_handshakeAbort`.
Once the session was given to `tr_free` the owner's pointer dangles, the test against NULL
still passes and the read is of freed memory: the call has no defined result, `none`. -/
def abortCall (env : Env) (w : World) : Option World :=
  if w.hs.freed = true then none else some (tr_handshakeAbort env w)

/-- The sample environment of the other side when its torrent is a seed and the peer is known
to it as a seed. -/
def seedEnv : Env :=
  { peerEnv 3 (fun i => i) with
    session := { torrents := [{ sampleTorrent with peer_id := otherId, isSeed := true,
                                                   peerIsSeed := true }],
                 dhtEnabled := true } }

/-! ## Theorems -/

theorem and_one_cases (p : Nat) : p &&& 1 = 0 ∨ p &&& 1 = 1 := by
  rw [Nat.and_one_is_mod]; omega

theorem and_two_cases (p : Nat) : p &&& 2 = 0 ∨ p &&& 2 = 2 := by
  have h := Nat.and_two_pow p 1
  cases hb : p.testBit 1 <;> simp [hb] at h <;> simp [h]

/-- C2: `getCryptoSelect` returns the first option of the mode's priority list whose bit is set
in `crypto_provide` and 0 when there is none; the result is 0, 1 or 2, a non-zero result is a
single bit contained in `crypto_provide`, and a clear-preferred responder offered only CRYPTO
selects CRYPTO. -/
theorem getCryptoSelect_first_offered (m : tr_encryption_mode) (p : Nat) :
    getCryptoSelect m p = specFirstOffered (specPriority m) p ∧
    ((∀ c ∈ specPriority m, p &&& c = 0) → getCryptoSelect m p = 0) ∧
    (getCryptoSelect m p = 0 ∨ getCryptoSelect m p = 1 ∨ getCryptoSelect m p = 2) ∧
    (getCryptoSelect m p ≠ 0 →
      (getCryptoSelect m p = 1 ∨ getCryptoSelect m p = 2) ∧
      getCryptoSelect m p &&& p = getCryptoSelect m p) ∧
    getCryptoSelect TR_CLEAR_PREFERRED CRYPTO_PROVIDE_CRYPTO = CRYPTO_PROVIDE_CRYPTO := by
  have h1 := and_one_cases p
  have h2 := and_two_cases p
  have c1 : 1 &&& p = p &&& 1 := Nat.land_comm 1 p
  have c2 : 2 &&& p = p &&& 2 := Nat.land_comm 2 p
  refine ⟨?_, ?_, ?_, ?_, by decide⟩
  · cases m <;> rcases h1 with h1 | h1 <;> rcases h2 with h2 | h2 <;>
      simp [getCryptoSelect, getCryptoSelectChoices, getCryptoSelectLoop, specFirstOffered,
        specPriority, List.find?, h1, h2]
  · cases m <;> rcases h1 with h1 | h1 <;> rcases h2 with h2 | h2 <;>
      simp [getCryptoSelect, getCryptoSelectChoices, getCryptoSelectLoop, specPriority, h1, h2]
  · cases m <;> rcases h1 with h1 | h1 <;> rcases h2 with h2 | h2 <;>
      simp [getCryptoSelect, getCryptoSelectChoices, getCryptoSelectLoop, h1, h2]
  · cases m <;> rcases h1 with h1 | h1 <;> rcases h2 with h2 | h2 <;>
      simp [getCryptoSelect, getCryptoSelectChoices, getCryptoSelectLoop, h1, h2, c1, c2]

/-- C3: in Required mode, with at least 48 bytes buffered that begin with the protocol name,
`readHandshake` ends the session through the done callback with `is_ok = false` before
replying: nothing is written, nothing is drained and `haveSentBitTorrentHandshake` keeps its
value. -/
theorem readHandshake_required_rejects_plaintext (env : Env) (w : World)
    (hmode : w.hs.encryptionMode = TR_ENCRYPTION_REQUIRED)
    (hlen : INCOMING_HANDSHAKE_LEN ≤ w.io.inbuf.length)
    (hname : w.io.inbuf.take HANDSHAKE_NAME_LEN = HANDSHAKE_NAME) :
    (readHandshake env w).2.doneCalls = w.doneCalls ++
        [{ haveReadAnythingFromPeer := true, isConnected := false, peer_id := none,
           result := env.doneCB w.doneCalls.length true false none }] ∧
    (readHandshake env w).2.hs.freed = true ∧
    (readHandshake env w).2.io.funcsInstalled = false ∧
    (readHandshake env w).2.io.writes = w.io.writes ∧
    (readHandshake env w).2.io.inbuf = w.io.inbuf ∧
    (readHandshake env w).2.hs.haveSentBitTorrentHandshake = w.hs.haveSentBitTorrentHandshake := by
  have hlen' : ¬ w.io.inbuf.length < 48 := by simpa using hlen
  simp only [HANDSHAKE_NAME_LEN] at hname
  simp [readHandshake, hlen', hname, hmode, tr_handshakeDone, fireDoneFunc, tr_handshakeFree]

theorem readHandshake_required_rejects_plaintext_witness :
    (plainIncomingWorld sampleEnv TR_ENCRYPTION_REQUIRED otherId).hs.encryptionMode = TR_ENCRYPTION_REQUIRED ∧
    INCOMING_HANDSHAKE_LEN ≤ (plainIncomingWorld sampleEnv TR_ENCRYPTION_REQUIRED otherId).io.inbuf.length ∧
    (readHandshake sampleEnv (plainIncomingWorld sampleEnv TR_ENCRYPTION_REQUIRED otherId)).2.io.writes = [] ∧
    (readHandshake sampleEnv (plainIncomingWorld sampleEnv TR_ENCRYPTION_REQUIRED otherId)).2.doneCalls =
      [{ haveReadAnythingFromPeer := true, isConnected := false, peer_id := none, result := false }] :=
  have h := readHandshake_required_rejects_plaintext sampleEnv
    (plainIncomingWorld sampleEnv TR_ENCRYPTION_REQUIRED otherId) (by decide) (by decide) (by decide)
  ⟨by decide, by decide, h.2.2.2.1, h.1⟩

/-! ### How the pipe operations act on the fields of the pipe -/

theorem rc4Apply_length (ks : Nat → Nat) (pos : Nat) (bs : List Nat) :
    (rc4Apply ks pos bs).length = bs.length := by
  induction bs generalizing pos with
  | nil => rfl
  | cons b bs ih => simp [rc4Apply, ih]

theorem tr_peerIoReadBytes_fst (env : Env) (io : tr_peerIo) (n : Nat) :
    (tr_peerIoReadBytes env io n).1 =
      if io.encryption_type = PEER_ENCRYPTION_RC4 then
        rc4Apply (ctxKeystream env io.dec_key) io.dec_key.pos (io.inbuf.take n)
      else io.inbuf.take n := by
  by_cases h : io.encryption_type = 2 <;>
    simp [tr_peerIoReadBytes, evbuffer_remove, tr_cryptoDecrypt, h]

theorem tr_peerIoReadBytes_dec_key (env : Env) (io : tr_peerIo) (n : Nat) :
    (tr_peerIoReadBytes env io n).2.dec_key =
      if io.encryption_type = PEER_ENCRYPTION_RC4 then
        { io.dec_key with pos := io.dec_key.pos + (io.inbuf.take n).length }
      else io.dec_key := by
  by_cases h : io.encryption_type = 2 <;>
    simp [tr_peerIoReadBytes, evbuffer_remove, tr_cryptoDecrypt, h]

@[simp] theorem tr_peerIoReadBytes_inbuf (env : Env) (io : tr_peerIo) (n : Nat) :
    (tr_peerIoReadBytes env io n).2.inbuf = io.inbuf.drop n := by
  by_cases h : io.encryption_type = 2 <;>
    simp [tr_peerIoReadBytes, evbuffer_remove, tr_cryptoDecrypt, h]

@[simp] theorem tr_peerIoReadBytes_isIncoming (env : Env) (io : tr_peerIo) (n : Nat) :
    (tr_peerIoReadBytes env io n).2.isIncoming = io.isIncoming := by
  by_cases h : io.encryption_type = 2 <;>
    simp [tr_peerIoReadBytes, evbuffer_remove, tr_cryptoDecrypt, h]

@[simp] theorem tr_peerIoReadBytes_socketType (env : Env) (io : tr_peerIo) (n : Nat) :
    (tr_peerIoReadBytes env io n).2.socketType = io.socketType := by
  by_cases h : io.encryption_type = 2 <;>
    simp [tr_peerIoReadBytes, evbuffer_remove, tr_cryptoDecrypt, h]

@[simp] theorem tr_peerIoReadBytes_encryption_type (env : Env) (io : tr_peerIo) (n : Nat) :
    (tr_peerIoReadBytes env io n).2.encryption_type = io.encryption_type := by
  by_cases h : io.encryption_type = 2 <;>
    simp [tr_peerIoReadBytes, evbuffer_remove, tr_cryptoDecrypt, h]

@[simp] theorem tr_peerIoReadBytes_torrentHash (env : Env) (io : tr_peerIo) (n : Nat) :
    (tr_peerIoReadBytes env io n).2.torrentHash = io.torrentHash := by
  by_cases h : io.encryption_type = 2 <;>
    simp [tr_peerIoReadBytes, evbuffer_remove, tr_cryptoDecrypt, h]

@[simp] theorem tr_peerIoReadBytes_peersId (env : Env) (io : tr_peerIo) (n : Nat) :
    (tr_peerIoReadBytes env io n).2.peersId = io.peersId := by
  by_cases h : io.encryption_type = 2 <;>
    simp [tr_peerIoReadBytes, evbuffer_remove, tr_cryptoDecrypt, h]

@[simp] theorem tr_peerIoReadBytes_dhtSupported (env : Env) (io : tr_peerIo) (n : Nat) :
    (tr_peerIoReadBytes env io n).2.dhtSupported = io.dhtSupported := by
  by_cases h : io.encryption_type = 2 <;>
    simp [tr_peerIoReadBytes, evbuffer_remove, tr_cryptoDecrypt, h]

@[simp] theorem tr_peerIoReadBytes_ltepSupported (env : Env) (io : tr_peerIo) (n : Nat) :
    (tr_peerIoReadBytes env io n).2.ltepSupported = io.ltepSupported := by
  by_cases h : io.encryption_type = 2 <;>
    simp [tr_peerIoReadBytes, evbuffer_remove, tr_cryptoDecrypt, h]

@[simp] theorem tr_peerIoReadBytes_fextSupported (env : Env) (io : tr_peerIo) (n : Nat) :
    (tr_peerIoReadBytes env io n).2.fextSupported = io.fextSupported := by
  by_cases h : io.encryption_type = 2 <;>
    simp [tr_peerIoReadBytes, evbuffer_remove, tr_cryptoDecrypt, h]

@[simp] theorem tr_peerIoReadBytes_writes (env : Env) (io : tr_peerIo) (n : Nat) :
    (tr_peerIoReadBytes env io n).2.writes = io.writes := by
  by_cases h : io.encryption_type = 2 <;>
    simp [tr_peerIoReadBytes, evbuffer_remove, tr_cryptoDecrypt, h]

@[simp] theorem tr_peerIoReadBytes_mySecret (env : Env) (io : tr_peerIo) (n : Nat) :
    (tr_peerIoReadBytes env io n).2.mySecret = io.mySecret := by
  by_cases h : io.encryption_type = 2 <;>
    simp [tr_peerIoReadBytes, evbuffer_remove, tr_cryptoDecrypt, h]

@[simp] theorem tr_peerIoReadBytes_enc_key (env : Env) (io : tr_peerIo) (n : Nat) :
    (tr_peerIoReadBytes env io n).2.enc_key = io.enc_key := by
  by_cases h : io.encryption_type = 2 <;>
    simp [tr_peerIoReadBytes, evbuffer_remove, tr_cryptoDecrypt, h]

@[simp] theorem tr_peerIoReadBytes_funcsInstalled (env : Env) (io : tr_peerIo) (n : Nat) :
    (tr_peerIoReadBytes env io n).2.funcsInstalled = io.funcsInstalled := by
  by_cases h : io.encryption_type = 2 <;>
    simp [tr_peerIoReadBytes, evbuffer_remove, tr_cryptoDecrypt, h]

@[simp] theorem tr_peerIoReadBytes_refCount (env : Env) (io : tr_peerIo) (n : Nat) :
    (tr_peerIoReadBytes env io n).2.refCount = io.refCount := by
  by_cases h : io.encryption_type = 2 <;>
    simp [tr_peerIoReadBytes, evbuffer_remove, tr_cryptoDecrypt, h]

theorem tr_peerIoWriteBytes_writes (env : Env) (io : tr_peerIo) (bytes : List Nat) :
    (tr_peerIoWriteBytes env io bytes).writes = io.writes ++
      [{ data := bytes, encryption_type := io.encryption_type,
         wire := if io.encryption_type = PEER_ENCRYPTION_RC4 then
                   rc4Apply (ctxKeystream env io.enc_key) io.enc_key.pos bytes
                 else bytes }] := by
  by_cases h : io.encryption_type = 2 <;>
    simp [tr_peerIoWriteBytes, tr_cryptoEncrypt, h]

theorem tr_peerIoWriteBytes_enc_key (env : Env) (io : tr_peerIo) (bytes : List Nat) :
    (tr_peerIoWriteBytes env io bytes).enc_key =
      if io.encryption_type = PEER_ENCRYPTION_RC4 then
        { io.enc_key with pos := io.enc_key.pos + bytes.length }
      else io.enc_key := by
  by_cases h : io.encryption_type = 2 <;>
    simp [tr_peerIoWriteBytes, tr_cryptoEncrypt, h]

@[simp] theorem tr_peerIoWriteBytes_isIncoming (env : Env) (io : tr_peerIo) (bytes : List Nat) :
    (tr_peerIoWriteBytes env io bytes).isIncoming = io.isIncoming := by
  by_cases h : io.encryption_type = 2 <;>
    simp [tr_peerIoWriteBytes, tr_cryptoEncrypt, h]

@[simp] theorem tr_peerIoWriteBytes_socketType (env : Env) (io : tr_peerIo) (bytes : List Nat) :
    (tr_peerIoWriteBytes env io bytes).socketType = io.socketType := by
  by_cases h : io.encryption_type = 2 <;>
    simp [tr_peerIoWriteBytes, tr_cryptoEncrypt, h]

@[simp] theorem tr_peerIoWriteBytes_encryption_type (env : Env) (io : tr_peerIo) (bytes : List Nat) :
    (tr_peerIoWriteBytes env io bytes).encryption_type = io.encryption_type := by
  by_cases h : io.encryption_type = 2 <;>
    simp [tr_peerIoWriteBytes, tr_cryptoEncrypt, h]

@[simp] theorem tr_peerIoWriteBytes_torrentHash (env : Env) (io : tr_peerIo) (bytes : List Nat) :
    (tr_peerIoWriteBytes env io bytes).torrentHash = io.torrentHash := by
  by_cases h : io.encryption_type = 2 <;>
    simp [tr_peerIoWriteBytes, tr_cryptoEncrypt, h]

@[simp] theorem tr_peerIoWriteBytes_peersId (env : Env) (io : tr_peerIo) (bytes : List Nat) :
    (tr_peerIoWriteBytes env io bytes).peersId = io.peersId := by
  by_cases h : io.encryption_type = 2 <;>
    simp [tr_peerIoWriteBytes, tr_cryptoEncrypt, h]

@[simp] theorem tr_peerIoWriteBytes_dhtSupported (env : Env) (io : tr_peerIo) (bytes : List Nat) :
    (tr_peerIoWriteBytes env io bytes).dhtSupported = io.dhtSupported := by
  by_cases h : io.encryption_type = 2 <;>
    simp [tr_peerIoWriteBytes, tr_cryptoEncrypt, h]

@[simp] theorem tr_peerIoWriteBytes_ltepSupported (env : Env) (io : tr_peerIo) (bytes : List Nat) :
    (tr_peerIoWriteBytes env io bytes).ltepSupported = io.ltepSupported := by
  by_cases h : io.encryption_type = 2 <;>
    simp [tr_peerIoWriteBytes, tr_cryptoEncrypt, h]

@[simp] theorem tr_peerIoWriteBytes_fextSupported (env : Env) (io : tr_peerIo) (bytes : List Nat) :
    (tr_peerIoWriteBytes env io bytes).fextSupported = io.fextSupported := by
  by_cases h : io.encryption_type = 2 <;>
    simp [tr_peerIoWriteBytes, tr_cryptoEncrypt, h]

@[simp] theorem tr_peerIoWriteBytes_inbuf (env : Env) (io : tr_peerIo) (bytes : List Nat) :
    (tr_peerIoWriteBytes env io bytes).inbuf = io.inbuf := by
  by_cases h : io.encryption_type = 2 <;>
    simp [tr_peerIoWriteBytes, tr_cryptoEncrypt, h]

@[simp] theorem tr_peerIoWriteBytes_mySecret (env : Env) (io : tr_peerIo) (bytes : List Nat) :
    (tr_peerIoWriteBytes env io bytes).mySecret = io.mySecret := by
  by_cases h : io.encryption_type = 2 <;>
    simp [tr_peerIoWriteBytes, tr_cryptoEncrypt, h]

@[simp] theorem tr_peerIoWriteBytes_dec_key (env : Env) (io : tr_peerIo) (bytes : List Nat) :
    (tr_peerIoWriteBytes env io bytes).dec_key = io.dec_key := by
  by_cases h : io.encryption_type = 2 <;>
    simp [tr_peerIoWriteBytes, tr_cryptoEncrypt, h]

@[simp] theorem tr_peerIoWriteBytes_funcsInstalled (env : Env) (io : tr_peerIo) (bytes : List Nat) :
    (tr_peerIoWriteBytes env io bytes).funcsInstalled = io.funcsInstalled := by
  by_cases h : io.encryption_type = 2 <;>
    simp [tr_peerIoWriteBytes, tr_cryptoEncrypt, h]

@[simp] theorem tr_peerIoWriteBytes_refCount (env : Env) (io : tr_peerIo) (bytes : List Nat) :
    (tr_peerIoWriteBytes env io bytes).refCount = io.refCount := by
  by_cases h : io.encryption_type = 2 <;>
    simp [tr_peerIoWriteBytes, tr_cryptoEncrypt, h]

@[simp] theorem tr_handshakeDone_hs (env : Env) (w : World) (isOK : Bool) :
    (tr_handshakeDone env w isOK).2.hs = { w.hs with freed := true } := rfl

@[simp] theorem tr_handshakeDone_io (env : Env) (w : World) (isOK : Bool) :
    (tr_handshakeDone env w isOK).2.io =
      { w.io with funcsInstalled := false, refCount := w.io.refCount - 1 } := rfl

@[simp] theorem tr_handshakeDone_doneCalls (env : Env) (w : World) (isOK : Bool) :
    (tr_handshakeDone env w isOK).2.doneCalls = w.doneCalls ++
      [{ haveReadAnythingFromPeer := w.hs.haveReadAnythingFromPeer, isConnected := isOK,
         peer_id := if (isOK && w.hs.havePeerID) = true then w.io.peersId else none,
         result := env.doneCB w.doneCalls.length w.hs.haveReadAnythingFromPeer isOK
           (if (isOK && w.hs.havePeerID) = true then w.io.peersId else none) }] := rfl

theorem tr_peerIoReadBytes_plain (env : Env) (io : tr_peerIo) (n : Nat)
    (h : io.encryption_type ≠ 2) :
    tr_peerIoReadBytes env io n = (io.inbuf.take n, { io with inbuf := io.inbuf.drop n }) := by
  simp [tr_peerIoReadBytes, evbuffer_remove, h]

theorem tr_peerIoReadBytes_rc4 (env : Env) (io : tr_peerIo) (n : Nat)
    (h : io.encryption_type = 2) :
    tr_peerIoReadBytes env io n =
      (rc4Apply (ctxKeystream env io.dec_key) io.dec_key.pos (io.inbuf.take n),
       { io with inbuf := io.inbuf.drop n,
                 dec_key := { io.dec_key with pos := io.dec_key.pos + (io.inbuf.take n).length } }) := by
  simp [tr_peerIoReadBytes, evbuffer_remove, tr_cryptoDecrypt, h]

theorem tr_peerIoWriteBytes_plain (env : Env) (io : tr_peerIo) (bytes : List Nat)
    (h : io.encryption_type ≠ 2) :
    tr_peerIoWriteBytes env io bytes =
      { io with writes := io.writes ++
          [{ data := bytes, encryption_type := io.encryption_type, wire := bytes }] } := by
  simp [tr_peerIoWriteBytes, h]

theorem tr_peerIoWriteBytes_rc4 (env : Env) (io : tr_peerIo) (bytes : List Nat)
    (h : io.encryption_type = 2) :
    tr_peerIoWriteBytes env io bytes =
      { io with writes := io.writes ++
          [{ data := bytes, encryption_type := 2,
             wire := rc4Apply (ctxKeystream env io.enc_key) io.enc_key.pos bytes }],
                enc_key := { io.enc_key with pos := io.enc_key.pos + bytes.length } } := by
  simp [tr_peerIoWriteBytes, tr_cryptoEncrypt, h]

theorem flags_without_dht :
    HANDSHAKE_SET_FASTEXT (HANDSHAKE_SET_LTEP (List.replicate HANDSHAKE_FLAGS_LEN 0)) =
      [0, 0, 0, 0, 0, 16, 0, 4] := by decide

theorem flags_with_dht :
    HANDSHAKE_SET_DHT [0, 0, 0, 0, 0, 16, 0, 4] = [0, 0, 0, 0, 0, 16, 0, 5] := by decide

theorem buildHandshakeMessage_eq (env : Env) (w : World) (H : List Nat) (tor : tr_torrent)
    (hb : w.io.torrentHash = some H) (hfind : tr_torrentFindFromHash env.session H = some tor)
    (hrun : tor.isRunning = true) :
    buildHandshakeMessage env w = some (ourHandshake env H tor.peer_id) := by
  simp only [buildHandshakeMessage, buildHandshakePeerId, hb, hfind, hrun, ourHandshake,
    flags_without_dht, flags_with_dht]
  cases env.session.dhtEnabled <;> simp [flags_with_dht]

/-- What `readHandshake` does with a plaintext handshake on a fresh incoming pipe. -/
theorem readHandshake_plain_incoming (env : Env) (w : World) (reserved H rest : List Nat)
    (tor : tr_torrent)
    (hmode : w.hs.encryptionMode ≠ TR_ENCRYPTION_REQUIRED)
    (henc : w.io.encryption_type ≠ 2)
    (hin : w.io.isIncoming = true) (hfresh : w.io.torrentHash = none)
    (hsent : w.hs.haveSentBitTorrentHandshake = false)
    (hbuf : w.io.inbuf = HANDSHAKE_NAME ++ (reserved ++ (H ++ rest)))
    (hres : reserved.length = 8) (hH : H.length = 20) (hrest : 20 ≤ rest.length)
    (hfind : tr_torrentFindFromHash env.session H = some tor) (hrun : tor.isRunning = true) :
    readHandshake env w = (READ_NOW,
      { w with
        hs := { w.hs with haveReadAnythingFromPeer := true, haveSentBitTorrentHandshake := true,
                          state := AWAITING_PEER_ID },
        io := { w.io with inbuf := rest, torrentHash := some H,
                          dhtSupported := HANDSHAKE_HAS_DHT reserved,
                          ltepSupported := HANDSHAKE_HAS_LTEP reserved,
                          fextSupported := HANDSHAKE_HAS_FASTEXT reserved,
                          writes := w.io.writes ++
                            [{ data := ourHandshake env H tor.peer_id,
                               encryption_type := w.io.encryption_type,
                               wire := ourHandshake env H tor.peer_id }] } }) := by
  have hname : HANDSHAKE_NAME.length = 20 := rfl
  have ht1 : List.take 20 (HANDSHAKE_NAME ++ (reserved ++ (H ++ rest))) = HANDSHAKE_NAME := by
    rw [List.take_append_of_le_length (by simp [hname])]
    exact List.take_of_length_le (by simp [hname])
  have hd1 : List.drop 20 (HANDSHAKE_NAME ++ (reserved ++ (H ++ rest))) = reserved ++ (H ++ rest) := by
    rw [← hname]; exact List.drop_left _ _
  have ht2 : List.take 8 (reserved ++ (H ++ rest)) = reserved := by
    rw [← hres]; exact List.take_left _ _
  have hd2 : List.drop 8 (reserved ++ (H ++ rest)) = H ++ rest := by
    rw [← hres]; exact List.drop_left _ _
  have ht3 : List.take 20 (H ++ rest) = H := by
    rw [← hH]; exact List.take_left _ _
  have hd3 : List.drop 20 (H ++ rest) = rest := by
    rw [← hH]; exact List.drop_left _ _
  have hlen : 48 ≤ HANDSHAKE_NAME.length + (reserved.length + (H.length + rest.length)) := by
    rw [hname, hres, hH]; omega
  have hm : ¬ w.hs.encryptionMode = TR_ENCRYPTION_REQUIRED := hmode
  have he : ¬ w.io.encryption_type = 2 := henc
  have hmsg := fun w' hb => buildHandshakeMessage_eq env w' H tor hb hfind hrun
  simp [readHandshake, hlen, hbuf, ht1, hm, tr_peerIoIsEncrypted, he, readHandshakeParse, tr_peerIoEnableDHT, tr_peerIoEnableLTEP, tr_peerIoEnableFEXT,
    tr_peerIoReadBytes_plain, hd1, ht2, hd2, ht3, hd3, hin, tr_peerIoHasTorrentHash, hfresh, hfind,
    hrun, tr_peerIoSetTorrentHash, readHandshakeReply, hsent, hmsg, tr_peerIoWriteBytes_plain,
    setReadState, setState]

theorem tr_handshakeNew_incoming (env : Env) (io : tr_peerIo) (m : tr_encryption_mode)
    (hin : io.isIncoming = true) :
    tr_handshakeNew env io m =
      { hs := newHandshake m,
        io := { io with refCount := io.refCount + 1, funcsInstalled := true,
                        encryption_type := PEER_ENCRYPTION_NONE },
        doneCalls := [], dispatched := [], utpFailed := [], reconnects := [], randCount := 0,
        timerFreed := false } := by
  simp [tr_handshakeNew, hin, tr_peerIoSetEncryption, setReadState, setState, newHandshake]

/-- C4: with fewer than 6 bytes buffered `readCryptoSelect` changes nothing and asks for more
bytes. With at least 6 it ends the session with `is_ok = false` exactly when the received
`crypto_select` has no bit in common with our `crypto_provide` or the received PadD length
exceeds 512; otherwise it consumes exactly 6 bytes, stores both values and moves to
`AWAITING_PAD_D` without a done call. An initiator that offered only CRYPTO fails on
`crypto_select = PLAINTEXT`. -/
theorem readCryptoSelect_accepts_iff (env : Env) (w : World) :
    (w.io.inbuf.length < 6 → readCryptoSelect env w = (READ_LATER, w)) ∧
    (6 ≤ w.io.inbuf.length →
      (((tr_peerIoReadUint32 env w.io).1 &&& getCryptoProvide w.hs.encryptionMode = 0 ∨
          (tr_peerIoReadUint16 env (tr_peerIoReadUint32 env w.io).2).1 > 512) →
        (readCryptoSelect env w).2.doneCalls = w.doneCalls ++
          [{ haveReadAnythingFromPeer := w.hs.haveReadAnythingFromPeer, isConnected := false,
             peer_id := none,
             result := env.doneCB w.doneCalls.length w.hs.haveReadAnythingFromPeer false none }] ∧
        (readCryptoSelect env w).2.hs.freed = true ∧
        (readCryptoSelect env w).2.hs.state = w.hs.state) ∧
      (¬ ((tr_peerIoReadUint32 env w.io).1 &&& getCryptoProvide w.hs.encryptionMode = 0 ∨
          (tr_peerIoReadUint16 env (tr_peerIoReadUint32 env w.io).2).1 > 512) →
        (readCryptoSelect env w).1 = READ_NOW ∧
        (readCryptoSelect env w).2.doneCalls = w.doneCalls ∧
        (readCryptoSelect env w).2.hs.freed = w.hs.freed ∧
        (readCryptoSelect env w).2.io.inbuf = w.io.inbuf.drop 6 ∧
        (readCryptoSelect env w).2.hs.crypto_select = (tr_peerIoReadUint32 env w.io).1 ∧
        (readCryptoSelect env w).2.hs.pad_d_len =
          (tr_peerIoReadUint16 env (tr_peerIoReadUint32 env w.io).2).1 ∧
        (readCryptoSelect env w).2.hs.state = AWAITING_PAD_D) ∧
      (w.hs.encryptionMode ≠ TR_CLEAR_PREFERRED →
        getCryptoProvide w.hs.encryptionMode = CRYPTO_PROVIDE_CRYPTO ∧
        ((tr_peerIoReadUint32 env w.io).1 = CRYPTO_PROVIDE_PLAINTEXT →
          (readCryptoSelect env w).2.doneCalls = w.doneCalls ++
            [{ haveReadAnythingFromPeer := w.hs.haveReadAnythingFromPeer, isConnected := false,
               peer_id := none,
               result := env.doneCB w.doneCalls.length w.hs.haveReadAnythingFromPeer false none }]))) := by
  refine ⟨fun h => by simp [readCryptoSelect, h], fun h => ⟨?_, ?_, ?_⟩⟩
  · have hlen : ¬ w.io.inbuf.length < 4 + 2 := by omega
    intro hc
    by_cases h1 : (tr_peerIoReadUint32 env w.io).1 &&& getCryptoProvide w.hs.encryptionMode = 0
    · simp [readCryptoSelect, hlen, h1, tr_handshakeDone, fireDoneFunc, tr_handshakeFree]
    · have h2 : (tr_peerIoReadUint16 env (tr_peerIoReadUint32 env w.io).2).1 > 512 := by
        rcases hc with hc | hc
        · exact absurd hc h1
        · exact hc
      simp [readCryptoSelect, hlen, h1, h2, tr_handshakeDone, fireDoneFunc, tr_handshakeFree]
  · have hlen : ¬ w.io.inbuf.length < 4 + 2 := by omega
    intro hc
    have h1 : ¬ (tr_peerIoReadUint32 env w.io).1 &&& getCryptoProvide w.hs.encryptionMode = 0 :=
      fun h => hc (Or.inl h)
    have h2 : ¬ (tr_peerIoReadUint16 env (tr_peerIoReadUint32 env w.io).2).1 > 512 :=
      fun h => hc (Or.inr h)
    have hd : (tr_peerIoReadUint16 env (tr_peerIoReadUint32 env w.io).2).2.inbuf = w.io.inbuf.drop 6 := by
      simp [tr_peerIoReadUint16, tr_peerIoReadUint32, List.drop_drop]
    simp [readCryptoSelect, hlen, h1, h2, setState, hd]
  · intro hm
    have hp : getCryptoProvide w.hs.encryptionMode = CRYPTO_PROVIDE_CRYPTO := by
      cases hmode : w.hs.encryptionMode <;> simp_all [getCryptoProvide]
    refine ⟨hp, fun hs => ?_⟩
    have hlen : ¬ w.io.inbuf.length < 4 + 2 := by omega
    have h1 : (tr_peerIoReadUint32 env w.io).1 &&& getCryptoProvide w.hs.encryptionMode = 0 := by
      rw [hp, hs]; decide
    simp [readCryptoSelect, hlen, h1, tr_handshakeDone, fireDoneFunc, tr_handshakeFree]

/-- C9: an incoming session whose mode is not Required, on a fresh pipe, that receives the 68
bytes protocol name, reserved bytes, H and P, with H the hash of a known running torrent and P
not our peer id for it, writes its own 68-byte handshake once (unencrypted), binds H to the
pipe, sets the pipe's peer id to P and fires the done callback exactly once, with
`is_ok = true` and `peer_id = P`, after the two transitions `AWAITING_HANDSHAKE` and
`AWAITING_PEER_ID`. -/
theorem plain_incoming_completes (env : Env) (io : tr_peerIo) (m : tr_encryption_mode)
    (reserved H P : List Nat) (tor : tr_torrent) (fuel : Nat)
    (hmode : m ≠ TR_ENCRYPTION_REQUIRED)
    (hin : io.isIncoming = true) (hfresh : io.torrentHash = none) (hempty : io.inbuf = [])
    (hres : reserved.length = 8) (hH : H.length = 20) (hP : P.length = 20)
    (hfind : tr_torrentFindFromHash env.session H = some tor) (hrun : tor.isRunning = true)
    (hid : tor.peer_id.length = 20) (hne : P ≠ tor.peer_id) :
    ∃ w, deliver env (fuel + 2) (tr_handshakeNew env io m)
          (Input.readable (HANDSHAKE_NAME ++ reserved ++ H ++ P)) = some w ∧
      w.io.writes = io.writes ++
        [{ data := ourHandshake env H tor.peer_id, encryption_type := PEER_ENCRYPTION_NONE,
           wire := ourHandshake env H tor.peer_id }] ∧
      (ourHandshake env H tor.peer_id).length = 68 ∧
      w.io.torrentHash = some H ∧
      w.io.peersId = some P ∧
      w.io.inbuf = [] ∧
      w.doneCalls = [{ haveReadAnythingFromPeer := true, isConnected := true, peer_id := some P,
                       result := env.doneCB 0 true true (some P) }] ∧
      w.dispatched = [(AWAITING_HANDSHAKE, false), (AWAITING_PEER_ID, false)] := by
  have hname : HANDSHAKE_NAME.length = 20 := rfl
  have hlen68 : (ourHandshake env H tor.peer_id).length = 68 := by
    unfold ourHandshake
    cases env.session.dhtEnabled <;> simp [hname, hH, hid]
  have hP20 : ¬ P.length < 20 := by omega
  have hne' : ¬ P = tor.peer_id := hne
  have htake : List.take 20 P = P := List.take_of_length_le (by omega)
  have hstep := readHandshake_plain_incoming env
    { hs := newHandshake m,
      io := { io with refCount := io.refCount + 1, funcsInstalled := true,
                      encryption_type := PEER_ENCRYPTION_NONE,
                      inbuf := HANDSHAKE_NAME ++ (reserved ++ (H ++ P)) },
      doneCalls := [], dispatched := [(AWAITING_HANDSHAKE, false)], utpFailed := [], reconnects := [],
      randCount := 0, timerFreed := false }
    reserved H P tor (by simpa [newHandshake] using hmode) (by simp) (by simpa using hin)
    (by simpa using hfresh) (by simp [newHandshake]) (by simp) hres hH (by omega) hfind hrun
  rw [tr_handshakeNew_incoming env io m hin]
  simp [deliver, arrive, hempty, canRead, canReadStep, canReadSwitch, newHandshake] at hstep ⊢
  simp [hstep, readPeerId, tr_peerIoSetPeersId, hP20, tr_peerIoReadBytes_plain, hP, hfind, hne', hlen68, htake,
    tr_handshakeDone, fireDoneFunc, tr_handshakeFree]

theorem plain_incoming_completes_witness :
    tr_torrentFindFromHash sampleEnv.session sampleHash = some sampleTorrent ∧
    otherId ≠ sampleTorrent.peer_id ∧
    ∃ w, deliver sampleEnv 2 (tr_handshakeNew sampleEnv (samplePipe true) TR_ENCRYPTION_PREFERRED)
          (Input.readable (HANDSHAKE_NAME ++ sampleReserved ++ sampleHash ++ otherId)) = some w ∧
      w.io.writes = (samplePipe true).writes ++
        [{ data := ourHandshake sampleEnv sampleHash sampleTorrent.peer_id,
           encryption_type := PEER_ENCRYPTION_NONE,
           wire := ourHandshake sampleEnv sampleHash sampleTorrent.peer_id }] ∧
      (ourHandshake sampleEnv sampleHash sampleTorrent.peer_id).length = 68 ∧
      w.io.torrentHash = some sampleHash ∧
      w.io.peersId = some otherId ∧
      w.io.inbuf = [] ∧
      w.doneCalls = [{ haveReadAnythingFromPeer := true, isConnected := true, peer_id := some otherId,
                       result := sampleEnv.doneCB 0 true true (some otherId) }] ∧
      w.dispatched = [(AWAITING_HANDSHAKE, false), (AWAITING_PEER_ID, false)] :=
  ⟨by decide, by decide,
   plain_incoming_completes sampleEnv (samplePipe true) TR_ENCRYPTION_PREFERRED sampleReserved
     sampleHash otherId sampleTorrent 0 (by decide) (by decide) (by decide) (by decide) (by decide)
     (by decide) (by decide) (by decide) (by decide) (by decide) (by decide)⟩

/-- C10: with at least 20 bytes buffered `readPeerId` consumes exactly 20 bytes, sets them as
the pipe's peer id and completes the session: with `is_ok = false` and a null peer id when
they equal our own peer id for the torrent bound to the pipe, and with `is_ok = true` and
the 20 received bytes as peer id otherwise. -/
theorem readPeerId_completes (env : Env) (w : World) (hlen : PEER_ID_LEN ≤ w.io.inbuf.length) :
    ((tr_peerIoReadBytes env w.io PEER_ID_LEN).1.length = 20 ∧
     (readPeerId env w).2.io.inbuf = w.io.inbuf.drop 20 ∧
     (readPeerId env w).2.io.peersId = some (tr_peerIoReadBytes env w.io PEER_ID_LEN).1 ∧
     (readPeerId env w).2.hs.freed = true) ∧
    ((w.io.torrentHash.bind (tr_torrentFindFromHash env.session)).map (fun t => t.peer_id) =
        some (tr_peerIoReadBytes env w.io PEER_ID_LEN).1 →
      (readPeerId env w).2.doneCalls = w.doneCalls ++
        [{ haveReadAnythingFromPeer := w.hs.haveReadAnythingFromPeer, isConnected := false,
           peer_id := none,
           result := env.doneCB w.doneCalls.length w.hs.haveReadAnythingFromPeer false none }]) ∧
    ((w.io.torrentHash.bind (tr_torrentFindFromHash env.session)).map (fun t => t.peer_id) ≠
        some (tr_peerIoReadBytes env w.io PEER_ID_LEN).1 →
      (readPeerId env w).2.doneCalls = w.doneCalls ++
        [{ haveReadAnythingFromPeer := w.hs.haveReadAnythingFromPeer, isConnected := true,
           peer_id := some (tr_peerIoReadBytes env w.io PEER_ID_LEN).1,
           result := env.doneCB w.doneCalls.length w.hs.haveReadAnythingFromPeer true
             (some (tr_peerIoReadBytes env w.io PEER_ID_LEN).1) }]) := by
  have hl : ¬ w.io.inbuf.length < 20 := by simpa using hlen
  simp only [PEER_ID_LEN] at hlen ⊢
  refine ⟨⟨?_, ?_, ?_, ?_⟩, ?_, ?_⟩
  · rw [tr_peerIoReadBytes_fst]; split <;> simp [rc4Apply_length, hlen]
  · simp [readPeerId, tr_peerIoSetPeersId, hl]
  · simp [readPeerId, tr_peerIoSetPeersId, hl]
  · simp [readPeerId, tr_peerIoSetPeersId, hl]
  · intro h
    cases ht : w.io.torrentHash.bind (tr_torrentFindFromHash env.session) with
    | none => simp [ht] at h
    | some t =>
      simp [ht] at h
      simp [readPeerId, tr_peerIoSetPeersId, hl, ht, h]
  · intro h
    cases ht : w.io.torrentHash.bind (tr_torrentFindFromHash env.session) with
    | none => simp [readPeerId, tr_peerIoSetPeersId, hl, ht]
    | some t =>
      simp [ht] at h
      have h' : ¬ (tr_peerIoReadBytes env w.io 20).1 = t.peer_id := fun e => h e.symm
      simp [readPeerId, tr_peerIoSetPeersId, hl, ht, h']

theorem readPeerId_completes_witness :
    PEER_ID_LEN ≤ (peerIdWorld sampleId).io.inbuf.length ∧
    (readPeerId sampleEnv (peerIdWorld sampleId)).2.doneCalls =
      [{ haveReadAnythingFromPeer := true, isConnected := false, peer_id := none, result := false }] :=
  ⟨by decide,
   (readPeerId_completes sampleEnv (peerIdWorld sampleId) (by decide)).2.1 (by decide)⟩

/-! ### The length fields along a run -/

theorem readHandshakeReply_lengths (env : Env) (w : World) :
    lengthsOf (readHandshakeReply env w).2 = lengthsOf w := by
  dsimp only [readHandshakeReply]
  repeat' split
  all_goals rfl

theorem readHandshakeParse_lengths (env : Env) (w : World) :
    lengthsOf (readHandshakeParse env w).2 = lengthsOf w := by
  dsimp only [readHandshakeParse]
  repeat' split
  all_goals first | rfl | exact readHandshakeReply_lengths _ _

theorem readHandshake_lengths (env : Env) (w : World) :
    lengthsOf (readHandshake env w).2 = lengthsOf w := by
  dsimp only [readHandshake]
  repeat' split
  all_goals first | rfl | exact readHandshakeParse_lengths _ _

theorem readPeerId_lengths (env : Env) (w : World) :
    lengthsOf (readPeerId env w).2 = lengthsOf w := by
  dsimp only [readPeerId]
  repeat' split
  all_goals rfl

theorem readYa_lengths (env : Env) (w : World) :
    lengthsOf (readYa env w).2 = lengthsOf w := by
  dsimp only [readYa]
  repeat' split
  all_goals rfl

theorem readPadA_lengths (env : Env) (w : World) :
    lengthsOf (readPadA env w).2 = lengthsOf w := by
  dsimp only [readPadA]
  repeat' split
  all_goals rfl

theorem readIA_lengths (env : Env) (w : World) :
    lengthsOf (readIA env w).2 = lengthsOf w := by
  dsimp only [readIA]
  repeat' split
  all_goals rfl

theorem readYb_lengths (env : Env) (w : World) :
    lengthsOf (readYb env w).2 = lengthsOf w := by
  dsimp only [readYb]
  repeat' split
  all_goals rfl

theorem readVC_lengths (env : Env) (w : World) :
    lengthsOf (readVC env w).2 = lengthsOf w := by
  dsimp only [readVC]
  repeat' split
  all_goals rfl

theorem readPadD_lengths (env : Env) (w : World) :
    lengthsOf (readPadD env w).2 = lengthsOf w := by
  dsimp only [readPadD]
  repeat' split
  all_goals rfl

theorem be16_lt (bs : List Nat) : be16 bs < 65536 := by
  unfold be16; omega

theorem LengthsBounded_of_eq {w w' : World} (h : lengthsOf w' = lengthsOf w) (hb : LengthsBounded w) :
    LengthsBounded w' := by
  simp only [lengthsOf, Prod.mk.injEq] at h
  obtain ⟨h1, h2, h3⟩ := h
  unfold LengthsBounded
  rw [h1, h2, h3]
  exact hb

theorem readCryptoProvideParse_bounded (env : Env) (w : World) (hb : LengthsBounded w) :
    LengthsBounded (readCryptoProvideParse env w).2 := by
  dsimp only [readCryptoProvideParse]
  split
  · exact hb
  · rename_i h
    exact ⟨by simpa using h, hb.2.1, hb.2.2⟩

theorem readCryptoProvide_bounded (env : Env) (w : World) (hb : LengthsBounded w) :
    LengthsBounded (readCryptoProvide env w).2 := by
  dsimp only [readCryptoProvide]
  repeat' split
  all_goals first | exact hb | exact readCryptoProvideParse_bounded _ _ hb

theorem readCryptoSelect_bounded (env : Env) (w : World) (hb : LengthsBounded w) :
    LengthsBounded (readCryptoSelect env w).2 := by
  dsimp only [readCryptoSelect]
  repeat' split
  all_goals first | exact hb | skip
  rename_i h
  exact ⟨hb.1, by simpa using h, hb.2.2⟩

theorem readPadC_bounded (env : Env) (w : World) (hb : LengthsBounded w) :
    LengthsBounded (readPadC env w).2 := by
  dsimp only [readPadC]
  split
  · exact hb
  · exact ⟨hb.1, hb.2.1, be16_lt _⟩

theorem canReadStep_bounded (env : Env) (w : World) (hb : LengthsBounded w) :
    LengthsBounded (canReadStep env w).2 := by
  have hb' : LengthsBounded { w with dispatched := w.dispatched ++ [(w.hs.state, w.hs.freed)] } := hb
  dsimp only [canReadStep, canReadSwitch]
  split
  · exact LengthsBounded_of_eq (readHandshake_lengths _ _) hb'
  · exact LengthsBounded_of_eq (readPeerId_lengths _ _) hb'
  · exact LengthsBounded_of_eq (readYa_lengths _ _) hb'
  · exact LengthsBounded_of_eq (readPadA_lengths _ _) hb'
  · exact readCryptoProvide_bounded _ _ hb'
  · exact readPadC_bounded _ _ hb'
  · exact LengthsBounded_of_eq (readIA_lengths _ _) hb'
  · exact LengthsBounded_of_eq (readYb_lengths _ _) hb'
  · exact LengthsBounded_of_eq (readVC_lengths _ _) hb'
  · exact readCryptoSelect_bounded _ _ hb'
  · exact LengthsBounded_of_eq (readPadD_lengths _ _) hb'

theorem sendPlainTextHandshake_lengths (env : Env) (w : World) :
    lengthsOf (sendPlainTextHandshake env w) = lengthsOf w := by
  dsimp only [sendPlainTextHandshake]
  repeat' split
  all_goals rfl

theorem gotErrorFinish_lengths (env : Env) (w : World) (b : Bool) :
    lengthsOf (gotErrorFinish env w b) = lengthsOf w := by
  dsimp only [gotErrorFinish, tr_peerIoReconnect]
  repeat' split
  all_goals first | rfl | exact sendPlainTextHandshake_lengths _ _

theorem gotErrorTcp_lengths (env : Env) (w : World) (b : Bool) :
    lengthsOf (gotErrorTcp env w b) = lengthsOf w := by
  dsimp only [gotErrorTcp]
  repeat' split
  all_goals exact gotErrorFinish_lengths _ _ _

theorem gotError_lengths (env : Env) (w : World) (errcode : Nat) :
    lengthsOf (gotError env w errcode) = lengthsOf w := by
  dsimp only [gotError, tr_peerIoReconnect]
  repeat' split
  all_goals first | rfl | exact (gotErrorTcp_lengths _ _ _).trans rfl

theorem tr_handshakeNew_bounded (env : Env) (io : tr_peerIo) (m : tr_encryption_mode) :
    LengthsBounded (tr_handshakeNew env io m) := by
  have h0 : ∀ w : World, lengthsOf w = (0, 0, 0) → LengthsBounded w := by
    intro w h
    simp only [lengthsOf, Prod.mk.injEq] at h
    unfold LengthsBounded
    omega
  apply h0
  dsimp only [tr_handshakeNew]
  repeat' split
  all_goals first | rfl | exact (sendPlainTextHandshake_lengths _ _).trans rfl

theorem reachable_lengths_bounded (env : Env) (w : World) (h : Reachable env w) :
    LengthsBounded w := by
  induction h with
  | init io m => exact tr_handshakeNew_bounded env io m
  | arrive w bytes _ ih => exact ih
  | step w _ ih => exact canReadStep_bounded env w ih
  | error w errcode _ ih => exact LengthsBounded_of_eq (gotError_lengths env w errcode) ih
  | abort w _ ih => exact ih

/-- Once the torrent is found, running and not seed-to-seed, `readCryptoProvide` goes on to
parse the encrypted part. -/
theorem readCryptoProvide_accepted (env : Env) (w : World) (tor : tr_torrent)
    (hlen : 54 ≤ w.io.inbuf.length)
    (hfind : tr_torrentFindFromObfuscatedHash env (receivedObfuscatedHash env w) = some tor)
    (hrun : tor.isRunning = true) (hseed : ¬ (tor.isSeed = true ∧ tor.peerIsSeed = true)) :
    readCryptoProvide env w =
      readCryptoProvideParse env
        { w with io := tr_peerIoSetTorrentHash (evbuffer_drain w.io 40) tor.hash } := by
  have hl : ¬ w.io.inbuf.length < 54 := by omega
  have hfind' : tr_torrentFindFromObfuscatedHash env
      (xorDigest (List.take 20 (List.drop 20 w.io.inbuf)) (computeRequestHash env w.io req3Name)) =
      some tor := hfind
  have hreq : ∀ io : tr_peerIo, io.mySecret = w.io.mySecret →
      computeRequestHash env io req3Name = computeRequestHash env w.io req3Name := by
    intro io h; simp [computeRequestHash, h]
  simp [readCryptoProvide, hl, evbuffer_drain, evbuffer_remove, hreq, hfind', hrun, hseed,
    List.drop_drop]

theorem readCryptoProvideParse_padc (env : Env) (w : World) (tor : tr_torrent)
    (hlen : 54 ≤ w.io.inbuf.length) :
    (tr_peerIoReadUint16 env (tr_peerIoReadUint32 env (tr_peerIoReadBytes env
      (tr_peerIoSetEncryption (tr_cryptoEncryptInit (tr_cryptoDecryptInit
        (tr_peerIoSetTorrentHash (evbuffer_drain w.io 40) tor.hash))) PEER_ENCRYPTION_RC4)
      VC_LENGTH).2).2).1 = receivedPadCLen env w tor := by
  have h8 : min 8 (w.io.inbuf.length - 40) = 8 := by omega
  have h4 : min 4 (w.io.inbuf.length - (40 + 8)) = 4 := by omega
  simp [tr_peerIoReadUint16, tr_peerIoReadUint32, tr_peerIoReadBytes_rc4, tr_peerIoSetEncryption,
    tr_cryptoEncryptInit, tr_cryptoDecryptInit, tr_peerIoSetTorrentHash, evbuffer_drain,
    receivedPadCLen, ctxKeystream, List.drop_drop, h8, h4]

/-- C6: the padding lengths stay within 512. In every reachable state `pad_c_len ≤ 512` and
`pad_d_len ≤ 512`. In `readCryptoProvide`, once the torrent is accepted, a received PadC
length above 512 ends the session with `is_ok = false` with the input drained just through
the length field (54 bytes) and nothing stored, and a length of at most 512 is stored with
the session moving to `AWAITING_PAD_C`. In `readCryptoSelect`, a received PadD length above
512 ends the session with `is_ok = false` with at most the 6 bytes through the length field
drained and nothing stored, and a length of at most 512 is stored when `crypto_select` is
acceptable. -/
theorem pad_lengths_bounded (env : Env) :
    (∀ w, Reachable env w → w.hs.pad_c_len ≤ 512 ∧ w.hs.pad_d_len ≤ 512) ∧
    (∀ (w : World) (tor : tr_torrent), 54 ≤ w.io.inbuf.length →
      tr_torrentFindFromObfuscatedHash env (receivedObfuscatedHash env w) = some tor →
      tor.isRunning = true → ¬ (tor.isSeed = true ∧ tor.peerIsSeed = true) →
      (receivedPadCLen env w tor > 512 →
        (readCryptoProvide env w).2.doneCalls = w.doneCalls ++
          [{ haveReadAnythingFromPeer := w.hs.haveReadAnythingFromPeer, isConnected := false,
             peer_id := none,
             result := env.doneCB w.doneCalls.length w.hs.haveReadAnythingFromPeer false none }] ∧
        (readCryptoProvide env w).2.hs.freed = true ∧
        (readCryptoProvide env w).2.hs.pad_c_len = w.hs.pad_c_len ∧
        (readCryptoProvide env w).2.io.inbuf = w.io.inbuf.drop 54) ∧
      (receivedPadCLen env w tor ≤ 512 →
        (readCryptoProvide env w).1 = READ_NOW ∧
        (readCryptoProvide env w).2.doneCalls = w.doneCalls ∧
        (readCryptoProvide env w).2.hs.pad_c_len = receivedPadCLen env w tor ∧
        (readCryptoProvide env w).2.hs.state = AWAITING_PAD_C ∧
        (readCryptoProvide env w).2.io.inbuf = w.io.inbuf.drop 54)) ∧
    (∀ w : World, 6 ≤ w.io.inbuf.length →
      ((tr_peerIoReadUint16 env (tr_peerIoReadUint32 env w.io).2).1 > 512 →
        (readCryptoSelect env w).2.doneCalls = w.doneCalls ++
          [{ haveReadAnythingFromPeer := w.hs.haveReadAnythingFromPeer, isConnected := false,
             peer_id := none,
             result := env.doneCB w.doneCalls.length w.hs.haveReadAnythingFromPeer false none }] ∧
        (readCryptoSelect env w).2.hs.freed = true ∧
        (readCryptoSelect env w).2.hs.pad_d_len = w.hs.pad_d_len ∧
        ((readCryptoSelect env w).2.io.inbuf = w.io.inbuf.drop 6 ∨
          (readCryptoSelect env w).2.io.inbuf = w.io.inbuf.drop 4)) ∧
      ((tr_peerIoReadUint32 env w.io).1 &&& getCryptoProvide w.hs.encryptionMode ≠ 0 →
        (tr_peerIoReadUint16 env (tr_peerIoReadUint32 env w.io).2).1 ≤ 512 →
        (readCryptoSelect env w).1 = READ_NOW ∧
        (readCryptoSelect env w).2.doneCalls = w.doneCalls ∧
        (readCryptoSelect env w).2.hs.pad_d_len =
          (tr_peerIoReadUint16 env (tr_peerIoReadUint32 env w.io).2).1 ∧
        (readCryptoSelect env w).2.hs.state = AWAITING_PAD_D ∧
        (readCryptoSelect env w).2.io.inbuf = w.io.inbuf.drop 6)) := by
  refine ⟨fun w h => ⟨(reachable_lengths_bounded env w h).1, (reachable_lengths_bounded env w h).2.1⟩,
    ?_, ?_⟩
  · intro w tor hlen hfind hrun hseed
    have hacc := readCryptoProvide_accepted env w tor hlen hfind hrun hseed
    have hpc := readCryptoProvideParse_padc env w tor hlen
    rw [hacc]
    constructor
    · intro hgt
      have hgt' : 512 < receivedPadCLen env w tor := hgt
      dsimp only [readCryptoProvideParse]
      simp only [hpc, PadC_MAXLEN, gt_iff_lt, hgt', ↓reduceIte]
      refine ⟨rfl, rfl, rfl, ?_⟩
      simp [tr_peerIoReadUint16, tr_peerIoReadUint32, tr_peerIoSetEncryption, tr_cryptoEncryptInit,
        tr_cryptoDecryptInit, tr_peerIoSetTorrentHash, evbuffer_drain, List.drop_drop]
    · intro hle
      have hle' : ¬ 512 < receivedPadCLen env w tor := by omega
      dsimp only [readCryptoProvideParse]
      simp only [hpc, PadC_MAXLEN, gt_iff_lt, hle', ↓reduceIte]
      refine ⟨trivial, rfl, rfl, rfl, ?_⟩
      simp [setState, tr_peerIoReadUint16, tr_peerIoReadUint32, tr_peerIoSetEncryption,
        tr_cryptoEncryptInit, tr_cryptoDecryptInit, tr_peerIoSetTorrentHash, evbuffer_drain,
        List.drop_drop]
  · intro w hlen
    have hl : ¬ w.io.inbuf.length < 4 + 2 := by omega
    constructor
    · intro hgt
      have hgt' : 512 < (tr_peerIoReadUint16 env (tr_peerIoReadUint32 env w.io).2).1 := hgt
      by_cases h1 : (tr_peerIoReadUint32 env w.io).1 &&& getCryptoProvide w.hs.encryptionMode = 0
      · simp [readCryptoSelect, hl, h1]
        simp [tr_peerIoReadUint32]
      · simp [readCryptoSelect, hl, h1, hgt']
        simp [tr_peerIoReadUint16, tr_peerIoReadUint32, List.drop_drop]
    · intro h1 hle
      have hle' : ¬ 512 < (tr_peerIoReadUint16 env (tr_peerIoReadUint32 env w.io).2).1 := by omega
      simp [readCryptoSelect, hl, h1, hle', setState]
      simp [tr_peerIoReadUint16, tr_peerIoReadUint32, List.drop_drop]

/-- C1 (the code at the failing input): an incoming session in Required mode whose done
callback reports more work receives a plaintext handshake. `readHandshake` ends the session
and returns `READ_NOW`, the loop of `canRead` dispatches again on the freed session, the done
callback is invoked a second time, and the loop has not ended after three passes. -/
theorem canRead_dispatches_on_freed_session :
    deliver eagerEnv 3 (tr_handshakeNew eagerEnv (samplePipe true) TR_ENCRYPTION_REQUIRED)
      (Input.readable (plainHandshake sampleReserved sampleHash otherId)) = none ∧
    (canReadStep eagerEnv (plainIncomingWorld eagerEnv TR_ENCRYPTION_REQUIRED otherId)).1 = READ_NOW ∧
    (canReadStep eagerEnv (plainIncomingWorld eagerEnv TR_ENCRYPTION_REQUIRED otherId)).2.hs.freed = true ∧
    (canReadStep eagerEnv (canReadStep eagerEnv
        (plainIncomingWorld eagerEnv TR_ENCRYPTION_REQUIRED otherId)).2).2.dispatched =
      [(AWAITING_HANDSHAKE, false), (AWAITING_HANDSHAKE, true)] ∧
    (canReadStep eagerEnv (canReadStep eagerEnv
        (plainIncomingWorld eagerEnv TR_ENCRYPTION_REQUIRED otherId)).2).2.doneCalls =
      [{ haveReadAnythingFromPeer := true, isConnected := false, peer_id := none, result := true },
       { haveReadAnythingFromPeer := true, isConnected := false, peer_id := none, result := true }] := by
  decide


/-- C5 (the code at the failing input): an initiator that offered only CRYPTO receives
`crypto_select = 3`; the check in `readCryptoSelect` passes, the session goes through
`AWAITING_PAD_D`, hands 3 to the pipe as its encryption type and waits for the handshake,
and the done callback is not invoked. -/
theorem crypto_select_with_extra_bit_accepted :
    (run sampleEnv 8 (tr_handshakeNew sampleEnv (samplePipe false) TR_ENCRYPTION_PREFERRED)
        [Input.readable sampleKey, Input.readable (sampleMessage4 3 0)]).map
      (fun w => (w.hs.state, w.hs.crypto_select, w.doneCalls, w.dispatched, w.io.encryption_type)) =
    some (AWAITING_HANDSHAKE, 3, [],
      [(AWAITING_YB, false), (AWAITING_VC, false), (AWAITING_CRYPTO_SELECT, false),
       (AWAITING_PAD_D, false), (AWAITING_HANDSHAKE, false)], 3) := by
  rfl


set_option maxRecDepth 100000 in
/-- C7 (counterexample): a responder that receives `len(IA) = 65535` stores it and waits in
`AWAITING_IA` without a done call, so `ia_len ≤ 512` does not hold in every reachable state. -/
theorem ia_len_exceeds_512 :
    (run sampleEnv 8 (tr_handshakeNew sampleEnv (samplePipe true) TR_ENCRYPTION_PREFERRED)
        [Input.readable (sampleKey ++ sampleMessage3 [] 0 65535 [])]).map
      (fun w => (w.hs.state, w.hs.ia_len, w.doneCalls)) = some (AWAITING_IA, 65535, []) ∧
    ¬ (∀ w, Reachable sampleEnv w → w.hs.ia_len ≤ 512) := by
  refine ⟨by decide, fun hall => ?_⟩
  have h0 : Reachable sampleEnv _ := Reachable.init (samplePipe true) TR_ENCRYPTION_PREFERRED
  have h1 := Reachable.arrive _ (sampleKey ++ sampleMessage3 [] 0 65535 []) h0
  have h2 := Reachable.step _ h1
  have h3 := Reachable.step _ h2
  have h4 := Reachable.step _ h3
  have h5 := Reachable.step _ h4
  have h6 := Reachable.step _ h5
  exact absurd (hall _ h6) (by decide)


/-- C7 (amended): `ia_len` is a 16-bit value in every reachable state, and `readPadC`, once
`pad_c_len + 2` bytes are buffered, stores the received `len(IA)` whatever its value and moves
to `AWAITING_IA` without ending the session. -/
theorem ia_len_stored_unchecked (env : Env) :
    (∀ w, Reachable env w → w.hs.ia_len < 65536) ∧
    (∀ w : World, w.hs.pad_c_len + 2 ≤ w.io.inbuf.length →
      (readPadC env w).1 = READ_NOW ∧
      (readPadC env w).2.hs.ia_len =
        (tr_peerIoReadUint16 env (evbuffer_drain w.io w.hs.pad_c_len)).1 ∧
      (readPadC env w).2.hs.state = AWAITING_IA ∧
      (readPadC env w).2.doneCalls = w.doneCalls ∧
      (readPadC env w).2.hs.freed = w.hs.freed) := by
  refine ⟨fun w h => (reachable_lengths_bounded env w h).2.2, fun w hlen => ?_⟩
  have hl : ¬ w.io.inbuf.length < w.hs.pad_c_len + 2 := by omega
  simp [readPadC, hl, setState]

/-! ### The stream cipher -/

theorem rc4Apply_append (ks : Nat → Nat) (pos : Nat) (a b : List Nat) :
    rc4Apply ks pos (a ++ b) = rc4Apply ks pos a ++ rc4Apply ks (pos + a.length) b := by
  induction a generalizing pos with
  | nil => simp [rc4Apply]
  | cons x xs ih =>
    have h := ih (pos + 1)
    rw [show pos + 1 + xs.length = pos + (xs.length + 1) by omega] at h
    rw [List.cons_append]
    simp only [rc4Apply, List.length_cons]
    rw [h, List.cons_append]

theorem rc4Apply_involutive (ks : Nat → Nat) (pos : Nat) (l : List Nat) :
    rc4Apply ks pos (rc4Apply ks pos l) = l := by
  induction l generalizing pos with
  | nil => rfl
  | cons x xs ih => simp [rc4Apply, ih, Nat.xor_cancel_right]

theorem rc4Apply_take (ks : Nat → Nat) (pos n : Nat) (l : List Nat) :
    (rc4Apply ks pos l).take n = rc4Apply ks pos (l.take n) := by
  induction l generalizing pos n with
  | nil => simp [rc4Apply]
  | cons x xs ih =>
    cases n with
    | zero => simp [rc4Apply]
    | succ n => simp [rc4Apply, ih]

theorem rc4Apply_drop (ks : Nat → Nat) (pos n : Nat) (l : List Nat) :
    (rc4Apply ks pos l).drop n = rc4Apply ks (pos + n) (l.drop n) := by
  induction l generalizing pos n with
  | nil => simp [rc4Apply]
  | cons x xs ih =>
    cases n with
    | zero => simp [rc4Apply]
    | succ n =>
      have h := ih (pos + 1) n
      rw [show pos + 1 + n = pos + (n + 1) by omega] at h
      simp only [rc4Apply, List.drop_succ_cons, h]

/-- Reading through a pipe in RC4 mode returns the plaintext of what the peer encrypted at
the offset the decryption stream has reached. -/
theorem tr_peerIoReadBytes_cipher (env : Env) (io : tr_peerIo) (x rest : List Nat) (n : Nat)
    (henc : io.encryption_type = 2)
    (hbuf : io.inbuf = rc4Apply (ctxKeystream env io.dec_key) io.dec_key.pos x ++ rest)
    (hn : x.length = n) :
    tr_peerIoReadBytes env io n =
      (x, { io with inbuf := rest, dec_key := { io.dec_key with pos := io.dec_key.pos + n } }) := by
  have hl : (rc4Apply (ctxKeystream env io.dec_key) io.dec_key.pos x).length = n := by
    rw [rc4Apply_length, hn]
  have ht : List.take n io.inbuf = rc4Apply (ctxKeystream env io.dec_key) io.dec_key.pos x := by
    rw [hbuf, ← hl]; exact List.take_left _ _
  have hd : List.drop n io.inbuf = rest := by
    rw [hbuf, ← hl]; exact List.drop_left _ _
  rw [tr_peerIoReadBytes_rc4 env io n henc, ht, hd, rc4Apply_involutive, hl]

theorem be16_u16Bytes (n : Nat) (h : n < 65536) : be16 (u16Bytes n) = n := by
  simp [be16, u16Bytes]; omega

theorem be32_u32Bytes (n : Nat) (h : n < 4294967296) : be32 (u32Bytes n) = n := by
  simp [be32, u32Bytes]; omega

theorem xorDigest_cancel (a b : List Nat) (ha : a.length = 20) :
    xorDigest (xorDigest a b) b = a := by
  apply List.ext_getElem
  · simp [xorDigest, ha]
  · intro i h1 h2
    have hi : i < 20 := by simpa [xorDigest] using h1
    simp [xorDigest, hi, Nat.xor_cancel_right, List.getD_eq_getElem?_getD, List.getElem?_eq_getElem h2]

/-! ### Resynchronisation -/

theorem evbuffer_search_eq_some (what buf : List Nat) (p : Nat) :
    evbuffer_search what buf = some p ↔
      p ≤ buf.length ∧ (buf.drop p).take what.length = what ∧
      ∀ q, q < p → (buf.drop q).take what.length ≠ what := by
  induction buf generalizing p with
  | nil =>
    simp only [evbuffer_search, List.length_nil, Nat.le_zero, List.drop_nil, List.take_nil]
    constructor
    · intro h
      split at h
      · rename_i hw
        cases h
        exact ⟨rfl, hw.symm, fun q hq => absurd hq (Nat.not_lt_zero q)⟩
      · cases h
    · rintro ⟨rfl, hw, -⟩
      rw [if_pos hw.symm]
  | cons b rest ih =>
    simp only [evbuffer_search]
    by_cases h0 : List.take what.length (b :: rest) = what
    · rw [if_pos h0]
      constructor
      · intro h
        cases h
        exact ⟨Nat.zero_le _, by simpa using h0, fun q hq => absurd hq (Nat.not_lt_zero q)⟩
      · rintro ⟨-, -, hq⟩
        cases p with
        | zero => rfl
        | succ p => exact absurd (by simpa using h0) (hq 0 (Nat.succ_pos p))
    · rw [if_neg h0]
      constructor
      · intro h
        cases hs : evbuffer_search what rest with
        | none => simp [hs] at h
        | some p' =>
          simp [hs] at h
          subst h
          obtain ⟨h1, h2, h3⟩ := (ih p').1 hs
          refine ⟨by simpa using h1, by simpa using h2, fun q hq => ?_⟩
          cases q with
          | zero => simpa using h0
          | succ q => simpa using h3 q (by omega)
      · rintro ⟨h1, h2, h3⟩
        cases p with
        | zero => exact absurd (by simpa using h2) h0
        | succ p =>
          have := (ih p).2 ⟨by simpa using h1, by simpa using h2, fun q hq => by
            simpa using h3 (q + 1) (by omega)⟩
          simp [this]

theorem evbuffer_search_padding (what pre : List Nat) (hw : 0 < what.length)
    (h : NoEarlierMatch what pre) : evbuffer_search what pre = none := by
  cases hs : evbuffer_search what pre with
  | none => rfl
  | some p =>
    exfalso
    obtain ⟨h1, h2, -⟩ := (evbuffer_search_eq_some what pre p).1 hs
    have hlen : what.length ≤ (pre.drop p).length := by
      have := congrArg List.length h2
      simp only [List.length_take] at this
      omega
    have hp : p < pre.length := by
      simp only [List.length_drop] at hlen; omega
    apply h p hp
    rw [List.drop_append_of_le_length (by omega), List.take_append_of_le_length hlen]
    exact h2

theorem evbuffer_search_marker (what pre rest : List Nat) (k : Nat) (hk : k ≤ pre.length)
    (h : NoEarlierMatch what pre) :
    evbuffer_search what (pre.drop k ++ (what ++ rest)) = some (pre.length - k) := by
  rw [evbuffer_search_eq_some]
  have hl : (pre.drop k).length = pre.length - k := List.length_drop _ _
  refine ⟨by simp, ?_, fun q hq => ?_⟩
  · rw [← hl, List.drop_left, List.take_left]
  · have hq' : k + q < pre.length := by omega
    have := h (k + q) hq'
    rw [List.drop_append_of_le_length (by omega)] at this
    rw [List.drop_append_of_le_length (by rw [hl]; omega), List.drop_drop]
    have hpos : 0 < (pre.drop (k + q)).length := by simp; omega
    rw [← List.append_assoc, List.take_append_of_le_length (by simp)]
    exact this

theorem readVCLoop_of_le (env : Env) (l : List Nat) (io : tr_peerIo) (h : 8 ≤ l.length) :
    readVCLoop env l io =
      if (tr_cryptoDecrypt env (tr_cryptoDecryptInit io) (l.take 8)).1 = List.replicate 8 0 then
        (true, { (tr_cryptoDecrypt env (tr_cryptoDecryptInit io) (l.take 8)).2 with inbuf := l })
      else readVCLoop env l.tail (tr_cryptoDecrypt env (tr_cryptoDecryptInit io) (l.take 8)).2 := by
  cases l with
  | nil => simp at h
  | cons b rest =>
    have hl : ¬ rest.length + 1 < 8 := by simp at h; omega
    simp [readVCLoop, hl]

theorem encryptedVC_length (env : Env) (io : tr_peerIo) : (encryptedVC env io).length = 8 := by
  simp [encryptedVC, rc4Apply_length]

theorem NoEarlierMatch_tail (what : List Nat) (b : Nat) (pre : List Nat)
    (h : NoEarlierMatch what (b :: pre)) : NoEarlierMatch what pre := by
  intro q hq
  have := h (q + 1) (by simp; omega)
  simpa using this

theorem readVCLoop_found_aux (env : Env) (vc pre rest : List Nat) :
    ∀ io : tr_peerIo, encryptedVC env io = vc → NoEarlierMatch vc pre →
      readVCLoop env (pre ++ (vc ++ rest)) io =
        (true, { io with inbuf := vc ++ rest,
                         dec_key := { (tr_cryptoDecryptInit io).dec_key with pos := 8 } }) := by
  induction pre with
  | nil =>
    intro io hvc _
    have hlen : vc.length = 8 := by rw [← hvc]; exact encryptedVC_length env io
    have ht : List.take 8 (vc ++ rest) = vc := by rw [← hlen]; exact List.take_left _ _
    rw [List.nil_append, readVCLoop_of_le env _ io (by simp [hlen])]
    have hdec : (tr_cryptoDecrypt env (tr_cryptoDecryptInit io) (List.take 8 (vc ++ rest))).1 =
        List.replicate 8 0 := by
      rw [ht, ← hvc]
      simp only [tr_cryptoDecrypt, encryptedVC]
      exact rc4Apply_involutive _ _ _
    rw [if_pos hdec, ht]
    simp [tr_cryptoDecrypt, tr_cryptoDecryptInit, hlen]
  | cons b pre ih =>
    intro io hvc hno
    have hlen : vc.length = 8 := by rw [← hvc]; exact encryptedVC_length env io
    rw [readVCLoop_of_le env _ io (by simp [hlen]; omega)]
    have hne : ¬ (tr_cryptoDecrypt env (tr_cryptoDecryptInit io)
        (List.take 8 (b :: pre ++ (vc ++ rest)))).1 = List.replicate 8 0 := by
      intro hz
      have h0 := hno 0 (by simp)
      apply h0
      rw [List.drop_zero, hlen]
      have ht : List.take 8 (b :: pre ++ (vc ++ rest)) = List.take 8 (b :: pre ++ vc) := by
        rw [← List.append_assoc, List.take_append_of_le_length (by simp [hlen])]
      rw [ht] at hz
      simp only [tr_cryptoDecrypt] at hz
      have := congrArg (rc4Apply (ctxKeystream env (tr_cryptoDecryptInit io).dec_key)
        (tr_cryptoDecryptInit io).dec_key.pos) hz
      rw [rc4Apply_involutive] at this
      rw [this, ← hvc]
      rfl
    rw [if_neg hne]
    have hio : encryptedVC env (tr_cryptoDecrypt env (tr_cryptoDecryptInit io)
        (List.take 8 (b :: pre ++ (vc ++ rest)))).2 = vc := by
      rw [← hvc]; rfl
    have := ih _ hio (NoEarlierMatch_tail vc b pre hno)
    simp only [List.cons_append, List.tail_cons] at this ⊢
    rw [this]
    rfl

theorem readVCLoop_found (env : Env) (pre rest : List Nat) (io : tr_peerIo)
    (h : NoEarlierMatch (encryptedVC env io) pre) :
    readVCLoop env (pre ++ (encryptedVC env io ++ rest)) io =
      (true, { io with inbuf := encryptedVC env io ++ rest,
                       dec_key := { (tr_cryptoDecryptInit io).dec_key with pos := 8 } }) :=
  readVCLoop_found_aux env _ pre rest io rfl h
/-! ### The transitions of an encrypted handshake, one by one -/

theorem readHandshake_to_ya (env : Env) (w : World)
    (hlen : 48 ≤ w.io.inbuf.length) (hname : w.io.inbuf.take 20 ≠ HANDSHAKE_NAME)
    (hin : w.io.isIncoming = true) (hfresh : w.io.torrentHash = none) :
    readHandshake env w = (READ_NOW,
      { w with hs := { w.hs with haveReadAnythingFromPeer := true, state := AWAITING_YA } }) := by
  have hl : ¬ w.io.inbuf.length < 48 := by omega
  have hn : ¬ List.take 20 w.io.inbuf = HANDSHAKE_NAME := hname
  simp [readHandshake, hl, hn, hin, tr_peerIoHasTorrentHash, hfresh, setState]

theorem readYa_ok (env : Env) (w : World) (S : List Nat)
    (hlen : 96 ≤ w.io.inbuf.length) (hS : env.computeSecret (w.io.inbuf.take 96) = some S)
    (henc : w.io.encryption_type ≠ 2) :
    readYa env w = (READ_NOW,
      { w with
        hs := { w.hs with myReq1 := env.sha1 (req1Name ++ S), state := AWAITING_PAD_A },
        io := { w.io with inbuf := w.io.inbuf.drop 96, mySecret := some S,
                          writes := w.io.writes ++
                            [{ data := env.myPublicKey ++ randomPad env w.randCount 512,
                               encryption_type := w.io.encryption_type,
                               wire := env.myPublicKey ++ randomPad env w.randCount 512 }] },
        randCount := w.randCount + 1 }) := by
  have hl : ¬ w.io.inbuf.length < 96 := by omega
  have he : ¬ w.io.encryption_type = 2 := henc
  simp [readYa, hl, evbuffer_remove, tr_cryptoComputeSecret, hS, computeRequestHash, setReadState,
    setState, tr_peerIoWriteBytes_plain, he]

theorem readPadA_wait (env : Env) (w : World)
    (hs : evbuffer_search w.hs.myReq1 w.io.inbuf = none) :
    readPadA env w = (READ_LATER,
      { w with io := { w.io with inbuf := w.io.inbuf.drop (w.io.inbuf.length - 20) } }) := by
  by_cases h : w.io.inbuf.length > 20
  · simp [readPadA, hs, h, evbuffer_drain]
  · have h0 : w.io.inbuf.length - 20 = 0 := by omega
    simp [readPadA, hs, h, h0]

theorem readPadA_found (env : Env) (w : World) (p : Nat)
    (hs : evbuffer_search w.hs.myReq1 w.io.inbuf = some p) :
    readPadA env w = (READ_NOW,
      { w with hs := { w.hs with state := AWAITING_CRYPTO_PROVIDE },
               io := { w.io with inbuf := w.io.inbuf.drop p } }) := by
  simp [readPadA, hs, evbuffer_drain, setState]

theorem readCryptoProvide_ok (env : Env) (w : World) (tor : tr_torrent)
    (r1 obf vc rest : List Nat) (cp padc : Nat)
    (hbuf : w.io.inbuf = r1 ++ (obf ++
      (rc4Apply (env.keystream w.io.isIncoming (w.io.mySecret.getD []) tor.hash) 0
        (vc ++ (u32Bytes cp ++ u16Bytes padc)) ++ rest)))
    (hr1 : r1.length = 20) (hobf : obf.length = 20) (hvc : vc.length = 8)
    (hcp : cp < 4294967296) (hpadc : padc ≤ 512)
    (hfind : tr_torrentFindFromObfuscatedHash env
      (xorDigest obf (computeRequestHash env w.io req3Name)) = some tor)
    (hrun : tor.isRunning = true) (hseed : ¬ (tor.isSeed = true ∧ tor.peerIsSeed = true)) :
    readCryptoProvide env w = (READ_NOW,
      { w with
        hs := { w.hs with crypto_provide := cp, pad_c_len := padc, state := AWAITING_PAD_C },
        io := { w.io with
                inbuf := rest, torrentHash := some tor.hash, encryption_type := 2,
                dec_key := { a2b := w.io.isIncoming, secret := w.io.mySecret.getD [],
                             skey := tor.hash, pos := 14 },
                enc_key := { a2b := !w.io.isIncoming, secret := w.io.mySecret.getD [],
                             skey := tor.hash, pos := 0 } } }) := by
  have hlen : 54 ≤ w.io.inbuf.length := by
    rw [hbuf]; simp [hr1, hobf, hvc, rc4Apply_length, u32Bytes, u16Bytes]; omega
  have hd20 : List.drop 20 w.io.inbuf = obf ++
      (rc4Apply (env.keystream w.io.isIncoming (w.io.mySecret.getD []) tor.hash) 0
        (vc ++ (u32Bytes cp ++ u16Bytes padc)) ++ rest) := by
    rw [hbuf, ← hr1]; exact List.drop_left _ _
  have hobf' : receivedObfuscatedHash env w = xorDigest obf (computeRequestHash env w.io req3Name) := by
    unfold receivedObfuscatedHash
    rw [hd20, ← hobf, List.take_left]
  have hd40 : List.drop 40 w.io.inbuf =
      rc4Apply (env.keystream w.io.isIncoming (w.io.mySecret.getD []) tor.hash) 0 vc ++
      (rc4Apply (env.keystream w.io.isIncoming (w.io.mySecret.getD []) tor.hash) 8 (u32Bytes cp) ++
       (rc4Apply (env.keystream w.io.isIncoming (w.io.mySecret.getD []) tor.hash) 12 (u16Bytes padc) ++
        rest)) := by
    rw [show (40 : Nat) = 20 + 20 from rfl, ← List.drop_drop, hd20, ← hobf, List.drop_left,
      rc4Apply_append, rc4Apply_append, hvc]
    simp [u32Bytes]
  rw [readCryptoProvide_accepted env w tor hlen (hobf'.symm ▸ hfind) hrun hseed]
  have h1 := tr_peerIoReadBytes_cipher env
    (tr_peerIoSetEncryption (tr_cryptoEncryptInit (tr_cryptoDecryptInit
      (tr_peerIoSetTorrentHash (evbuffer_drain w.io 40) tor.hash))) PEER_ENCRYPTION_RC4)
    vc _ 8 rfl hd40 hvc
  have hp : ¬ 512 < padc := by omega
  dsimp only [readCryptoProvideParse, tr_peerIoReadUint32, tr_peerIoReadUint16, VC_LENGTH]
  rw [h1]
  dsimp only
  rw [tr_peerIoReadBytes_cipher env _ (u32Bytes cp)
    (rc4Apply (env.keystream w.io.isIncoming (w.io.mySecret.getD []) tor.hash) 12 (u16Bytes padc) ++
        rest) 4 rfl rfl rfl]
  dsimp only
  rw [tr_peerIoReadBytes_cipher env _ (u16Bytes padc) rest 2 rfl rfl rfl]
  simp only [be32_u32Bytes cp hcp, be16_u16Bytes padc (by omega), PadC_MAXLEN, gt_iff_lt, hp, ↓reduceIte]
  simp [setState, tr_peerIoSetEncryption, tr_cryptoEncryptInit, tr_cryptoDecryptInit,
    tr_peerIoSetTorrentHash, evbuffer_drain]

theorem readPadC_ok (env : Env) (w : World) (padC rest : List Nat) (n : Nat)
    (henc : w.io.encryption_type = 2)
    (hbuf : w.io.inbuf = padC ++
      (rc4Apply (ctxKeystream env w.io.dec_key) w.io.dec_key.pos (u16Bytes n) ++ rest))
    (hpad : padC.length = w.hs.pad_c_len) (hn : n < 65536) :
    readPadC env w = (READ_NOW,
      { w with hs := { w.hs with ia_len := n, state := AWAITING_IA },
               io := { w.io with inbuf := rest,
                                 dec_key := { w.io.dec_key with pos := w.io.dec_key.pos + 2 } } }) := by
  have hl : ¬ w.io.inbuf.length < w.hs.pad_c_len + 2 := by
    rw [hbuf]; simp [hpad, rc4Apply_length, u16Bytes]
  have hd : List.drop w.hs.pad_c_len w.io.inbuf =
      rc4Apply (ctxKeystream env w.io.dec_key) w.io.dec_key.pos (u16Bytes n) ++ rest := by
    rw [hbuf, ← hpad]; exact List.drop_left _ _
  have hdr : evbuffer_drain w.io w.hs.pad_c_len =
      { w.io with inbuf :=
          rc4Apply (ctxKeystream env w.io.dec_key) w.io.dec_key.pos (u16Bytes n) ++ rest } := by
    simp [evbuffer_drain, hd]
  dsimp only [readPadC, tr_peerIoReadUint16]
  rw [if_neg hl, hdr, tr_peerIoReadBytes_cipher env
    { w.io with inbuf :=
        rc4Apply (ctxKeystream env w.io.dec_key) w.io.dec_key.pos (u16Bytes n) ++ rest }
    (u16Bytes n) rest 2 henc rfl rfl]
  simp [setState, be16_u16Bytes n hn]

theorem readIA_crypto_selected (env : Env) (w : World) (H : List Nat) (tor : tr_torrent)
    (hlen : w.hs.ia_len ≤ w.io.inbuf.length)
    (hsel : getCryptoSelect w.hs.encryptionMode w.hs.crypto_provide = 2)
    (henc : w.io.encryption_type = 2)
    (hb : w.io.torrentHash = some H) (hfind : tr_torrentFindFromHash env.session H = some tor)
    (hrun : tor.isRunning = true) :
    readIA env w = (READ_NOW,
      { w with
        hs := { w.hs with haveSentBitTorrentHandshake := true, state := AWAITING_HANDSHAKE },
        io := { w.io with
                writes := w.io.writes ++
                  [{ data := List.replicate 8 0 ++ u32Bytes 2 ++ u16Bytes 0 ++
                             ourHandshake env H tor.peer_id,
                     encryption_type := 2,
                     wire := rc4Apply (ctxKeystream env w.io.enc_key) w.io.enc_key.pos
                       (List.replicate 8 0 ++ u32Bytes 2 ++ u16Bytes 0 ++
                         ourHandshake env H tor.peer_id) }],
                enc_key := { w.io.enc_key with pos := w.io.enc_key.pos +
                  (List.replicate 8 0 ++ u32Bytes 2 ++ u16Bytes 0 ++
                    ourHandshake env H tor.peer_id).length } } }) := by
  have hl : ¬ w.io.inbuf.length < w.hs.ia_len := by omega
  have hmsg := fun w' hb' => buildHandshakeMessage_eq env w' H tor hb' hfind hrun
  simp [readIA, hl, hsel, hmsg, hb, tr_peerIoWriteBuf, tr_peerIoWriteBytes_rc4, henc, setState]

theorem readHandshake_encrypted (env : Env) (w : World) (reserved H rest : List Nat)
    (henc : w.io.encryption_type = 2)
    (hbuf : w.io.inbuf = rc4Apply (ctxKeystream env w.io.dec_key) w.io.dec_key.pos
      (HANDSHAKE_NAME ++ (reserved ++ H)) ++ rest)
    (hraw : rc4Apply (ctxKeystream env w.io.dec_key) w.io.dec_key.pos HANDSHAKE_NAME ≠ HANDSHAKE_NAME)
    (hres : reserved.length = 8) (hH : H.length = 20)
    (hb : w.io.torrentHash = some H)
    (hsent : w.hs.haveSentBitTorrentHandshake = true) :
    readHandshake env w = (READ_NOW,
      { w with
        hs := { w.hs with haveReadAnythingFromPeer := true, state := AWAITING_PEER_ID },
        io := { w.io with inbuf := rest,
                          dhtSupported := HANDSHAKE_HAS_DHT reserved,
                          ltepSupported := HANDSHAKE_HAS_LTEP reserved,
                          fextSupported := HANDSHAKE_HAS_FASTEXT reserved,
                          dec_key := { w.io.dec_key with pos := w.io.dec_key.pos + 48 } } }) := by
  have hname : HANDSHAKE_NAME.length = 20 := rfl
  have hsplit : w.io.inbuf =
      rc4Apply (ctxKeystream env w.io.dec_key) w.io.dec_key.pos HANDSHAKE_NAME ++
      (rc4Apply (ctxKeystream env w.io.dec_key) (w.io.dec_key.pos + 20) reserved ++
       (rc4Apply (ctxKeystream env w.io.dec_key) (w.io.dec_key.pos + 20 + 8) H ++ rest)) := by
    rw [hbuf, rc4Apply_append, rc4Apply_append, hname, hres]
    simp
  have hl : ¬ w.io.inbuf.length < 48 := by
    rw [hsplit]; simp [rc4Apply_length, hname, hres, hH]; omega
  have ht : List.take 20 w.io.inbuf =
      rc4Apply (ctxKeystream env w.io.dec_key) w.io.dec_key.pos HANDSHAKE_NAME := by
    rw [hsplit]; exact List.take_left' (by rw [rc4Apply_length, hname])
  have hne : ¬ List.take 20 w.io.inbuf = HANDSHAKE_NAME := by rw [ht]; exact hraw
  have hnf : ¬ (w.io.isIncoming = true ∧ tr_peerIoHasTorrentHash w.io = false) := by
    simp [tr_peerIoHasTorrentHash, hb]
  have hie : ¬ tr_peerIoIsEncrypted w.io = false := by simp [tr_peerIoIsEncrypted, henc]
  dsimp only [readHandshake, INCOMING_HANDSHAKE_LEN, HANDSHAKE_NAME_LEN]
  rw [if_neg hl, if_neg hne, if_neg hnf, if_neg hie]
  dsimp only [readHandshakeParse, HANDSHAKE_NAME_LEN, HANDSHAKE_FLAGS_LEN, SHA_DIGEST_LENGTH]
  rw [tr_peerIoReadBytes_cipher env _ HANDSHAKE_NAME _ 20 henc hsplit rfl]
  dsimp only
  rw [if_neg (by simp)]
  rw [tr_peerIoReadBytes_cipher env
    { w.io with
      inbuf := rc4Apply (ctxKeystream env w.io.dec_key) (w.io.dec_key.pos + 20) reserved ++
        (rc4Apply (ctxKeystream env w.io.dec_key) (w.io.dec_key.pos + 20 + 8) H ++ rest),
      dec_key := { w.io.dec_key with pos := w.io.dec_key.pos + 20 } }
    reserved
    (rc4Apply (ctxKeystream env w.io.dec_key) (w.io.dec_key.pos + 20 + 8) H ++ rest) 8 henc rfl hres]
  dsimp only [tr_peerIoEnableDHT, tr_peerIoEnableLTEP, tr_peerIoEnableFEXT]
  rw [tr_peerIoReadBytes_cipher env
    { w.io with
      inbuf := rc4Apply (ctxKeystream env w.io.dec_key) (w.io.dec_key.pos + 20 + 8) H ++ rest,
      dec_key := { w.io.dec_key with pos := w.io.dec_key.pos + 20 + 8 },
      dhtSupported := HANDSHAKE_HAS_DHT reserved,
      ltepSupported := HANDSHAKE_HAS_LTEP reserved,
      fextSupported := HANDSHAKE_HAS_FASTEXT reserved }
    H rest 20 henc rfl hH]
  simp [tr_peerIoHasTorrentHash, hb, readHandshakeReply, hsent, setReadState, setState,
    Nat.add_assoc]

theorem readPeerId_encrypted (env : Env) (w : World) (id rest H : List Nat) (tor : tr_torrent)
    (henc : w.io.encryption_type = 2)
    (hbuf : w.io.inbuf = rc4Apply (ctxKeystream env w.io.dec_key) w.io.dec_key.pos id ++ rest)
    (hid : id.length = 20)
    (hb : w.io.torrentHash = some H) (hfind : tr_torrentFindFromHash env.session H = some tor)
    (hne : id ≠ tor.peer_id) :
    readPeerId env w =
      tr_handshakeDone env
        { w with io := { w.io with inbuf := rest, peersId := some id,
                                   dec_key := { w.io.dec_key with pos := w.io.dec_key.pos + 20 } },
                 hs := { w.hs with havePeerID := true } } true := by
  have hl : ¬ w.io.inbuf.length < 20 := by
    rw [hbuf]; simp [rc4Apply_length, hid]
  have hne' : ¬ id = tor.peer_id := hne
  dsimp only [readPeerId, PEER_ID_LEN]
  rw [if_neg hl, tr_peerIoReadBytes_cipher env w.io id rest 20 henc hbuf hid]
  simp [tr_peerIoSetPeersId, hb, hfind, hne']

theorem tr_handshakeNew_outgoing (env : Env) (io : tr_peerIo) (m : tr_encryption_mode)
    (hout : io.isIncoming = false) (hm : m ≠ TR_CLEAR_PREFERRED) :
    tr_handshakeNew env io m =
      { hs := { newHandshake m with state := AWAITING_YB },
        io := { io with refCount := io.refCount + 1, funcsInstalled := true,
                        encryption_type := PEER_ENCRYPTION_NONE,
                        writes := io.writes ++
                          [{ data := env.myPublicKey ++ randomPad env 0 512,
                             encryption_type := PEER_ENCRYPTION_NONE,
                             wire := env.myPublicKey ++ randomPad env 0 512 }] },
        doneCalls := [], dispatched := [], utpFailed := [], reconnects := [], randCount := 1,
        timerFreed := false } := by
  have hm' : ¬ m = TR_CLEAR_PREFERRED := hm
  simp [tr_handshakeNew, hout, hm', tr_peerIoSetEncryption, sendYa, setReadState, setState,
    newHandshake, tr_peerIoWriteBytes_plain]

theorem readYb_ok (env : Env) (w : World) (S H : List Nat) (tor : tr_torrent)
    (hlen : 96 ≤ w.io.inbuf.length) (hname : w.io.inbuf.take 20 ≠ HANDSHAKE_NAME)
    (hS : env.computeSecret (w.io.inbuf.take 96) = some S)
    (henc : w.io.encryption_type ≠ 2)
    (hb : w.io.torrentHash = some H) (hfind : tr_torrentFindFromHash env.session H = some tor)
    (hrun : tor.isRunning = true) :
    readYb env w = (READ_LATER,
      { w with
        hs := { w.hs with haveReadAnythingFromPeer := true, haveSentBitTorrentHandshake := true,
                          state := AWAITING_VC },
        io := { w.io with
                inbuf := w.io.inbuf.drop 96, mySecret := some S, encryption_type := 2,
                enc_key := { a2b := !w.io.isIncoming, secret := S, skey := H,
                             pos := (List.replicate 8 0 ++
                               u32Bytes (getCryptoProvide w.hs.encryptionMode) ++ u16Bytes 0 ++
                               u16Bytes 68 ++ ourHandshake env H tor.peer_id).length },
                writes := w.io.writes ++
                  [{ data := env.sha1 (req1Name ++ S) ++
                       xorDigest (env.sha1 (req2Name ++ H)) (env.sha1 (req3Name ++ S)),
                     encryption_type := w.io.encryption_type,
                     wire := env.sha1 (req1Name ++ S) ++
                       xorDigest (env.sha1 (req2Name ++ H)) (env.sha1 (req3Name ++ S)) },
                   { data := List.replicate 8 0 ++
                       u32Bytes (getCryptoProvide w.hs.encryptionMode) ++ u16Bytes 0 ++
                       u16Bytes 68 ++ ourHandshake env H tor.peer_id,
                     encryption_type := 2,
                     wire := rc4Apply (env.keystream (!w.io.isIncoming) S H) 0
                       (List.replicate 8 0 ++
                         u32Bytes (getCryptoProvide w.hs.encryptionMode) ++ u16Bytes 0 ++
                         u16Bytes 68 ++ ourHandshake env H tor.peer_id) }] } }) := by
  have hl20 : ¬ w.io.inbuf.length < 20 := by omega
  have hl96 : ¬ w.io.inbuf.length < 96 := by omega
  have hn : ¬ List.take 20 w.io.inbuf = HANDSHAKE_NAME := hname
  have he : ¬ w.io.encryption_type = 2 := henc
  have hmsg := fun w' hb' => buildHandshakeMessage_eq env w' H tor hb' hfind hrun
  simp [readYb, hl20, hl96, hn, evbuffer_remove, tr_cryptoComputeSecret, hS, computeRequestHash,
    tr_peerIoWriteBuf, tr_peerIoWriteBytes_plain, he, tr_peerIoSetEncryption, tr_cryptoEncryptInit,
    hb, hmsg, setReadState, setState, tr_peerIoWriteBytes_rc4, ctxKeystream]

theorem readVC_found (env : Env) (w : World) (pre rest : List Nat)
    (hbuf : w.io.inbuf = pre ++ (encryptedVC env w.io ++ rest))
    (h : NoEarlierMatch (encryptedVC env w.io) pre) :
    readVC env w = (READ_NOW,
      { w with hs := { w.hs with state := AWAITING_CRYPTO_SELECT },
               io := { w.io with inbuf := rest,
                                 dec_key := { (tr_cryptoDecryptInit w.io).dec_key with pos := 8 } } }) := by
  have hd : List.drop 8 (encryptedVC env w.io ++ rest) = rest := by
    rw [← encryptedVC_length env w.io]; exact List.drop_left _ _
  dsimp only [readVC]
  rw [hbuf, readVCLoop_found env pre rest w.io h]
  simp [evbuffer_drain, setState, hd]

theorem readCryptoSelect_ok (env : Env) (w : World) (rest : List Nat) (cs pd : Nat)
    (henc : w.io.encryption_type = 2)
    (hbuf : w.io.inbuf = rc4Apply (ctxKeystream env w.io.dec_key) w.io.dec_key.pos
      (u32Bytes cs ++ u16Bytes pd) ++ rest)
    (hcs : cs < 4294967296) (hsel : cs &&& getCryptoProvide w.hs.encryptionMode ≠ 0)
    (hpd : pd ≤ 512) :
    readCryptoSelect env w = (READ_NOW,
      { w with hs := { w.hs with crypto_select := cs, pad_d_len := pd, state := AWAITING_PAD_D },
               io := { w.io with inbuf := rest,
                                 dec_key := { w.io.dec_key with pos := w.io.dec_key.pos + 6 } } }) := by
  have hsplit : w.io.inbuf =
      rc4Apply (ctxKeystream env w.io.dec_key) w.io.dec_key.pos (u32Bytes cs) ++
      (rc4Apply (ctxKeystream env w.io.dec_key) (w.io.dec_key.pos + 4) (u16Bytes pd) ++ rest) := by
    rw [hbuf, rc4Apply_append]; simp [u32Bytes]
  have hl : ¬ w.io.inbuf.length < 4 + 2 := by
    rw [hsplit]; simp [rc4Apply_length, u32Bytes, u16Bytes]; omega
  have hs : ¬ cs &&& getCryptoProvide w.hs.encryptionMode = 0 := hsel
  have hp : ¬ pd > 512 := by omega
  dsimp only [readCryptoSelect, tr_peerIoReadUint32, tr_peerIoReadUint16, PadD_MAXLEN]
  rw [if_neg hl, tr_peerIoReadBytes_cipher env w.io (u32Bytes cs) _ 4 henc hsplit rfl]
  dsimp only
  rw [be32_u32Bytes cs hcs, if_neg hs]
  rw [tr_peerIoReadBytes_cipher env
    { w.io with
      inbuf := rc4Apply (ctxKeystream env w.io.dec_key) (w.io.dec_key.pos + 4) (u16Bytes pd) ++ rest,
      dec_key := { w.io.dec_key with pos := w.io.dec_key.pos + 4 } }
    (u16Bytes pd) rest 2 henc rfl rfl]
  dsimp only
  rw [be16_u16Bytes pd (by omega), if_neg hp]
  simp [setState, Nat.add_assoc]

theorem readPadD_ok (env : Env) (w : World) (hpd : w.hs.pad_d_len = 0) :
    readPadD env w = (READ_NOW,
      { w with hs := { w.hs with state := AWAITING_HANDSHAKE },
               io := { w.io with encryption_type := w.hs.crypto_select } }) := by
  by_cases henc : w.io.encryption_type = 2
  · simp [readPadD, hpd, tr_peerIoDrain, tr_peerIoReadBytes_rc4, henc, tr_peerIoSetEncryption,
      setState]
  · simp [readPadD, hpd, tr_peerIoDrain, tr_peerIoReadBytes_plain, henc, tr_peerIoSetEncryption,
      setState]

/-! ### The driver loop, pass by pass -/

theorem canRead_now (env : Env) (n : Nat) (w w' : World)
    (hst : w.hs.state ≠ AWAITING_PEER_ID) (h : canReadStep env w = (READ_NOW, w')) :
    canRead env (n + 1) w = canRead env n w' := by
  have hst' : ¬ w.hs.state = AWAITING_PEER_ID := hst
  simp [canRead, hst', h]

theorem canRead_later (env : Env) (n : Nat) (w w' : World)
    (hst : w.hs.state ≠ AWAITING_PEER_ID) (h : canReadStep env w = (READ_LATER, w')) :
    canRead env (n + 1) w = some (READ_LATER, w') := by
  have hst' : ¬ w.hs.state = AWAITING_PEER_ID := hst
  simp [canRead, hst', h]

theorem canRead_peer_id (env : Env) (n : Nat) (w : World)
    (hst : w.hs.state = AWAITING_PEER_ID) :
    canRead env (n + 1) w =
      some (readPeerId env { w with dispatched := w.dispatched ++ [(AWAITING_PEER_ID, w.hs.freed)] }) := by
  simp [canRead, hst, canReadStep, canReadSwitch]

theorem canReadStep_eq (env : Env) (w : World) :
    canReadStep env w =
      canReadSwitch env { w with dispatched := w.dispatched ++ [(w.hs.state, w.hs.freed)] } := rfl

/-- The responder's first readable event: message 1 (Ya and PadA) arrives on a fresh
incoming session. -/
theorem responder_message1 (env : Env) (w : World) (S pub padA : List Nat) (n : Nat)
    (hstate : w.hs.state = AWAITING_HANDSHAKE)
    (hbuf : w.io.inbuf = pub ++ padA) (hpub : pub.length = 96)
    (hname : pub.take 20 ≠ HANDSHAKE_NAME)
    (hin : w.io.isIncoming = true) (hfresh : w.io.torrentHash = none)
    (henc : w.io.encryption_type = 1)
    (hS : env.computeSecret pub = some S)
    (hsha : (env.sha1 (req1Name ++ S)).length = 20)
    (hpad : NoEarlierMatch (env.sha1 (req1Name ++ S)) padA) :
    canRead env (n + 3) w = some (READ_LATER,
      { w with
        hs := { w.hs with haveReadAnythingFromPeer := true,
                          myReq1 := env.sha1 (req1Name ++ S), state := AWAITING_PAD_A },
        io := { w.io with inbuf := padA.drop (padA.length - 20), mySecret := some S,
                          writes := w.io.writes ++
                            [{ data := env.myPublicKey ++ randomPad env w.randCount 512,
                               encryption_type := 1,
                               wire := env.myPublicKey ++ randomPad env w.randCount 512 }] },
        randCount := w.randCount + 1,
        dispatched := w.dispatched ++
          [(AWAITING_HANDSHAKE, w.hs.freed), (AWAITING_YA, w.hs.freed),
           (AWAITING_PAD_A, w.hs.freed)] }) := by
  have ht20 : List.take 20 (pub ++ padA) = List.take 20 pub := by
    rw [List.take_append_of_le_length (by omega)]
  have ht96 : List.take 96 (pub ++ padA) = pub := by rw [← hpub]; exact List.take_left _ _
  have hd96 : List.drop 96 (pub ++ padA) = padA := by rw [← hpub]; exact List.drop_left _ _
  rw [canRead_now env _ w _ (by rw [hstate]; decide)
    (by rw [canReadStep_eq]; simp only [canReadSwitch, hstate]
        exact readHandshake_to_ya env _ (by simp [hbuf, hpub]; omega) (by simp [hbuf, ht20, hname])
          hin hfresh)]
  rw [canRead_now env _ _ _ (by simp)
    (by rw [canReadStep_eq]; simp only [canReadSwitch]
        exact readYa_ok env _ S (by simp [hbuf, hpub]) (by simp [hbuf, ht96, hS])
          (by simp [henc]))]
  rw [canRead_later env _ _ _ (by simp)
    (by rw [canReadStep_eq]; simp only [canReadSwitch]
        exact readPadA_wait env _ (by
          simp only [hbuf, hd96]
          exact evbuffer_search_padding _ _ (by omega) hpad))]
  simp [hbuf, hd96, henc]

theorem find_hash_eq {session : tr_session} {h : List Nat} {tor : tr_torrent}
    (hf : tr_torrentFindFromHash session h = some tor) : tor.hash = h := by
  have := List.find?_some hf
  simpa using this

/-- The responder's second readable event: message 3 arrives behind what is left of PadA. -/
theorem responder_message3 (env : Env) (w : World) (S H pre obf reserved id : List Nat)
    (tor : tr_torrent) (n : Nat)
    (hstate : w.hs.state = AWAITING_PAD_A)
    (hmode : w.hs.encryptionMode = TR_ENCRYPTION_PREFERRED)
    (hin : w.io.isIncoming = true) (hsecret : w.io.mySecret = some S)
    (hbuf : w.io.inbuf = pre ++ (w.hs.myReq1 ++ (obf ++
      (rc4Apply (env.keystream true S H) 0 (List.replicate 8 0 ++ (u32Bytes 2 ++ u16Bytes 0)) ++
       (rc4Apply (env.keystream true S H) 14 (u16Bytes 68) ++
        (rc4Apply (env.keystream true S H) 16 (HANDSHAKE_NAME ++ (reserved ++ H)) ++
         rc4Apply (env.keystream true S H) 64 id))))))
    (hsearch : evbuffer_search w.hs.myReq1 w.io.inbuf = some pre.length)
    (hreq1 : w.hs.myReq1.length = 20) (hobf : obf.length = 20)
    (hres : reserved.length = 8) (hH : H.length = 20) (hid : id.length = 20)
    (hfindo : tr_torrentFindFromObfuscatedHash env
      (xorDigest obf (env.sha1 (req3Name ++ S))) = some tor)
    (hfind : tr_torrentFindFromHash env.session H = some tor)
    (hrun : tor.isRunning = true) (hseed : ¬ (tor.isSeed = true ∧ tor.peerIsSeed = true))
    (hraw : rc4Apply (env.keystream true S H) 16 HANDSHAKE_NAME ≠ HANDSHAKE_NAME)
    (hne : id ≠ tor.peer_id) :
    ∃ W : World,
      canRead env (n + 6) w = some (tr_handshakeDone env W true) ∧
      W.doneCalls = w.doneCalls ∧
      W.hs.havePeerID = true ∧ W.hs.haveReadAnythingFromPeer = true ∧
      W.io.peersId = some id ∧ W.io.encryption_type = 2 ∧ W.io.torrentHash = some H ∧
      W.hs.crypto_select = w.hs.crypto_select ∧
      W.io.writes = w.io.writes ++
        [{ data := List.replicate 8 0 ++ u32Bytes 2 ++ u16Bytes 0 ++ ourHandshake env H tor.peer_id,
           encryption_type := 2,
           wire := rc4Apply (env.keystream false S H) 0
             (List.replicate 8 0 ++ u32Bytes 2 ++ u16Bytes 0 ++ ourHandshake env H tor.peer_id) }] ∧
      W.dispatched = w.dispatched ++
        [(AWAITING_PAD_A, w.hs.freed), (AWAITING_CRYPTO_PROVIDE, w.hs.freed),
         (AWAITING_PAD_C, w.hs.freed), (AWAITING_IA, w.hs.freed),
         (AWAITING_HANDSHAKE, w.hs.freed), (AWAITING_PEER_ID, w.hs.freed)] := by
  have htorH : tor.hash = H := find_hash_eq hfind
  have hd : List.drop pre.length w.io.inbuf = w.hs.myReq1 ++ (obf ++
      (rc4Apply (env.keystream true S H) 0 (List.replicate 8 0 ++ (u32Bytes 2 ++ u16Bytes 0)) ++
       (rc4Apply (env.keystream true S H) 14 (u16Bytes 68) ++
        (rc4Apply (env.keystream true S H) 16 (HANDSHAKE_NAME ++ (reserved ++ H)) ++
         rc4Apply (env.keystream true S H) 64 id)))) := by
    rw [hbuf]; exact List.drop_left _ _
  rw [canRead_now env _ w _ (by rw [hstate]; decide)
    (by rw [canReadStep_eq]; simp only [canReadSwitch, hstate]
        exact readPadA_found env _ pre.length hsearch)]
  rw [canRead_now env _ _ _ (by simp)
    (by rw [canReadStep_eq]; simp only [canReadSwitch]
        exact readCryptoProvide_ok env _ tor w.hs.myReq1 obf (List.replicate 8 0)
          (rc4Apply (env.keystream true S H) 14 (u16Bytes 68) ++
            (rc4Apply (env.keystream true S H) 16 (HANDSHAKE_NAME ++ (reserved ++ H)) ++
             rc4Apply (env.keystream true S H) 64 id)) 2 0
          (by simp [hd, hin, hsecret, htorH]) hreq1 hobf (by simp) (by omega) (by omega)
          (by simpa [computeRequestHash, hsecret] using hfindo) hrun hseed)]
  rw [canRead_now env _ _ _ (by simp)
    (by rw [canReadStep_eq]; simp only [canReadSwitch]
        exact readPadC_ok env _ [] (rc4Apply (env.keystream true S H) 16
            (HANDSHAKE_NAME ++ (reserved ++ H)) ++ rc4Apply (env.keystream true S H) 64 id) 68
          rfl (by simp [ctxKeystream, hin, hsecret, htorH]) rfl (by omega))]
  rw [canRead_now env _ _ _ (by simp)
    (by rw [canReadStep_eq]; simp only [canReadSwitch]
        exact readIA_crypto_selected env _ H tor
          (by simp [rc4Apply_length, hres, hH, hid, HANDSHAKE_NAME])
          (by simp [hmode]; decide) rfl (by simp [htorH]) hfind hrun)]
  rw [canRead_now env _ _ _ (by simp)
    (by rw [canReadStep_eq]; simp only [canReadSwitch]
        exact readHandshake_encrypted env _ reserved H (rc4Apply (env.keystream true S H) 64 id)
          rfl (by simp [ctxKeystream, hin, hsecret, htorH])
          (by simpa [ctxKeystream, hin, hsecret, htorH] using hraw) hres hH (by simp [htorH])
          rfl)]
  rw [canRead_peer_id env _ _ (by simp)]
  rw [readPeerId_encrypted env _ id [] H tor rfl (by simp [ctxKeystream, hin, hsecret, htorH])
    hid (by simp [htorH]) hfind hne]
  refine ⟨_, rfl, ?_⟩
  simp [hin, hsecret, htorH, ctxKeystream]

/-- The initiator's second readable event: message 4 and the responder's handshake arrive
behind PadB. -/
theorem initiator_message4 (env : Env) (w : World) (S H padB reserved id : List Nat)
    (tor : tr_torrent) (n : Nat)
    (hstate : w.hs.state = AWAITING_VC)
    (hmode : w.hs.encryptionMode = TR_ENCRYPTION_PREFERRED)
    (hsent : w.hs.haveSentBitTorrentHandshake = true)
    (hout : w.io.isIncoming = false) (hsecret : w.io.mySecret = some S)
    (hb : w.io.torrentHash = some H) (henc : w.io.encryption_type = 2)
    (hbuf : w.io.inbuf = padB ++
      (rc4Apply (env.keystream false S H) 0 (List.replicate 8 0) ++
       (rc4Apply (env.keystream false S H) 8 (u32Bytes 2 ++ u16Bytes 0) ++
        (rc4Apply (env.keystream false S H) 14 (HANDSHAKE_NAME ++ (reserved ++ H)) ++
         rc4Apply (env.keystream false S H) 62 id))))
    (hpad : NoEarlierMatch (rc4Apply (env.keystream false S H) 0 (List.replicate 8 0)) padB)
    (hres : reserved.length = 8) (hH : H.length = 20) (hid : id.length = 20)
    (hfind : tr_torrentFindFromHash env.session H = some tor)
    (hraw : rc4Apply (env.keystream false S H) 14 HANDSHAKE_NAME ≠ HANDSHAKE_NAME)
    (hne : id ≠ tor.peer_id) :
    ∃ W : World,
      canRead env (n + 5) w = some (tr_handshakeDone env W true) ∧
      W.doneCalls = w.doneCalls ∧
      W.hs.havePeerID = true ∧ W.hs.haveReadAnythingFromPeer = true ∧
      W.io.peersId = some id ∧ W.io.encryption_type = 2 ∧ W.hs.crypto_select = 2 ∧
      W.io.torrentHash = some H ∧ W.io.writes = w.io.writes ∧
      W.dispatched = w.dispatched ++
        [(AWAITING_VC, w.hs.freed), (AWAITING_CRYPTO_SELECT, w.hs.freed),
         (AWAITING_PAD_D, w.hs.freed), (AWAITING_HANDSHAKE, w.hs.freed),
         (AWAITING_PEER_ID, w.hs.freed)] := by
  have hvc : encryptedVC env w.io = rc4Apply (env.keystream false S H) 0 (List.replicate 8 0) := by
    simp [encryptedVC, tr_cryptoDecryptInit, ctxKeystream, hout, hsecret, hb]
  rw [canRead_now env _ w _ (by rw [hstate]; decide)
    (by rw [canReadStep_eq]; simp only [canReadSwitch, hstate]
        exact readVC_found env _ padB
          (rc4Apply (env.keystream false S H) 8 (u32Bytes 2 ++ u16Bytes 0) ++
            (rc4Apply (env.keystream false S H) 14 (HANDSHAKE_NAME ++ (reserved ++ H)) ++
             rc4Apply (env.keystream false S H) 62 id))
          (by rw [show encryptedVC env _ = encryptedVC env w.io from rfl, hvc]; exact hbuf)
          (by rw [show encryptedVC env _ = encryptedVC env w.io from rfl, hvc]; exact hpad))]
  rw [canRead_now env _ _ _ (by simp)
    (by rw [canReadStep_eq]; simp only [canReadSwitch]
        exact readCryptoSelect_ok env _
          (rc4Apply (env.keystream false S H) 14 (HANDSHAKE_NAME ++ (reserved ++ H)) ++
             rc4Apply (env.keystream false S H) 62 id) 2 0 henc
          (by simp [ctxKeystream, tr_cryptoDecryptInit, hout, hsecret, hb])
          (by omega) (by simp [hmode, getCryptoProvide]) (by omega))]
  rw [canRead_now env _ _ _ (by simp)
    (by rw [canReadStep_eq]; simp only [canReadSwitch]
        exact readPadD_ok env _ rfl)]
  rw [canRead_now env _ _ _ (by simp)
    (by rw [canReadStep_eq]; simp only [canReadSwitch]
        exact readHandshake_encrypted env _ reserved H (rc4Apply (env.keystream false S H) 62 id)
          rfl (by simp [ctxKeystream, tr_cryptoDecryptInit, hout, hsecret, hb])
          (by simpa [ctxKeystream, tr_cryptoDecryptInit, hout, hsecret, hb] using hraw)
          hres hH hb hsent)]
  rw [canRead_peer_id env _ _ (by simp)]
  rw [readPeerId_encrypted env _ id [] H tor rfl
    (by simp [ctxKeystream, tr_cryptoDecryptInit, hout, hsecret, hb]) hid (by simpa using hb)
    hfind hne]
  refine ⟨_, rfl, ?_⟩
  simp [hb]

/-- The initiator's first readable event: Yb and PadB arrive. -/
theorem initiator_message2 (env : Env) (w : World) (S H pub padB : List Nat) (tor : tr_torrent)
    (n : Nat)
    (hstate : w.hs.state = AWAITING_YB)
    (hbuf : w.io.inbuf = pub ++ padB) (hpub : pub.length = 96)
    (hname : pub.take 20 ≠ HANDSHAKE_NAME)
    (hS : env.computeSecret pub = some S)
    (henc : w.io.encryption_type = 1)
    (hb : w.io.torrentHash = some H) (hfind : tr_torrentFindFromHash env.session H = some tor)
    (hrun : tor.isRunning = true) :
    canRead env (n + 1) w = some (READ_LATER,
      { w with
        hs := { w.hs with haveReadAnythingFromPeer := true, haveSentBitTorrentHandshake := true,
                          state := AWAITING_VC },
        io := { w.io with
                inbuf := padB, mySecret := some S, encryption_type := 2,
                enc_key := { a2b := !w.io.isIncoming, secret := S, skey := H,
                             pos := (List.replicate 8 0 ++
                               u32Bytes (getCryptoProvide w.hs.encryptionMode) ++ u16Bytes 0 ++
                               u16Bytes 68 ++ ourHandshake env H tor.peer_id).length },
                writes := w.io.writes ++
                  [{ data := env.sha1 (req1Name ++ S) ++
                       xorDigest (env.sha1 (req2Name ++ H)) (env.sha1 (req3Name ++ S)),
                     encryption_type := 1,
                     wire := env.sha1 (req1Name ++ S) ++
                       xorDigest (env.sha1 (req2Name ++ H)) (env.sha1 (req3Name ++ S)) },
                   { data := List.replicate 8 0 ++
                       u32Bytes (getCryptoProvide w.hs.encryptionMode) ++ u16Bytes 0 ++
                       u16Bytes 68 ++ ourHandshake env H tor.peer_id,
                     encryption_type := 2,
                     wire := rc4Apply (env.keystream (!w.io.isIncoming) S H) 0
                       (List.replicate 8 0 ++
                         u32Bytes (getCryptoProvide w.hs.encryptionMode) ++ u16Bytes 0 ++
                         u16Bytes 68 ++ ourHandshake env H tor.peer_id) }] },
        dispatched := w.dispatched ++ [(AWAITING_YB, w.hs.freed)] }) := by
  have ht20 : List.take 20 (pub ++ padB) = List.take 20 pub := by
    rw [List.take_append_of_le_length (by omega)]
  have ht96 : List.take 96 (pub ++ padB) = pub := by rw [← hpub]; exact List.take_left _ _
  have hd96 : List.drop 96 (pub ++ padB) = padB := by rw [← hpub]; exact List.drop_left _ _
  rw [canRead_later env _ w _ (by rw [hstate]; decide)
    (by rw [canReadStep_eq]; simp only [canReadSwitch, hstate]
        exact readYb_ok env _ S H tor (by simp [hbuf, hpub]) (by simp [hbuf, ht20, hname])
          (by simp [hbuf, ht96, hS]) (by simp [henc]) hb hfind hrun)]
  simp [hbuf, hd96, henc]

/-! ### Two engines head to head -/

/-- The reserved bytes of our own handshake. -/
theorem ourHandshake_split (env : Env) (H id : List Nat) :
    ∃ reserved : List Nat, reserved.length = 8 ∧
      ourHandshake env H id = HANDSHAKE_NAME ++ (reserved ++ (H ++ id)) := by
  unfold ourHandshake
  cases env.session.dhtEnabled
  · exact ⟨[0, 0, 0, 0, 0, 16, 0, 4], rfl, by simp⟩
  · exact ⟨[0, 0, 0, 0, 0, 16, 0, 5], rfl, by simp⟩

theorem message3_split (ks : Nat → Nat) (reserved H id : List Nat)
    (hres : reserved.length = 8) (hH : H.length = 20) :
    rc4Apply ks 0 (List.replicate 8 0 ++ u32Bytes 2 ++ u16Bytes 0 ++ u16Bytes 68 ++
      (HANDSHAKE_NAME ++ (reserved ++ (H ++ id)))) =
    rc4Apply ks 0 (List.replicate 8 0 ++ (u32Bytes 2 ++ u16Bytes 0)) ++
      (rc4Apply ks 14 (u16Bytes 68) ++
        (rc4Apply ks 16 (HANDSHAKE_NAME ++ (reserved ++ H)) ++ rc4Apply ks 64 id)) := by
  have e : List.replicate 8 0 ++ u32Bytes 2 ++ u16Bytes 0 ++ u16Bytes 68 ++
      (HANDSHAKE_NAME ++ (reserved ++ (H ++ id))) =
      (List.replicate 8 0 ++ (u32Bytes 2 ++ u16Bytes 0)) ++
        (u16Bytes 68 ++ ((HANDSHAKE_NAME ++ (reserved ++ H)) ++ id)) := by
    simp only [List.append_assoc]
  have l3 : (HANDSHAKE_NAME ++ (reserved ++ H)).length = 48 := by
    simp [HANDSHAKE_NAME, hres, hH]
  rw [e, rc4Apply_append ks 0 (List.replicate 8 0 ++ (u32Bytes 2 ++ u16Bytes 0)),
    rc4Apply_append ks _ (u16Bytes 68), rc4Apply_append ks _ (HANDSHAKE_NAME ++ (reserved ++ H)), l3]
  rfl

theorem message4_split (ks : Nat → Nat) (reserved H id : List Nat)
    (hres : reserved.length = 8) (hH : H.length = 20) :
    rc4Apply ks 0 (List.replicate 8 0 ++ u32Bytes 2 ++ u16Bytes 0 ++
      (HANDSHAKE_NAME ++ (reserved ++ (H ++ id)))) =
    rc4Apply ks 0 (List.replicate 8 0) ++
      (rc4Apply ks 8 (u32Bytes 2 ++ u16Bytes 0) ++
        (rc4Apply ks 14 (HANDSHAKE_NAME ++ (reserved ++ H)) ++ rc4Apply ks 62 id)) := by
  have e : List.replicate 8 0 ++ u32Bytes 2 ++ u16Bytes 0 ++
      (HANDSHAKE_NAME ++ (reserved ++ (H ++ id))) =
      List.replicate 8 0 ++ ((u32Bytes 2 ++ u16Bytes 0) ++
        ((HANDSHAKE_NAME ++ (reserved ++ H)) ++ id)) := by
    simp only [List.append_assoc]
  have l3 : (HANDSHAKE_NAME ++ (reserved ++ H)).length = 48 := by
    simp [HANDSHAKE_NAME, hres, hH]
  rw [e, rc4Apply_append ks 0 (List.replicate 8 0),
    rc4Apply_append ks _ (u32Bytes 2 ++ u16Bytes 0),
    rc4Apply_append ks _ (HANDSHAKE_NAME ++ (reserved ++ H)), l3]
  rfl

theorem deliver_readable (env : Env) (fuel : Nat) (w : World) (bytes : List Nat)
    (hf : w.io.funcsInstalled = true) :
    deliver env fuel w (Input.readable bytes) =
      (canRead env fuel (arrive w bytes)).map (fun r => r.2) := by
  have hf' : (arrive w bytes).io.funcsInstalled = true := hf
  simp only [deliver]
  rw [if_pos hf']

set_option maxRecDepth 100000 in
/-- C6 at a sample message 3 announcing len(PadC) = 513: the session fails and only the 54
bytes up to the length field are consumed. -/
theorem pad_lengths_bounded_witness :
    54 ≤ (responderAfter 3 [] 513 68 []).io.inbuf.length ∧
    receivedPadCLen sampleEnv (responderAfter 3 [] 513 68 []) sampleTorrent = 513 ∧
    (readCryptoProvide sampleEnv (responderAfter 3 [] 513 68 [])).2.doneCalls =
      [{ haveReadAnythingFromPeer := true, isConnected := false, peer_id := none, result := false }] ∧
    (readCryptoProvide sampleEnv (responderAfter 3 [] 513 68 [])).2.io.inbuf =
      (responderAfter 3 [] 513 68 []).io.inbuf.drop 54 :=
  have h := ((pad_lengths_bounded sampleEnv).2.1 (responderAfter 3 [] 513 68 []) sampleTorrent
    (by decide) (by decide) (by decide) (by decide)).1 (by decide)
  ⟨by decide, by decide, h.1, h.2.2.2⟩

set_option maxRecDepth 100000 in
/-- C4 at a sample message 4 selecting plaintext under the Preferred mode: the session fails. -/
theorem readCryptoSelect_accepts_iff_witness :
    6 ≤ (initiatorAfter 1 1 0).io.inbuf.length ∧
    (initiatorAfter 1 1 0).hs.state = AWAITING_CRYPTO_SELECT ∧
    (tr_peerIoReadUint32 sampleEnv (initiatorAfter 1 1 0).io).1 = CRYPTO_PROVIDE_PLAINTEXT ∧
    (readCryptoSelect sampleEnv (initiatorAfter 1 1 0)).2.doneCalls =
      [{ haveReadAnythingFromPeer := true, isConnected := false, peer_id := none, result := false }] :=
  ⟨by decide, by decide, by decide,
   (((readCryptoSelect_accepts_iff sampleEnv (initiatorAfter 1 1 0)).2 (by decide)).2.2
      (by decide)).2 (by decide)⟩

set_option maxRecDepth 100000 in
/-- C7 (amended) at a sample message 3 announcing len(IA) = 65535: the value is stored and the
session goes on to await the initial payload. -/
theorem ia_len_stored_unchecked_witness :
    (responderAfter 4 [] 0 65535 []).hs.state = AWAITING_PAD_C ∧
    (responderAfter 4 [] 0 65535 []).hs.pad_c_len + 2 ≤ (responderAfter 4 [] 0 65535 []).io.inbuf.length ∧
    (tr_peerIoReadUint16 sampleEnv (evbuffer_drain (responderAfter 4 [] 0 65535 []).io
      (responderAfter 4 [] 0 65535 []).hs.pad_c_len)).1 = 65535 ∧
    (readPadC sampleEnv (responderAfter 4 [] 0 65535 [])).2.hs.state = AWAITING_IA ∧
    (readPadC sampleEnv (responderAfter 4 [] 0 65535 [])).2.doneCalls = [] :=
  have h := (ia_len_stored_unchecked sampleEnv).2 (responderAfter 4 [] 0 65535 []) (by decide)
  ⟨by decide, by decide, by decide, h.2.2.1, h.2.2.2.1⟩

/-! ### What each state says about the pipe -/

theorem invariant_done (env : Env) (w : World) (b : Bool) :
    SessionInvariant (tr_handshakeDone env w b).2 := by
  intro h
  simp [tr_handshakeDone, tr_handshakeFree, fireDoneFunc] at h

theorem buildHandshakeMessage_bound (env : Env) (w : World) (msg : List Nat)
    (h : buildHandshakeMessage env w = some msg) : w.io.torrentHash ≠ none := by
  intro hn
  simp [buildHandshakeMessage, buildHandshakePeerId, hn] at h

theorem readHandshakeReply_invariant (env : Env) (w : World) (h : w.hs.freed = false → FreshFacts w) :
    SessionInvariant (readHandshakeReply env w).2 := by
  dsimp only [readHandshakeReply]
  repeat' split
  all_goals first | exact invariant_done _ _ _ | skip
  · rename_i msg hmsg
    have hb := buildHandshakeMessage_bound env w msg hmsg
    intro hl
    refine ⟨?_, ?_⟩
    · intro _ hn
      simp [setReadState, setState] at hn
      exact absurd hn hb
    · simp [StateFacts, setReadState, setState]
  · intro hl
    exact ⟨h hl, by simp [StateFacts, setReadState, setState]⟩

theorem readHandshakeParse_invariant (env : Env) (w : World)
    (h : w.hs.freed = false → FreshFacts w) :
    SessionInvariant (readHandshakeParse env w).2 := by
  dsimp only [readHandshakeParse]
  split
  · exact invariant_done _ _ _
  · split
    · split
      · exact invariant_done _ _ _
      · split
        · exact invariant_done _ _ _
        · apply readHandshakeReply_invariant
          intro _ _ hn
          simp [tr_peerIoSetTorrentHash] at hn
    · split
      · exact invariant_done _ _ _
      · apply readHandshakeReply_invariant
        intro hl hi hn
        have := h hl
        simp only [FreshFacts, tr_peerIoEnableDHT, tr_peerIoEnableLTEP, tr_peerIoEnableFEXT,
          tr_peerIoReadBytes_isIncoming, tr_peerIoReadBytes_torrentHash,
          tr_peerIoReadBytes_encryption_type] at this hi hn ⊢
        exact this hi hn

theorem readHandshake_invariant (env : Env) (w : World) (h : SessionInvariant w) :
    SessionInvariant (readHandshake env w).2 := by
  dsimp only [readHandshake]
  repeat' split
  all_goals first | with_reducible exact h | with_reducible exact invariant_done _ _ _ | skip
  · apply readHandshakeParse_invariant
    intro hl
    exact (h hl).1
  · rename_i hc
    intro hl
    have hf := (h hl).1 hc.1 (by simpa [tr_peerIoHasTorrentHash] using hc.2)
    refine ⟨fun _ _ => hf, ?_⟩
    simp only [StateFacts, setState]
    exact ⟨hc.1, by simpa [tr_peerIoHasTorrentHash] using hc.2⟩
  · apply readHandshakeParse_invariant
    intro hl
    exact (h hl).1

theorem readPeerId_invariant (env : Env) (w : World) (h : SessionInvariant w) :
    SessionInvariant (readPeerId env w).2 := by
  dsimp only [readPeerId]
  repeat' split
  all_goals first | with_reducible exact h | with_reducible exact invariant_done _ _ _

theorem readYa_invariant (env : Env) (w : World) (h : SessionInvariant w)
    (hst : w.hs.state = AWAITING_YA) : SessionInvariant (readYa env w).2 := by
  dsimp only [readYa]
  repeat' split
  all_goals first | with_reducible exact h | with_reducible exact invariant_done _ _ _ | skip
  intro hl
  have hw := h hl
  simp only [StateFacts, hst] at hw
  rename_i hs
  simp [FreshFacts, StateFacts, setReadState, setState, tr_cryptoComputeSecret, evbuffer_remove] at hw hs ⊢
  split <;> simp_all

theorem readPadA_invariant (env : Env) (w : World) (h : SessionInvariant w)
    (hst : w.hs.state = AWAITING_PAD_A) : SessionInvariant (readPadA env w).2 := by
  dsimp only [readPadA]
  repeat' split
  all_goals first | with_reducible exact h | skip
  all_goals
    intro hl
    have hw := h hl
    simp only [StateFacts, hst] at hw
    simp [FreshFacts, StateFacts, setState, evbuffer_drain] at hw ⊢
    first | exact ⟨hw.1, hw.2⟩ | (refine ⟨hw.1, ?_⟩; rw [hst]; exact hw.2)

theorem readCryptoProvideParse_invariant (env : Env) (w : World)
    (hb : w.io.torrentHash ≠ none) (hs : w.hs.freed = false → w.hs.haveSentBitTorrentHandshake = false) :
    SessionInvariant (readCryptoProvideParse env w).2 := by
  dsimp only [readCryptoProvideParse]
  repeat' split
  all_goals first | with_reducible exact invariant_done _ _ _ | skip
  intro hl
  have := hs hl
  simp [FreshFacts, StateFacts, setState, tr_peerIoReadUint16, tr_peerIoReadUint32,
    tr_peerIoSetEncryption, tr_cryptoEncryptInit, tr_cryptoDecryptInit] at this ⊢
  exact ⟨fun _ hn => absurd hn hb, this⟩

theorem readCryptoProvide_invariant (env : Env) (w : World) (h : SessionInvariant w)
    (hst : w.hs.state = AWAITING_CRYPTO_PROVIDE) : SessionInvariant (readCryptoProvide env w).2 := by
  dsimp only [readCryptoProvide]
  repeat' split
  all_goals first | with_reducible exact h | with_reducible exact invariant_done _ _ _ | skip
  apply readCryptoProvideParse_invariant
  · simp [tr_peerIoSetTorrentHash]
  · intro hl
    have hw := h hl
    simp only [StateFacts, hst] at hw
    exact (hw.1 hw.2.1 hw.2.2).2

theorem readPadC_invariant (env : Env) (w : World) (h : SessionInvariant w)
    (hst : w.hs.state = AWAITING_PAD_C) : SessionInvariant (readPadC env w).2 := by
  dsimp only [readPadC]
  repeat' split
  all_goals first | with_reducible exact h | skip
  intro hl
  have hw := h hl
  simp only [StateFacts, hst] at hw
  simp [FreshFacts, StateFacts, setState, evbuffer_drain, tr_peerIoReadUint16] at hw ⊢
  exact ⟨hw.1, hw.2⟩

theorem ite_pair_torrentHash (c : Prop) [Decidable c] (a b : List Nat) (x y : tr_peerIo)
    (h : x.torrentHash = y.torrentHash) :
    (if c then (a, x) else (b, y)).2.torrentHash = y.torrentHash := by
  split
  · exact h
  · rfl

theorem readIA_invariant (env : Env) (w : World) (h : SessionInvariant w) :
    SessionInvariant (readIA env w).2 := by
  dsimp only [readIA]
  repeat' split
  all_goals first | with_reducible exact h | with_reducible exact invariant_done _ _ _ | skip
  all_goals
    rename_i hmsg hp
    have hb := buildHandshakeMessage_bound _ _ _ hmsg
    dsimp only at hb
    rw [ite_pair_torrentHash _ _ _ _ _ (by
      simp [tr_peerIoWriteBuf, tr_peerIoSetEncryption, tr_peerIoDecryptBuf, tr_cryptoDecrypt])] at hb
    intro hl
    refine ⟨?_, by simp [StateFacts, setState]⟩
    intro _ hn
    simp [setState, tr_peerIoWriteBuf, tr_peerIoSetEncryption, tr_peerIoDecryptBuf,
      tr_cryptoDecrypt] at hn
    exact absurd hn hb

theorem readYb_invariant (env : Env) (w : World) (h : SessionInvariant w)
    (hst : w.hs.state = AWAITING_YB) : SessionInvariant (readYb env w).2 := by
  dsimp only [readYb]
  repeat' split
  all_goals first | with_reducible exact h | with_reducible exact invariant_done _ _ _ | skip
  · intro hl
    have hw := h hl
    exact ⟨hw.1, by simp [StateFacts, setState]⟩
  · intro hl
    have hw := h hl
    simp only [StateFacts, hst] at hw
    simp [FreshFacts, StateFacts, setReadState, setState, tr_peerIoWriteBuf, tr_peerIoSetEncryption,
      tr_cryptoEncryptInit, tr_cryptoComputeSecret, evbuffer_remove] at hw ⊢
    split <;> simp_all

theorem readVC_invariant (env : Env) (w : World) (h : SessionInvariant w)
    (hst : w.hs.state = AWAITING_VC) : SessionInvariant (readVC env w).2 := by
  have hloop : ∀ (l : List Nat) (io : tr_peerIo),
      (readVCLoop env l io).2.isIncoming = io.isIncoming ∧
      (readVCLoop env l io).2.encryption_type = io.encryption_type ∧
      (readVCLoop env l io).2.torrentHash = io.torrentHash := by
    intro l
    induction l with
    | nil => intro io; simp [readVCLoop]
    | cons b rest ih =>
      intro io
      simp only [readVCLoop]
      repeat' split
      · simp
      · simp [tr_cryptoDecrypt, tr_cryptoDecryptInit]
      · have := ih (tr_cryptoDecrypt env (tr_cryptoDecryptInit io) (List.take VC_LENGTH (b :: rest))).2
        simpa [tr_cryptoDecrypt, tr_cryptoDecryptInit] using this
  obtain ⟨h1, h2, h3⟩ := hloop w.io.inbuf w.io
  dsimp only [readVC]
  split
  all_goals
    intro hl
    have hw := h hl
    simp only [StateFacts, hst] at hw
    simp [FreshFacts, StateFacts, setState, evbuffer_drain, h1, h2, h3] at hw ⊢
  · rw [hst]; simp [hw]
  · simp [hw]

theorem readCryptoSelect_invariant (env : Env) (w : World) (h : SessionInvariant w)
    (hst : w.hs.state = AWAITING_CRYPTO_SELECT) : SessionInvariant (readCryptoSelect env w).2 := by
  dsimp only [readCryptoSelect]
  repeat' split
  all_goals first | with_reducible exact h | with_reducible exact invariant_done _ _ _ | skip
  intro hl
  have hw := h hl
  simp only [StateFacts, hst] at hw
  simp [FreshFacts, StateFacts, setState, tr_peerIoReadUint16, tr_peerIoReadUint32] at hw ⊢
  simp [hw]

theorem readPadD_invariant (env : Env) (w : World) (h : SessionInvariant w)
    (hst : w.hs.state = AWAITING_PAD_D) : SessionInvariant (readPadD env w).2 := by
  dsimp only [readPadD]
  repeat' split
  all_goals first | with_reducible exact h | skip
  intro hl
  have hw := h hl
  simp only [StateFacts, hst] at hw
  simp [FreshFacts, StateFacts, setState, tr_peerIoDrain, tr_peerIoSetEncryption] at hw ⊢
  simp [hw]

theorem canReadStep_invariant (env : Env) (w : World) (h : SessionInvariant w) :
    SessionInvariant (canReadStep env w).2 := by
  have h' : SessionInvariant { w with dispatched := w.dispatched ++ [(w.hs.state, w.hs.freed)] } := h
  dsimp only [canReadStep, canReadSwitch]
  split
  · exact readHandshake_invariant _ _ h'
  · exact readPeerId_invariant _ _ h'
  · rename_i hst; exact readYa_invariant _ _ h' hst
  · rename_i hst; exact readPadA_invariant _ _ h' hst
  · rename_i hst; exact readCryptoProvide_invariant _ _ h' hst
  · rename_i hst; exact readPadC_invariant _ _ h' hst
  · exact readIA_invariant _ _ h'
  · rename_i hst; exact readYb_invariant _ _ h' hst
  · rename_i hst; exact readVC_invariant _ _ h' hst
  · rename_i hst; exact readCryptoSelect_invariant _ _ h' hst
  · rename_i hst; exact readPadD_invariant _ _ h' hst

theorem sendPlainTextHandshake_invariant (env : Env) (w : World) :
    SessionInvariant (sendPlainTextHandshake env w) := by
  dsimp only [sendPlainTextHandshake]
  split
  · exact invariant_done _ _ _
  · rename_i msg hmsg
    have hb := buildHandshakeMessage_bound _ _ _ hmsg
    intro hl
    refine ⟨?_, by simp [StateFacts, setReadState, setState]⟩
    intro _ hn
    simp [setReadState, setState] at hn
    exact absurd hn hb

theorem gotErrorFinish_invariant (env : Env) (w : World) (b : Bool) :
    SessionInvariant (gotErrorFinish env w b) := by
  dsimp only [gotErrorFinish]
  repeat' split
  all_goals first
    | with_reducible exact invariant_done _ _ _
    | with_reducible exact sendPlainTextHandshake_invariant _ _

theorem gotErrorTcp_invariant (env : Env) (w : World) (b : Bool) :
    SessionInvariant (gotErrorTcp env w b) := by
  dsimp only [gotErrorTcp]
  split <;> exact gotErrorFinish_invariant _ _ _

theorem sendYa_invariant (env : Env) (w : World) (hout : w.io.isIncoming = false)
    (henc : w.io.encryption_type = 1) (hm : w.hs.encryptionMode ≠ TR_CLEAR_PREFERRED)
    (hs : w.hs.haveSentBitTorrentHandshake = false) :
    SessionInvariant (sendYa env w) := by
  intro _
  simp [FreshFacts, StateFacts, sendYa, setReadState, setState, hout, henc, hs]
  exact hm

theorem tr_peerIoReconnect_hs (env : Env) (w : World) : (tr_peerIoReconnect env w).2.hs = w.hs := by
  unfold tr_peerIoReconnect
  split <;> rfl

theorem tr_peerIoReconnect_isIncoming (env : Env) (w : World) :
    (tr_peerIoReconnect env w).2.io.isIncoming = w.io.isIncoming := by
  unfold tr_peerIoReconnect
  split <;> rfl

theorem gotErrorUtp_invariant (env : Env) (w : World) (h : SessionInvariant w) :
    SessionInvariant
      (if w.hs.state = AWAITING_YB then
        if (tr_peerIoReconnect env w).1 = true then
          sendYa env { (tr_peerIoReconnect env w).2 with
            io := tr_peerIoSetEncryption (tr_peerIoReconnect env w).2.io PEER_ENCRYPTION_NONE }
        else gotErrorTcp env (tr_peerIoReconnect env w).2 false
      else gotErrorTcp env w true) := by
  split
  · rename_i hst
    split
    · by_cases hl : w.hs.freed = false
      · have hw := (h hl).2
        simp only [StateFacts, hst] at hw
        apply sendYa_invariant
        · simpa [tr_peerIoSetEncryption, tr_peerIoReconnect_isIncoming] using hw.1
        · simp [tr_peerIoSetEncryption]
        · simpa [tr_peerIoReconnect_hs] using hw.2.2.1
        · simpa [tr_peerIoReconnect_hs] using hw.2.2.2
      · intro hl'
        simp [sendYa, setReadState, setState, tr_peerIoReconnect_hs] at hl'
        exact absurd hl' hl
    · exact gotErrorTcp_invariant _ _ _
  · exact gotErrorTcp_invariant _ _ _

theorem gotError_invariant (env : Env) (w : World) (errcode : Nat) (h : SessionInvariant w) :
    SessionInvariant (gotError env w errcode) := by
  dsimp only [gotError]
  split
  · refine gotErrorUtp_invariant env _ ?_
    repeat' split
    all_goals exact h
  · exact gotErrorTcp_invariant _ _ _

theorem tr_handshakeNew_invariant (env : Env) (io : tr_peerIo) (m : tr_encryption_mode) :
    SessionInvariant (tr_handshakeNew env io m) := by
  dsimp only [tr_handshakeNew]
  repeat' split
  · intro _
    simp [FreshFacts, StateFacts, setReadState, setState, tr_peerIoSetEncryption, newHandshake]
  · rename_i hin hm
    apply sendYa_invariant
    · simpa [tr_peerIoSetEncryption] using hin
    · simp [tr_peerIoSetEncryption]
    · exact hm
    · rfl
  · exact sendPlainTextHandshake_invariant _ _

theorem reachable_invariant (env : Env) (w : World) (h : Reachable env w) : SessionInvariant w := by
  induction h with
  | init io m => exact tr_handshakeNew_invariant env io m
  | arrive w bytes _ ih => exact ih
  | step w _ ih => exact canReadStep_invariant env w ih
  | error w errcode _ ih => exact gotError_invariant env w errcode ih
  | abort w _ ih => exact invariant_done _ _ _

/-! ### The BT handshake message -/

theorem and_two_pow_ne_zero (x i : Nat) : x &&& 2 ^ i ≠ 0 ↔ x.testBit i = true := by
  constructor
  · intro h
    by_contra hb
    apply h
    apply Nat.eq_of_testBit_eq
    intro j
    rw [Nat.testBit_and, Nat.testBit_two_pow, Nat.zero_testBit]
    by_cases hij : i = j
    · subst hij; simp [hb]
    · simp [hij]
  · intro hb h
    have := congrArg (fun n => Nat.testBit n i) h
    simp [Nat.testBit_and, Nat.testBit_two_pow, hb] at this

/-- C11: `buildHandshakeMessage` fails exactly when no info-hash is bound to the pipe, or the
bound hash is not the hash of a known torrent, or that torrent is not running. When it
succeeds the message is the protocol name (0x13 followed by "BitTorrent protocol"), the
flag bytes 00 00 00 00 00 10 00 05 when DHT is enabled for the session and
00 00 00 00 00 10 00 04 otherwise, the bound info-hash and our peer id for that torrent:
68 bytes for a 20-byte hash and a 20-byte peer id. -/
theorem buildHandshakeMessage_layout (env : Env) (w : World) :
    (buildHandshakeMessage env w = none ↔
      (w.io.torrentHash = none ∨
       (∃ H, w.io.torrentHash = some H ∧ tr_torrentFindFromHash env.session H = none) ∨
       (∃ H tor, w.io.torrentHash = some H ∧ tr_torrentFindFromHash env.session H = some tor ∧
          tor.isRunning = false))) ∧
    (∀ msg, buildHandshakeMessage env w = some msg →
      ∃ H tor, w.io.torrentHash = some H ∧ tr_torrentFindFromHash env.session H = some tor ∧
        tor.isRunning = true ∧
        msg = HANDSHAKE_NAME ++
          (if env.session.dhtEnabled then [0, 0, 0, 0, 0, 0x10, 0, 0x05]
           else [0, 0, 0, 0, 0, 0x10, 0, 0x04]) ++ H ++ tor.peer_id ∧
        (H.length = 20 → tor.peer_id.length = 20 → msg.length = 68)) ∧
    HANDSHAKE_NAME = 0x13 :: "BitTorrent protocol".toList.map Char.toNat ∧
    HANDSHAKE_NAME.length = 20 := by
  refine ⟨?_, ?_, by decide, rfl⟩
  · cases hb : w.io.torrentHash with
    | none => simp [buildHandshakeMessage, buildHandshakePeerId, hb]
    | some H =>
      cases hf : tr_torrentFindFromHash env.session H with
      | none => simp [buildHandshakeMessage, buildHandshakePeerId, hb, hf]
      | some tor =>
        cases hr : tor.isRunning <;>
          simp [buildHandshakeMessage, buildHandshakePeerId, hb, hf, hr]
  · intro msg hmsg
    cases hb : w.io.torrentHash with
    | none => simp [buildHandshakeMessage, buildHandshakePeerId, hb] at hmsg
    | some H =>
      cases hf : tr_torrentFindFromHash env.session H with
      | none => simp [buildHandshakeMessage, buildHandshakePeerId, hb, hf] at hmsg
      | some tor =>
        cases hr : tor.isRunning with
        | false => simp [buildHandshakeMessage, buildHandshakePeerId, hb, hf, hr] at hmsg
        | true =>
          have h := buildHandshakeMessage_eq env w H tor hb hf hr
          rw [h] at hmsg
          have hm : msg = ourHandshake env H tor.peer_id := (Option.some.inj hmsg).symm
          refine ⟨H, tor, rfl, hf, hr, ?_, ?_⟩
          · rw [hm]; rfl
          · intro hH hid
            rw [hm]
            unfold ourHandshake
            cases env.session.dhtEnabled <;> simp [HANDSHAKE_NAME, hH, hid]

theorem buildHandshakeMessage_layout_witness :
    ∃ H tor, (peerIdWorld sampleId).io.torrentHash = some H ∧
      tr_torrentFindFromHash sampleEnv.session H = some tor ∧ tor.isRunning = true ∧
      HANDSHAKE_NAME ++ [0, 0, 0, 0, 0, 16, 0, 5] ++ sampleHash ++ sampleId =
        HANDSHAKE_NAME ++
          (if sampleEnv.session.dhtEnabled then [0, 0, 0, 0, 0, 0x10, 0, 0x05]
           else [0, 0, 0, 0, 0, 0x10, 0, 0x04]) ++ H ++ tor.peer_id ∧
      (H.length = 20 → tor.peer_id.length = 20 →
        (HANDSHAKE_NAME ++ [0, 0, 0, 0, 0, 16, 0, 5] ++ sampleHash ++ sampleId).length = 68) :=
  (buildHandshakeMessage_layout sampleEnv (peerIdWorld sampleId)).2.1
    (HANDSHAKE_NAME ++ [0, 0, 0, 0, 0, 16, 0, 5] ++ sampleHash ++ sampleId) (by decide)

theorem tr_handshakeDone_flags (env : Env) (w : World) (b : Bool) :
    (tr_handshakeDone env w b).2.io.dhtSupported = w.io.dhtSupported ∧
    (tr_handshakeDone env w b).2.io.ltepSupported = w.io.ltepSupported ∧
    (tr_handshakeDone env w b).2.io.fextSupported = w.io.fextSupported :=
  ⟨rfl, rfl, rfl⟩

theorem readHandshakeReply_flags (env : Env) (w : World) :
    (readHandshakeReply env w).2.io.dhtSupported = w.io.dhtSupported ∧
    (readHandshakeReply env w).2.io.ltepSupported = w.io.ltepSupported ∧
    (readHandshakeReply env w).2.io.fextSupported = w.io.fextSupported := by
  dsimp only [readHandshakeReply]
  repeat' split
  all_goals first | with_reducible exact tr_handshakeDone_flags _ _ _ | skip
  · simp [setReadState, setState]
  · exact ⟨rfl, rfl, rfl⟩

theorem readHandshakeParse_flags (env : Env) (w : World)
    (hname : receivedName env w = HANDSHAKE_NAME) :
    (readHandshakeParse env w).2.io.dhtSupported = HANDSHAKE_HAS_DHT (receivedReserved env w) ∧
    (readHandshakeParse env w).2.io.ltepSupported = HANDSHAKE_HAS_LTEP (receivedReserved env w) ∧
    (readHandshakeParse env w).2.io.fextSupported = HANDSHAKE_HAS_FASTEXT (receivedReserved env w) := by
  have hn : ¬ (tr_peerIoReadBytes env w.io HANDSHAKE_NAME_LEN).1 ≠ HANDSHAKE_NAME := by
    intro h; exact h hname
  dsimp only [readHandshakeParse]
  rw [if_neg hn]
  repeat' split
  all_goals first
    | (rw [(tr_handshakeDone_flags _ _ _).1, (tr_handshakeDone_flags _ _ _).2.1,
        (tr_handshakeDone_flags _ _ _).2.2])
    | (rw [(readHandshakeReply_flags _ _).1, (readHandshakeReply_flags _ _).2.1,
        (readHandshakeReply_flags _ _).2.2])
  all_goals
    simp [tr_peerIoSetTorrentHash, tr_peerIoEnableDHT, tr_peerIoEnableLTEP, tr_peerIoEnableFEXT,
      receivedReserved]

/-- When `readHandshake` gets to parse the handshake and the protocol name matches, the pipe
ends with the three capabilities as the reserved bytes give them. -/
theorem readHandshake_flags (env : Env) (w : World)
    (hlen : 48 ≤ w.io.inbuf.length)
    (hparse : (w.io.inbuf.take 20 = HANDSHAKE_NAME ∧ w.hs.encryptionMode ≠ TR_ENCRYPTION_REQUIRED ∧
                w.io.encryption_type ≠ 2) ∨
              (w.io.inbuf.take 20 ≠ HANDSHAKE_NAME ∧
                ¬ (w.io.isIncoming = true ∧ w.io.torrentHash = none) ∧ w.io.encryption_type = 2))
    (hname : receivedName env w = HANDSHAKE_NAME) :
    (readHandshake env w).2.io.dhtSupported = HANDSHAKE_HAS_DHT (receivedReserved env w) ∧
    (readHandshake env w).2.io.ltepSupported = HANDSHAKE_HAS_LTEP (receivedReserved env w) ∧
    (readHandshake env w).2.io.fextSupported = HANDSHAKE_HAS_FASTEXT (receivedReserved env w) := by
  have hl : ¬ w.io.inbuf.length < INCOMING_HANDSHAKE_LEN := by simp; omega
  have key : readHandshake env w =
      readHandshakeParse env { w with hs := { w.hs with haveReadAnythingFromPeer := true } } := by
    dsimp only [readHandshake, HANDSHAKE_NAME_LEN]
    rw [if_neg hl]
    rcases hparse with ⟨h1, h2, h3⟩ | ⟨h1, h2, h3⟩
    · have h3' : ¬ tr_peerIoIsEncrypted w.io = true := by simp [tr_peerIoIsEncrypted, h3]
      rw [if_pos h1, if_neg h2, if_neg h3']
    · have h2' : ¬ (w.io.isIncoming = true ∧ tr_peerIoHasTorrentHash w.io = false) := by
        simpa [tr_peerIoHasTorrentHash] using h2
      have h3' : ¬ tr_peerIoIsEncrypted w.io = false := by simp [tr_peerIoIsEncrypted, h3]
      rw [if_neg h1, if_neg h2', if_neg h3']
  rw [key]
  exact readHandshakeParse_flags env _ hname

theorem receivedReserved_plain (env : Env) (w : World) (h : w.io.encryption_type ≠ 2) :
    receivedReserved env w = (w.io.inbuf.drop 20).take 8 := by
  simp [receivedReserved, tr_peerIoReadBytes_plain, h]

theorem receivedName_plain (env : Env) (w : World) (h : w.io.encryption_type ≠ 2) :
    receivedName env w = w.io.inbuf.take 20 := by
  simp [receivedName, tr_peerIoReadBytes_plain, h]

theorem receivedReserved_length (env : Env) (w : World) (hlen : 48 ≤ w.io.inbuf.length) :
    (receivedReserved env w).length = 8 := by
  unfold receivedReserved
  rw [tr_peerIoReadBytes_fst]
  split <;> simp [rc4Apply_length] <;> omega

/-- C12: when `readHandshake` parses a received handshake whose protocol name matches, it
forwards to the pipe LTEP enabled iff `(r[5] AND 0x10) != 0`, FastExt enabled iff
`(r[7] AND 0x04) != 0` and DHT enabled iff `(r[7] AND 0x01) != 0`, for the eight reserved bytes
`r` as the pipe delivers them (on an unencrypted pipe, bytes 20 to 27 of the input). Each
test is the value of one bit of `r`: bit 4 of byte 5, bit 2 of byte 7, bit 0 of byte 7. -/
theorem readHandshake_forwards_flags (env : Env) (w : World)
    (hlen : 48 ≤ w.io.inbuf.length)
    (hparse : (w.io.inbuf.take 20 = HANDSHAKE_NAME ∧ w.hs.encryptionMode ≠ TR_ENCRYPTION_REQUIRED ∧
                w.io.encryption_type ≠ 2) ∨
              (w.io.inbuf.take 20 ≠ HANDSHAKE_NAME ∧
                ¬ (w.io.isIncoming = true ∧ w.io.torrentHash = none) ∧ w.io.encryption_type = 2))
    (hname : receivedName env w = HANDSHAKE_NAME) :
    ((readHandshake env w).2.io.ltepSupported = true ↔
      (receivedReserved env w).getD 5 0 &&& 0x10 ≠ 0) ∧
    ((readHandshake env w).2.io.fextSupported = true ↔
      (receivedReserved env w).getD 7 0 &&& 0x04 ≠ 0) ∧
    ((readHandshake env w).2.io.dhtSupported = true ↔
      (receivedReserved env w).getD 7 0 &&& 0x01 ≠ 0) ∧
    ((readHandshake env w).2.io.ltepSupported = ((receivedReserved env w).getD 5 0).testBit 4) ∧
    ((readHandshake env w).2.io.fextSupported = ((receivedReserved env w).getD 7 0).testBit 2) ∧
    ((readHandshake env w).2.io.dhtSupported = ((receivedReserved env w).getD 7 0).testBit 0) ∧
    (receivedReserved env w).length = 8 ∧
    (w.io.encryption_type ≠ 2 → receivedReserved env w = (w.io.inbuf.drop 20).take 8) := by
  obtain ⟨hd, hl, hf⟩ := readHandshake_flags env w hlen hparse hname
  have b4 := and_two_pow_ne_zero ((receivedReserved env w).getD 5 0) 4
  have b2 := and_two_pow_ne_zero ((receivedReserved env w).getD 7 0) 2
  have b0 := and_two_pow_ne_zero ((receivedReserved env w).getD 7 0) 0
  have e4 : (2 : Nat) ^ 4 = 0x10 := rfl
  have e2 : (2 : Nat) ^ 2 = 0x04 := rfl
  have e0 : (2 : Nat) ^ 0 = 0x01 := rfl
  rw [e4] at b4; rw [e2] at b2; rw [e0] at b0
  refine ⟨?_, ?_, ?_, ?_, ?_, ?_, receivedReserved_length env w hlen,
    receivedReserved_plain env w⟩
  · rw [hl]; simp [HANDSHAKE_HAS_LTEP]
  · rw [hf]; simp [HANDSHAKE_HAS_FASTEXT]
  · rw [hd]; simp [HANDSHAKE_HAS_DHT]
  · rw [hl, Bool.eq_iff_iff]; simpa [HANDSHAKE_HAS_LTEP] using b4
  · rw [hf, Bool.eq_iff_iff]; simpa [HANDSHAKE_HAS_FASTEXT] using b2
  · rw [hd, Bool.eq_iff_iff]; simp [HANDSHAKE_HAS_DHT]

set_option maxRecDepth 100000 in
theorem readHandshake_forwards_flags_witness :
    receivedReserved sampleEnv (plainIncomingWorld sampleEnv TR_ENCRYPTION_PREFERRED otherId) =
      [0, 0, 0, 0, 0, 16, 0, 5] ∧
    (readHandshake sampleEnv
      (plainIncomingWorld sampleEnv TR_ENCRYPTION_PREFERRED otherId)).2.io.ltepSupported = true ∧
    (readHandshake sampleEnv
      (plainIncomingWorld sampleEnv TR_ENCRYPTION_PREFERRED otherId)).2.io.fextSupported = true ∧
    (readHandshake sampleEnv
      (plainIncomingWorld sampleEnv TR_ENCRYPTION_PREFERRED otherId)).2.io.dhtSupported = true :=
  have h := readHandshake_forwards_flags sampleEnv
    (plainIncomingWorld sampleEnv TR_ENCRYPTION_PREFERRED otherId) (by decide)
    (Or.inl ⟨by decide, by decide, by decide⟩) (by decide)
  ⟨by decide, h.1.2 (by decide), h.2.1.2 (by decide), h.2.2.1.2 (by decide)⟩

/-- C13 (amended): a plaintext handshake with the reserved bytes 00 00 00 00 00 10 00 05,
received on an unencrypted pipe by a session whose mode is not Required, leaves the pipe with
LTEP, DHT and FastExt all enabled: byte 7 is 0x05, which has both bit 0 (DHT) and bit 2
(FastExt) set. -/
theorem readHandshake_sample_reserved (env : Env) (w : World) (rest : List Nat)
    (hmode : w.hs.encryptionMode ≠ TR_ENCRYPTION_REQUIRED)
    (henc : w.io.encryption_type ≠ 2)
    (hbuf : w.io.inbuf = HANDSHAKE_NAME ++ ([0, 0, 0, 0, 0, 0x10, 0, 0x05] ++ rest))
    (hrest : 20 ≤ rest.length) :
    (readHandshake env w).2.io.ltepSupported = true ∧
    (readHandshake env w).2.io.dhtSupported = true ∧
    (readHandshake env w).2.io.fextSupported = true := by
  have hlen : 48 ≤ w.io.inbuf.length := by
    rw [hbuf]; simp [HANDSHAKE_NAME]; omega
  have ht : w.io.inbuf.take 20 = HANDSHAKE_NAME := by
    rw [hbuf]; exact List.take_left' rfl
  have hr : receivedReserved env w = [0, 0, 0, 0, 0, 0x10, 0, 0x05] := by
    rw [receivedReserved_plain env w henc, hbuf]
    simp [HANDSHAKE_NAME]
  obtain ⟨hd, hl, hf⟩ := readHandshake_flags env w hlen (Or.inl ⟨ht, hmode, henc⟩)
    (by rw [receivedName_plain env w henc]; exact ht)
  rw [hd, hl, hf, hr]
  decide

set_option maxRecDepth 100000 in
theorem readHandshake_sample_reserved_witness :
    (plainIncomingWorld sampleEnv TR_ENCRYPTION_PREFERRED otherId).io.inbuf =
      HANDSHAKE_NAME ++ ([0, 0, 0, 0, 0, 0x10, 0, 0x05] ++ (sampleHash ++ otherId)) ∧
    (readHandshake sampleEnv
      (plainIncomingWorld sampleEnv TR_ENCRYPTION_PREFERRED otherId)).2.io.ltepSupported = true ∧
    (readHandshake sampleEnv
      (plainIncomingWorld sampleEnv TR_ENCRYPTION_PREFERRED otherId)).2.io.dhtSupported = true ∧
    (readHandshake sampleEnv
      (plainIncomingWorld sampleEnv TR_ENCRYPTION_PREFERRED otherId)).2.io.fextSupported = true :=
  ⟨by decide,
   readHandshake_sample_reserved sampleEnv
     (plainIncomingWorld sampleEnv TR_ENCRYPTION_PREFERRED otherId) (sampleHash ++ otherId)
     (by decide) (by decide) (by decide) (by decide)⟩

set_option maxRecDepth 100000 in
/-- C13 (counterexample): the sample incoming session that receives the plaintext handshake
with reserved bytes 00 00 00 00 00 10 00 05 ends `readHandshake` with FastExt enabled on the
pipe, not disabled. -/
theorem plain_handshake_enables_fastext :
    ((plainIncomingWorld sampleEnv TR_ENCRYPTION_PREFERRED otherId).io.inbuf.drop 20).take 8 =
      [0, 0, 0, 0, 0, 0x10, 0, 0x05] ∧
    (readHandshake sampleEnv
      (plainIncomingWorld sampleEnv TR_ENCRYPTION_PREFERRED otherId)).2.io.fextSupported = true ∧
    (readHandshake sampleEnv
      (plainIncomingWorld sampleEnv TR_ENCRYPTION_PREFERRED otherId)).2.io.fextSupported ≠ false := by
  decide

/-! ### Build and parse, round trip -/

theorem buildHandshakeMessage_some (env : Env) (w : World) (msg H : List Nat) (tor : tr_torrent)
    (h : buildHandshakeMessage env w = some msg)
    (hb : w.io.torrentHash = some H) (hfind : tr_torrentFindFromHash env.session H = some tor) :
    tor.isRunning = true ∧ msg = ourHandshake env H tor.peer_id := by
  cases hr : tor.isRunning with
  | false => simp [buildHandshakeMessage, buildHandshakePeerId, hb, hfind, hr] at h
  | true =>
    rw [buildHandshakeMessage_eq env w H tor hb hfind hr] at h
    exact ⟨rfl, (Option.some.inj h).symm⟩

theorem ourHandshake_length (env : Env) (H id : List Nat) (hH : H.length = 20)
    (hid : id.length = 20) : (ourHandshake env H id).length = 68 := by
  unfold ourHandshake
  cases env.session.dhtEnabled <;> simp [HANDSHAKE_NAME, hH, hid]

/-- What `readHandshake` does with a plaintext handshake for the hash already bound to the
pipe, when our own handshake was sent already or can be built now. -/
theorem readHandshake_plain_bound (env : Env) (w : World) (reserved H rest : List Nat)
    (tor : tr_torrent)
    (hmode : w.hs.encryptionMode ≠ TR_ENCRYPTION_REQUIRED)
    (henc : w.io.encryption_type ≠ 2) (hb : w.io.torrentHash = some H)
    (hbuf : w.io.inbuf = HANDSHAKE_NAME ++ (reserved ++ (H ++ rest)))
    (hres : reserved.length = 8) (hH : H.length = 20)
    (hfind : tr_torrentFindFromHash env.session H = some tor)
    (hreply : w.hs.haveSentBitTorrentHandshake = true ∨ tor.isRunning = true) :
    ∃ w1, readHandshake env w = (READ_NOW, w1) ∧
      w1.io.inbuf = rest ∧ w1.io.encryption_type = w.io.encryption_type ∧
      w1.io.torrentHash = some H ∧ w1.hs.state = AWAITING_PEER_ID ∧
      w1.doneCalls = w.doneCalls ∧ w1.dispatched = w.dispatched ∧
      w1.hs.haveReadAnythingFromPeer = true ∧ w1.hs.freed = w.hs.freed ∧
      w1.io.dhtSupported = HANDSHAKE_HAS_DHT reserved ∧
      w1.io.ltepSupported = HANDSHAKE_HAS_LTEP reserved ∧
      w1.io.fextSupported = HANDSHAKE_HAS_FASTEXT reserved := by
  have hname : HANDSHAKE_NAME.length = 20 := rfl
  have ht1 : List.take 20 (HANDSHAKE_NAME ++ (reserved ++ (H ++ rest))) = HANDSHAKE_NAME := by
    rw [List.take_append_of_le_length (by simp [hname])]
    exact List.take_of_length_le (by simp [hname])
  have hd1 : List.drop 20 (HANDSHAKE_NAME ++ (reserved ++ (H ++ rest))) = reserved ++ (H ++ rest) := by
    rw [← hname]; exact List.drop_left _ _
  have ht2 : List.take 8 (reserved ++ (H ++ rest)) = reserved := by
    rw [← hres]; exact List.take_left _ _
  have hd2 : List.drop 8 (reserved ++ (H ++ rest)) = H ++ rest := by
    rw [← hres]; exact List.drop_left _ _
  have ht3 : List.take 20 (H ++ rest) = H := by
    rw [← hH]; exact List.take_left _ _
  have hd3 : List.drop 20 (H ++ rest) = rest := by
    rw [← hH]; exact List.drop_left _ _
  have hlen : 48 ≤ HANDSHAKE_NAME.length + (reserved.length + (H.length + rest.length)) := by
    rw [hname, hres, hH]; omega
  have hm : ¬ w.hs.encryptionMode = TR_ENCRYPTION_REQUIRED := hmode
  have he : ¬ w.io.encryption_type = 2 := henc
  have key : readHandshake env w = readHandshakeReply env
      { w with hs := { w.hs with haveReadAnythingFromPeer := true },
               io := { w.io with inbuf := rest,
                                 dhtSupported := HANDSHAKE_HAS_DHT reserved,
                                 ltepSupported := HANDSHAKE_HAS_LTEP reserved,
                                 fextSupported := HANDSHAKE_HAS_FASTEXT reserved } } := by
    simp [readHandshake, hlen, hbuf, ht1, hm, tr_peerIoIsEncrypted, he, readHandshakeParse,
      tr_peerIoEnableDHT, tr_peerIoEnableLTEP, tr_peerIoEnableFEXT,
      tr_peerIoReadBytes_plain, hd1, ht2, hd2, ht3, hd3, tr_peerIoHasTorrentHash, hb]
  rw [key]
  cases hs : w.hs.haveSentBitTorrentHandshake with
  | true =>
    refine ⟨_, by simp [readHandshakeReply, hs]; rfl, ?_⟩
    simp [setReadState, setState, hb]
  | false =>
    have hrun : tor.isRunning = true := by
      rcases hreply with h | h
      · rw [hs] at h; cases h
      · exact h
    have hmsg := fun w' hb' => buildHandshakeMessage_eq env w' H tor hb' hfind hrun
    refine ⟨_, by simp [readHandshakeReply, hs, hmsg, hb]; rfl, ?_⟩
    simp [setReadState, setState, hb, tr_peerIoWriteBytes_plain, he]

/-- C14 (amended): a 68-byte message built by `buildHandshakeMessage` for info-hash H, peer
id I and DHT setting d is accepted by a receiving session in `AWAITING_HANDSHAKE` whose pipe
is unencrypted and bound to H, whose mode is not Required and whose own peer id for H differs
from I, provided the receiver has sent its own handshake already or its torrent H is running
(it must be able to reply). The loop runs `readHandshake` and `readPeerId`, consumes exactly
the 68 bytes, reports LTEP = true, FastExt = true and DHT = d to the pipe and completes with
`is_ok = true` and `peer_id = I`. -/
theorem handshake_round_trip (envA envB : Env) (wA w : World) (msg H : List Nat)
    (torA torB : tr_torrent) (fuel : Nat)
    (hbuild : buildHandshakeMessage envA wA = some msg)
    (hbA : wA.io.torrentHash = some H) (hfindA : tr_torrentFindFromHash envA.session H = some torA)
    (hH : H.length = 20) (hI : torA.peer_id.length = 20)
    (hst : w.hs.state = AWAITING_HANDSHAKE)
    (henc : w.io.encryption_type = PEER_ENCRYPTION_NONE)
    (hmode : w.hs.encryptionMode ≠ TR_ENCRYPTION_REQUIRED)
    (hb : w.io.torrentHash = some H) (hbuf : w.io.inbuf = msg)
    (hfindB : tr_torrentFindFromHash envB.session H = some torB)
    (hne : torB.peer_id ≠ torA.peer_id)
    (hreply : w.hs.haveSentBitTorrentHandshake = true ∨ torB.isRunning = true) :
    msg.length = 68 ∧
    ∃ w', canRead envB (fuel + 2) w =
        some (if envB.doneCB w.doneCalls.length true true (some torA.peer_id) = true then READ_NOW
              else READ_ERR, w') ∧
      w'.io.inbuf = [] ∧
      w'.io.ltepSupported = true ∧ w'.io.fextSupported = true ∧
      w'.io.dhtSupported = envA.session.dhtEnabled ∧
      w'.io.peersId = some torA.peer_id ∧
      w'.doneCalls = w.doneCalls ++
        [{ haveReadAnythingFromPeer := true, isConnected := true, peer_id := some torA.peer_id,
           result := envB.doneCB w.doneCalls.length true true (some torA.peer_id) }] ∧
      w'.dispatched = w.dispatched ++
        [(AWAITING_HANDSHAKE, w.hs.freed), (AWAITING_PEER_ID, w.hs.freed)] := by
  obtain ⟨_, hmsg⟩ := buildHandshakeMessage_some envA wA msg H torA hbuild hbA hfindA
  have h68 : msg.length = 68 := by rw [hmsg]; exact ourHandshake_length envA H _ hH hI
  refine ⟨h68, ?_⟩
  have he : w.io.encryption_type ≠ 2 := by rw [henc]; decide
  have hflags : ∃ reserved : List Nat, reserved.length = 8 ∧
      msg = HANDSHAKE_NAME ++ (reserved ++ (H ++ torA.peer_id)) ∧
      HANDSHAKE_HAS_LTEP reserved = true ∧ HANDSHAKE_HAS_FASTEXT reserved = true ∧
      HANDSHAKE_HAS_DHT reserved = envA.session.dhtEnabled := by
    rw [hmsg]; unfold ourHandshake
    cases envA.session.dhtEnabled
    · exact ⟨[0, 0, 0, 0, 0, 16, 0, 4], rfl, by simp, by decide, by decide, by decide⟩
    · exact ⟨[0, 0, 0, 0, 0, 16, 0, 5], rfl, by simp, by decide, by decide, by decide⟩
  obtain ⟨reserved, hres, hsplit, hl, hf, hd⟩ := hflags
  obtain ⟨w1, hstep, h1buf, h1enc, h1hash, h1st, h1done, h1disp, h1read, h1freed, h1d, h1l, h1f⟩ :=
    readHandshake_plain_bound envB
      { w with dispatched := w.dispatched ++ [(w.hs.state, w.hs.freed)] }
      reserved H torA.peer_id torB hmode he hb (by rw [← hsplit]; exact hbuf) hres hH hfindB hreply
  dsimp only at h1enc h1done h1disp h1freed
  have hstep' : canReadStep envB w = (READ_NOW, w1) := by
    rw [canReadStep_eq]
    simp only [canReadSwitch, hst]
    rw [hst] at hstep
    exact hstep
  rw [canRead_now envB (fuel + 1) w w1 (by rw [hst]; decide) hstep',
    canRead_peer_id envB fuel w1 h1st]
  have hl20 : ¬ torA.peer_id.length < 20 := by omega
  have he1 : w1.io.encryption_type ≠ 2 := by rw [h1enc]; exact he
  have htake : List.take 20 torA.peer_id = torA.peer_id := List.take_of_length_le (by omega)
  have hne' : ¬ torA.peer_id = torB.peer_id := fun e => hne e.symm
  simp only [hst] at h1disp
  refine ⟨(readPeerId envB
      { w1 with dispatched := w1.dispatched ++ [(AWAITING_PEER_ID, w1.hs.freed)] }).2,
    congrArg some (Prod.ext ?_ rfl), ?_⟩
  · simp [readPeerId, h1buf, hl20, tr_peerIoReadBytes_plain, he1, htake, tr_peerIoSetPeersId,
      h1hash, hfindB, hne', tr_handshakeDone, fireDoneFunc, h1read, h1done]
  · simp [readPeerId, h1buf, hl20, tr_peerIoReadBytes_plain, he1, htake, tr_peerIoSetPeersId,
      h1hash, hfindB, hne', tr_handshakeDone, fireDoneFunc, h1read, h1done,
      tr_handshakeFree, h1disp, h1freed, hI, h1l, h1f, h1d, hl, hf, hd]

set_option maxRecDepth 100000 in
theorem handshake_round_trip_witness :
    buildHandshakeMessage (peerEnv 0 (fun i => i)) otherClient =
      some (ourHandshake sampleEnv sampleHash otherId) ∧
    (answeredInPlain sampleEnv).hs.state = AWAITING_HANDSHAKE ∧
    (answeredInPlain sampleEnv).hs.haveSentBitTorrentHandshake = false ∧
    (ourHandshake sampleEnv sampleHash otherId).length = 68 ∧
    ∃ w', canRead sampleEnv 2 (answeredInPlain sampleEnv) = some (READ_NOW, w') ∧
      w'.io.inbuf = [] ∧
      w'.io.ltepSupported = true ∧ w'.io.fextSupported = true ∧ w'.io.dhtSupported = true ∧
      w'.io.peersId = some otherId ∧
      w'.doneCalls =
        [{ haveReadAnythingFromPeer := true, isConnected := true, peer_id := some otherId,
           result := true }] ∧
      w'.dispatched =
        [(AWAITING_YB, false), (AWAITING_HANDSHAKE, false), (AWAITING_PEER_ID, false)] :=
  ⟨by decide, by decide, by decide,
   handshake_round_trip (peerEnv 0 (fun i => i)) sampleEnv otherClient (answeredInPlain sampleEnv)
     (ourHandshake sampleEnv sampleHash otherId) sampleHash
     { sampleTorrent with peer_id := otherId } sampleTorrent 0
     (by decide) (by decide) (by decide) (by decide) (by decide) (by decide) (by decide) (by decide)
     (by decide) (by decide) (by decide) (by decide) (Or.inr (by decide))⟩

set_option maxRecDepth 100000 in
/-- C14 (counterexample): an outgoing session in Preferred mode for a torrent that is not
running, whose peer answered the public key in plaintext, is in `AWAITING_HANDSHAKE` on an
unencrypted pipe bound to H with a built 68-byte handshake of another peer id buffered, and
has not sent its own handshake. It meets every condition the claim lists, and `readHandshake`
ends the session with `is_ok = false`, because the reply cannot be built. -/
theorem round_trip_fails_without_reply :
    Reachable stoppedEnv (answeredInPlain stoppedEnv) ∧
    buildHandshakeMessage (peerEnv 0 (fun i => i)) otherClient =
      some (answeredInPlain stoppedEnv).io.inbuf ∧
    (answeredInPlain stoppedEnv).hs.state = AWAITING_HANDSHAKE ∧
    (answeredInPlain stoppedEnv).io.encryption_type = PEER_ENCRYPTION_NONE ∧
    (answeredInPlain stoppedEnv).hs.encryptionMode = TR_ENCRYPTION_PREFERRED ∧
    (answeredInPlain stoppedEnv).io.torrentHash = some sampleHash ∧
    (tr_torrentFindFromHash stoppedEnv.session sampleHash).map (fun t => t.peer_id) = some sampleId ∧
    sampleId ≠ otherId ∧
    (canRead stoppedEnv 2 (answeredInPlain stoppedEnv)).map
      (fun r => (r.1, r.2.doneCalls.map (fun c => (c.isConnected, c.peer_id)), r.2.io.writes.length)) =
      some (READ_ERR, [(false, none)], 1) :=
  ⟨Reachable.step _ (Reachable.arrive _ _ (Reachable.init _ _)),
   by decide, by decide, by decide, by decide, by decide, by decide, by decide, rfl⟩

/-! ### The initial state -/

theorem randomPad_length (env : Env) (n upper : Nat) (h : 0 < upper) :
    (randomPad env n upper).length ≤ upper - 1 := by
  have := Nat.mod_lt (env.randInt n) h
  simp [randomPad]
  omega

theorem tr_handshakeNew_clear (env : Env) (io : tr_peerIo) (H : List Nat) (tor : tr_torrent)
    (hout : io.isIncoming = false)
    (hb : io.torrentHash = some H) (hfind : tr_torrentFindFromHash env.session H = some tor)
    (hrun : tor.isRunning = true) :
    tr_handshakeNew env io TR_CLEAR_PREFERRED =
      { hs := { newHandshake TR_CLEAR_PREFERRED with haveSentBitTorrentHandshake := true },
        io := { io with refCount := io.refCount + 1, funcsInstalled := true,
                        encryption_type := PEER_ENCRYPTION_NONE,
                        writes := io.writes ++
                          [{ data := ourHandshake env H tor.peer_id,
                             encryption_type := PEER_ENCRYPTION_NONE,
                             wire := ourHandshake env H tor.peer_id }] },
        doneCalls := [], dispatched := [], utpFailed := [], reconnects := [], randCount := 0,
        timerFreed := false } := by
  have hmsg := fun w' hb' => buildHandshakeMessage_eq env w' H tor hb' hfind hrun
  simp [tr_handshakeNew, hout, tr_peerIoSetEncryption, sendPlainTextHandshake, hmsg, hb,
    setReadState, setState, newHandshake, tr_peerIoWriteBytes_plain]

theorem tr_handshakeNew_clear_unbuildable (env : Env) (io : tr_peerIo)
    (hout : io.isIncoming = false)
    (hno : ¬ ∃ H tor, io.torrentHash = some H ∧ tr_torrentFindFromHash env.session H = some tor ∧
      tor.isRunning = true) :
    tr_handshakeNew env io TR_CLEAR_PREFERRED =
      { hs := { newHandshake TR_CLEAR_PREFERRED with freed := true },
        io := { io with refCount := io.refCount + 1 - 1, funcsInstalled := false,
                        encryption_type := PEER_ENCRYPTION_NONE },
        doneCalls := [{ haveReadAnythingFromPeer := false, isConnected := false, peer_id := none,
                        result := env.doneCB 0 false false none }],
        dispatched := [], utpFailed := [], reconnects := [], randCount := 0,
        timerFreed := true } := by
  have hnone : ∀ w' : World, w'.io.torrentHash = io.torrentHash →
      buildHandshakeMessage env w' = none := by
    intro w' hw'
    cases hb : io.torrentHash with
    | none => simp [buildHandshakeMessage, buildHandshakePeerId, hw', hb]
    | some H =>
      cases hf : tr_torrentFindFromHash env.session H with
      | none => simp [buildHandshakeMessage, buildHandshakePeerId, hw', hb, hf]
      | some tor =>
        cases hr : tor.isRunning with
        | false => simp [buildHandshakeMessage, buildHandshakePeerId, hw', hb, hf, hr]
        | true => exact absurd ⟨H, tor, hb, hf, hr⟩ hno
  simp [tr_handshakeNew, hout, tr_peerIoSetEncryption, sendPlainTextHandshake, hnone,
    tr_handshakeDone, fireDoneFunc, tr_handshakeFree, newHandshake]

/-- C15 (amended): `tr_handshakeNew` sets the pipe's encryption to None. For an incoming pipe
the state is `AWAITING_HANDSHAKE` and nothing is written. For an outgoing pipe with mode
Required or Preferred it writes the DH public key followed by at most 511 padding bytes,
unencrypted, and the state is `AWAITING_YB` with `haveSentBitTorrentHandshake` false. For an
outgoing pipe with mode ClearPreferred it writes the 68-byte plaintext BT handshake, sets
`haveSentBitTorrentHandshake` and the state is `AWAITING_HANDSHAKE` when the handshake can be
built (the pipe is bound to the hash of a known running torrent); when it cannot, nothing is
written, the flag stays false and the session is ended with `is_ok = false` before
`tr_handshakeNew` returns. -/
theorem tr_handshakeNew_initial (env : Env) (io : tr_peerIo) (m : tr_encryption_mode) :
    (tr_handshakeNew env io m).io.encryption_type = PEER_ENCRYPTION_NONE ∧
    (io.isIncoming = true →
      (tr_handshakeNew env io m).hs.state = AWAITING_HANDSHAKE ∧
      (tr_handshakeNew env io m).io.writes = io.writes ∧
      (tr_handshakeNew env io m).hs.haveSentBitTorrentHandshake = false ∧
      (tr_handshakeNew env io m).doneCalls = []) ∧
    (io.isIncoming = false → m ≠ TR_CLEAR_PREFERRED →
      (tr_handshakeNew env io m).hs.state = AWAITING_YB ∧
      (tr_handshakeNew env io m).hs.haveSentBitTorrentHandshake = false ∧
      (tr_handshakeNew env io m).doneCalls = [] ∧
      (tr_handshakeNew env io m).io.writes = io.writes ++
        [{ data := env.myPublicKey ++ randomPad env 0 PadA_MAXLEN,
           encryption_type := PEER_ENCRYPTION_NONE,
           wire := env.myPublicKey ++ randomPad env 0 PadA_MAXLEN }] ∧
      (randomPad env 0 PadA_MAXLEN).length ≤ 511) ∧
    (io.isIncoming = false → m = TR_CLEAR_PREFERRED →
      ∀ H tor, io.torrentHash = some H → tr_torrentFindFromHash env.session H = some tor →
        tor.isRunning = true →
        (tr_handshakeNew env io m).hs.state = AWAITING_HANDSHAKE ∧
        (tr_handshakeNew env io m).hs.haveSentBitTorrentHandshake = true ∧
        (tr_handshakeNew env io m).doneCalls = [] ∧
        (tr_handshakeNew env io m).io.writes = io.writes ++
          [{ data := ourHandshake env H tor.peer_id, encryption_type := PEER_ENCRYPTION_NONE,
             wire := ourHandshake env H tor.peer_id }] ∧
        (H.length = 20 → tor.peer_id.length = 20 → (ourHandshake env H tor.peer_id).length = 68)) ∧
    (io.isIncoming = false → m = TR_CLEAR_PREFERRED →
      (¬ ∃ H tor, io.torrentHash = some H ∧ tr_torrentFindFromHash env.session H = some tor ∧
        tor.isRunning = true) →
        (tr_handshakeNew env io m).hs.state = AWAITING_HANDSHAKE ∧
        (tr_handshakeNew env io m).hs.haveSentBitTorrentHandshake = false ∧
        (tr_handshakeNew env io m).io.writes = io.writes ∧
        (tr_handshakeNew env io m).hs.freed = true ∧
        (tr_handshakeNew env io m).doneCalls =
          [{ haveReadAnythingFromPeer := false, isConnected := false, peer_id := none,
             result := env.doneCB 0 false false none }]) := by
  refine ⟨?_, ?_, ?_, ?_, ?_⟩
  · cases hin : io.isIncoming with
    | true => rw [tr_handshakeNew_incoming env io m hin]
    | false =>
      by_cases hm : m = TR_CLEAR_PREFERRED
      · subst hm
        by_cases hno : ∃ H tor, io.torrentHash = some H ∧
            tr_torrentFindFromHash env.session H = some tor ∧ tor.isRunning = true
        · obtain ⟨H, tor, hb, hf, hr⟩ := hno
          rw [tr_handshakeNew_clear env io H tor hin hb hf hr]
        · rw [tr_handshakeNew_clear_unbuildable env io hin hno]
      · rw [tr_handshakeNew_outgoing env io m hin hm]
  · intro hin
    rw [tr_handshakeNew_incoming env io m hin]
    exact ⟨rfl, rfl, rfl, rfl⟩
  · intro hout hm
    rw [tr_handshakeNew_outgoing env io m hout hm]
    exact ⟨rfl, rfl, rfl, rfl, randomPad_length env 0 512 (by decide)⟩
  · intro hout hm H tor hb hf hr
    subst hm
    rw [tr_handshakeNew_clear env io H tor hout hb hf hr]
    exact ⟨rfl, rfl, rfl, rfl, ourHandshake_length env H tor.peer_id⟩
  · intro hout hm hno
    subst hm
    rw [tr_handshakeNew_clear_unbuildable env io hout hno]
    exact ⟨rfl, rfl, rfl, rfl, rfl⟩

set_option maxRecDepth 100000 in
theorem tr_handshakeNew_initial_witness :
    (tr_handshakeNew sampleEnv (samplePipe false) TR_CLEAR_PREFERRED).hs.state = AWAITING_HANDSHAKE ∧
    (tr_handshakeNew sampleEnv (samplePipe false)
      TR_CLEAR_PREFERRED).hs.haveSentBitTorrentHandshake = true ∧
    (tr_handshakeNew sampleEnv (samplePipe false) TR_CLEAR_PREFERRED).doneCalls = [] ∧
    (tr_handshakeNew sampleEnv (samplePipe false) TR_CLEAR_PREFERRED).io.writes =
      (samplePipe false).writes ++
        [{ data := ourHandshake sampleEnv sampleHash sampleTorrent.peer_id,
           encryption_type := PEER_ENCRYPTION_NONE,
           wire := ourHandshake sampleEnv sampleHash sampleTorrent.peer_id }] ∧
    (sampleHash.length = 20 → sampleTorrent.peer_id.length = 20 →
      (ourHandshake sampleEnv sampleHash sampleTorrent.peer_id).length = 68) :=
  (tr_handshakeNew_initial sampleEnv (samplePipe false) TR_CLEAR_PREFERRED).2.2.2.1
    (by decide) rfl sampleHash sampleTorrent (by decide) (by decide) (by decide)

set_option maxRecDepth 100000 in
/-- C15 (counterexample): an outgoing pipe in ClearPreferred mode bound to a torrent that is
not running. `tr_handshakeNew` writes nothing, leaves `haveSentBitTorrentHandshake` false and
ends the session with `is_ok = false`. -/
theorem clear_preferred_without_handshake :
    (samplePipe false).isIncoming = false ∧
    (tr_handshakeNew stoppedEnv (samplePipe false) TR_CLEAR_PREFERRED).io.writes = [] ∧
    (tr_handshakeNew stoppedEnv (samplePipe false)
      TR_CLEAR_PREFERRED).hs.haveSentBitTorrentHandshake = false ∧
    (tr_handshakeNew stoppedEnv (samplePipe false) TR_CLEAR_PREFERRED).hs.freed = true ∧
    (tr_handshakeNew stoppedEnv (samplePipe false) TR_CLEAR_PREFERRED).doneCalls =
      [{ haveReadAnythingFromPeer := false, isConnected := false, peer_id := none,
         result := false }] := by
  decide

/-! ### Message 3: the initiator's answer to the public key -/

theorem reachable_passes (env : Env) (n : Nat) (w : World) (h : Reachable env w) :
    Reachable env (passes env n w) := by
  induction n generalizing w with
  | zero => exact h
  | succ n ih => exact ih _ (Reachable.step w h)

theorem xorDigest_length (a b : List Nat) : (xorDigest a b).length = 20 := by
  simp [xorDigest]

theorem xorDigest_eq_zipWith (a b : List Nat) (ha : a.length = 20) (hb : b.length = 20) :
    xorDigest a b = List.zipWith (fun x y => x ^^^ y) a b := by
  apply List.ext_getElem
  · simp [xorDigest, ha, hb]
  · intro i h1 h2
    have hi : i < 20 := by simpa [xorDigest] using h1
    simp [xorDigest, List.getD_eq_getElem?_getD, List.getElem?_eq_getElem, ha, hb, hi]

/-- C16: in a live reachable session in `AWAITING_YB` with at least 96 bytes buffered whose
first 20 are not the protocol name, when the DH secret computes and the BT handshake can be
built, `readYb` consumes exactly 96 bytes and writes 124 bytes in two writes: first, on the
unencrypted pipe, `SHA1("req1" ‖ S)` followed by the byte-by-byte exclusive or of
`SHA1("req2" ‖ SKEY)` and `SHA1("req3" ‖ S)` (40 bytes); then, with the pipe switched to RC4,
8 zero bytes, `crypto_provide` as 00 00 00 02, the PadC length 00 00, the IA length 00 44 and
the 68-byte BT handshake (84 bytes). The names are the ASCII bytes of "req1", "req2" and
"req3". It sets `haveSentBitTorrentHandshake` and `haveReadAnythingFromPeer`, moves to
`AWAITING_VC` and asks for more bytes. -/
theorem readYb_sends_message3 (env : Env) (w : World) (S H : List Nat) (tor : tr_torrent)
    (hreach : Reachable env w) (hlive : w.hs.freed = false)
    (hst : w.hs.state = AWAITING_YB)
    (hlen : 96 ≤ w.io.inbuf.length) (hname : w.io.inbuf.take 20 ≠ HANDSHAKE_NAME)
    (hS : env.computeSecret (w.io.inbuf.take 96) = some S)
    (hb : w.io.torrentHash = some H) (hfind : tr_torrentFindFromHash env.session H = some tor)
    (hrun : tor.isRunning = true)
    (hsha : ∀ x, (env.sha1 x).length = 20) (hH : H.length = 20) (hid : tor.peer_id.length = 20) :
    ∃ w', readYb env w = (READ_LATER, w') ∧
      w'.io.inbuf = w.io.inbuf.drop 96 ∧
      w'.io.writes = w.io.writes ++
        [{ data := env.sha1 ([0x72, 0x65, 0x71, 0x31] ++ S) ++
             List.zipWith (fun x y => x ^^^ y) (env.sha1 ([0x72, 0x65, 0x71, 0x32] ++ H))
               (env.sha1 ([0x72, 0x65, 0x71, 0x33] ++ S)),
           encryption_type := PEER_ENCRYPTION_NONE,
           wire := env.sha1 ([0x72, 0x65, 0x71, 0x31] ++ S) ++
             List.zipWith (fun x y => x ^^^ y) (env.sha1 ([0x72, 0x65, 0x71, 0x32] ++ H))
               (env.sha1 ([0x72, 0x65, 0x71, 0x33] ++ S)) },
         { data := List.replicate 8 0 ++ [0, 0, 0, 2] ++ [0, 0] ++ [0, 0x44] ++
             ourHandshake env H tor.peer_id,
           encryption_type := PEER_ENCRYPTION_RC4,
           wire := rc4Apply (env.keystream true S H) 0
             (List.replicate 8 0 ++ [0, 0, 0, 2] ++ [0, 0] ++ [0, 0x44] ++
               ourHandshake env H tor.peer_id) }] ∧
      (env.sha1 ([0x72, 0x65, 0x71, 0x31] ++ S) ++
        List.zipWith (fun x y => x ^^^ y) (env.sha1 ([0x72, 0x65, 0x71, 0x32] ++ H))
          (env.sha1 ([0x72, 0x65, 0x71, 0x33] ++ S))).length = 40 ∧
      (List.replicate 8 0 ++ [0, 0, 0, 2] ++ [0, 0] ++ [0, 0x44] ++
        ourHandshake env H tor.peer_id).length = 84 ∧
      w'.io.encryption_type = PEER_ENCRYPTION_RC4 ∧
      w'.hs.haveSentBitTorrentHandshake = true ∧
      w'.hs.haveReadAnythingFromPeer = true ∧
      w'.hs.state = AWAITING_VC ∧
      w'.doneCalls = w.doneCalls := by
  have hinv := (reachable_invariant env w hreach hlive).2
  simp only [StateFacts, hst] at hinv
  obtain ⟨hout, henc, hmode, _⟩ := hinv
  have hprov : getCryptoProvide w.hs.encryptionMode = 2 := by
    cases hm : w.hs.encryptionMode with
    | TR_CLEAR_PREFERRED => exact absurd hm hmode
    | TR_ENCRYPTION_PREFERRED => rfl
    | TR_ENCRYPTION_REQUIRED => rfl
  have h68 := ourHandshake_length env H tor.peer_id hH hid
  have hstep := readYb_ok env w S H tor hlen hname hS (by rw [henc]; decide) hb hfind hrun
  rw [hprov, hout, henc] at hstep
  have hx : List.zipWith (fun x y => x ^^^ y) (env.sha1 ([0x72, 0x65, 0x71, 0x32] ++ H))
      (env.sha1 ([0x72, 0x65, 0x71, 0x33] ++ S)) =
      xorDigest (env.sha1 (req2Name ++ H)) (env.sha1 (req3Name ++ S)) :=
    (xorDigest_eq_zipWith _ _ (hsha _) (hsha _)).symm
  rw [hx]
  refine ⟨_, hstep, rfl, rfl, ?_, ?_, rfl, rfl, rfl, rfl, rfl⟩
  · simp [hsha, xorDigest_length]
  · simp [h68]

set_option maxRecDepth 100000 in
theorem readYb_sends_message3_witness :
    ∃ w', readYb sampleEnv initiatorWithKey = (READ_LATER, w') ∧
      w'.io.inbuf = initiatorWithKey.io.inbuf.drop 96 ∧
      w'.io.writes = initiatorWithKey.io.writes ++
        [{ data := sampleEnv.sha1 ([0x72, 0x65, 0x71, 0x31] ++ sampleSecret) ++
             List.zipWith (fun x y => x ^^^ y)
               (sampleEnv.sha1 ([0x72, 0x65, 0x71, 0x32] ++ sampleHash))
               (sampleEnv.sha1 ([0x72, 0x65, 0x71, 0x33] ++ sampleSecret)),
           encryption_type := PEER_ENCRYPTION_NONE,
           wire := sampleEnv.sha1 ([0x72, 0x65, 0x71, 0x31] ++ sampleSecret) ++
             List.zipWith (fun x y => x ^^^ y)
               (sampleEnv.sha1 ([0x72, 0x65, 0x71, 0x32] ++ sampleHash))
               (sampleEnv.sha1 ([0x72, 0x65, 0x71, 0x33] ++ sampleSecret)) },
         { data := List.replicate 8 0 ++ [0, 0, 0, 2] ++ [0, 0] ++ [0, 0x44] ++
             ourHandshake sampleEnv sampleHash sampleTorrent.peer_id,
           encryption_type := PEER_ENCRYPTION_RC4,
           wire := rc4Apply (sampleEnv.keystream true sampleSecret sampleHash) 0
             (List.replicate 8 0 ++ [0, 0, 0, 2] ++ [0, 0] ++ [0, 0x44] ++
               ourHandshake sampleEnv sampleHash sampleTorrent.peer_id) }] ∧
      (sampleEnv.sha1 ([0x72, 0x65, 0x71, 0x31] ++ sampleSecret) ++
        List.zipWith (fun x y => x ^^^ y)
          (sampleEnv.sha1 ([0x72, 0x65, 0x71, 0x32] ++ sampleHash))
          (sampleEnv.sha1 ([0x72, 0x65, 0x71, 0x33] ++ sampleSecret))).length = 40 ∧
      (List.replicate 8 0 ++ [0, 0, 0, 2] ++ [0, 0] ++ [0, 0x44] ++
        ourHandshake sampleEnv sampleHash sampleTorrent.peer_id).length = 84 ∧
      w'.io.encryption_type = PEER_ENCRYPTION_RC4 ∧
      w'.hs.haveSentBitTorrentHandshake = true ∧
      w'.hs.haveReadAnythingFromPeer = true ∧
      w'.hs.state = AWAITING_VC ∧
      w'.doneCalls = initiatorWithKey.doneCalls :=
  readYb_sends_message3 sampleEnv initiatorWithKey sampleSecret sampleHash sampleTorrent
    (Reachable.arrive _ _ (Reachable.init _ _)) (by decide) (by decide) (by decide) (by decide)
    (by decide) (by decide) (by decide) (by decide) (fun _ => by simp [sampleEnv]) (by decide)
    (by decide)

/-! ### Message 4: the responder's answer to the offer -/

theorem readIA_plaintext_selected (env : Env) (w : World) (H : List Nat) (tor : tr_torrent)
    (hlen : w.hs.ia_len ≤ w.io.inbuf.length)
    (hsel : getCryptoSelect w.hs.encryptionMode w.hs.crypto_provide = 1)
    (henc : w.io.encryption_type = 2)
    (hb : w.io.torrentHash = some H) (hfind : tr_torrentFindFromHash env.session H = some tor)
    (hrun : tor.isRunning = true) :
    readIA env w = (READ_NOW,
      { w with
        hs := { w.hs with haveSentBitTorrentHandshake := true, state := AWAITING_HANDSHAKE },
        io := { w.io with
                encryption_type := 1,
                inbuf := rc4Apply (ctxKeystream env w.io.dec_key) w.io.dec_key.pos
                  (w.io.inbuf.take w.hs.ia_len) ++ w.io.inbuf.drop w.hs.ia_len,
                dec_key := { w.io.dec_key with pos := w.io.dec_key.pos + w.hs.ia_len },
                writes := w.io.writes ++
                  [{ data := List.replicate 8 0 ++ u32Bytes 1 ++ u16Bytes 0,
                     encryption_type := 2,
                     wire := rc4Apply (ctxKeystream env w.io.enc_key) w.io.enc_key.pos
                       (List.replicate 8 0 ++ u32Bytes 1 ++ u16Bytes 0) },
                   { data := ourHandshake env H tor.peer_id, encryption_type := 1,
                     wire := ourHandshake env H tor.peer_id }],
                enc_key := { w.io.enc_key with pos := w.io.enc_key.pos + 14 } } }) := by
  have hl : ¬ w.io.inbuf.length < w.hs.ia_len := by omega
  have hmin : min w.hs.ia_len w.io.inbuf.length = w.hs.ia_len := by omega
  have hmsg := fun w' hb' => buildHandshakeMessage_eq env w' H tor hb' hfind hrun
  simp [readIA, hl, hsel, hmsg, hb, tr_peerIoWriteBuf, tr_peerIoWriteBytes_rc4, henc, setState,
    tr_peerIoDecryptBuf, tr_cryptoDecrypt, tr_peerIoSetEncryption, tr_peerIoWriteBytes_plain, hmin,
    u32Bytes, u16Bytes]

theorem getCryptoSelect_cases (m : tr_encryption_mode) (p : Nat) :
    getCryptoSelect m p = 0 ∨ getCryptoSelect m p = 1 ∨ getCryptoSelect m p = 2 := by
  cases m <;> simp only [getCryptoSelect, getCryptoSelectChoices, getCryptoSelectLoop] <;>
    repeat' split
  all_goals simp

/-- C17: in a live reachable session in `AWAITING_IA` with `ia_len` bytes buffered, a non-zero
`crypto_select` s chosen by `getCryptoSelect` and a buildable BT handshake, `readIA` submits
82 bytes: 8 zero bytes, s as a big-endian u32, the PadD length 00 00, then the 68-byte BT
handshake. For s = CRYPTO they go out in one write with the pipe in RC4 mode and the input is
untouched. For s = PLAINTEXT the first 14 bytes are written with the pipe in RC4 mode; then
the first `ia_len` buffered bytes are decrypted in place, the pipe is set to None and the
handshake is written unencrypted. No input byte is drained, `haveSentBitTorrentHandshake`
is set and the session moves to `AWAITING_HANDSHAKE`. -/
theorem readIA_sends_message4 (env : Env) (w : World) (H : List Nat) (tor : tr_torrent)
    (hreach : Reachable env w) (hlive : w.hs.freed = false)
    (hst : w.hs.state = AWAITING_IA)
    (hlen : w.hs.ia_len ≤ w.io.inbuf.length)
    (hsel : getCryptoSelect w.hs.encryptionMode w.hs.crypto_provide ≠ 0)
    (hb : w.io.torrentHash = some H) (hfind : tr_torrentFindFromHash env.session H = some tor)
    (hrun : tor.isRunning = true) (hH : H.length = 20) (hid : tor.peer_id.length = 20) :
    (getCryptoSelect w.hs.encryptionMode w.hs.crypto_provide = CRYPTO_PROVIDE_CRYPTO ∨
      getCryptoSelect w.hs.encryptionMode w.hs.crypto_provide = CRYPTO_PROVIDE_PLAINTEXT) ∧
    (ourHandshake env H tor.peer_id).length = 68 ∧
    (getCryptoSelect w.hs.encryptionMode w.hs.crypto_provide = CRYPTO_PROVIDE_CRYPTO →
      ∃ w', readIA env w = (READ_NOW, w') ∧
        w'.io.writes = w.io.writes ++
          [{ data := List.replicate 8 0 ++ [0, 0, 0, 2] ++ [0, 0] ++ ourHandshake env H tor.peer_id,
             encryption_type := PEER_ENCRYPTION_RC4,
             wire := rc4Apply (ctxKeystream env w.io.enc_key) w.io.enc_key.pos
               (List.replicate 8 0 ++ [0, 0, 0, 2] ++ [0, 0] ++ ourHandshake env H tor.peer_id) }] ∧
        (List.replicate 8 0 ++ [0, 0, 0, 2] ++ [0, 0] ++ ourHandshake env H tor.peer_id).length = 82 ∧
        w'.io.inbuf = w.io.inbuf ∧
        w'.io.encryption_type = PEER_ENCRYPTION_RC4 ∧
        w'.hs.haveSentBitTorrentHandshake = true ∧
        w'.hs.state = AWAITING_HANDSHAKE ∧
        w'.doneCalls = w.doneCalls) ∧
    (getCryptoSelect w.hs.encryptionMode w.hs.crypto_provide = CRYPTO_PROVIDE_PLAINTEXT →
      ∃ w', readIA env w = (READ_NOW, w') ∧
        w'.io.writes = w.io.writes ++
          [{ data := List.replicate 8 0 ++ [0, 0, 0, 1] ++ [0, 0],
             encryption_type := PEER_ENCRYPTION_RC4,
             wire := rc4Apply (ctxKeystream env w.io.enc_key) w.io.enc_key.pos
               (List.replicate 8 0 ++ [0, 0, 0, 1] ++ [0, 0]) },
           { data := ourHandshake env H tor.peer_id, encryption_type := PEER_ENCRYPTION_NONE,
             wire := ourHandshake env H tor.peer_id }] ∧
        (List.replicate 8 0 ++ [0, 0, 0, 1] ++ [0, 0] : List Nat).length = 14 ∧
        w'.io.inbuf = rc4Apply (ctxKeystream env w.io.dec_key) w.io.dec_key.pos
          (w.io.inbuf.take w.hs.ia_len) ++ w.io.inbuf.drop w.hs.ia_len ∧
        w'.io.inbuf.length = w.io.inbuf.length ∧
        w'.io.encryption_type = PEER_ENCRYPTION_NONE ∧
        w'.hs.haveSentBitTorrentHandshake = true ∧
        w'.hs.state = AWAITING_HANDSHAKE ∧
        w'.doneCalls = w.doneCalls) := by
  have hinv := (reachable_invariant env w hreach hlive).2
  simp only [StateFacts, hst] at hinv
  obtain ⟨henc, _⟩ := hinv
  have h68 := ourHandshake_length env H tor.peer_id hH hid
  refine ⟨?_, h68, ?_, ?_⟩
  · rcases getCryptoSelect_cases w.hs.encryptionMode w.hs.crypto_provide with h | h | h
    · exact absurd h hsel
    · exact Or.inr h
    · exact Or.inl h
  · intro hs
    refine ⟨_, readIA_crypto_selected env w H tor hlen hs henc hb hfind hrun, rfl, ?_, rfl, henc,
      rfl, rfl, rfl⟩
    simp [h68]
  · intro hs
    refine ⟨_, readIA_plaintext_selected env w H tor hlen hs henc hb hfind hrun, rfl, rfl, rfl, ?_,
      rfl, rfl, rfl, rfl⟩
    simp [rc4Apply_length]
    omega

set_option maxRecDepth 100000 in
theorem readIA_sends_message4_witness :
    (responderOffered TR_ENCRYPTION_PREFERRED 1).hs.state = AWAITING_IA ∧
    (responderOffered TR_ENCRYPTION_PREFERRED 1).hs.crypto_provide = 1 ∧
    ∃ w', readIA sampleEnv (responderOffered TR_ENCRYPTION_PREFERRED 1) = (READ_NOW, w') ∧
      w'.io.writes = (responderOffered TR_ENCRYPTION_PREFERRED 1).io.writes ++
        [{ data := List.replicate 8 0 ++ [0, 0, 0, 1] ++ [0, 0],
           encryption_type := PEER_ENCRYPTION_RC4,
           wire := rc4Apply (ctxKeystream sampleEnv (responderOffered TR_ENCRYPTION_PREFERRED 1).io.enc_key)
             (responderOffered TR_ENCRYPTION_PREFERRED 1).io.enc_key.pos
             (List.replicate 8 0 ++ [0, 0, 0, 1] ++ [0, 0]) },
         { data := ourHandshake sampleEnv sampleHash sampleTorrent.peer_id,
           encryption_type := PEER_ENCRYPTION_NONE,
           wire := ourHandshake sampleEnv sampleHash sampleTorrent.peer_id }] ∧
      (List.replicate 8 0 ++ [0, 0, 0, 1] ++ [0, 0] : List Nat).length = 14 ∧
      w'.io.inbuf = rc4Apply (ctxKeystream sampleEnv (responderOffered TR_ENCRYPTION_PREFERRED 1).io.dec_key)
        (responderOffered TR_ENCRYPTION_PREFERRED 1).io.dec_key.pos
        ((responderOffered TR_ENCRYPTION_PREFERRED 1).io.inbuf.take
          (responderOffered TR_ENCRYPTION_PREFERRED 1).hs.ia_len) ++
        (responderOffered TR_ENCRYPTION_PREFERRED 1).io.inbuf.drop
          (responderOffered TR_ENCRYPTION_PREFERRED 1).hs.ia_len ∧
      w'.io.inbuf.length = (responderOffered TR_ENCRYPTION_PREFERRED 1).io.inbuf.length ∧
      w'.io.encryption_type = PEER_ENCRYPTION_NONE ∧
      w'.hs.haveSentBitTorrentHandshake = true ∧
      w'.hs.state = AWAITING_HANDSHAKE ∧
      w'.doneCalls = (responderOffered TR_ENCRYPTION_PREFERRED 1).doneCalls :=
  ⟨by decide, by decide,
   (readIA_sends_message4 sampleEnv (responderOffered TR_ENCRYPTION_PREFERRED 1) sampleHash
     sampleTorrent
     (reachable_passes _ 5 _ (Reachable.arrive _ _ (Reachable.init _ _)))
     (by decide) (by decide) (by decide) (by decide) (by decide) (by decide) (by decide)
     (by decide) (by decide)).2.2.2 (by decide)⟩

/-- C18: in a live reachable session in `AWAITING_IA` with `ia_len` bytes buffered, when
`getCryptoSelect` returns 0 for the stored `crypto_provide` (no offered option satisfies the
policy), `readIA` ends the session with `is_ok = false` and writes nothing: the writes of the
pipe are unchanged and `haveSentBitTorrentHandshake` is false before and after. Mode Required
with `crypto_provide` = PLAINTEXT only is such a case. -/
theorem readIA_rejects_offer (env : Env) (w : World)
    (hreach : Reachable env w) (hlive : w.hs.freed = false)
    (hst : w.hs.state = AWAITING_IA)
    (hlen : w.hs.ia_len ≤ w.io.inbuf.length)
    (hsel : getCryptoSelect w.hs.encryptionMode w.hs.crypto_provide = 0) :
    (readIA env w).2.doneCalls = w.doneCalls ++
      [{ haveReadAnythingFromPeer := w.hs.haveReadAnythingFromPeer, isConnected := false,
         peer_id := none,
         result := env.doneCB w.doneCalls.length w.hs.haveReadAnythingFromPeer false none }] ∧
    (readIA env w).2.hs.freed = true ∧
    (readIA env w).2.io.writes = w.io.writes ∧
    w.hs.haveSentBitTorrentHandshake = false ∧
    (readIA env w).2.hs.haveSentBitTorrentHandshake = false ∧
    (readIA env w).2.io.inbuf = w.io.inbuf ∧
    getCryptoSelect TR_ENCRYPTION_REQUIRED CRYPTO_PROVIDE_PLAINTEXT = 0 := by
  have hinv := (reachable_invariant env w hreach hlive).2
  simp only [StateFacts, hst] at hinv
  obtain ⟨_, hsent⟩ := hinv
  have hl : ¬ w.io.inbuf.length < w.hs.ia_len := by omega
  have key : readIA env w = tr_handshakeDone env w false := by
    simp [readIA, hl, hsel]
  rw [key]
  refine ⟨?_, rfl, rfl, hsent, hsent, rfl, by decide⟩
  simp [tr_handshakeDone, fireDoneFunc, tr_handshakeFree]

set_option maxRecDepth 100000 in
theorem readIA_rejects_offer_witness :
    (responderOffered TR_ENCRYPTION_REQUIRED 1).hs.encryptionMode = TR_ENCRYPTION_REQUIRED ∧
    (responderOffered TR_ENCRYPTION_REQUIRED 1).hs.crypto_provide = CRYPTO_PROVIDE_PLAINTEXT ∧
    (readIA sampleEnv (responderOffered TR_ENCRYPTION_REQUIRED 1)).2.doneCalls =
      [{ haveReadAnythingFromPeer := true, isConnected := false, peer_id := none, result := false }] ∧
    (readIA sampleEnv (responderOffered TR_ENCRYPTION_REQUIRED 1)).2.io.writes =
      (responderOffered TR_ENCRYPTION_REQUIRED 1).io.writes ∧
    (readIA sampleEnv
      (responderOffered TR_ENCRYPTION_REQUIRED 1)).2.hs.haveSentBitTorrentHandshake = false :=
  have h := readIA_rejects_offer sampleEnv (responderOffered TR_ENCRYPTION_REQUIRED 1)
    (reachable_passes _ 5 _ (Reachable.arrive _ _ (Reachable.init _ _)))
    (by decide) (by decide) (by decide) (by decide)
  ⟨by decide, by decide, h.1, h.2.2.1, h.2.2.2.2.1⟩

/-! ### The torrent lookup of the responder -/

theorem readCryptoProvide_rejected (env : Env) (w : World) (hlen : 54 ≤ w.io.inbuf.length)
    (hbad : ∀ tor, tr_torrentFindFromObfuscatedHash env (receivedObfuscatedHash env w) = some tor →
      tor.isRunning = false ∨ (tor.isSeed = true ∧ tor.peerIsSeed = true)) :
    ∃ io', readCryptoProvide env w = tr_handshakeDone env { w with io := io' } false ∧
      io'.writes = w.io.writes ∧ io'.encryption_type = w.io.encryption_type ∧
      io'.inbuf = w.io.inbuf.drop 40 := by
  have hl : ¬ w.io.inbuf.length < 54 := by omega
  have hreq : ∀ io : tr_peerIo, io.mySecret = w.io.mySecret →
      computeRequestHash env io req3Name = computeRequestHash env w.io req3Name := by
    intro io h; simp [computeRequestHash, h]
  cases hf : tr_torrentFindFromObfuscatedHash env (receivedObfuscatedHash env w) with
  | none =>
    have hf' : tr_torrentFindFromObfuscatedHash env
        (xorDigest (List.take 20 (List.drop 20 w.io.inbuf)) (computeRequestHash env w.io req3Name)) =
        none := hf
    refine ⟨evbuffer_drain w.io 40, ?_, rfl, rfl, rfl⟩
    simp [readCryptoProvide, hl, evbuffer_drain, evbuffer_remove, hreq, hf', List.drop_drop]
  | some tor =>
    have hf' : tr_torrentFindFromObfuscatedHash env
        (xorDigest (List.take 20 (List.drop 20 w.io.inbuf)) (computeRequestHash env w.io req3Name)) =
        some tor := hf
    refine ⟨tr_peerIoSetTorrentHash (evbuffer_drain w.io 40) tor.hash, ?_, rfl, rfl, rfl⟩
    rcases hbad tor hf with hr | hs
    · simp [readCryptoProvide, hl, evbuffer_drain, evbuffer_remove, hreq, hf', List.drop_drop, hr]
    · cases hr : tor.isRunning <;>
        simp [readCryptoProvide, hl, evbuffer_drain, evbuffer_remove, hreq, hf', List.drop_drop,
          hr, hs]

/-- C19: in a live reachable session in `AWAITING_CRYPTO_PROVIDE` with at least 54 bytes
buffered, the pipe is unencrypted and our handshake has not been sent. When the recovered
obfuscated hash matches no torrent, or the matched torrent is not running, or both we and
the peer are seeds for it, `readCryptoProvide` ends the session with `is_ok = false`, writes
nothing, leaves `haveSentBitTorrentHandshake` false and does not switch the pipe to RC4.
Otherwise, with a received PadC length of at most 512, there is no done call: the pipe is
switched to RC4 and the session moves to `AWAITING_PAD_C`. So with a PadC length of at most
512 the session ends in failure if and only if one of the three conditions holds. -/
theorem readCryptoProvide_rejects (env : Env) (w : World)
    (hreach : Reachable env w) (hlive : w.hs.freed = false)
    (hst : w.hs.state = AWAITING_CRYPTO_PROVIDE)
    (hlen : 54 ≤ w.io.inbuf.length) :
    w.io.encryption_type = PEER_ENCRYPTION_NONE ∧
    w.hs.haveSentBitTorrentHandshake = false ∧
    ((∀ tor, tr_torrentFindFromObfuscatedHash env (receivedObfuscatedHash env w) = some tor →
        tor.isRunning = false ∨ (tor.isSeed = true ∧ tor.peerIsSeed = true)) →
      (readCryptoProvide env w).2.doneCalls = w.doneCalls ++ [failedCall env w] ∧
      (readCryptoProvide env w).2.hs.freed = true ∧
      (readCryptoProvide env w).2.io.writes = w.io.writes ∧
      (readCryptoProvide env w).2.hs.haveSentBitTorrentHandshake = false ∧
      (readCryptoProvide env w).2.io.encryption_type = PEER_ENCRYPTION_NONE) ∧
    (∀ tor, tr_torrentFindFromObfuscatedHash env (receivedObfuscatedHash env w) = some tor →
      tor.isRunning = true → ¬ (tor.isSeed = true ∧ tor.peerIsSeed = true) →
      receivedPadCLen env w tor ≤ 512 →
      (readCryptoProvide env w).1 = READ_NOW ∧
      (readCryptoProvide env w).2.doneCalls = w.doneCalls ∧
      (readCryptoProvide env w).2.hs.freed = false ∧
      (readCryptoProvide env w).2.hs.state = AWAITING_PAD_C ∧
      (readCryptoProvide env w).2.io.encryption_type = PEER_ENCRYPTION_RC4) ∧
    ((∀ tor, tr_torrentFindFromObfuscatedHash env (receivedObfuscatedHash env w) = some tor →
        receivedPadCLen env w tor ≤ 512) →
      ((readCryptoProvide env w).2.hs.freed = true ↔
        (tr_torrentFindFromObfuscatedHash env (receivedObfuscatedHash env w) = none ∨
         ∃ tor, tr_torrentFindFromObfuscatedHash env (receivedObfuscatedHash env w) = some tor ∧
           (tor.isRunning = false ∨ (tor.isSeed = true ∧ tor.peerIsSeed = true))))) := by
  have hinv := reachable_invariant env w hreach hlive
  have hst' := hinv.2
  simp only [StateFacts, hst] at hst'
  obtain ⟨henc, hsent⟩ := hinv.1 hst'.1 hst'.2
  have hrej : (∀ tor, tr_torrentFindFromObfuscatedHash env (receivedObfuscatedHash env w) = some tor →
        tor.isRunning = false ∨ (tor.isSeed = true ∧ tor.peerIsSeed = true)) →
      (readCryptoProvide env w).2.doneCalls = w.doneCalls ++ [failedCall env w] ∧
      (readCryptoProvide env w).2.hs.freed = true ∧
      (readCryptoProvide env w).2.io.writes = w.io.writes ∧
      (readCryptoProvide env w).2.hs.haveSentBitTorrentHandshake = false ∧
      (readCryptoProvide env w).2.io.encryption_type = PEER_ENCRYPTION_NONE := by
    intro hbad
    obtain ⟨io', hr, hw, he, _⟩ := readCryptoProvide_rejected env w hlen hbad
    rw [hr]
    refine ⟨?_, rfl, hw, hsent, ?_⟩
    · simp [tr_handshakeDone, fireDoneFunc, tr_handshakeFree, failedCall]
    · simp [tr_handshakeDone, fireDoneFunc, tr_handshakeFree, he, henc]
  have hacc : ∀ tor, tr_torrentFindFromObfuscatedHash env (receivedObfuscatedHash env w) = some tor →
      tor.isRunning = true → ¬ (tor.isSeed = true ∧ tor.peerIsSeed = true) →
      receivedPadCLen env w tor ≤ 512 →
      (readCryptoProvide env w).1 = READ_NOW ∧
      (readCryptoProvide env w).2.doneCalls = w.doneCalls ∧
      (readCryptoProvide env w).2.hs.freed = false ∧
      (readCryptoProvide env w).2.hs.state = AWAITING_PAD_C ∧
      (readCryptoProvide env w).2.io.encryption_type = PEER_ENCRYPTION_RC4 := by
    intro tor hfind hrun hseed hle
    have hpc := readCryptoProvideParse_padc env w tor hlen
    have hle' : ¬ 512 < receivedPadCLen env w tor := by omega
    rw [readCryptoProvide_accepted env w tor hlen hfind hrun hseed]
    dsimp only [readCryptoProvideParse]
    simp only [hpc, PadC_MAXLEN, gt_iff_lt, hle', ↓reduceIte]
    refine ⟨trivial, rfl, hlive, rfl, ?_⟩
    simp [setState, tr_peerIoReadUint16, tr_peerIoReadUint32, tr_peerIoSetEncryption]
  refine ⟨henc, hsent, hrej, hacc, ?_⟩
  intro hpad
  constructor
  · intro hfreed
    cases hf : tr_torrentFindFromObfuscatedHash env (receivedObfuscatedHash env w) with
    | none => exact Or.inl rfl
    | some tor =>
      refine Or.inr ⟨tor, rfl, ?_⟩
      by_contra hgood
      have hrun : tor.isRunning = true := by
        cases hr : tor.isRunning with
        | true => rfl
        | false => exact absurd (Or.inl hr) hgood
      have hseed : ¬ (tor.isSeed = true ∧ tor.peerIsSeed = true) := fun h => hgood (Or.inr h)
      have := (hacc tor hf hrun hseed (hpad tor hf)).2.2.1
      rw [hfreed] at this
      cases this
  · intro hcond
    refine (hrej ?_).2.1
    intro tor hf
    rcases hcond with hnone | ⟨tor', hf', hbad⟩
    · rw [hnone] at hf; cases hf
    · rw [hf'] at hf
      cases hf
      exact hbad

set_option maxRecDepth 100000 in
theorem readCryptoProvide_rejects_witness :
    stoppedResponder.hs.state = AWAITING_CRYPTO_PROVIDE ∧
    (tr_torrentFindFromObfuscatedHash stoppedEnv
      (receivedObfuscatedHash stoppedEnv stoppedResponder)).map (fun t => t.isRunning) = some false ∧
    (readCryptoProvide stoppedEnv stoppedResponder).2.doneCalls =
      stoppedResponder.doneCalls ++ [failedCall stoppedEnv stoppedResponder] ∧
    (readCryptoProvide stoppedEnv stoppedResponder).2.hs.freed = true ∧
    (readCryptoProvide stoppedEnv stoppedResponder).2.io.writes = stoppedResponder.io.writes ∧
    (readCryptoProvide stoppedEnv stoppedResponder).2.hs.haveSentBitTorrentHandshake = false ∧
    (readCryptoProvide stoppedEnv stoppedResponder).2.io.encryption_type = PEER_ENCRYPTION_NONE :=
  ⟨by decide, by decide,
   (readCryptoProvide_rejects stoppedEnv stoppedResponder
     (reachable_passes _ 3 _ (Reachable.arrive _ _ (Reachable.init _ _)))
     (by decide) (by decide) (by decide)).2.2.1
     (by
       intro tor h
       have hf : tr_torrentFindFromObfuscatedHash stoppedEnv
           (receivedObfuscatedHash stoppedEnv stoppedResponder) =
           some { sampleTorrent with isRunning := false } := by decide
       rw [hf] at h
       cases h
       exact Or.inl rfl)⟩

/-! ### The states in which the pipe is encrypted -/

/-- C20 (amended): in every reachable state of a session that has not ended, if the state is
one of `AWAITING_PAD_C`, `AWAITING_IA`, `AWAITING_VC`, `AWAITING_CRYPTO_SELECT` or
`AWAITING_PAD_D` the pipe's encryption mode is RC4, and if it is one of `AWAITING_YA`,
`AWAITING_PAD_A`, `AWAITING_CRYPTO_PROVIDE` or `AWAITING_YB` the pipe's encryption mode is
None: the responder switches the pipe to RC4 inside `readCryptoProvide`, once the torrent is
accepted, on its way to `AWAITING_PAD_C`. -/
theorem encrypted_states (env : Env) (w : World)
    (hreach : Reachable env w) (hlive : w.hs.freed = false) :
    ((w.hs.state = AWAITING_PAD_C ∨ w.hs.state = AWAITING_IA ∨ w.hs.state = AWAITING_VC ∨
        w.hs.state = AWAITING_CRYPTO_SELECT ∨ w.hs.state = AWAITING_PAD_D) →
      w.io.encryption_type = PEER_ENCRYPTION_RC4) ∧
    ((w.hs.state = AWAITING_YA ∨ w.hs.state = AWAITING_PAD_A ∨
        w.hs.state = AWAITING_CRYPTO_PROVIDE ∨ w.hs.state = AWAITING_YB) →
      w.io.encryption_type = PEER_ENCRYPTION_NONE) := by
  obtain ⟨hfresh, hstate⟩ := reachable_invariant env w hreach hlive
  constructor
  · intro h
    rcases h with h | h | h | h | h <;> simp only [StateFacts, h] at hstate
    · exact hstate.1
    · exact hstate.1
    · exact hstate.2.1
    · exact hstate.2.1
    · exact hstate.2.1
  · intro h
    rcases h with h | h | h | h <;> simp only [StateFacts, h] at hstate
    · exact (hfresh hstate.1 hstate.2).1
    · exact (hfresh hstate.1 hstate.2).1
    · exact (hfresh hstate.1 hstate.2).1
    · exact hstate.2.1

set_option maxRecDepth 100000 in
theorem encrypted_states_witness :
    (responderOffered TR_ENCRYPTION_PREFERRED 2).hs.state = AWAITING_IA ∧
    (responderOffered TR_ENCRYPTION_PREFERRED 2).io.encryption_type = PEER_ENCRYPTION_RC4 :=
  ⟨by decide,
   (encrypted_states sampleEnv (responderOffered TR_ENCRYPTION_PREFERRED 2)
     (reachable_passes _ 5 _ (Reachable.arrive _ _ (Reachable.init _ _))) (by decide)).1
     (Or.inr (Or.inl (by decide)))⟩

set_option maxRecDepth 100000 in
/-- C20 (counterexample): a responder that has received the peer's public key and the hash
`SHA1("req1" ‖ S)` but not yet the rest of message 3. `canRead` runs four transitions and
asks for more bytes; the session is then in `AWAITING_CRYPTO_PROVIDE` and its pipe is in mode
None, not RC4. -/
theorem awaiting_crypto_provide_unencrypted :
    Reachable sampleEnv responderAwaitingOffer ∧
    canRead sampleEnv 4
      (arrive (tr_handshakeNew sampleEnv (samplePipe true) TR_ENCRYPTION_PREFERRED) keyAndFirstHash) =
      some (READ_LATER, responderAwaitingOffer) ∧
    responderAwaitingOffer.hs.freed = false ∧
    responderAwaitingOffer.doneCalls = [] ∧
    responderAwaitingOffer.hs.state = AWAITING_CRYPTO_PROVIDE ∧
    responderAwaitingOffer.io.encryption_type = PEER_ENCRYPTION_NONE ∧
    responderAwaitingOffer.io.encryption_type ≠ PEER_ENCRYPTION_RC4 :=
  ⟨reachable_passes _ 4 _ (Reachable.arrive _ _ (Reachable.init _ _)),
   by decide, by decide, by decide, by decide, by decide, by decide⟩

/-! ### The BT handshake is sent once per connection -/

theorem tr_handshakeDone_sent (env : Env) (w : World) (b : Bool)
    (h : w.hs.haveSentBitTorrentHandshake = true) :
    (tr_handshakeDone env w b).2.hs.haveSentBitTorrentHandshake = true := h

theorem readHandshakeReply_sent (env : Env) (w : World)
    (h : w.hs.haveSentBitTorrentHandshake = true) :
    (readHandshakeReply env w).2.hs.haveSentBitTorrentHandshake = true := by
  dsimp only [readHandshakeReply]
  repeat' split
  all_goals first | with_reducible exact tr_handshakeDone_sent _ _ _ h | exact h | rfl

theorem readHandshakeParse_sent (env : Env) (w : World)
    (h : w.hs.haveSentBitTorrentHandshake = true) :
    (readHandshakeParse env w).2.hs.haveSentBitTorrentHandshake = true := by
  dsimp only [readHandshakeParse]
  repeat' split
  all_goals first
    | with_reducible exact tr_handshakeDone_sent _ _ _ h
    | with_reducible exact readHandshakeReply_sent _ _ h

theorem readHandshake_sent (env : Env) (w : World)
    (h : w.hs.haveSentBitTorrentHandshake = true) :
    (readHandshake env w).2.hs.haveSentBitTorrentHandshake = true := by
  dsimp only [readHandshake]
  repeat' split
  all_goals first
    | with_reducible exact h
    | with_reducible exact tr_handshakeDone_sent _ _ _ h
    | with_reducible exact readHandshakeParse_sent _ _ h
    | exact h

theorem canReadStep_sent (env : Env) (w : World)
    (h : w.hs.haveSentBitTorrentHandshake = true) :
    (canReadStep env w).2.hs.haveSentBitTorrentHandshake = true := by
  have h' : ({ w with dispatched := w.dispatched ++ [(w.hs.state, w.hs.freed)] } :
      World).hs.haveSentBitTorrentHandshake = true := h
  dsimp only [canReadStep, canReadSwitch]
  split
  · exact readHandshake_sent _ _ h'
  all_goals
    first
    | dsimp only [readPeerId] | dsimp only [readYa] | dsimp only [readPadA]
    | dsimp only [readCryptoProvide, readCryptoProvideParse] | dsimp only [readPadC]
    | dsimp only [readIA] | dsimp only [readYb] | dsimp only [readVC]
    | dsimp only [readCryptoSelect] | dsimp only [readPadD]
  all_goals repeat' split
  all_goals first
    | with_reducible exact h
    | with_reducible exact tr_handshakeDone_sent _ _ _ h
    | exact h
    | rfl

theorem buildHandshakeMessage_congr (env : Env) (w w' : World)
    (h : w'.io.torrentHash = w.io.torrentHash) :
    buildHandshakeMessage env w' = buildHandshakeMessage env w := by
  simp only [buildHandshakeMessage, buildHandshakePeerId, h]

theorem sendPlainTextHandshake_sent (env : Env) (w : World)
    (h : w.hs.haveSentBitTorrentHandshake = true) :
    (sendPlainTextHandshake env w).hs.haveSentBitTorrentHandshake = true := by
  dsimp only [sendPlainTextHandshake]
  split
  · exact h
  · rfl

theorem gotErrorFinish_sent (env : Env) (w : World) (b : Bool)
    (h : w.hs.haveSentBitTorrentHandshake = true) :
    (gotErrorFinish env w b).hs.haveSentBitTorrentHandshake = true := by
  have hr : (tr_peerIoReconnect env w).2.hs.haveSentBitTorrentHandshake = true := by
    rw [tr_peerIoReconnect_hs]; exact h
  dsimp only [gotErrorFinish]
  repeat' split
  all_goals first
    | with_reducible exact sendPlainTextHandshake_sent _ _ hr
    | exact hr
    | exact h

theorem gotErrorTcp_sent (env : Env) (w : World) (b : Bool)
    (h : w.hs.haveSentBitTorrentHandshake = true) :
    (gotErrorTcp env w b).hs.haveSentBitTorrentHandshake = true := by
  dsimp only [gotErrorTcp]
  split <;> exact gotErrorFinish_sent _ _ _ h

theorem gotErrorUtp_sent (env : Env) (w : World)
    (h : w.hs.haveSentBitTorrentHandshake = true) :
    (if w.hs.state = AWAITING_YB then
        if (tr_peerIoReconnect env w).1 = true then
          sendYa env { (tr_peerIoReconnect env w).2 with
            io := tr_peerIoSetEncryption (tr_peerIoReconnect env w).2.io PEER_ENCRYPTION_NONE }
        else gotErrorTcp env (tr_peerIoReconnect env w).2 false
      else gotErrorTcp env w true).hs.haveSentBitTorrentHandshake = true := by
  have hr : (tr_peerIoReconnect env w).2.hs.haveSentBitTorrentHandshake = true := by
    rw [tr_peerIoReconnect_hs]; exact h
  repeat' split
  · exact hr
  · exact gotErrorTcp_sent _ _ _ hr
  · exact gotErrorTcp_sent _ _ _ h

theorem gotError_sent (env : Env) (w : World) (errcode : Nat)
    (h : w.hs.haveSentBitTorrentHandshake = true) :
    (gotError env w errcode).hs.haveSentBitTorrentHandshake = true := by
  dsimp only [gotError]
  split
  · refine gotErrorUtp_sent env _ ?_
    repeat' split
    all_goals exact h
  · exact gotErrorTcp_sent _ _ _ h

/-- The scan of `readVC` touches nothing of the pipe but the input buffer and the decryption
stream. -/
theorem readVCLoop_frame (env : Env) (l : List Nat) :
    ∀ io : tr_peerIo, (readVCLoop env l io).2 =
      { io with inbuf := (readVCLoop env l io).2.inbuf,
                dec_key := (readVCLoop env l io).2.dec_key } := by
  induction l with
  | nil => intro io; rfl
  | cons b rest ih =>
    intro io
    simp only [readVCLoop]
    repeat' split
    · rfl
    · rfl
    · rw [ih]
      rfl

theorem readVC_writes (env : Env) (w : World) : (readVC env w).2.io.writes = w.io.writes := by
  have h := readVCLoop_frame env w.io.inbuf w.io
  dsimp only [readVC]
  split
  · show (readVCLoop env w.io.inbuf w.io).2.writes = w.io.writes
    rw [h]
  · show (readVCLoop env w.io.inbuf w.io).2.writes = w.io.writes
    rw [h]

theorem readHandshakeReply_writes (env : Env) (w : World)
    (h : w.hs.haveSentBitTorrentHandshake = true) :
    (readHandshakeReply env w).2.io.writes = w.io.writes := by
  have h' : ¬ w.hs.haveSentBitTorrentHandshake = false := by rw [h]; decide
  dsimp only [readHandshakeReply]
  rw [if_neg h']
  rfl

theorem readHandshakeParse_writes (env : Env) (w : World)
    (h : w.hs.haveSentBitTorrentHandshake = true) :
    (readHandshakeParse env w).2.io.writes = w.io.writes := by
  dsimp only [readHandshakeParse]
  repeat' split
  all_goals first
    | (refine (readHandshakeReply_writes _ _ (by exact h)).trans ?_
       simp [tr_peerIoSetTorrentHash, tr_peerIoEnableDHT, tr_peerIoEnableLTEP, tr_peerIoEnableFEXT])
    | simp [tr_peerIoSetTorrentHash, tr_peerIoEnableDHT, tr_peerIoEnableLTEP, tr_peerIoEnableFEXT]

theorem readHandshake_writes (env : Env) (w : World)
    (h : w.hs.haveSentBitTorrentHandshake = true) :
    (readHandshake env w).2.io.writes = w.io.writes := by
  dsimp only [readHandshake]
  repeat' split
  all_goals first
    | with_reducible exact readHandshakeParse_writes _ _ h
    | rfl

theorem readPeerId_writes (env : Env) (w : World) : (readPeerId env w).2.io.writes = w.io.writes := by
  dsimp only [readPeerId]
  split
  · rfl
  · simp [tr_peerIoSetPeersId]

theorem readCryptoSelect_writes (env : Env) (w : World) :
    (readCryptoSelect env w).2.io.writes = w.io.writes := by
  dsimp only [readCryptoSelect]
  repeat' split
  all_goals first | rfl | simp [tr_peerIoReadUint32, tr_peerIoReadUint16, setState]

theorem readPadD_writes (env : Env) (w : World) : (readPadD env w).2.io.writes = w.io.writes := by
  dsimp only [readPadD]
  split
  · rfl
  · simp [tr_peerIoDrain, tr_peerIoSetEncryption, setState]

/-- Once the handshake is sent, no read transition of a live reachable session writes
anything. -/
theorem canReadStep_writes (env : Env) (w : World)
    (hreach : Reachable env w) (hlive : w.hs.freed = false)
    (h : w.hs.haveSentBitTorrentHandshake = true) :
    (canReadStep env w).2.io.writes = w.io.writes := by
  obtain ⟨hfresh, hstate⟩ := reachable_invariant env w hreach hlive
  have h' : ({ w with dispatched := w.dispatched ++ [(w.hs.state, w.hs.freed)] } :
      World).hs.haveSentBitTorrentHandshake = true := h
  dsimp only [canReadStep, canReadSwitch]
  split
  · exact readHandshake_writes _ _ h'
  · exact readPeerId_writes _ _
  all_goals rename_i hst
  all_goals simp only [StateFacts, hst] at hstate
  · have := (hfresh hstate.1 hstate.2).2; rw [h] at this; cases this
  · have := (hfresh hstate.1 hstate.2).2; rw [h] at this; cases this
  · have := (hfresh hstate.1 hstate.2).2; rw [h] at this; cases this
  · have := hstate.2; rw [h] at this; cases this
  · have := hstate.2; rw [h] at this; cases this
  · have := hstate.2.2.2; rw [h] at this; cases this
  · exact readVC_writes _ _
  · exact readCryptoSelect_writes _ _
  · exact readPadD_writes _ _

theorem tr_peerIoReconnect_writes (env : Env) (w : World) :
    (tr_peerIoReconnect env w).2.io.writes = w.io.writes ∧
    (tr_peerIoReconnect env w).2.io.torrentHash = w.io.torrentHash := by
  unfold tr_peerIoReconnect
  split <;> exact ⟨rfl, rfl⟩

theorem tr_peerIoReconnect_success (env : Env) (w : World)
    (h : (tr_peerIoReconnect env w).1 = true) :
    ∃ t, env.reconnect w.reconnects.length = some t := by
  unfold tr_peerIoReconnect at h
  split at h
  · cases h
  · rename_i t ht; exact ⟨t, ht⟩

/-- The error handler writes nothing, or, after a successful reconnect, the plaintext BT
handshake (when the session is not in `AWAITING_YB`, where it may re-send the public key). -/
theorem gotErrorFinish_writes (env : Env) (w : World) (b : Bool) :
    (gotErrorFinish env w b).io.writes = w.io.writes ∨
    ∃ msg t, buildHandshakeMessage env w = some msg ∧
      env.reconnect w.reconnects.length = some t ∧
      (gotErrorFinish env w b).io.writes = w.io.writes ++
        [{ data := msg, encryption_type := PEER_ENCRYPTION_NONE, wire := msg }] := by
  obtain ⟨hw, ht⟩ := tr_peerIoReconnect_writes env w
  dsimp only [gotErrorFinish]
  split
  · split
    · rename_i hr
      obtain ⟨t, hrec⟩ := tr_peerIoReconnect_success env w hr
      dsimp only [sendPlainTextHandshake]
      split
      · left; exact hw
      · rename_i msg hmsg
        right
        refine ⟨msg, t, ?_, hrec, ?_⟩
        · rw [← hmsg]
          exact (buildHandshakeMessage_congr env w _ ht).symm
        · simp [setReadState, setState, tr_peerIoWriteBytes_plain, tr_peerIoSetEncryption, hw]
    · left; exact hw
  · left; rfl

theorem gotErrorTcp_writes (env : Env) (w w1 : World) (b : Bool)
    (h1 : w1.hs = w.hs) (h2 : w1.io = w.io) (h3 : w1.reconnects = w.reconnects)
    (hst : w.hs.state ≠ AWAITING_YB) :
    (gotErrorTcp env w1 b).io.writes = w.io.writes ∨
    ∃ msg t, buildHandshakeMessage env w = some msg ∧
      env.reconnect w.reconnects.length = some t ∧
      (gotErrorTcp env w1 b).io.writes = w.io.writes ++
        [{ data := msg, encryption_type := PEER_ENCRYPTION_NONE, wire := msg }] := by
  have hst' : ¬ w.hs.state = AWAITING_YB := hst
  have e : gotErrorTcp env w1 b = gotErrorFinish env w1 b := by
    simp [gotErrorTcp, h1, hst']
  rw [e, ← h2, ← h3, buildHandshakeMessage_congr env w1 w (by rw [h2])]
  exact gotErrorFinish_writes env w1 b

theorem gotErrorUtp_writes (env : Env) (w w1 : World)
    (h1 : w1.hs = w.hs) (h2 : w1.io = w.io) (h3 : w1.reconnects = w.reconnects)
    (hst : w.hs.state ≠ AWAITING_YB) :
    (if w1.hs.state = AWAITING_YB then
        if (tr_peerIoReconnect env w1).1 = true then
          sendYa env { (tr_peerIoReconnect env w1).2 with
            io := tr_peerIoSetEncryption (tr_peerIoReconnect env w1).2.io PEER_ENCRYPTION_NONE }
        else gotErrorTcp env (tr_peerIoReconnect env w1).2 false
      else gotErrorTcp env w1 true).io.writes = w.io.writes ∨
    ∃ msg t, buildHandshakeMessage env w = some msg ∧
      env.reconnect w.reconnects.length = some t ∧
      (if w1.hs.state = AWAITING_YB then
        if (tr_peerIoReconnect env w1).1 = true then
          sendYa env { (tr_peerIoReconnect env w1).2 with
            io := tr_peerIoSetEncryption (tr_peerIoReconnect env w1).2.io PEER_ENCRYPTION_NONE }
        else gotErrorTcp env (tr_peerIoReconnect env w1).2 false
      else gotErrorTcp env w1 true).io.writes = w.io.writes ++
        [{ data := msg, encryption_type := PEER_ENCRYPTION_NONE, wire := msg }] := by
  have hst' : ¬ w1.hs.state = AWAITING_YB := by rw [h1]; exact hst
  rw [if_neg hst']
  exact gotErrorTcp_writes env w w1 true h1 h2 h3 hst

theorem gotError_writes (env : Env) (w : World) (errcode : Nat)
    (hst : w.hs.state ≠ AWAITING_YB) :
    (gotError env w errcode).io.writes = w.io.writes ∨
    ∃ msg t, buildHandshakeMessage env w = some msg ∧
      env.reconnect w.reconnects.length = some t ∧
      (gotError env w errcode).io.writes = w.io.writes ++
        [{ data := msg, encryption_type := PEER_ENCRYPTION_NONE, wire := msg }] := by
  dsimp only [gotError]
  split
  · refine gotErrorUtp_writes env w _ ?_ ?_ ?_ hst
    all_goals repeat' split
    all_goals rfl
  · exact gotErrorTcp_writes env w w false rfl rfl rfl hst

/-- C22: an outgoing session over uTP in `AWAITING_YB` that receives a transport error, in
every encryption mode. The peer is marked as not supporting uTP exactly when errno is
ETIMEDOUT or ECONNREFUSED and the pipe's bound info-hash resolves to a torrent. A reconnect
is requested, once. If it succeeds the pipe's encryption is set to None, a fresh Ya message
(public key and new padding) is written unencrypted, the state remains `AWAITING_YB` and the
done callback is not invoked. -/
theorem gotError_utp_awaiting_yb (env : Env) (w : World) (errcode : Nat)
    (hutp : w.io.socketType = TR_PEER_SOCKET_TYPE_UTP) (hout : w.io.isIncoming = false)
    (hst : w.hs.state = AWAITING_YB) :
    (∀ tor, w.io.torrentHash.bind (tr_torrentFindFromHash env.session) = some tor →
      (errcode = env.ETIMEDOUT ∨ errcode = env.ECONNREFUSED) →
      (gotError env w errcode).utpFailed = w.utpFailed ++ [tor.hash]) ∧
    (¬ (errcode = env.ETIMEDOUT ∨ errcode = env.ECONNREFUSED) →
      (gotError env w errcode).utpFailed = w.utpFailed) ∧
    (w.io.torrentHash.bind (tr_torrentFindFromHash env.session) = none →
      (gotError env w errcode).utpFailed = w.utpFailed) ∧
    (gotError env w errcode).reconnects =
      w.reconnects ++ [(env.reconnect w.reconnects.length).isSome] ∧
    (∀ t, env.reconnect w.reconnects.length = some t →
      (gotError env w errcode).io.encryption_type = PEER_ENCRYPTION_NONE ∧
      (gotError env w errcode).io.socketType = t ∧
      (gotError env w errcode).io.writes = w.io.writes ++
        [{ data := env.myPublicKey ++ randomPad env w.randCount PadA_MAXLEN,
           encryption_type := PEER_ENCRYPTION_NONE,
           wire := env.myPublicKey ++ randomPad env w.randCount PadA_MAXLEN }] ∧
      (gotError env w errcode).hs.state = AWAITING_YB ∧
      (gotError env w errcode).hs.freed = w.hs.freed ∧
      (gotError env w errcode).doneCalls = w.doneCalls) := by
  cases hb : w.io.torrentHash with
  | none =>
    cases hrec : env.reconnect w.reconnects.length <;>
      simp [gotError, hutp, hout, hst, tr_peerIoHasTorrentHash, hb, tr_peerIoReconnect, hrec,
        gotErrorTcp, gotErrorFinish, tr_handshakeDone, fireDoneFunc, tr_handshakeFree,
        sendYa, setReadState, setState, tr_peerIoSetEncryption, tr_peerIoWriteBytes_plain]
  | some H =>
    cases hf : tr_torrentFindFromHash env.session H <;>
    cases hrec : env.reconnect w.reconnects.length <;>
    by_cases he : errcode = env.ETIMEDOUT ∨ errcode = env.ECONNREFUSED <;>
      simp [gotError, hutp, hout, hst, tr_peerIoHasTorrentHash, hb, hf, tr_peerIoReconnect, hrec,
        gotErrorTcp, gotErrorFinish, tr_handshakeDone, fireDoneFunc, tr_handshakeFree, he,
        sendYa, setReadState, setState, tr_peerIoSetEncryption, tr_peerIoWriteBytes_plain]

set_option maxRecDepth 100000 in
theorem gotError_utp_awaiting_yb_witness :
    (tr_handshakeNew sampleEnv utpPipe TR_ENCRYPTION_REQUIRED).hs.state = AWAITING_YB ∧
    (gotError sampleEnv (tr_handshakeNew sampleEnv utpPipe TR_ENCRYPTION_REQUIRED)
      sampleEnv.ETIMEDOUT).utpFailed = [sampleHash] ∧
    (gotError sampleEnv (tr_handshakeNew sampleEnv utpPipe TR_ENCRYPTION_REQUIRED)
      sampleEnv.ETIMEDOUT).reconnects = [true] ∧
    (gotError sampleEnv (tr_handshakeNew sampleEnv utpPipe TR_ENCRYPTION_REQUIRED)
      sampleEnv.ETIMEDOUT).hs.state = AWAITING_YB ∧
    (gotError sampleEnv (tr_handshakeNew sampleEnv utpPipe TR_ENCRYPTION_REQUIRED)
      sampleEnv.ETIMEDOUT).doneCalls = [] :=
  have h := gotError_utp_awaiting_yb sampleEnv
    (tr_handshakeNew sampleEnv utpPipe TR_ENCRYPTION_REQUIRED) sampleEnv.ETIMEDOUT
    (by decide) (by decide) (by decide)
  have h5 := h.2.2.2.2 TR_PEER_SOCKET_TYPE_TCP (by decide)
  ⟨by decide, h.1 sampleTorrent (by decide) (Or.inl rfl), h.2.2.2.1, h5.2.2.2.1, h5.2.2.2.2.2⟩

/-- C23: a session over TCP in `AWAITING_YB` that receives a transport error. In Required mode
no reconnect is attempted and the session ends with `is_ok = false`. In the other modes a
reconnect is requested: when it fails the session ends with `is_ok = false`; when it
succeeds and the BT handshake can be built, the pipe's encryption is set to None, the 68-byte
plaintext BT handshake is written, `haveSentBitTorrentHandshake` is set, the state becomes
`AWAITING_HANDSHAKE` and the done callback is not invoked. -/
theorem gotError_tcp_awaiting_yb (env : Env) (w : World) (errcode : Nat)
    (htcp : w.io.socketType = TR_PEER_SOCKET_TYPE_TCP) (hst : w.hs.state = AWAITING_YB) :
    (w.hs.encryptionMode = TR_ENCRYPTION_REQUIRED →
      (gotError env w errcode).reconnects = w.reconnects ∧
      (gotError env w errcode).doneCalls = w.doneCalls ++ [failedCall env w] ∧
      (gotError env w errcode).hs.freed = true ∧
      (gotError env w errcode).io.writes = w.io.writes) ∧
    (w.hs.encryptionMode ≠ TR_ENCRYPTION_REQUIRED → env.reconnect w.reconnects.length = none →
      (gotError env w errcode).reconnects = w.reconnects ++ [false] ∧
      (gotError env w errcode).doneCalls = w.doneCalls ++ [failedCall env w] ∧
      (gotError env w errcode).hs.freed = true ∧
      (gotError env w errcode).io.writes = w.io.writes) ∧
    (w.hs.encryptionMode ≠ TR_ENCRYPTION_REQUIRED →
      ∀ t H tor, env.reconnect w.reconnects.length = some t → w.io.torrentHash = some H →
        tr_torrentFindFromHash env.session H = some tor → tor.isRunning = true →
        (gotError env w errcode).reconnects = w.reconnects ++ [true] ∧
        (gotError env w errcode).io.encryption_type = PEER_ENCRYPTION_NONE ∧
        (gotError env w errcode).io.writes = w.io.writes ++
          [{ data := ourHandshake env H tor.peer_id, encryption_type := PEER_ENCRYPTION_NONE,
             wire := ourHandshake env H tor.peer_id }] ∧
        (H.length = 20 → tor.peer_id.length = 20 → (ourHandshake env H tor.peer_id).length = 68) ∧
        (gotError env w errcode).hs.haveSentBitTorrentHandshake = true ∧
        (gotError env w errcode).hs.state = AWAITING_HANDSHAKE ∧
        (gotError env w errcode).hs.freed = w.hs.freed ∧
        (gotError env w errcode).doneCalls = w.doneCalls) := by
  have hne : ¬ TR_PEER_SOCKET_TYPE_TCP = TR_PEER_SOCKET_TYPE_UTP := by decide
  have key : gotError env w errcode = gotErrorFinish env w true := by
    simp [gotError, htcp, hne, gotErrorTcp, hst]
  rw [key]
  refine ⟨?_, ?_, ?_⟩
  · intro hm
    simp [gotErrorFinish, hm, tr_handshakeDone, fireDoneFunc, tr_handshakeFree, failedCall]
  · intro hm hrec
    have hm' : ¬ w.hs.encryptionMode = TR_ENCRYPTION_REQUIRED := hm
    simp [gotErrorFinish, hm', tr_peerIoReconnect, hrec, tr_handshakeDone, fireDoneFunc,
      tr_handshakeFree, failedCall]
  · intro hm t H tor hrec hb hf hrun
    have hm' : ¬ w.hs.encryptionMode = TR_ENCRYPTION_REQUIRED := hm
    have hmsg := fun w' hb' => buildHandshakeMessage_eq env w' H tor hb' hf hrun
    refine ⟨?_, ?_, ?_, ourHandshake_length env H tor.peer_id, ?_, ?_, ?_, ?_⟩ <;>
      simp [gotErrorFinish, hm', tr_peerIoReconnect, hrec, sendPlainTextHandshake, hmsg, hb,
        tr_peerIoSetEncryption, setReadState, setState, tr_peerIoWriteBytes_plain]

set_option maxRecDepth 100000 in
theorem gotError_tcp_awaiting_yb_witness :
    (tr_handshakeNew sampleEnv (samplePipe false) TR_ENCRYPTION_PREFERRED).hs.state = AWAITING_YB ∧
    (gotError sampleEnv (tr_handshakeNew sampleEnv (samplePipe false) TR_ENCRYPTION_PREFERRED)
      sampleEnv.ECONNREFUSED).hs.state = AWAITING_HANDSHAKE ∧
    (gotError sampleEnv (tr_handshakeNew sampleEnv (samplePipe false) TR_ENCRYPTION_PREFERRED)
      sampleEnv.ECONNREFUSED).hs.haveSentBitTorrentHandshake = true ∧
    (gotError sampleEnv (tr_handshakeNew sampleEnv (samplePipe false) TR_ENCRYPTION_PREFERRED)
      sampleEnv.ECONNREFUSED).doneCalls = [] :=
  have h := (gotError_tcp_awaiting_yb sampleEnv
    (tr_handshakeNew sampleEnv (samplePipe false) TR_ENCRYPTION_PREFERRED) sampleEnv.ECONNREFUSED
    (by decide) (by decide)).2.2 (by decide) TR_PEER_SOCKET_TYPE_TCP sampleHash sampleTorrent
    (by decide) (by decide) (by decide) (by decide)
  ⟨by decide, h.2.2.2.2.2.1, h.2.2.2.2.1, h.2.2.2.2.2.2.2⟩

/-! ### Abort -/

/-- Eight bytes decrypt to zeros under a fresh decryption stream exactly when they are the
first eight keystream bytes. -/
theorem decrypts_to_zero_iff (env : Env) (io : tr_peerIo) (x : List Nat) :
    (tr_cryptoDecrypt env (tr_cryptoDecryptInit io) x).1 = List.replicate 8 0 ↔
      x = encryptedVC env io := by
  simp only [tr_cryptoDecrypt, encryptedVC]
  have hpos : (tr_cryptoDecryptInit io).dec_key.pos = 0 := rfl
  rw [hpos]
  constructor
  · intro h
    have := congrArg (rc4Apply (ctxKeystream env (tr_cryptoDecryptInit io).dec_key) 0) h
    rw [rc4Apply_involutive] at this
    exact this
  · intro h
    rw [h, rc4Apply_involutive]

theorem readVCLoop_not_found (env : Env) (vc : List Nat) (l : List Nat) :
    ∀ io : tr_peerIo, encryptedVC env io = vc →
      (∀ k, k + 8 ≤ l.length → (l.drop k).take 8 ≠ vc) →
      (readVCLoop env l io).1 = false ∧
      (readVCLoop env l io).2.inbuf = l.drop (l.length - 7) := by
  induction l with
  | nil => intro io _ _; exact ⟨rfl, rfl⟩
  | cons b rest ih =>
    intro io hvc hno
    by_cases hlen : (b :: rest).length < 8
    · have h7 : (b :: rest).length - 7 = 0 := by omega
      rw [h7]
      simp only [readVCLoop, VC_LENGTH, if_pos hlen]
      exact ⟨trivial, rfl⟩
    · have hge : 8 ≤ (b :: rest).length := by omega
      rw [readVCLoop_of_le env _ io hge]
      have hne : ¬ (tr_cryptoDecrypt env (tr_cryptoDecryptInit io) (List.take 8 (b :: rest))).1 =
          List.replicate 8 0 := by
        rw [decrypts_to_zero_iff, hvc]
        exact hno 0 (by simpa using hge)
      rw [if_neg hne]
      have hio : encryptedVC env (tr_cryptoDecrypt env (tr_cryptoDecryptInit io)
          (List.take 8 (b :: rest))).2 = vc := by
        rw [← hvc]; rfl
      have := ih _ hio (fun k hk => by
        have := hno (k + 1) (by simp; omega)
        simpa using this)
      simp only [List.tail_cons]
      refine ⟨this.1, ?_⟩
      rw [this.2]
      have hr : (b :: rest).length - 7 = (rest.length - 7) + 1 := by
        simp only [List.length_cons] at hge ⊢
        omega
      rw [hr]
      rfl

theorem split_at_window (b vc : List Nat) (k : Nat)
    (h : (b.drop k).take 8 = vc) : b = b.take k ++ (vc ++ b.drop (k + 8)) := by
  have h1 : b.drop k = (b.drop k).take 8 ++ (b.drop k).drop 8 := (List.take_append_drop 8 _).symm
  rw [h, List.drop_drop] at h1
  have h2 : b = b.take k ++ b.drop k := (List.take_append_drop k b).symm
  rw [h1] at h2
  exact h2

theorem noEarlierMatch_of_windows (b vc : List Nat) (k : Nat) (hk : k + 8 ≤ b.length)
    (h : (b.drop k).take 8 = vc)
    (hno : ∀ j, j < k → (b.drop j).take 8 ≠ vc) : NoEarlierMatch vc (b.take k) := by
  have hlen : vc.length = 8 := by
    rw [← h, List.length_take, List.length_drop]; omega
  have hpre : (b.take k).length = k := by rw [List.length_take]; omega
  intro q hq
  rw [hpre] at hq
  rw [hlen]
  intro hc
  apply hno q hq
  have hb := split_at_window b vc k h
  rw [hb, ← List.append_assoc, List.drop_append_of_le_length (by simp [hpre]; omega),
    List.take_append_of_le_length (by simp [hpre, hlen]; omega)]
  exact hc

/-- C25: `readVC` resynchronises on the first candidate alignment. Eight bytes decrypt to
zeros under a freshly initialised decryption stream exactly when they equal the first eight
keystream bytes. If k is the least offset at which the buffer holds such a window, `readVC`
drains exactly k + 8 bytes, moves to `AWAITING_CRYPTO_SELECT` and leaves the decryption stream
freshly initialised and advanced by 8. If there is no such offset it drains max(0, |b| - 7)
bytes, leaves the session as it is and asks for more bytes. In no case does it end the
session or write, and it returns for every buffer. -/
theorem readVC_resynchronises (env : Env) (w : World) :
    (∀ x : List Nat, (tr_cryptoDecrypt env (tr_cryptoDecryptInit w.io) x).1 = List.replicate 8 0 ↔
      x = encryptedVC env w.io) ∧
    (∀ k, k + 8 ≤ w.io.inbuf.length → (w.io.inbuf.drop k).take 8 = encryptedVC env w.io →
      (∀ j, j < k → (w.io.inbuf.drop j).take 8 ≠ encryptedVC env w.io) →
      readVC env w = (READ_NOW,
        { w with hs := { w.hs with state := AWAITING_CRYPTO_SELECT },
                 io := { w.io with inbuf := w.io.inbuf.drop (k + 8),
                                   dec_key := { (tr_cryptoDecryptInit w.io).dec_key with pos := 8 } } })) ∧
    ((∀ k, k + 8 ≤ w.io.inbuf.length → (w.io.inbuf.drop k).take 8 ≠ encryptedVC env w.io) →
      (readVC env w).1 = READ_LATER ∧
      (readVC env w).2.io.inbuf = w.io.inbuf.drop (w.io.inbuf.length - 7) ∧
      (readVC env w).2.hs = w.hs) ∧
    ((readVC env w).1 ≠ READ_ERR ∧
     (readVC env w).2.doneCalls = w.doneCalls ∧
     (readVC env w).2.hs.freed = w.hs.freed ∧
     (readVC env w).2.io.writes = w.io.writes ∧
     (readVC env w).2.io.encryption_type = w.io.encryption_type) := by
  refine ⟨decrypts_to_zero_iff env w.io, ?_, ?_, ?_⟩
  · intro k hk hwin hno
    have hb := split_at_window w.io.inbuf _ k hwin
    exact readVC_found env w _ _ hb (noEarlierMatch_of_windows w.io.inbuf _ k hk hwin hno)
  · intro hno
    obtain ⟨h1, h2⟩ := readVCLoop_not_found env _ w.io.inbuf w.io rfl hno
    dsimp only [readVC]
    rw [if_pos h1]
    exact ⟨rfl, h2, rfl⟩
  · have hf := readVCLoop_frame env w.io.inbuf w.io
    dsimp only [readVC]
    split
    · refine ⟨(fun h => by cases h), rfl, rfl, ?_, ?_⟩
      · show (readVCLoop env w.io.inbuf w.io).2.writes = w.io.writes
        rw [hf]
      · show (readVCLoop env w.io.inbuf w.io).2.encryption_type = w.io.encryption_type
        rw [hf]
    · refine ⟨(fun h => by cases h), rfl, rfl, ?_, ?_⟩
      · show (readVCLoop env w.io.inbuf w.io).2.writes = w.io.writes
        rw [hf]
      · show (readVCLoop env w.io.inbuf w.io).2.encryption_type = w.io.encryption_type
        rw [hf]

set_option maxRecDepth 100000 in
theorem readVC_resynchronises_witness :
    vcWorld.hs.state = AWAITING_VC ∧ vcWorld.io.inbuf.length = 17 ∧
    readVC sampleEnv vcWorld = (READ_NOW,
      { vcWorld with
        hs := { vcWorld.hs with state := AWAITING_CRYPTO_SELECT },
        io := { vcWorld.io with
                inbuf := vcWorld.io.inbuf.drop (3 + 8),
                dec_key := { (tr_cryptoDecryptInit vcWorld.io).dec_key with pos := 8 } } }) :=
  ⟨by decide, by decide,
   (readVC_resynchronises sampleEnv vcWorld).2.1 3 (by decide) (by decide) (by decide)⟩

/-! ### Resynchronisation on the first hash -/

theorem evbuffer_search_eq_none (what buf : List Nat) :
    evbuffer_search what buf = none ↔
      ∀ q, q ≤ buf.length → (buf.drop q).take what.length ≠ what := by
  induction buf with
  | nil =>
    simp only [evbuffer_search, List.length_nil, Nat.le_zero, List.drop_nil, List.take_nil]
    constructor
    · intro h q _ hw
      rw [if_pos hw.symm] at h
      cases h
    · intro h
      have := h 0 rfl
      rw [if_neg (fun e => this e.symm)]
  | cons b rest ih =>
    simp only [evbuffer_search]
    by_cases h0 : List.take what.length (b :: rest) = what
    · rw [if_pos h0]
      constructor
      · intro h; cases h
      · intro h; exact absurd (by simpa using h0) (h 0 (Nat.zero_le _))
    · rw [if_neg h0]
      constructor
      · intro h q hq
        have hr : evbuffer_search what rest = none := by
          cases hs : evbuffer_search what rest with
          | none => rfl
          | some p => simp [hs] at h
        cases q with
        | zero => simpa using h0
        | succ q => simpa using (ih.1 hr) q (by simpa using hq)
      · intro h
        have hr : evbuffer_search what rest = none :=
          ih.2 (fun q hq => by simpa using h (q + 1) (by simpa using hq))
        simp [hr]

theorem window_of_take (s : List Nat) (a q n : Nat) (h : q + n ≤ a) :
    ((s.take a).drop q).take n = (s.drop q).take n := by
  rw [List.drop_take, List.take_take]
  congr 1
  omega

theorem window_length (x m : List Nat) (h : x.take m.length = m) : m.length ≤ x.length := by
  have := congrArg List.length h
  simp only [List.length_take] at this
  omega

/-- One `readPadA` call on a buffer that is the arrived part of a stream without its first
`d` bytes, none of which belongs to the first occurrence of the marker. -/
theorem readPadA_on_stream (env : Env) (w : World) (m s : List Nat) (p a d : Nat)
    (hm : m.length = 20) (hreq : w.hs.myReq1 = m) (hs : evbuffer_search m s = some p)
    (ha : a ≤ s.length) (hda : d ≤ a) (hdp : d ≤ p)
    (hbuf : w.io.inbuf = (s.take a).drop d) :
    (p + 20 ≤ a → readPadA env w = (READ_NOW,
      { w with hs := { w.hs with state := AWAITING_CRYPTO_PROVIDE },
               io := { w.io with inbuf := (s.take a).drop p } })) ∧
    (a < p + 20 → ∃ d', d ≤ d' ∧ d' ≤ p ∧ d' ≤ a ∧ a ≤ d' + 20 ∧
      readPadA env w = (READ_LATER, { w with io := { w.io with inbuf := (s.take a).drop d' } })) := by
  subst hreq
  obtain ⟨hp1, hp2, hp3⟩ := (evbuffer_search_eq_some _ s p).1 hs
  rw [hm] at hp2 hp3
  have hblen : w.io.inbuf.length = a - d := by
    rw [hbuf, List.length_drop, List.length_take]; omega
  have hwin : ∀ q, (w.io.inbuf.drop q).take 20 = w.hs.myReq1 → d + q + 20 ≤ a ∧ p ≤ d + q := by
    intro q hq
    have hl := window_length (w.io.inbuf.drop q) w.hs.myReq1 (by rw [hm]; exact hq)
    rw [hm, List.length_drop, hblen] at hl
    have hle : d + q + 20 ≤ a := by
      by_contra hc
      have h0 : a - d - q < 20 ∨ a - d - q = 20 := by omega
      rcases h0 with h0 | h0
      · omega
      · omega
    refine ⟨hle, ?_⟩
    by_contra hc
    apply hp3 (d + q) (by omega)
    rw [← window_of_take s a (d + q) 20 hle, ← List.drop_drop, ← hbuf]
    exact hq
  constructor
  · intro hpa
    have hfound : evbuffer_search w.hs.myReq1 w.io.inbuf = some (p - d) := by
      rw [evbuffer_search_eq_some, hm]
      refine ⟨by rw [hblen]; omega, ?_, ?_⟩
      · rw [hbuf, List.drop_drop, show d + (p - d) = p by omega, window_of_take s a p 20 hpa]
        exact hp2
      · intro q hq hc
        have := (hwin q hc).2
        omega
    dsimp only [readPadA]
    rw [hfound]
    simp only [evbuffer_drain, setState]
    rw [hbuf, List.drop_drop, show d + (p - d) = p by omega]
  · intro hpa
    have hnone : evbuffer_search w.hs.myReq1 w.io.inbuf = none := by
      rw [evbuffer_search_eq_none, hm]
      intro q _ hc
      have := hwin q hc
      omega
    dsimp only [readPadA]
    rw [hnone]
    by_cases hlen : w.io.inbuf.length > SHA_DIGEST_LENGTH
    · have h20 : 20 < a - d := by simpa [hblen] using hlen
      refine ⟨a - 20, by omega, by omega, by omega, by omega, ?_⟩
      rw [if_pos hlen]
      simp only [evbuffer_drain, SHA_DIGEST_LENGTH]
      rw [hblen, hbuf, List.drop_drop, show d + (a - d - 20) = a - 20 by omega]
    · have h20 : a - d ≤ 20 := by simpa [hblen] using hlen
      refine ⟨d, le_refl d, hdp, hda, by omega, ?_⟩
      rw [if_neg hlen, ← hbuf]

theorem readPadAOver_finds (env : Env) (s : List Nat) (p : Nat) :
    ∀ (cs : List (List Nat)) (w : World) (a d : Nat),
      w.hs.myReq1.length = 20 → evbuffer_search w.hs.myReq1 s = some p →
      a ≤ s.length → d ≤ a → d ≤ p → w.io.inbuf = (s.take a).drop d → s.drop a = cs.flatten →
      ∃ n, p + 20 ≤ n ∧ n ≤ s.length ∧
        readPadAOver env w cs = (READ_NOW,
          { w with hs := { w.hs with state := AWAITING_CRYPTO_PROVIDE },
                   io := { w.io with inbuf := (s.take n).drop p } }) := by
  intro cs
  induction cs with
  | nil =>
    intro w a d hm hs ha hda hdp hbuf hrest
    obtain ⟨hp1, hp2, -⟩ := (evbuffer_search_eq_some _ s p).1 hs
    have hl := window_length _ _ hp2
    rw [hm, List.length_drop] at hl
    have hall : s.length ≤ a := by
      have := congrArg List.length hrest
      simp only [List.length_drop, List.flatten_nil, List.length_nil] at this
      omega
    have hpa : p + 20 ≤ a := by omega
    exact ⟨a, hpa, ha, (readPadA_on_stream env w _ s p a d hm rfl hs ha hda hdp hbuf).1 hpa⟩
  | cons c cs ih =>
    intro w a d hm hs ha hda hdp hbuf hrest
    by_cases hpa : p + 20 ≤ a
    · have h1 := (readPadA_on_stream env w _ s p a d hm rfl hs ha hda hdp hbuf).1 hpa
      refine ⟨a, hpa, ha, ?_⟩
      simp only [readPadAOver]
      rw [h1]
      simp
    · obtain ⟨d', hd1, hd2, hd3, -, h2⟩ :=
        (readPadA_on_stream env w _ s p a d hm rfl hs ha hda hdp hbuf).2 (by omega)
      have hsplit : s = s.take a ++ (c ++ cs.flatten) := by
        rw [List.flatten_cons] at hrest
        rw [← hrest, List.take_append_drop]
      have hta : (s.take a).length = a := by rw [List.length_take]; omega
      have htake : s.take (a + c.length) = s.take a ++ c := by
        conv_lhs => rw [hsplit]
        rw [List.take_append_eq_append_take, hta, List.take_of_length_le (by rw [hta]; omega),
          show a + c.length - a = c.length by omega, List.take_left']
        rfl
      have hlen' : a + c.length ≤ s.length := by
        have := congrArg List.length hsplit
        simp only [List.length_append, hta] at this
        omega
      have hdrop : s.drop (a + c.length) = cs.flatten := by
        rw [← List.drop_drop, hrest, List.flatten_cons, List.drop_left]
      have hbuf' : (arrive { w with io := { w.io with inbuf := (s.take a).drop d' } } c).io.inbuf =
          (s.take (a + c.length)).drop d' := by
        rw [htake, List.drop_append_of_le_length (by rw [hta]; exact hd3)]
        rfl
      obtain ⟨n, hn1, hn2, hn3⟩ := ih
        (arrive { w with io := { w.io with inbuf := (s.take a).drop d' } } c)
        (a + c.length) d' hm hs hlen' (by omega) hd2 hbuf' hdrop
      refine ⟨n, hn1, hn2, ?_⟩
      simp only [readPadAOver]
      rw [h2]
      simp only [if_true]
      rw [hn3]
      rfl

/-- C26: `readPadA` never loses the resynchronisation marker. For every byte stream in which
the 20-byte `myReq1` first occurs at offset p, and every way of splitting the stream into
what is buffered and successive arrivals, repeated `readPadA` calls end in
`AWAITING_CRYPTO_PROVIDE` with exactly the p bytes before the first occurrence discarded, so
that the buffer begins with `myReq1`. A call that finds no match asks for more bytes, leaves
the session as it is, keeps the last 20 buffered bytes at most, and drops no byte of an
occurrence that later bytes complete. A call that finds a match drains just the bytes before
it. -/
theorem readPadA_keeps_marker (env : Env) (w : World) (hm : w.hs.myReq1.length = 20) :
    (∀ (s : List Nat) (p : Nat) (cs : List (List Nat)),
      evbuffer_search w.hs.myReq1 s = some p → s = w.io.inbuf ++ cs.flatten →
      ∃ n, p + 20 ≤ n ∧ n ≤ s.length ∧
        readPadAOver env w cs = (READ_NOW,
          { w with hs := { w.hs with state := AWAITING_CRYPTO_PROVIDE },
                   io := { w.io with inbuf := (s.take n).drop p } }) ∧
        ((s.take n).drop p).take 20 = w.hs.myReq1) ∧
    (evbuffer_search w.hs.myReq1 w.io.inbuf = none →
      (readPadA env w).1 = READ_LATER ∧
      (readPadA env w).2.hs = w.hs ∧
      (readPadA env w).2.io.inbuf = w.io.inbuf.drop (w.io.inbuf.length - 20) ∧
      (readPadA env w).2.io.inbuf.length ≤ 20 ∧
      ∀ (later : List Nat) (q : Nat),
        ((w.io.inbuf ++ later).drop q).take 20 = w.hs.myReq1 → w.io.inbuf.length - 20 ≤ q) ∧
    (∀ p, evbuffer_search w.hs.myReq1 w.io.inbuf = some p →
      readPadA env w = (READ_NOW,
        { w with hs := { w.hs with state := AWAITING_CRYPTO_PROVIDE },
                 io := { w.io with inbuf := w.io.inbuf.drop p } }) ∧
      (w.io.inbuf.drop p).take 20 = w.hs.myReq1) := by
  refine ⟨?_, ?_, ?_⟩
  · intro s p cs hs hsplit
    have hta : s.take w.io.inbuf.length = w.io.inbuf := by
      rw [hsplit]; exact List.take_left _ _
    have hdr : s.drop w.io.inbuf.length = cs.flatten := by
      rw [hsplit]; exact List.drop_left _ _
    have hle : w.io.inbuf.length ≤ s.length := by
      rw [hsplit, List.length_append]; omega
    obtain ⟨n, hn1, hn2, hn3⟩ := readPadAOver_finds env s p cs w w.io.inbuf.length 0 hm hs hle
      (Nat.zero_le _) (Nat.zero_le _) (by rw [hta]; rfl) hdr
    refine ⟨n, hn1, hn2, hn3, ?_⟩
    obtain ⟨-, hp2, -⟩ := (evbuffer_search_eq_some _ s p).1 hs
    rw [hm] at hp2
    rw [window_of_take s n p 20 hn1]
    exact hp2
  · intro hnone
    have hno := (evbuffer_search_eq_none _ _).1 hnone
    rw [hm] at hno
    have hcall : readPadA env w =
        if w.io.inbuf.length > 20 then
          (READ_LATER, { w with io := evbuffer_drain w.io (w.io.inbuf.length - 20) })
        else (READ_LATER, w) := by
      simp only [readPadA, hnone, SHA_DIGEST_LENGTH]
    rw [hcall]
    refine ⟨?_, ?_, ?_, ?_, ?_⟩
    · split <;> rfl
    · split <;> rfl
    · split
      · rfl
      · rename_i hlen
        have : w.io.inbuf.length - 20 = 0 := by omega
        rw [this]; rfl
    · split
      · simp [evbuffer_drain]; omega
      · rename_i hlen
        simpa using hlen
    · intro later q hq
      by_contra hc
      have hq' : q + 20 ≤ w.io.inbuf.length := by omega
      apply hno q (by omega)
      rw [List.drop_append_of_le_length (by omega),
        List.take_append_of_le_length (by rw [List.length_drop]; omega)] at hq
      exact hq
  · intro p hs
    obtain ⟨-, hp2, -⟩ := (evbuffer_search_eq_some _ _ p).1 hs
    rw [hm] at hp2
    refine ⟨?_, hp2⟩
    simp only [readPadA, hs]
    rfl

set_option maxRecDepth 100000 in
theorem readPadA_keeps_marker_witness :
    padAWorld.hs.state = AWAITING_PAD_A ∧ padAWorld.io.inbuf = [7, 7, 7] ∧
    ∃ n, 4 + 20 ≤ n ∧ n ≤ ([7, 7, 7] ++ ([9] ++ sampleMessage3 [] 0 0 [])).length ∧
      readPadAOver sampleEnv padAWorld [[9], sampleMessage3 [] 0 0 []] = (READ_NOW,
        { padAWorld with
          hs := { padAWorld.hs with state := AWAITING_CRYPTO_PROVIDE },
          io := { padAWorld.io with
                  inbuf := (([7, 7, 7] ++ ([9] ++ sampleMessage3 [] 0 0 [])).take n).drop 4 } }) ∧
      ((([7, 7, 7] ++ ([9] ++ sampleMessage3 [] 0 0 [])).take n).drop 4).take 20 =
        padAWorld.hs.myReq1 :=
  ⟨by decide, by decide,
   (readPadA_keeps_marker sampleEnv padAWorld (by decide)).1
     ([7, 7, 7] ++ ([9] ++ sampleMessage3 [] 0 0 [])) 4 [[9], sampleMessage3 [] 0 0 []]
     (by decide) (by decide)⟩

/-! ### PadC and the decryption stream -/

/-- On an encrypted pipe `readPadC` decrypts the IA length field at the offset the decryption
stream had before PadC, whatever the length of PadC: the PadC bytes are dropped from the
buffer without going through the stream. -/
theorem readPadC_stream_offset (env : Env) (w : World)
    (henc : w.io.encryption_type = 2) (hlen : w.hs.pad_c_len + 2 ≤ w.io.inbuf.length) :
    (readPadC env w).2.hs.ia_len =
      be16 (rc4Apply (ctxKeystream env w.io.dec_key) w.io.dec_key.pos
        ((w.io.inbuf.drop w.hs.pad_c_len).take 2)) ∧
    (readPadC env w).2.io.dec_key.pos = w.io.dec_key.pos + 2 := by
  have hl : ¬ w.io.inbuf.length < w.hs.pad_c_len + 2 := by omega
  have hmin : min 2 (w.io.inbuf.length - w.hs.pad_c_len) = 2 := by omega
  simp [readPadC, hl, evbuffer_drain, tr_peerIoReadUint16, tr_peerIoReadBytes_rc4, henc, setState,
    hmin]

set_option maxRecDepth 100000 in
/-- C27 (the code at the failing input): the sample responder receives message 3 whose
encrypted part is VC, `crypto_provide`, len(PadC), PadC, len(IA) = 68. With an empty PadC it
stores `ia_len = 68`. With a PadC of one byte it stores `pad_c_len = 1` and then
`ia_len = 63819`: the length field is decrypted at keystream offset 14, not 15, and the
decryption stream stands at 16 instead of 17 afterwards. -/
theorem padc_breaks_stream_alignment :
    ((responderAfter 5 [] 0 68 []).hs.state, (responderAfter 5 [] 0 68 []).hs.pad_c_len,
      (responderAfter 5 [] 0 68 []).hs.ia_len, (responderAfter 5 [] 0 68 []).io.dec_key.pos) =
      (AWAITING_IA, 0, 68, 16) ∧
    ((responderAfter 5 [0] 1 68 []).hs.state, (responderAfter 5 [0] 1 68 []).hs.pad_c_len,
      (responderAfter 5 [0] 1 68 []).hs.ia_len, (responderAfter 5 [0] 1 68 []).io.dec_key.pos) =
      (AWAITING_IA, 1, 63819, 16) ∧
    (responderAfter 4 [0] 1 68 []).io.dec_key.pos = 14 := by
  refine ⟨?_, ?_, ?_⟩ <;> rfl

/-! ### The obfuscated info-hash -/

theorem readCryptoProvide_lookup (env : Env) (w : World) (hlen : 54 ≤ w.io.inbuf.length) :
    readCryptoProvide env w =
      afterLookup env w (tr_torrentFindFromObfuscatedHash env (receivedObfuscatedHash env w)) := by
  have hl : ¬ w.io.inbuf.length < SHA_DIGEST_LENGTH + SHA_DIGEST_LENGTH + VC_LENGTH + 4 + 2 := by
    simp; omega
  dsimp only [readCryptoProvide]
  rw [if_neg hl]
  show (match tr_torrentFindFromObfuscatedHash env (receivedObfuscatedHash env w) with
    | some tor => _
    | none => _) = _
  cases tr_torrentFindFromObfuscatedHash env (receivedObfuscatedHash env w) <;> rfl

/-- C28: the obfuscated info-hash recovery inverts the initiator's masking. The second hash
`readYb` emits for the secret S and the info-hash SKEY is
`SHA1("req2" ‖ SKEY) xor SHA1("req3" ‖ S)`, byte by byte, after `SHA1("req1" ‖ S)`. A responder
holding the same S that has these 40 bytes at the head of its buffer recovers exactly
`SHA1("req2" ‖ SKEY)`, and this is the key `readCryptoProvide` passes to the torrent lookup. -/
theorem obfuscated_hash_recovered (envA envB : Env) (wA w : World) (S SKEY rest : List Nat)
    (tor : tr_torrent)
    (hsha : envB.sha1 = envA.sha1) (h20 : ∀ x, (envA.sha1 x).length = 20)
    (hlenA : 96 ≤ wA.io.inbuf.length) (hnameA : wA.io.inbuf.take 20 ≠ HANDSHAKE_NAME)
    (hSA : envA.computeSecret (wA.io.inbuf.take 96) = some S)
    (hencA : wA.io.encryption_type ≠ 2)
    (hbA : wA.io.torrentHash = some SKEY)
    (hfindA : tr_torrentFindFromHash envA.session SKEY = some tor) (hrunA : tor.isRunning = true)
    (hS : w.io.mySecret = some S)
    (hbuf : w.io.inbuf = envA.sha1 (req1Name ++ S) ++
      xorDigest (envA.sha1 (req2Name ++ SKEY)) (envA.sha1 (req3Name ++ S)) ++ rest)
    (hrest : 14 ≤ rest.length) :
    ((readYb envA wA).2.io.writes.drop wA.io.writes.length).map (fun r => r.data) =
      [envA.sha1 (req1Name ++ S) ++
         xorDigest (envA.sha1 (req2Name ++ SKEY)) (envA.sha1 (req3Name ++ S)),
       List.replicate 8 0 ++ u32Bytes (getCryptoProvide wA.hs.encryptionMode) ++ u16Bytes 0 ++
         u16Bytes 68 ++ ourHandshake envA SKEY tor.peer_id] ∧
    receivedObfuscatedHash envB w = envA.sha1 (req2Name ++ SKEY) ∧
    readCryptoProvide envB w =
      afterLookup envB w (tr_torrentFindFromObfuscatedHash envB (envA.sha1 (req2Name ++ SKEY))) := by
  have hrec : receivedObfuscatedHash envB w = envA.sha1 (req2Name ++ SKEY) := by
    have h1 : (envA.sha1 (req1Name ++ S)).length = 20 := h20 _
    have hx : (xorDigest (envA.sha1 (req2Name ++ SKEY)) (envA.sha1 (req3Name ++ S))).length = 20 :=
      xorDigest_length _ _
    have htake : (w.io.inbuf.drop 20).take 20 =
        xorDigest (envA.sha1 (req2Name ++ SKEY)) (envA.sha1 (req3Name ++ S)) := by
      rw [hbuf, List.append_assoc, List.drop_left' h1, List.take_left' hx]
    unfold receivedObfuscatedHash
    rw [htake]
    simp only [computeRequestHash, hS, Option.getD_some, hsha]
    exact xorDigest_cancel _ _ (h20 _)
  have hlen : 54 ≤ w.io.inbuf.length := by
    rw [hbuf]
    simp only [List.length_append, h20, xorDigest_length]
    omega
  refine ⟨?_, hrec, ?_⟩
  · rw [readYb_ok envA wA S SKEY tor hlenA hnameA hSA hencA hbA hfindA hrunA]
    simp
  · rw [readCryptoProvide_lookup envB w hlen, hrec]

set_option maxRecDepth 100000 in
theorem obfuscated_hash_recovered_witness :
    receivedObfuscatedHash sampleEnv (responderAfter 3 [] 0 0 []) =
      sampleEnv.sha1 (req2Name ++ sampleHash) ∧
    (responderAfter 3 [] 0 0 []).hs.state = AWAITING_CRYPTO_PROVIDE :=
  ⟨(obfuscated_hash_recovered sampleEnv sampleEnv initiatorWithKey (responderAfter 3 [] 0 0 [])
      sampleSecret sampleHash
      (rc4Apply (sampleEnv.keystream true sampleSecret sampleHash) 0
        (List.replicate 8 0 ++ u32Bytes 2 ++ u16Bytes 0 ++ [] ++ u16Bytes 0 ++ []))
      sampleTorrent rfl (fun _ => by simp [sampleEnv]) (by decide) (by decide) (by decide)
      (by decide) (by decide) (by decide) (by decide) (by decide) (by decide) (by decide)).2.1,
   by decide⟩

/-! ### The fallback ladder is finite -/

theorem ReadFrame.refl (w : World) : ReadFrame w w := ⟨rfl, rfl, id, id⟩

theorem ReadFrame.trans {w1 w2 w3 : World} (h1 : ReadFrame w1 w2) (h2 : ReadFrame w2 w3) :
    ReadFrame w1 w3 :=
  ⟨h2.1.trans h1.1, h2.2.1.trans h1.2.1, fun h => h1.2.2.1 (h2.2.2.1 h), fun h => h1.2.2.2 (h2.2.2.2 h)⟩

theorem readFrame_done (env : Env) (w : World) (b : Bool) :
    ReadFrame w (tr_handshakeDone env w b).2 :=
  ⟨rfl, rfl, fun h => by simp at h, id⟩

theorem readFrame_of_io (w w' : World) (hr : w'.reconnects = w.reconnects)
    (hs : w'.io.socketType = w.io.socketType) (hf : w'.io.funcsInstalled = w.io.funcsInstalled)
    (hst : w'.hs.state ≠ AWAITING_YB) : ReadFrame w w' :=
  ⟨hr, hs, fun h => by rw [← hf]; exact h, fun h => absurd h hst⟩

theorem readHandshakeReply_frame (env : Env) (w : World) :
    ReadFrame w (readHandshakeReply env w).2 := by
  dsimp only [readHandshakeReply]
  repeat' split
  all_goals first
    | with_reducible exact readFrame_done _ _ _
    | exact readFrame_of_io _ _ rfl (by simp [setReadState, setState])
        (by simp [setReadState, setState]) (by simp [setReadState, setState])

theorem readHandshakeParse_frame (env : Env) (w : World) :
    ReadFrame w (readHandshakeParse env w).2 := by
  dsimp only [readHandshakeParse]
  repeat' split
  all_goals first
    | (refine ReadFrame.trans ?_ (readFrame_done _ _ _)
       exact ⟨rfl, by simp [tr_peerIoEnableDHT, tr_peerIoEnableLTEP, tr_peerIoEnableFEXT],
         fun h => by simpa [tr_peerIoEnableDHT, tr_peerIoEnableLTEP, tr_peerIoEnableFEXT] using h,
         id⟩)
    | (refine ReadFrame.trans ?_ (readHandshakeReply_frame _ _)
       exact ⟨rfl,
         by simp [tr_peerIoEnableDHT, tr_peerIoEnableLTEP, tr_peerIoEnableFEXT, tr_peerIoSetTorrentHash],
         fun h => by
           simpa [tr_peerIoEnableDHT, tr_peerIoEnableLTEP, tr_peerIoEnableFEXT,
             tr_peerIoSetTorrentHash] using h,
         id⟩)

theorem readHandshake_frame (env : Env) (w : World) :
    ReadFrame w (readHandshake env w).2 := by
  dsimp only [readHandshake]
  repeat' split
  all_goals first
    | with_reducible exact ReadFrame.refl _
    | with_reducible exact readFrame_done _ _ _
    | (refine ReadFrame.trans ?_ (readHandshakeParse_frame _ _)
       exact ⟨rfl, rfl, id, id⟩)
    | (refine ReadFrame.trans ?_ (readFrame_done _ _ _)
       exact ⟨rfl, rfl, id, id⟩)
    | exact ⟨rfl, rfl, id, fun h => by simp [setState] at h⟩

theorem readFrame_same (w w' : World) (hr : w'.reconnects = w.reconnects)
    (hs : w'.io.socketType = w.io.socketType) (hf : w'.io.funcsInstalled = w.io.funcsInstalled)
    (hst : w'.hs.state = w.hs.state) : ReadFrame w w' :=
  ⟨hr, hs, fun h => by rw [← hf]; exact h, fun h => by rw [← hst]; exact h⟩

theorem readPeerId_frame (env : Env) (w : World) : ReadFrame w (readPeerId env w).2 := by
  dsimp only [readPeerId]
  split
  · exact ReadFrame.refl _
  · refine ReadFrame.trans ?_ (readFrame_done _ _ _)
    exact readFrame_same _ _ rfl (by simp [tr_peerIoSetPeersId]) (by simp [tr_peerIoSetPeersId]) rfl

theorem readPadA_frame (env : Env) (w : World) : ReadFrame w (readPadA env w).2 := by
  dsimp only [readPadA]
  split
  · exact readFrame_of_io _ _ rfl rfl rfl (by simp [setState])
  · split
    · exact readFrame_same _ _ rfl rfl rfl rfl
    · exact ReadFrame.refl _

theorem readPadC_frame (env : Env) (w : World) : ReadFrame w (readPadC env w).2 := by
  dsimp only [readPadC]
  split
  · exact ReadFrame.refl _
  · exact readFrame_of_io _ _ rfl (by simp [setState, tr_peerIoReadUint16, evbuffer_drain])
      (by simp [setState, tr_peerIoReadUint16, evbuffer_drain]) (by simp [setState])

theorem readCryptoSelect_frame (env : Env) (w : World) :
    ReadFrame w (readCryptoSelect env w).2 := by
  dsimp only [readCryptoSelect]
  split
  · exact ReadFrame.refl _
  · split
    · refine ReadFrame.trans ?_ (readFrame_done _ _ _)
      exact readFrame_same _ _ rfl (by simp [tr_peerIoReadUint32]) (by simp [tr_peerIoReadUint32]) rfl
    · split
      · refine ReadFrame.trans ?_ (readFrame_done _ _ _)
        exact readFrame_same _ _ rfl (by simp [tr_peerIoReadUint32, tr_peerIoReadUint16])
          (by simp [tr_peerIoReadUint32, tr_peerIoReadUint16]) rfl
      · exact readFrame_of_io _ _ rfl (by simp [setState, tr_peerIoReadUint32, tr_peerIoReadUint16])
          (by simp [setState, tr_peerIoReadUint32, tr_peerIoReadUint16]) (by simp [setState])

theorem readPadD_frame (env : Env) (w : World) : ReadFrame w (readPadD env w).2 := by
  dsimp only [readPadD]
  split
  · exact ReadFrame.refl _
  · exact readFrame_of_io _ _ rfl (by simp [setState, tr_peerIoDrain, tr_peerIoSetEncryption])
      (by simp [setState, tr_peerIoDrain, tr_peerIoSetEncryption]) (by simp [setState])

theorem readCryptoProvideParse_frame (env : Env) (w : World) :
    ReadFrame w (readCryptoProvideParse env w).2 := by
  dsimp only [readCryptoProvideParse]
  split
  · refine ReadFrame.trans ?_ (readFrame_done _ _ _)
    exact readFrame_same _ _ rfl
      (by simp [tr_peerIoReadUint32, tr_peerIoReadUint16, tr_peerIoSetEncryption,
        tr_cryptoEncryptInit, tr_cryptoDecryptInit])
      (by simp [tr_peerIoReadUint32, tr_peerIoReadUint16, tr_peerIoSetEncryption,
        tr_cryptoEncryptInit, tr_cryptoDecryptInit]) rfl
  · exact readFrame_of_io _ _ rfl
      (by simp [setState, tr_peerIoReadUint32, tr_peerIoReadUint16, tr_peerIoSetEncryption,
        tr_cryptoEncryptInit, tr_cryptoDecryptInit])
      (by simp [setState, tr_peerIoReadUint32, tr_peerIoReadUint16, tr_peerIoSetEncryption,
        tr_cryptoEncryptInit, tr_cryptoDecryptInit]) (by simp [setState])

theorem readCryptoProvide_frame (env : Env) (w : World) :
    ReadFrame w (readCryptoProvide env w).2 := by
  dsimp only [readCryptoProvide]
  split
  · exact ReadFrame.refl _
  · split
    · split
      · refine ReadFrame.trans ?_ (readFrame_done _ _ _)
        exact readFrame_same _ _ rfl rfl rfl rfl
      · split
        · refine ReadFrame.trans ?_ (readFrame_done _ _ _)
          exact readFrame_same _ _ rfl rfl rfl rfl
        · refine ReadFrame.trans ?_ (readCryptoProvideParse_frame _ _)
          exact readFrame_same _ _ rfl rfl rfl rfl
    · refine ReadFrame.trans ?_ (readFrame_done _ _ _)
      exact readFrame_same _ _ rfl rfl rfl rfl

theorem tr_cryptoComputeSecret_frame (env : Env) (io : tr_peerIo) (key : List Nat) :
    (tr_cryptoComputeSecret env io key).2.socketType = io.socketType ∧
    (tr_cryptoComputeSecret env io key).2.funcsInstalled = io.funcsInstalled := by
  unfold tr_cryptoComputeSecret
  split <;> exact ⟨rfl, rfl⟩

theorem readYa_frame (env : Env) (w : World) : ReadFrame w (readYa env w).2 := by
  have h := tr_cryptoComputeSecret_frame env (evbuffer_remove w.io KEY_LEN).2
    (evbuffer_remove w.io KEY_LEN).1
  dsimp only [readYa]
  split
  · exact ReadFrame.refl _
  · split
    · refine ReadFrame.trans ?_ (readFrame_done _ _ _)
      exact readFrame_same _ _ rfl h.1 h.2 rfl
    · exact readFrame_of_io _ _ rfl
        (by simp only [setReadState, setState, tr_peerIoWriteBytes_socketType]; exact h.1)
        (by simp only [setReadState, setState, tr_peerIoWriteBytes_funcsInstalled]; exact h.2)
        (by simp [setReadState, setState])

theorem readYb_frame (env : Env) (w : World) : ReadFrame w (readYb env w).2 := by
  have h := tr_cryptoComputeSecret_frame env (evbuffer_remove w.io KEY_LEN).2
    (evbuffer_remove w.io KEY_LEN).1
  dsimp only [readYb]
  split
  · exact ReadFrame.refl _
  · split
    · exact ReadFrame.refl _
    · split
      · exact readFrame_of_io _ _ rfl rfl rfl (by simp [setState])
      · split
        · refine ReadFrame.trans ?_ (readFrame_done _ _ _)
          exact readFrame_same _ _ rfl h.1 h.2 rfl
        · split
          · refine ReadFrame.trans ?_ (readFrame_done _ _ _)
            exact readFrame_same _ _ rfl
              (by simp only [tr_peerIoSetEncryption, tr_cryptoEncryptInit, tr_peerIoWriteBuf,
                tr_peerIoWriteBytes_socketType]; exact h.1)
              (by simp only [tr_peerIoSetEncryption, tr_cryptoEncryptInit, tr_peerIoWriteBuf,
                tr_peerIoWriteBytes_funcsInstalled]; exact h.2)
              rfl
          · exact readFrame_of_io _ _ rfl
              (by simp only [setReadState, setState, tr_peerIoSetEncryption, tr_cryptoEncryptInit,
                tr_peerIoWriteBuf, tr_peerIoWriteBytes_socketType]; exact h.1)
              (by simp only [setReadState, setState, tr_peerIoSetEncryption, tr_cryptoEncryptInit,
                tr_peerIoWriteBuf, tr_peerIoWriteBytes_funcsInstalled]; exact h.2)
              (by simp [setReadState, setState])

theorem readVC_frame (env : Env) (w : World) : ReadFrame w (readVC env w).2 := by
  have hf := readVCLoop_frame env w.io.inbuf w.io
  have h1 : (readVCLoop env w.io.inbuf w.io).2.socketType = w.io.socketType := by rw [hf]
  have h2 : (readVCLoop env w.io.inbuf w.io).2.funcsInstalled = w.io.funcsInstalled := by rw [hf]
  dsimp only [readVC]
  split
  · exact readFrame_same _ _ rfl h1 h2 rfl
  · exact readFrame_of_io _ _ rfl h1 h2 (by simp [setState])

theorem ite_pair_frame (c : Prop) [Decidable c] (a b : List Nat) (x y : tr_peerIo)
    (h1 : x.socketType = y.socketType) (h2 : x.funcsInstalled = y.funcsInstalled) :
    (if c then (a, x) else (b, y)).2.socketType = y.socketType ∧
    (if c then (a, x) else (b, y)).2.funcsInstalled = y.funcsInstalled := by
  split
  · exact ⟨h1, h2⟩
  · exact ⟨rfl, rfl⟩

theorem readIA_frame (env : Env) (w : World) : ReadFrame w (readIA env w).2 := by
  dsimp only [readIA]
  split
  · exact ReadFrame.refl _
  · split
    · exact readFrame_done _ _ _
    · have h := ite_pair_frame
        (getCryptoSelect w.hs.encryptionMode w.hs.crypto_provide = CRYPTO_PROVIDE_PLAINTEXT)
        [] (List.replicate VC_LENGTH 0 ++
          u32Bytes (getCryptoSelect w.hs.encryptionMode w.hs.crypto_provide) ++ u16Bytes 0)
        (tr_peerIoSetEncryption (tr_peerIoDecryptBuf env (tr_peerIoWriteBuf env w.io
          (List.replicate VC_LENGTH 0 ++
            u32Bytes (getCryptoSelect w.hs.encryptionMode w.hs.crypto_provide) ++ u16Bytes 0))
          w.hs.ia_len) PEER_ENCRYPTION_NONE) w.io
        (by simp [tr_peerIoSetEncryption, tr_peerIoDecryptBuf, tr_cryptoDecrypt, tr_peerIoWriteBuf])
        (by simp [tr_peerIoSetEncryption, tr_peerIoDecryptBuf, tr_cryptoDecrypt, tr_peerIoWriteBuf])
      split
      · refine ReadFrame.trans ?_ (readFrame_done _ _ _)
        exact readFrame_same _ _ rfl h.1 h.2 rfl
      · exact readFrame_of_io _ _ rfl
          (by simp only [setState, tr_peerIoWriteBuf, tr_peerIoWriteBytes_socketType]; exact h.1)
          (by simp only [setState, tr_peerIoWriteBuf, tr_peerIoWriteBytes_funcsInstalled]; exact h.2)
          (by simp [setState])

theorem canReadStep_frame (env : Env) (w : World) : ReadFrame w (canReadStep env w).2 := by
  dsimp only [canReadStep, canReadSwitch]
  split
  · exact readHandshake_frame _ _
  · exact readPeerId_frame _ _
  · exact readYa_frame _ _
  · exact readPadA_frame _ _
  · exact readCryptoProvide_frame _ _
  · exact readPadC_frame _ _
  · exact readIA_frame _ _
  · exact readYb_frame _ _
  · exact readVC_frame _ _
  · exact readCryptoSelect_frame _ _
  · exact readPadD_frame _ _

theorem canRead_frame (env : Env) (fuel : Nat) :
    ∀ (w : World) (r : ReadState × World), canRead env fuel w = some r → ReadFrame w r.2 := by
  induction fuel with
  | zero => intro w r h; cases h
  | succ n ih =>
    intro w r h
    simp only [canRead] at h
    split at h
    · cases h; exact canReadStep_frame env w
    · split at h
      · exact ReadFrame.trans (canReadStep_frame env w) (ih _ _ h)
      · cases h; exact canReadStep_frame env w

theorem ladder_of_frame {w w' : World} (h : LadderInvariant w) (hf : ReadFrame w w') :
    LadderInvariant w' := by
  obtain ⟨hr, hs, hi, hy⟩ := hf
  have hc : successfulReconnects w' = successfulReconnects w := by
    unfold successfulReconnects; rw [hr]
  refine ⟨by rw [hc]; exact h.1, fun hin => ?_⟩
  have := h.2 (hi hin)
  rw [hc]
  exact ⟨fun hu => this.1 (by rw [← hs]; exact hu), fun hyb => this.2 (hy hyb)⟩

theorem ladder_done (env : Env) (w : World) (b : Bool) (h : successfulReconnects w ≤ 2) :
    LadderInvariant (tr_handshakeDone env w b).2 :=
  ⟨h, fun hin => by simp at hin⟩

theorem tr_peerIoReconnect_cases (env : Env) (w : World) :
    tr_peerIoReconnect env w = (false, { w with reconnects := w.reconnects ++ [false] }) ∨
    ∃ t, env.reconnect w.reconnects.length = some t ∧
      tr_peerIoReconnect env w =
        (true, { w with io := { w.io with socketType := t }, reconnects := w.reconnects ++ [true] }) := by
  unfold tr_peerIoReconnect
  split
  · exact Or.inl rfl
  · rename_i t ht
    exact Or.inr ⟨t, ht, rfl⟩

theorem sendPlainTextHandshake_ladder (env : Env) (w : World)
    (h : successfulReconnects w ≤ 2) (htcp : w.io.socketType = TR_PEER_SOCKET_TYPE_TCP) :
    LadderInvariant (sendPlainTextHandshake env w) := by
  dsimp only [sendPlainTextHandshake]
  split
  · exact ladder_done env w false h
  · refine ⟨h, fun _ => ⟨fun hu => ?_, fun hy => ?_⟩⟩
    · simp [setReadState, setState, htcp] at hu
    · simp [setReadState, setState] at hy

theorem gotErrorFinish_ladder (env : Env) (w : World) (b : Bool)
    (hrec : ∀ n t, env.reconnect n = some t → t = TR_PEER_SOCKET_TYPE_TCP)
    (h : successfulReconnects w ≤ 1) :
    LadderInvariant (gotErrorFinish env w b) := by
  dsimp only [gotErrorFinish]
  split
  · rcases tr_peerIoReconnect_cases env w with hc | ⟨t, ht, hc⟩
    · rw [hc]
      simp only [Bool.false_eq_true, if_false]
      refine ladder_done env _ false ?_
      simp [successfulReconnects, List.filter_append] at h ⊢
      omega
    · rw [hc]
      simp only [if_true]
      refine sendPlainTextHandshake_ladder env _ ?_ ?_
      · simp [successfulReconnects, List.filter_append] at h ⊢
        omega
      · simp [tr_peerIoSetEncryption, hrec _ t ht]
  · exact ladder_done env w false (by omega)

theorem gotErrorFinish_false (env : Env) (w : World) :
    gotErrorFinish env w false = (tr_handshakeDone env w false).2 := by
  simp [gotErrorFinish]

theorem gotErrorTcp_ladder (env : Env) (w : World) (b : Bool)
    (hrec : ∀ n t, env.reconnect n = some t → t = TR_PEER_SOCKET_TYPE_TCP)
    (h : LadderInvariant w) (hin : w.io.funcsInstalled = true)
    (hb : b = true → successfulReconnects w ≤ 1) :
    LadderInvariant (gotErrorTcp env w b) := by
  dsimp only [gotErrorTcp]
  split
  · rename_i hc
    exact gotErrorFinish_ladder env w true hrec ((h.2 hin).2 hc.2)
  · cases b with
    | true => exact gotErrorFinish_ladder env w true hrec (hb rfl)
    | false => rw [gotErrorFinish_false]; exact ladder_done env w false h.1

theorem successfulReconnects_failed (w : World) (io : tr_peerIo) :
    successfulReconnects { w with io := io, reconnects := w.reconnects ++ [false] } =
      successfulReconnects w := by
  simp [successfulReconnects, List.filter_append]

theorem gotErrorUtp_ladder (env : Env) (w w1 : World)
    (hrec : ∀ n t, env.reconnect n = some t → t = TR_PEER_SOCKET_TYPE_TCP)
    (h2 : w1.io = w.io) (h3 : w1.reconnects = w.reconnects)
    (h : LadderInvariant w) (hin : w.io.funcsInstalled = true)
    (hu : w.io.socketType = TR_PEER_SOCKET_TYPE_UTP) :
    LadderInvariant
      (if w1.hs.state = AWAITING_YB then
        if (tr_peerIoReconnect env w1).1 = true then
          sendYa env { (tr_peerIoReconnect env w1).2 with
            io := tr_peerIoSetEncryption (tr_peerIoReconnect env w1).2.io PEER_ENCRYPTION_NONE }
        else gotErrorTcp env (tr_peerIoReconnect env w1).2 false
      else gotErrorTcp env w1 true) := by
  have hc : successfulReconnects w1 = successfulReconnects w := by
    unfold successfulReconnects; rw [h3]
  have hz : successfulReconnects w1 = 0 := by rw [hc]; exact (h.2 hin).1 hu
  have hl : LadderInvariant w1 := by
    refine ⟨by omega, fun _ => ⟨fun _ => hz, fun _ => by omega⟩⟩
  have hin1 : w1.io.funcsInstalled = true := by rw [h2]; exact hin
  split
  · rcases tr_peerIoReconnect_cases env w1 with hf | ⟨t, ht, hf⟩
    · rw [hf]
      simp only [Bool.false_eq_true, if_false]
      refine gotErrorTcp_ladder env _ false hrec ?_ hin1 (fun hb => by cases hb)
      have hs := successfulReconnects_failed w1 w1.io
      refine ⟨by rw [hs]; omega, fun _ => ⟨fun _ => by rw [hs]; exact hz, fun _ => by rw [hs]; omega⟩⟩
    · rw [hf]
      simp only [if_true]
      have hs : successfulReconnects (sendYa env
          { ({ w1 with io := { w1.io with socketType := t }, reconnects := w1.reconnects ++ [true] } : World) with
            io := tr_peerIoSetEncryption { w1.io with socketType := t } PEER_ENCRYPTION_NONE }) = 1 := by
        simp [successfulReconnects, List.filter_append, sendYa, setReadState, setState] at hz ⊢
        exact hz
      refine ⟨by rw [hs]; omega, fun _ => ⟨fun hu2 => ?_, fun _ => by rw [hs]⟩⟩
      simp [sendYa, setReadState, setState, tr_peerIoSetEncryption, hrec _ t ht] at hu2
  · exact gotErrorTcp_ladder env w1 true hrec hl hin1 (fun _ => by omega)

theorem gotError_ladder (env : Env) (w : World) (e : Nat)
    (hrec : ∀ n t, env.reconnect n = some t → t = TR_PEER_SOCKET_TYPE_TCP)
    (h : LadderInvariant w) (hin : w.io.funcsInstalled = true) :
    LadderInvariant (gotError env w e) := by
  dsimp only [gotError]
  split
  · rename_i hc
    refine gotErrorUtp_ladder env w _ hrec ?_ ?_ h hin hc.1
    all_goals repeat' split
    all_goals rfl
  · exact gotErrorTcp_ladder env w false hrec h hin (fun hb => by cases hb)

theorem gotError_terminal (env : Env) (w : World) (e : Nat)
    (hyb : w.hs.state ≠ AWAITING_YB)
    (hh : ¬ (w.hs.state = AWAITING_HANDSHAKE ∧ w.hs.haveReadAnythingFromPeer = false)) :
    gotError env w e = (tr_handshakeDone env w false).2 := by
  dsimp only [gotError]
  rw [if_neg (fun hc => hc.2.2.elim hyb hh)]
  dsimp only [gotErrorTcp]
  rw [if_neg (fun hc => hyb hc.2)]
  exact gotErrorFinish_false env w

theorem spent_of_frame {w w' : World} (h : LadderSpent w) (hf : ReadFrame w w') :
    LadderSpent w' := by
  obtain ⟨_, hs, hi, hy⟩ := hf
  intro hin
  have := h (hi hin)
  exact ⟨by rw [hs]; exact this.1, fun hyb => this.2 (hy hyb)⟩

theorem spent_done (env : Env) (w : World) (b : Bool) :
    LadderSpent (tr_handshakeDone env w b).2 :=
  fun hin => by simp at hin

theorem gotError_spent (env : Env) (w : World) (e : Nat) (h : LadderSpent w)
    (hin : w.io.funcsInstalled = true) :
    gotError env w e = (tr_handshakeDone env w false).2 := by
  have := h hin
  dsimp only [gotError]
  rw [if_neg (fun hc => by rw [this.1] at hc; exact absurd hc.1 (by decide))]
  dsimp only [gotErrorTcp]
  rw [if_neg (fun hc => this.2 hc.2)]
  exact gotErrorFinish_false env w

theorem sendPlainTextHandshake_spent (env : Env) (w : World)
    (htcp : w.io.socketType = TR_PEER_SOCKET_TYPE_TCP) :
    LadderSpent (sendPlainTextHandshake env w) := by
  dsimp only [sendPlainTextHandshake]
  split
  · exact spent_done env w false
  · intro _
    refine ⟨?_, ?_⟩
    · simp [setReadState, setState, htcp]
    · simp [setReadState, setState]

@[simp] theorem sendPlainTextHandshake_reconnects (env : Env) (w : World) :
    (sendPlainTextHandshake env w).reconnects = w.reconnects := by
  dsimp only [sendPlainTextHandshake]
  split <;> rfl

@[simp] theorem sendYa_reconnects (env : Env) (w : World) :
    (sendYa env w).reconnects = w.reconnects := rfl

theorem arrive_frame (w : World) (bytes : List Nat) : ReadFrame w (arrive w bytes) :=
  ⟨rfl, rfl, fun h => h, fun h => h⟩

theorem deliver_spent (env : Env) (fuel : Nat) (w w' : World) (i : Input)
    (h : LadderSpent w) (hd : deliver env fuel w i = some w') :
    LadderSpent w' ∧ w'.reconnects = w.reconnects := by
  cases i with
  | readable bytes =>
    simp only [deliver] at hd
    split at hd
    · cases hr : canRead env fuel (arrive w bytes) with
      | none => rw [hr] at hd; cases hd
      | some r =>
        rw [hr] at hd
        cases hd
        have hf := (arrive_frame w bytes).trans (canRead_frame env fuel _ _ hr)
        exact ⟨spent_of_frame h hf, hf.1⟩
    · cases hd
      exact ⟨spent_of_frame h (arrive_frame w bytes), rfl⟩
  | error e =>
    simp only [deliver] at hd
    split at hd
    · rename_i hin
      cases hd
      rw [gotError_spent env w e h hin]
      exact ⟨spent_done env w false, rfl⟩
    · cases hd
      exact ⟨h, rfl⟩
  | timeout =>
    simp only [deliver] at hd
    split at hd
    · cases hd
      exact ⟨spent_done env w false, rfl⟩
    · cases hd
      exact ⟨h, rfl⟩
  | abort =>
    simp only [deliver] at hd
    cases hd
    exact ⟨spent_done env w false, rfl⟩

theorem run_spent (env : Env) (fuel : Nat) (events : List Input) :
    ∀ w w', LadderSpent w → run env fuel w events = some w' → w'.reconnects = w.reconnects := by
  induction events with
  | nil =>
    intro w w' _ hr
    simp only [run] at hr
    cases hr
    rfl
  | cons i rest ih =>
    intro w w' h hr
    simp only [run] at hr
    cases hd : deliver env fuel w i with
    | none => rw [hd] at hr; cases hr
    | some w1 =>
      rw [hd] at hr
      have := deliver_spent env fuel w w1 i h hd
      rw [ih w1 w' this.1 hr, this.2]

theorem deliver_ladder (env : Env) (fuel : Nat) (w w' : World) (i : Input)
    (hrec : ∀ n t, env.reconnect n = some t → t = TR_PEER_SOCKET_TYPE_TCP)
    (h : LadderInvariant w) (hd : deliver env fuel w i = some w') :
    LadderInvariant w' := by
  cases i with
  | readable bytes =>
    simp only [deliver] at hd
    split at hd
    · cases hr : canRead env fuel (arrive w bytes) with
      | none => rw [hr] at hd; cases hd
      | some r =>
        rw [hr] at hd
        cases hd
        exact ladder_of_frame h ((arrive_frame w bytes).trans (canRead_frame env fuel _ _ hr))
    · cases hd
      exact ladder_of_frame h (arrive_frame w bytes)
  | error e =>
    simp only [deliver] at hd
    split at hd
    · rename_i hin
      cases hd
      exact gotError_ladder env w e hrec h hin
    · cases hd
      exact h
  | timeout =>
    simp only [deliver] at hd
    split at hd
    · cases hd
      exact ladder_done env w false h.1
    · cases hd
      exact h
  | abort =>
    simp only [deliver] at hd
    cases hd
    exact ladder_done env w false h.1

theorem run_ladder (env : Env) (fuel : Nat) (events : List Input)
    (hrec : ∀ n t, env.reconnect n = some t → t = TR_PEER_SOCKET_TYPE_TCP) :
    ∀ w w', LadderInvariant w → run env fuel w events = some w' → LadderInvariant w' := by
  induction events with
  | nil =>
    intro w w' h hr
    simp only [run] at hr
    cases hr
    exact h
  | cons i rest ih =>
    intro w w' h hr
    simp only [run] at hr
    cases hd : deliver env fuel w i with
    | none => rw [hd] at hr; cases hr
    | some w1 =>
      rw [hd] at hr
      exact ih w1 w' (deliver_ladder env fuel w w1 i hrec h hd) hr

theorem tr_handshakeNew_reconnects (env : Env) (io : tr_peerIo) (m : tr_encryption_mode) :
    (tr_handshakeNew env io m).reconnects = [] := by
  dsimp only [tr_handshakeNew]
  split
  · rfl
  · split
    · rfl
    · rw [sendPlainTextHandshake_reconnects]

theorem tr_handshakeNew_ladder (env : Env) (io : tr_peerIo) (m : tr_encryption_mode) :
    LadderInvariant (tr_handshakeNew env io m) := by
  have h : successfulReconnects (tr_handshakeNew env io m) = 0 := by
    unfold successfulReconnects
    rw [tr_handshakeNew_reconnects]
    rfl
  exact ⟨by omega, fun _ => ⟨fun _ => h, fun _ => by omega⟩⟩

theorem gotErrorFinish_rung (env : Env) (w : World) (b : Bool)
    (hrec : ∀ n t, env.reconnect n = some t → t = TR_PEER_SOCKET_TYPE_TCP) :
    EndsSession env w (gotErrorFinish env w b) ∨ ResendsPlain env w (gotErrorFinish env w b) := by
  dsimp only [gotErrorFinish]
  split
  · rcases tr_peerIoReconnect_cases env w with hc | ⟨t, ht, hc⟩
    · rw [hc]
      simp only [Bool.false_eq_true, if_false]
      exact Or.inl ⟨_, successfulReconnects_failed w w.io, rfl⟩
    · rw [hc]
      simp only [if_true]
      exact Or.inr ⟨_, rfl, by simp [tr_peerIoSetEncryption, hrec _ t ht], rfl⟩
  · exact Or.inl ⟨w, rfl, rfl⟩

theorem gotErrorTcp_rung (env : Env) (w : World) (b : Bool)
    (hrec : ∀ n t, env.reconnect n = some t → t = TR_PEER_SOCKET_TYPE_TCP) :
    EndsSession env w (gotErrorTcp env w b) ∨ ResendsPlain env w (gotErrorTcp env w b) := by
  dsimp only [gotErrorTcp]
  split
  · exact gotErrorFinish_rung env w true hrec
  · exact gotErrorFinish_rung env w b hrec

theorem endsSession_congr (env : Env) (w w1 w' : World) (h : successfulReconnects w1 = successfulReconnects w)
    (he : EndsSession env w1 w') : EndsSession env w w' := by
  obtain ⟨w2, h2, rfl⟩ := he
  exact ⟨w2, h2.trans h, rfl⟩

theorem gotErrorUtp_rung (env : Env) (w w1 : World)
    (hrec : ∀ n t, env.reconnect n = some t → t = TR_PEER_SOCKET_TYPE_TCP)
    (h2 : w1.io = w.io) (h3 : w1.reconnects = w.reconnects)
    (hu : w.io.socketType = TR_PEER_SOCKET_TYPE_UTP) (w' : World)
    (hw : w' = (if w1.hs.state = AWAITING_YB then
        if (tr_peerIoReconnect env w1).1 = true then
          sendYa env { (tr_peerIoReconnect env w1).2 with
            io := tr_peerIoSetEncryption (tr_peerIoReconnect env w1).2.io PEER_ENCRYPTION_NONE }
        else gotErrorTcp env (tr_peerIoReconnect env w1).2 false
      else gotErrorTcp env w1 true)) :
    EndsSession env w w' ∨ (w.io.socketType = TR_PEER_SOCKET_TYPE_UTP ∧ ResendsYa env w w') ∨
      ResendsPlain env w w' := by
  have hc : successfulReconnects w1 = successfulReconnects w := by
    unfold successfulReconnects; rw [h3]
  rw [hw]
  split
  · rcases tr_peerIoReconnect_cases env w1 with hf | ⟨t, ht, hf⟩
    · rw [hf]
      simp only [Bool.false_eq_true, if_false]
      have hfin : gotErrorTcp env { w1 with reconnects := w1.reconnects ++ [false] } false =
          (tr_handshakeDone env { w1 with reconnects := w1.reconnects ++ [false] } false).2 := by
        dsimp only [gotErrorTcp]
        split
        · rename_i hcase
          have h1 := hcase.1
          simp only [h2, hu] at h1
          cases h1
        · exact gotErrorFinish_false env _
      rw [hfin]
      exact Or.inl ⟨_, (successfulReconnects_failed w1 w1.io).trans hc, rfl⟩
    · rw [hf]
      simp only [if_true]
      exact Or.inr (Or.inl ⟨hu, _, by rw [← h3], by simp [tr_peerIoSetEncryption, hrec _ t ht], rfl⟩)
  · rcases gotErrorTcp_rung env w1 true hrec with h | ⟨w2, h2, h4, h5⟩
    · exact Or.inl (endsSession_congr env w w1 _ hc h)
    · exact Or.inr (Or.inr ⟨w2, by rw [h2, h3], h4, h5⟩)

theorem gotError_rung (env : Env) (w : World) (e : Nat)
    (hrec : ∀ n t, env.reconnect n = some t → t = TR_PEER_SOCKET_TYPE_TCP) :
    EndsSession env w (gotError env w e) ∨
      (w.io.socketType = TR_PEER_SOCKET_TYPE_UTP ∧ ResendsYa env w (gotError env w e)) ∨
      ResendsPlain env w (gotError env w e) := by
  by_cases hc : w.io.socketType = TR_PEER_SOCKET_TYPE_UTP ∧ w.io.isIncoming = false ∧
      (w.hs.state = AWAITING_YB ∨
        (w.hs.state = AWAITING_HANDSHAKE ∧ w.hs.haveReadAnythingFromPeer = false))
  · refine gotErrorUtp_rung env w ?w1 hrec ?h2 ?h3 hc.1 _ ?hw
    case hw =>
      dsimp only [gotError]
      rw [if_pos hc]
      exact rfl
    all_goals repeat' split
    all_goals rfl
  · have hw : gotError env w e = gotErrorTcp env w false := by
      dsimp only [gotError]
      rw [if_neg hc]
    rw [hw]
    rcases gotErrorTcp_rung env w false hrec with h | h
    · exact Or.inl h
    · exact Or.inr (Or.inr h)

theorem endsSession_count {env : Env} {w w' : World} (h : EndsSession env w w') :
    successfulReconnects w' = successfulReconnects w := by
  obtain ⟨w1, h1, rfl⟩ := h
  exact h1

theorem resendsYa_count {env : Env} {w w' : World} (h : ResendsYa env w w') :
    successfulReconnects w' = successfulReconnects w + 1 := by
  obtain ⟨w1, h1, _, rfl⟩ := h
  simp [successfulReconnects, h1, List.filter_append]

theorem resendsPlain_count {env : Env} {w w' : World} (h : ResendsPlain env w w') :
    successfulReconnects w' = successfulReconnects w + 1 := by
  obtain ⟨w1, h1, _, rfl⟩ := h
  simp [successfulReconnects, h1, List.filter_append]

theorem deliver_count (env : Env) (fuel : Nat) (w w' : World) (i : Input)
    (hrec : ∀ n t, env.reconnect n = some t → t = TR_PEER_SOCKET_TYPE_TCP)
    (hd : deliver env fuel w i = some w') :
    successfulReconnects w ≤ successfulReconnects w' := by
  cases i with
  | readable bytes =>
    simp only [deliver] at hd
    split at hd
    · cases hr : canRead env fuel (arrive w bytes) with
      | none => rw [hr] at hd; cases hd
      | some r =>
        rw [hr] at hd
        cases hd
        have hf := (arrive_frame w bytes).trans (canRead_frame env fuel _ _ hr)
        unfold successfulReconnects
        rw [hf.1]
    · cases hd
      exact Nat.le_refl _
  | error e =>
    simp only [deliver] at hd
    split at hd
    · cases hd
      rcases gotError_rung env w e hrec with h | ⟨_, h⟩ | h
      · rw [endsSession_count h]
      · rw [resendsYa_count h]; omega
      · rw [resendsPlain_count h]; omega
    · cases hd
      exact Nat.le_refl _
  | timeout =>
    simp only [deliver] at hd
    split at hd
    · cases hd
      exact Nat.le_refl _
    · cases hd
      exact Nat.le_refl _
  | abort =>
    simp only [deliver] at hd
    cases hd
    exact Nat.le_refl _

theorem run_count (env : Env) (fuel : Nat) (events : List Input)
    (hrec : ∀ n t, env.reconnect n = some t → t = TR_PEER_SOCKET_TYPE_TCP) :
    ∀ w w', run env fuel w events = some w' →
      successfulReconnects w ≤ successfulReconnects w' := by
  induction events with
  | nil =>
    intro w w' hr
    simp only [run] at hr
    cases hr
    exact Nat.le_refl _
  | cons i rest ih =>
    intro w w' hr
    simp only [run] at hr
    cases hd : deliver env fuel w i with
    | none => rw [hd] at hr; cases hr
    | some w1 =>
      rw [hd] at hr
      exact Nat.le_trans (deliver_count env fuel w w1 i hrec hd) (ih w1 w' hr)

theorem gotError_exhausted (env : Env) (w : World) (e : Nat) (h : LadderInvariant w)
    (hin : w.io.funcsInstalled = true) (h2 : successfulReconnects w = 2) :
    gotError env w e = (tr_handshakeDone env w false).2 := by
  refine gotError_spent env w e (fun _ => ⟨?_, fun hy => ?_⟩) hin
  · cases hs : w.io.socketType with
    | TR_PEER_SOCKET_TYPE_TCP => rfl
    | TR_PEER_SOCKET_TYPE_UTP =>
      have := (h.2 hin).1 hs
      omega
  · have := (h.2 hin).2 hy
    omega

/-- C29: the fallback ladder is finite, assuming a successful reconnect leaves the pipe on
TCP. A transport error in a state other than `AWAITING_YB` or (`AWAITING_HANDSHAKE` with
nothing read from the peer) ends the session with `is_ok = false` and attempts no reconnect.
The number of successful reconnects never decreases along a run, and in every run from
`tr_handshakeNew` it is at most two. For a transport error delivered to such a run: once two
reconnects succeeded the error is terminal; otherwise the error ends the session without a
further successful reconnect, or re-sends Ya (only when no reconnect succeeded before), or
goes on with the plaintext re-send, after which no reconnect is attempted any more. -/
theorem fallback_ladder_finite (env : Env)
    (hrec : ∀ n t, env.reconnect n = some t → t = TR_PEER_SOCKET_TYPE_TCP) :
    (∀ w e, w.hs.state ≠ AWAITING_YB →
        ¬ (w.hs.state = AWAITING_HANDSHAKE ∧ w.hs.haveReadAnythingFromPeer = false) →
        gotError env w e = (tr_handshakeDone env w false).2 ∧
        (gotError env w e).reconnects = w.reconnects ∧
        (gotError env w e).doneCalls = w.doneCalls ++ [failedCall env w]) ∧
    (∀ fuel w events w', run env fuel w events = some w' →
        successfulReconnects w ≤ successfulReconnects w') ∧
    (∀ io m fuel events w, run env fuel (tr_handshakeNew env io m) events = some w →
        successfulReconnects w ≤ 2 ∧
        (w.io.funcsInstalled = true → ∀ e,
          (successfulReconnects w = 2 → gotError env w e = (tr_handshakeDone env w false).2) ∧
          (EndsSession env w (gotError env w e) ∨
           (successfulReconnects w = 0 ∧ ResendsYa env w (gotError env w e)) ∨
           (ResendsPlain env w (gotError env w e) ∧
             ∀ fuel2 events2 w2, run env fuel2 (gotError env w e) events2 = some w2 →
               w2.reconnects = (gotError env w e).reconnects)))) := by
  refine ⟨fun w e hyb hh => ?_, fun fuel w events w' hr => run_count env fuel events hrec w w' hr,
    fun io m fuel events w hr => ?_⟩
  · rw [gotError_terminal env w e hyb hh]
    exact ⟨rfl, rfl, rfl⟩
  · have hl := run_ladder env fuel events hrec _ w (tr_handshakeNew_ladder env io m) hr
    refine ⟨hl.1, fun hin e => ⟨fun h2 => gotError_exhausted env w e hl hin h2, ?_⟩⟩
    rcases gotError_rung env w e hrec with h | ⟨hu, h⟩ | h
    · exact Or.inl h
    · exact Or.inr (Or.inl ⟨(hl.2 hin).1 hu, h⟩)
    · refine Or.inr (Or.inr ⟨h, fun fuel2 events2 w2 hr2 => ?_⟩)
      obtain ⟨w1, _, h4, h5⟩ := h
      refine run_spent env fuel2 events2 _ w2 ?_ hr2
      rw [h5]
      exact sendPlainTextHandshake_spent env w1 h4

set_option maxRecDepth 100000 in
theorem fallback_ladder_finite_witness :
    (∀ n t, sampleEnv.reconnect n = some t → t = TR_PEER_SOCKET_TYPE_TCP) ∧
    run sampleEnv 8 (tr_handshakeNew sampleEnv utpPipe TR_ENCRYPTION_PREFERRED)
      [Input.error sampleEnv.ETIMEDOUT, Input.error sampleEnv.ETIMEDOUT] = some twiceReconnected ∧
    twiceReconnected.reconnects = [true, true] ∧
    twiceReconnected.io.funcsInstalled = true ∧
    twiceReconnected.doneCalls = [] ∧
    gotError sampleEnv twiceReconnected sampleEnv.ETIMEDOUT =
      (tr_handshakeDone sampleEnv twiceReconnected false).2 :=
  have hrec : ∀ n t, sampleEnv.reconnect n = some t → t = TR_PEER_SOCKET_TYPE_TCP :=
    fun _ _ h => by cases h; rfl
  have hrun : run sampleEnv 8 (tr_handshakeNew sampleEnv utpPipe TR_ENCRYPTION_PREFERRED)
      [Input.error sampleEnv.ETIMEDOUT, Input.error sampleEnv.ETIMEDOUT] = some twiceReconnected :=
    by rfl
  have h := (fallback_ladder_finite sampleEnv hrec).2.2 utpPipe TR_ENCRYPTION_PREFERRED 8 _ _ hrun
  ⟨hrec, hrun, by decide, by decide, by decide,
    (h.2 (by decide) sampleEnv.ETIMEDOUT).1 (by decide)⟩

/-! ### The driver loop terminates -/

theorem passesLeft_pos (w : World) : 1 ≤ passesLeft w := by
  unfold passesLeft
  repeat' split
  all_goals decide

theorem passesLeft_le (w : World) : passesLeft w ≤ 8 := by
  unfold passesLeft
  repeat' split
  all_goals decide

theorem descends_later (w w' : World) : Descends w (READ_LATER, w') :=
  fun h => by cases h

theorem descends_done (env : Env) (hcb : ∀ n b id, env.doneCB n b false id = false)
    (w w1 : World) : Descends w (tr_handshakeDone env w1 false) := by
  intro h
  simp [tr_handshakeDone, fireDoneFunc, hcb] at h

theorem descends_now (w w' : World) (n : Nat) (hf : w'.hs.freed = false)
    (hn : passesLeft w' = n) (hlt : n < passesLeft w) : Descends w (READ_NOW, w') :=
  fun _ => ⟨hf, by rw [hn]; exact hlt⟩

theorem readHandshakeReply_descends (env : Env)
    (hcb : ∀ n b id, env.doneCB n b false id = false) (w0 w : World)
    (hl : w.hs.freed = false) (h2 : 2 ≤ passesLeft w0) :
    Descends w0 (readHandshakeReply env w) := by
  dsimp only [readHandshakeReply]
  split
  · split
    · exact descends_done env hcb _ _
    · exact descends_now _ _ 1 hl rfl h2
  · exact descends_now _ _ 1 hl rfl h2

theorem readHandshakeParse_descends (env : Env)
    (hcb : ∀ n b id, env.doneCB n b false id = false) (w0 w : World)
    (hl : w.hs.freed = false) (h2 : 2 ≤ passesLeft w0) :
    Descends w0 (readHandshakeParse env w) := by
  dsimp only [readHandshakeParse]
  split
  · exact descends_done env hcb _ _
  · split
    · split
      · exact descends_done env hcb _ _
      · split
        · exact descends_done env hcb _ _
        · exact readHandshakeReply_descends env hcb _ _ hl h2
    · split
      · exact descends_done env hcb _ _
      · exact readHandshakeReply_descends env hcb _ _ hl h2

theorem readHandshake_descends (env : Env)
    (hcb : ∀ n b id, env.doneCB n b false id = false) (w : World)
    (hl : w.hs.freed = false) (hst : w.hs.state = AWAITING_HANDSHAKE) :
    Descends w (readHandshake env w) := by
  have hr : passesLeft w =
      if w.io.isIncoming = true ∧ tr_peerIoHasTorrentHash w.io = false then 8 else 2 := by
    simp only [passesLeft, hst]
  have h2 : 2 ≤ passesLeft w := by
    rw [hr]; split <;> decide
  dsimp only [readHandshake]
  split
  · exact descends_later _ _
  · split
    · split
      · exact descends_done env hcb _ _
      · split
        · exact descends_done env hcb _ _
        · exact readHandshakeParse_descends env hcb _ _ hl h2
    · split
      · rename_i hc
        refine descends_now _ _ 7 hl rfl ?_
        rw [hr, if_pos hc]
        decide
      · split
        · exact descends_done env hcb _ _
        · exact readHandshakeParse_descends env hcb _ _ hl h2

theorem readYa_descends (env : Env)
    (hcb : ∀ n b id, env.doneCB n b false id = false) (w : World)
    (hl : w.hs.freed = false) (hst : w.hs.state = AWAITING_YA) :
    Descends w (readYa env w) := by
  have hr : passesLeft w = 7 := by simp only [passesLeft, hst]
  dsimp only [readYa]
  split
  · exact descends_later _ _
  · split
    · exact descends_done env hcb _ _
    · exact descends_now _ _ 6 hl rfl (by rw [hr]; decide)

theorem readPadA_descends (env : Env) (w : World)
    (hl : w.hs.freed = false) (hst : w.hs.state = AWAITING_PAD_A) :
    Descends w (readPadA env w) := by
  have hr : passesLeft w = 6 := by simp only [passesLeft, hst]
  dsimp only [readPadA]
  split
  · exact descends_now _ _ 5 hl rfl (by rw [hr]; decide)
  · split
    · exact descends_later _ _
    · exact descends_later _ _

theorem readCryptoProvideParse_descends (env : Env)
    (hcb : ∀ n b id, env.doneCB n b false id = false) (w0 w : World)
    (hl : w.hs.freed = false) (h5 : 5 ≤ passesLeft w0) :
    Descends w0 (readCryptoProvideParse env w) := by
  dsimp only [readCryptoProvideParse]
  split
  · exact descends_done env hcb _ _
  · exact descends_now _ _ 4 hl rfl h5

theorem readCryptoProvide_descends (env : Env)
    (hcb : ∀ n b id, env.doneCB n b false id = false) (w : World)
    (hl : w.hs.freed = false) (hst : w.hs.state = AWAITING_CRYPTO_PROVIDE) :
    Descends w (readCryptoProvide env w) := by
  have hr : passesLeft w = 5 := by simp only [passesLeft, hst]
  dsimp only [readCryptoProvide]
  split
  · exact descends_later _ _
  · split
    · split
      · exact descends_done env hcb _ _
      · split
        · exact descends_done env hcb _ _
        · exact readCryptoProvideParse_descends env hcb _ _ hl (by rw [hr])
    · exact descends_done env hcb _ _

theorem readPadC_descends (env : Env) (w : World)
    (hl : w.hs.freed = false) (hst : w.hs.state = AWAITING_PAD_C) :
    Descends w (readPadC env w) := by
  have hr : passesLeft w = 4 := by simp only [passesLeft, hst]
  dsimp only [readPadC]
  split
  · exact descends_later _ _
  · exact descends_now _ _ 3 hl rfl (by rw [hr]; decide)

theorem readVC_descends (env : Env) (w : World)
    (hl : w.hs.freed = false) (hst : w.hs.state = AWAITING_VC) :
    Descends w (readVC env w) := by
  have hr : passesLeft w = 5 := by simp only [passesLeft, hst]
  dsimp only [readVC]
  split
  · exact descends_later _ _
  · exact descends_now _ _ 4 hl rfl (by rw [hr]; decide)

theorem readCryptoSelect_descends (env : Env)
    (hcb : ∀ n b id, env.doneCB n b false id = false) (w : World)
    (hl : w.hs.freed = false) (hst : w.hs.state = AWAITING_CRYPTO_SELECT) :
    Descends w (readCryptoSelect env w) := by
  have hr : passesLeft w = 4 := by simp only [passesLeft, hst]
  dsimp only [readCryptoSelect]
  split
  · exact descends_later _ _
  · split
    · exact descends_done env hcb _ _
    · split
      · exact descends_done env hcb _ _
      · exact descends_now _ _ 3 hl rfl (by rw [hr]; decide)

theorem passesLeft_outgoing (w : World) (hst : w.hs.state = AWAITING_HANDSHAKE)
    (hout : w.io.isIncoming = false) : passesLeft w = 2 := by
  simp [passesLeft, hst, hout]

theorem passesLeft_bound (w : World) (hst : w.hs.state = AWAITING_HANDSHAKE)
    (hb : w.io.torrentHash ≠ none) : passesLeft w = 2 := by
  have : tr_peerIoHasTorrentHash w.io = true := by
    cases h : w.io.torrentHash with
    | none => exact absurd h hb
    | some x => simp [tr_peerIoHasTorrentHash, h]
  simp [passesLeft, hst, this]

theorem readPadD_descends (env : Env) (w : World)
    (hl : w.hs.freed = false) (hst : w.hs.state = AWAITING_PAD_D)
    (hout : w.io.isIncoming = false) :
    Descends w (readPadD env w) := by
  have hr : passesLeft w = 3 := by simp only [passesLeft, hst]
  dsimp only [readPadD]
  split
  · exact descends_later _ _
  · refine descends_now _ _ 2 hl (passesLeft_outgoing _ rfl ?_) (by rw [hr]; decide)
    simp [setState, tr_peerIoSetEncryption, tr_peerIoDrain, hout]

theorem readYb_descends (env : Env)
    (hcb : ∀ n b id, env.doneCB n b false id = false) (w : World)
    (hl : w.hs.freed = false) (hst : w.hs.state = AWAITING_YB)
    (hout : w.io.isIncoming = false) :
    Descends w (readYb env w) := by
  have hr : passesLeft w = 3 := by simp only [passesLeft, hst]
  dsimp only [readYb]
  split
  · exact descends_later _ _
  · split
    · exact descends_later _ _
    · split
      · exact descends_now _ _ 2 hl (passesLeft_outgoing _ rfl hout) (by rw [hr]; decide)
      · split
        · exact descends_done env hcb _ _
        · split
          · exact descends_done env hcb _ _
          · exact descends_later _ _

theorem readIA_descends (env : Env)
    (hcb : ∀ n b id, env.doneCB n b false id = false) (w : World)
    (hl : w.hs.freed = false) (hst : w.hs.state = AWAITING_IA) :
    Descends w (readIA env w) := by
  have hr : passesLeft w = 3 := by simp only [passesLeft, hst]
  dsimp only [readIA]
  split
  · exact descends_later _ _
  · split
    · exact descends_done env hcb _ _
    · split
      · exact descends_done env hcb _ _
      · rename_i msg hmsg
        have hb := buildHandshakeMessage_bound _ _ _ hmsg
        dsimp only at hb
        rw [ite_pair_torrentHash _ _ _ _ _ (by
          simp [tr_peerIoWriteBuf, tr_peerIoSetEncryption, tr_peerIoDecryptBuf, tr_cryptoDecrypt])] at hb
        refine descends_now _ _ 2 hl (passesLeft_bound _ rfl ?_) (by rw [hr]; decide)
        simp only [setState, tr_peerIoWriteBuf, tr_peerIoWriteBytes_torrentHash]
        rw [ite_pair_torrentHash _ _ _ _ _ (by
          simp [tr_peerIoWriteBuf, tr_peerIoSetEncryption, tr_peerIoDecryptBuf, tr_cryptoDecrypt])]
        exact hb

theorem readHandshakeReply_dispatched (env : Env) (w : World) :
    (readHandshakeReply env w).2.dispatched = w.dispatched := by
  dsimp only [readHandshakeReply]
  repeat' split
  all_goals first | rfl

theorem readHandshakeParse_dispatched (env : Env) (w : World) :
    (readHandshakeParse env w).2.dispatched = w.dispatched := by
  dsimp only [readHandshakeParse]
  repeat' split
  all_goals first | rfl | exact readHandshakeReply_dispatched _ _

theorem readHandshake_dispatched (env : Env) (w : World) :
    (readHandshake env w).2.dispatched = w.dispatched := by
  dsimp only [readHandshake]
  repeat' split
  all_goals first | rfl | exact readHandshakeParse_dispatched _ _

theorem readPeerId_dispatched (env : Env) (w : World) :
    (readPeerId env w).2.dispatched = w.dispatched := by
  dsimp only [readPeerId]
  repeat' split
  all_goals first | rfl

theorem readYa_dispatched (env : Env) (w : World) :
    (readYa env w).2.dispatched = w.dispatched := by
  dsimp only [readYa]
  repeat' split
  all_goals first | rfl

theorem readPadA_dispatched (env : Env) (w : World) :
    (readPadA env w).2.dispatched = w.dispatched := by
  dsimp only [readPadA]
  repeat' split
  all_goals first | rfl

theorem readCryptoProvideParse_dispatched (env : Env) (w : World) :
    (readCryptoProvideParse env w).2.dispatched = w.dispatched := by
  dsimp only [readCryptoProvideParse]
  repeat' split
  all_goals first | rfl

theorem readCryptoProvide_dispatched (env : Env) (w : World) :
    (readCryptoProvide env w).2.dispatched = w.dispatched := by
  dsimp only [readCryptoProvide]
  repeat' split
  all_goals first | rfl | exact readCryptoProvideParse_dispatched _ _

theorem readPadC_dispatched (env : Env) (w : World) :
    (readPadC env w).2.dispatched = w.dispatched := by
  dsimp only [readPadC]
  repeat' split
  all_goals first | rfl

theorem readIA_dispatched (env : Env) (w : World) :
    (readIA env w).2.dispatched = w.dispatched := by
  dsimp only [readIA]
  repeat' split
  all_goals first | rfl

theorem readYb_dispatched (env : Env) (w : World) :
    (readYb env w).2.dispatched = w.dispatched := by
  dsimp only [readYb]
  repeat' split
  all_goals first | rfl

theorem readVC_dispatched (env : Env) (w : World) :
    (readVC env w).2.dispatched = w.dispatched := by
  dsimp only [readVC]
  repeat' split
  all_goals first | rfl

theorem readCryptoSelect_dispatched (env : Env) (w : World) :
    (readCryptoSelect env w).2.dispatched = w.dispatched := by
  dsimp only [readCryptoSelect]
  repeat' split
  all_goals first | rfl

theorem readPadD_dispatched (env : Env) (w : World) :
    (readPadD env w).2.dispatched = w.dispatched := by
  dsimp only [readPadD]
  repeat' split
  all_goals first | rfl

theorem canReadStep_dispatched (env : Env) (w : World) :
    (canReadStep env w).2.dispatched = w.dispatched ++ [(w.hs.state, w.hs.freed)] := by
  dsimp only [canReadStep, canReadSwitch]
  split
  · exact readHandshake_dispatched env _
  · exact readPeerId_dispatched env _
  · exact readYa_dispatched env _
  · exact readPadA_dispatched env _
  · exact readCryptoProvide_dispatched env _
  · exact readPadC_dispatched env _
  · exact readIA_dispatched env _
  · exact readYb_dispatched env _
  · exact readVC_dispatched env _
  · exact readCryptoSelect_dispatched env _
  · exact readPadD_dispatched env _

theorem canReadSwitch_descends (env : Env)
    (hcb : ∀ n b id, env.doneCB n b false id = false) (w : World)
    (hl : w.hs.freed = false) (hf : StateFacts w) (hne : w.hs.state ≠ AWAITING_PEER_ID) :
    Descends w (canReadSwitch env w) := by
  dsimp only [canReadSwitch]
  split
  · rename_i hst; exact readHandshake_descends env hcb w hl hst
  · rename_i hst; exact absurd hst hne
  · rename_i hst; exact readYa_descends env hcb w hl hst
  · rename_i hst; exact readPadA_descends env w hl hst
  · rename_i hst; exact readCryptoProvide_descends env hcb w hl hst
  · rename_i hst; exact readPadC_descends env w hl hst
  · rename_i hst; exact readIA_descends env hcb w hl hst
  · rename_i hst
    simp only [StateFacts, hst] at hf
    exact readYb_descends env hcb w hl hst hf.1
  · rename_i hst; exact readVC_descends env w hl hst
  · rename_i hst; exact readCryptoSelect_descends env hcb w hl hst
  · rename_i hst
    simp only [StateFacts, hst] at hf
    exact readPadD_descends env w hl hst hf.1

theorem canReadStep_descends (env : Env)
    (hcb : ∀ n b id, env.doneCB n b false id = false) (w : World)
    (hl : w.hs.freed = false) (hf : StateFacts w) (hne : w.hs.state ≠ AWAITING_PEER_ID) :
    Descends w (canReadStep env w) :=
  canReadSwitch_descends env hcb
    { w with dispatched := w.dispatched ++ [(w.hs.state, w.hs.freed)] } hl hf hne

theorem canRead_within (env : Env) (hcb : ∀ n b id, env.doneCB n b false id = false) :
    ∀ fuel w, w.hs.freed = false → SessionInvariant w → passesLeft w ≤ fuel →
      ∃ r, canRead env fuel w = some r ∧
        r.2.dispatched.length ≤ w.dispatched.length + passesLeft w := by
  intro fuel
  induction fuel with
  | zero =>
    intro w _ _ h0
    have := passesLeft_pos w
    omega
  | succ n ih =>
    intro w hl hinv hle
    have hpos := passesLeft_pos w
    have hd := canReadStep_dispatched env w
    by_cases hp : w.hs.state = AWAITING_PEER_ID
    · refine ⟨canReadStep env w, by simp [canRead, hp], ?_⟩
      rw [hd, List.length_append]
      simpa using hpos
    · by_cases hnow : (canReadStep env w).1 = READ_NOW
      · have hdesc := canReadStep_descends env hcb w hl (hinv hl).2 hp hnow
        obtain ⟨r, hr, hlen⟩ := ih (canReadStep env w).2 hdesc.1
          (canReadStep_invariant env w hinv) (by omega)
        refine ⟨r, by simp [canRead, hp, hnow, hr], ?_⟩
        rw [hd, List.length_append] at hlen
        simp only [List.length_singleton] at hlen
        omega
      · refine ⟨canReadStep env w, by simp [canRead, hp, hnow], ?_⟩
        rw [hd, List.length_append]
        simpa using hpos

theorem readHandshakeReply_live (env : Env) (w : World) :
    (readHandshakeReply env w).2.hs.freed = w.hs.freed ∨ (readHandshakeReply env w).2.io.funcsInstalled = false := by
  dsimp only [readHandshakeReply]
  repeat' split
  all_goals first | exact Or.inl rfl | exact Or.inr rfl

theorem readHandshakeParse_live (env : Env) (w : World) :
    (readHandshakeParse env w).2.hs.freed = w.hs.freed ∨ (readHandshakeParse env w).2.io.funcsInstalled = false := by
  dsimp only [readHandshakeParse]
  repeat' split
  all_goals first | exact Or.inl rfl | exact Or.inr rfl | exact readHandshakeReply_live _ _

theorem readHandshake_live (env : Env) (w : World) :
    (readHandshake env w).2.hs.freed = w.hs.freed ∨ (readHandshake env w).2.io.funcsInstalled = false := by
  dsimp only [readHandshake]
  repeat' split
  all_goals first | exact Or.inl rfl | exact Or.inr rfl | exact readHandshakeParse_live _ _

theorem readPeerId_live (env : Env) (w : World) :
    (readPeerId env w).2.hs.freed = w.hs.freed ∨ (readPeerId env w).2.io.funcsInstalled = false := by
  dsimp only [readPeerId]
  repeat' split
  all_goals first | exact Or.inl rfl | exact Or.inr rfl

theorem readYa_live (env : Env) (w : World) :
    (readYa env w).2.hs.freed = w.hs.freed ∨ (readYa env w).2.io.funcsInstalled = false := by
  dsimp only [readYa]
  repeat' split
  all_goals first | exact Or.inl rfl | exact Or.inr rfl

theorem readPadA_live (env : Env) (w : World) :
    (readPadA env w).2.hs.freed = w.hs.freed ∨ (readPadA env w).2.io.funcsInstalled = false := by
  dsimp only [readPadA]
  repeat' split
  all_goals exact Or.inl rfl

theorem readCryptoProvideParse_live (env : Env) (w : World) :
    (readCryptoProvideParse env w).2.hs.freed = w.hs.freed ∨ (readCryptoProvideParse env w).2.io.funcsInstalled = false := by
  dsimp only [readCryptoProvideParse]
  repeat' split
  all_goals first | exact Or.inl rfl | exact Or.inr rfl

theorem readCryptoProvide_live (env : Env) (w : World) :
    (readCryptoProvide env w).2.hs.freed = w.hs.freed ∨ (readCryptoProvide env w).2.io.funcsInstalled = false := by
  dsimp only [readCryptoProvide]
  repeat' split
  all_goals first | exact Or.inl rfl | exact Or.inr rfl | exact readCryptoProvideParse_live _ _

theorem readPadC_live (env : Env) (w : World) :
    (readPadC env w).2.hs.freed = w.hs.freed ∨ (readPadC env w).2.io.funcsInstalled = false := by
  dsimp only [readPadC]
  repeat' split
  all_goals exact Or.inl rfl

theorem readIA_live (env : Env) (w : World) :
    (readIA env w).2.hs.freed = w.hs.freed ∨ (readIA env w).2.io.funcsInstalled = false := by
  dsimp only [readIA]
  repeat' split
  all_goals first | exact Or.inl rfl | exact Or.inr rfl

theorem readYb_live (env : Env) (w : World) :
    (readYb env w).2.hs.freed = w.hs.freed ∨ (readYb env w).2.io.funcsInstalled = false := by
  dsimp only [readYb]
  repeat' split
  all_goals first | exact Or.inl rfl | exact Or.inr rfl

theorem readVC_live (env : Env) (w : World) :
    (readVC env w).2.hs.freed = w.hs.freed ∨ (readVC env w).2.io.funcsInstalled = false := by
  dsimp only [readVC]
  repeat' split
  all_goals exact Or.inl rfl

theorem readCryptoSelect_live (env : Env) (w : World) :
    (readCryptoSelect env w).2.hs.freed = w.hs.freed ∨ (readCryptoSelect env w).2.io.funcsInstalled = false := by
  dsimp only [readCryptoSelect]
  repeat' split
  all_goals first | exact Or.inl rfl | exact Or.inr rfl

theorem readPadD_live (env : Env) (w : World) :
    (readPadD env w).2.hs.freed = w.hs.freed ∨ (readPadD env w).2.io.funcsInstalled = false := by
  dsimp only [readPadD]
  repeat' split
  all_goals exact Or.inl rfl

theorem canReadStep_live (env : Env) (w : World) :
    (canReadStep env w).2.hs.freed = w.hs.freed ∨ (canReadStep env w).2.io.funcsInstalled = false := by
  dsimp only [canReadStep, canReadSwitch]
  split
  · exact readHandshake_live env _
  · exact readPeerId_live env _
  · exact readYa_live env _
  · exact readPadA_live env _
  · exact readCryptoProvide_live env _
  · exact readPadC_live env _
  · exact readIA_live env _
  · exact readYb_live env _
  · exact readVC_live env _
  · exact readCryptoSelect_live env _
  · exact readPadD_live env _

theorem attached_done (env : Env) (w : World) (b : Bool) :
    Attached (tr_handshakeDone env w b).2 :=
  fun h => by simp at h

theorem attached_of_live {w w' : World} (h : Attached w) (hf : ReadFrame w w')
    (hl : w'.hs.freed = w.hs.freed ∨ w'.io.funcsInstalled = false) : Attached w' := by
  intro hin
  rcases hl with hl | hl
  · rw [hl]; exact h (hf.2.2.1 hin)
  · rw [hl] at hin; cases hin

theorem canRead_attached (env : Env) :
    ∀ fuel w r, Attached w → canRead env fuel w = some r → Attached r.2 := by
  intro fuel
  induction fuel with
  | zero =>
    intro w r _ h
    simp [canRead] at h
  | succ n ih =>
    intro w r ha h
    have hs : Attached (canReadStep env w).2 :=
      attached_of_live ha (canReadStep_frame env w) (canReadStep_live env w)
    simp only [canRead] at h
    split at h
    · cases h; exact hs
    · split at h
      · exact ih _ r hs h
      · cases h; exact hs

theorem canRead_invariant (env : Env) :
    ∀ fuel w r, SessionInvariant w → canRead env fuel w = some r → SessionInvariant r.2 := by
  intro fuel
  induction fuel with
  | zero =>
    intro w r _ h
    simp [canRead] at h
  | succ n ih =>
    intro w r ha h
    have hs := canReadStep_invariant env w ha
    simp only [canRead] at h
    split at h
    · cases h; exact hs
    · split at h
      · exact ih _ r hs h
      · cases h; exact hs

theorem sendPlainTextHandshake_attached (env : Env) (w : World) (h : Attached w) :
    Attached (sendPlainTextHandshake env w) := by
  dsimp only [sendPlainTextHandshake]
  split
  · exact attached_done env w false
  · intro hin
    simp only [setReadState, setState, tr_peerIoWriteBytes_funcsInstalled] at hin
    exact h hin

theorem sendYa_attached (env : Env) (w : World) (h : Attached w) :
    Attached (sendYa env w) := by
  intro hin
  simp only [sendYa, setReadState, setState, tr_peerIoWriteBytes_funcsInstalled] at hin
  exact h hin

theorem tr_peerIoReconnect_attached (env : Env) (w : World) (h : Attached w) :
    Attached { (tr_peerIoReconnect env w).2 with
      io := tr_peerIoSetEncryption (tr_peerIoReconnect env w).2.io PEER_ENCRYPTION_NONE } := by
  rcases tr_peerIoReconnect_cases env w with hc | ⟨t, _, hc⟩ <;> rw [hc] <;> exact h

theorem gotErrorFinish_attached (env : Env) (w : World) (b : Bool) (h : Attached w) :
    Attached (gotErrorFinish env w b) := by
  dsimp only [gotErrorFinish]
  split
  · split
    · exact sendPlainTextHandshake_attached env _ (tr_peerIoReconnect_attached env w h)
    · exact attached_done env _ false
  · exact attached_done env w false

theorem gotErrorTcp_attached (env : Env) (w : World) (b : Bool) (h : Attached w) :
    Attached (gotErrorTcp env w b) := by
  dsimp only [gotErrorTcp]
  split
  · exact gotErrorFinish_attached env w true h
  · exact gotErrorFinish_attached env w b h

theorem gotErrorUtp_attached (env : Env) (w : World) (h : Attached w) :
    Attached
      (if w.hs.state = AWAITING_YB then
        if (tr_peerIoReconnect env w).1 = true then
          sendYa env { (tr_peerIoReconnect env w).2 with
            io := tr_peerIoSetEncryption (tr_peerIoReconnect env w).2.io PEER_ENCRYPTION_NONE }
        else gotErrorTcp env (tr_peerIoReconnect env w).2 false
      else gotErrorTcp env w true) := by
  split
  · split
    · exact sendYa_attached env _ (tr_peerIoReconnect_attached env w h)
    · refine gotErrorTcp_attached env _ false ?_
      rcases tr_peerIoReconnect_cases env w with hc | ⟨t, _, hc⟩ <;> rw [hc] <;> exact h
  · exact gotErrorTcp_attached env w true h

theorem gotError_attached (env : Env) (w : World) (e : Nat) (h : Attached w) :
    Attached (gotError env w e) := by
  dsimp only [gotError]
  split
  · refine gotErrorUtp_attached env _ ?_
    repeat' split
    all_goals exact h
  · exact gotErrorTcp_attached env w false h

theorem tr_handshakeNew_attached (env : Env) (io : tr_peerIo) (m : tr_encryption_mode) :
    Attached (tr_handshakeNew env io m) := by
  dsimp only [tr_handshakeNew]
  split
  · exact fun _ => rfl
  · split
    · exact sendYa_attached env _ (fun _ => rfl)
    · exact sendPlainTextHandshake_attached env _ (fun _ => rfl)

theorem deliver_attached (env : Env) (fuel : Nat) (w w' : World) (i : Input)
    (h : SessionInvariant w ∧ Attached w) (hd : deliver env fuel w i = some w') :
    SessionInvariant w' ∧ Attached w' := by
  cases i with
  | readable bytes =>
    simp only [deliver] at hd
    split at hd
    · cases hr : canRead env fuel (arrive w bytes) with
      | none => rw [hr] at hd; cases hd
      | some r =>
        rw [hr] at hd
        cases hd
        exact ⟨canRead_invariant env fuel (arrive w bytes) r h.1 hr,
          canRead_attached env fuel (arrive w bytes) r h.2 hr⟩
    · cases hd
      exact h
  | error e =>
    simp only [deliver] at hd
    split at hd
    · cases hd
      exact ⟨gotError_invariant env w e h.1, gotError_attached env w e h.2⟩
    · cases hd
      exact h
  | timeout =>
    simp only [deliver] at hd
    split at hd
    · cases hd
      exact ⟨invariant_done _ _ _, attached_done env w false⟩
    · cases hd
      exact h
  | abort =>
    simp only [deliver] at hd
    cases hd
    exact ⟨invariant_done _ _ _, attached_done env w false⟩

theorem run_attached (env : Env) (fuel : Nat) (events : List Input) :
    ∀ w w', SessionInvariant w ∧ Attached w → run env fuel w events = some w' →
      SessionInvariant w' ∧ Attached w' := by
  induction events with
  | nil =>
    intro w w' h hr
    simp only [run] at hr
    cases hr
    exact h
  | cons i rest ih =>
    intro w w' h hr
    simp only [run] at hr
    cases hd : deliver env fuel w i with
    | none => rw [hd] at hr; cases hr
    | some w1 =>
      rw [hd] at hr
      exact ih w1 w' (deliver_attached env fuel w w1 i h hd) hr

theorem deliver_readable_within (env : Env)
    (hcb : ∀ n b id, env.doneCB n b false id = false) (w : World) (bytes : List Nat)
    (h : SessionInvariant w ∧ Attached w) :
    ∃ w', deliver env 8 w (Input.readable bytes) = some w' ∧
      w'.dispatched.length ≤ w.dispatched.length + 8 := by
  by_cases hin : w.io.funcsInstalled = true
  · have hin' : (arrive w bytes).io.funcsInstalled = true := hin
    obtain ⟨r, hr, hlen⟩ := canRead_within env hcb 8 (arrive w bytes) (h.2 hin) h.1
      (passesLeft_le _)
    refine ⟨r.2, by simp [deliver, hin', hr], ?_⟩
    have := passesLeft_le (arrive w bytes)
    have hd : (arrive w bytes).dispatched = w.dispatched := rfl
    rw [hd] at hlen
    omega
  · have hin' : ¬ (arrive w bytes).io.funcsInstalled = true := hin
    refine ⟨arrive w bytes, by simp [deliver, hin'], ?_⟩
    have hd : (arrive w bytes).dispatched = w.dispatched := rfl
    rw [hd]
    omega

theorem deliver_within (env : Env)
    (hcb : ∀ n b id, env.doneCB n b false id = false) (w : World) (i : Input)
    (h : SessionInvariant w ∧ Attached w) :
    ∃ w', deliver env 8 w i = some w' := by
  cases i with
  | readable bytes =>
    obtain ⟨w', hw, _⟩ := deliver_readable_within env hcb w bytes h
    exact ⟨w', hw⟩
  | error e =>
    simp only [deliver]
    split
    · exact ⟨_, rfl⟩
    · exact ⟨_, rfl⟩
  | timeout =>
    simp only [deliver]
    split
    · exact ⟨_, rfl⟩
    · exact ⟨_, rfl⟩
  | abort => exact ⟨_, rfl⟩

theorem run_within (env : Env)
    (hcb : ∀ n b id, env.doneCB n b false id = false) (events : List Input) :
    ∀ w, SessionInvariant w ∧ Attached w → ∃ w', run env 8 w events = some w' := by
  induction events with
  | nil => exact fun w _ => ⟨w, rfl⟩
  | cons i rest ih =>
    intro w h
    obtain ⟨w1, hd⟩ := deliver_within env hcb w i h
    obtain ⟨w2, hr⟩ := ih w1 (deliver_attached env 8 w w1 i h hd)
    exact ⟨w2, by simp [run, hd, hr]⟩

theorem done_state (env : Env) (w : World) (b : Bool) :
    (tr_handshakeDone env w b).2.hs.state = w.hs.state := rfl

theorem readHandshakeReply_state (env : Env) (w : World) :
    (readHandshakeReply env w).2.hs.state = w.hs.state ∨
      (readHandshakeReply env w).2.hs.state = AWAITING_PEER_ID := by
  dsimp only [readHandshakeReply]
  repeat' split
  all_goals first | exact Or.inl rfl | exact Or.inr rfl

theorem readHandshakeParse_state (env : Env) (w : World) :
    (readHandshakeParse env w).2.hs.state = w.hs.state ∨
      (readHandshakeParse env w).2.hs.state = AWAITING_PEER_ID := by
  dsimp only [readHandshakeParse]
  repeat' split
  all_goals first | exact Or.inl rfl | exact readHandshakeReply_state env _

theorem readHandshake_hands_over (env : Env) (w : World)
    (hst : w.hs.state = AWAITING_HANDSHAKE)
    (hya : (readHandshake env w).2.hs.state = AWAITING_YA) :
    w.io.isIncoming = true ∧ w.io.torrentHash = none := by
  have hparse : ∀ w1 : World, w1.hs.state = AWAITING_HANDSHAKE →
      (readHandshakeParse env w1).2.hs.state ≠ AWAITING_YA := by
    intro w1 h1 h
    rcases readHandshakeParse_state env w1 with h2 | h2
    · rw [h2, h1] at h; cases h
    · rw [h2] at h; cases h
  have hdone : ∀ w1 : World, w1.hs.state = AWAITING_HANDSHAKE →
      (tr_handshakeDone env w1 false).2.hs.state ≠ AWAITING_YA := by
    intro w1 h1 h
    rw [done_state, h1] at h
    cases h
  dsimp only [readHandshake] at hya
  split at hya
  · rw [hst] at hya; cases hya
  · split at hya
    · split at hya
      · exact absurd hya (hdone _ hst)
      · split at hya
        · exact absurd hya (hdone _ hst)
        · exact absurd hya (hparse _ hst)
    · split at hya
      · rename_i hc
        refine ⟨hc.1, ?_⟩
        have h2 := hc.2
        cases hh : w.io.torrentHash with
        | none => rfl
        | some x => simp [tr_peerIoHasTorrentHash, hh] at h2
      · split at hya
        · exact absurd hya (hdone _ hst)
        · exact absurd hya (hparse _ hst)

theorem readIA_binds (env : Env) (hcb : ∀ n b id, env.doneCB n b false id = false)
    (w : World) (hnow : (readIA env w).1 = READ_NOW) :
    (readIA env w).2.hs.state = AWAITING_HANDSHAKE ∧ (readIA env w).2.io.torrentHash ≠ none := by
  have hdone : ∀ w1 : World, (tr_handshakeDone env w1 false).1 ≠ READ_NOW := by
    intro w1 h
    simp [tr_handshakeDone, fireDoneFunc, hcb] at h
  dsimp only [readIA] at hnow ⊢
  split
  · rename_i hlt
    rw [if_pos hlt] at hnow
    cases hnow
  · rename_i hlt
    rw [if_neg hlt] at hnow
    split
    · rename_i hz
      rw [if_pos hz] at hnow
      exact absurd hnow (hdone _)
    · rename_i hz
      rw [if_neg hz] at hnow
      split
      · rename_i hmsg
        rw [hmsg] at hnow
        exact absurd hnow (hdone _)
      · rename_i msg hmsg
        have hb := buildHandshakeMessage_bound _ _ _ hmsg
        dsimp only at hb
        rw [ite_pair_torrentHash _ _ _ _ _ (by
          simp [tr_peerIoWriteBuf, tr_peerIoSetEncryption, tr_peerIoDecryptBuf, tr_cryptoDecrypt])] at hb
        refine ⟨rfl, ?_⟩
        simp only [setState, tr_peerIoWriteBuf, tr_peerIoWriteBytes_torrentHash]
        rw [ite_pair_torrentHash _ _ _ _ _ (by
          simp [tr_peerIoWriteBuf, tr_peerIoSetEncryption, tr_peerIoDecryptBuf, tr_cryptoDecrypt])]
        exact hb

/-- C30: the loop of `canRead` terminates, assuming the done callback returns false whenever
`is_ok` is false. Every run from `tr_handshakeNew` goes through with a bound of 8 passes per
readable event, and after any run a readable event, whatever bytes it brings, dispatches at
most 8 transitions; the same holds for every live reachable session. `readHandshake` hands
over to `AWAITING_YA` only on an incoming pipe without a bound info-hash, `readIA` re-enters
`AWAITING_HANDSHAKE` only with the info-hash bound, and from `AWAITING_PEER_ID` the loop
returns after the one call of `readPeerId`. -/
theorem canRead_terminates (env : Env) (hcb : ∀ n b id, env.doneCB n b false id = false) :
    (∀ io m events, ∃ w, run env 8 (tr_handshakeNew env io m) events = some w) ∧
    (∀ io m fuel events w bytes, run env fuel (tr_handshakeNew env io m) events = some w →
        ∃ w', deliver env 8 w (Input.readable bytes) = some w' ∧
          w'.dispatched.length ≤ w.dispatched.length + 8) ∧
    (∀ w bytes, Reachable env w → w.hs.freed = false →
        ∃ r, canRead env 8 (arrive w bytes) = some r ∧
          r.2.dispatched.length ≤ w.dispatched.length + 8) ∧
    (∀ w, w.hs.state = AWAITING_HANDSHAKE → (readHandshake env w).2.hs.state = AWAITING_YA →
        w.io.isIncoming = true ∧ w.io.torrentHash = none) ∧
    (∀ w, (readIA env w).1 = READ_NOW →
        (readIA env w).2.hs.state = AWAITING_HANDSHAKE ∧
          (readIA env w).2.io.torrentHash ≠ none) ∧
    (∀ w n, w.hs.state = AWAITING_PEER_ID →
        canRead env (n + 1) w = some (canReadStep env w)) := by
  have hnew : ∀ io m, SessionInvariant (tr_handshakeNew env io m) ∧
      Attached (tr_handshakeNew env io m) :=
    fun io m => ⟨tr_handshakeNew_invariant env io m, tr_handshakeNew_attached env io m⟩
  refine ⟨fun io m events => run_within env hcb events _ (hnew io m),
    fun io m fuel events w bytes hr =>
      deliver_readable_within env hcb w bytes (run_attached env fuel events _ w (hnew io m) hr),
    fun w bytes hreach hl => ?_,
    fun w hst hya => readHandshake_hands_over env w hst hya,
    fun w hnow => readIA_binds env hcb w hnow,
    fun w n hst => by simp [canRead, hst]⟩
  obtain ⟨r, hr, hlen⟩ := canRead_within env hcb 8 (arrive w bytes) hl
    (reachable_invariant env w hreach) (passesLeft_le _)
  refine ⟨r, hr, ?_⟩
  have := passesLeft_le (arrive w bytes)
  have hd : (arrive w bytes).dispatched = w.dispatched := rfl
  rw [hd] at hlen
  omega

set_option maxRecDepth 100000 in
theorem canRead_terminates_witness :
    (∀ n b id, sampleEnv.doneCB n b false id = false) ∧
    (∃ w, run sampleEnv 8 (tr_handshakeNew sampleEnv (samplePipe true) TR_ENCRYPTION_PREFERRED)
      [Input.readable wholeHandshake] = some w) ∧
    (deliver sampleEnv 8 (tr_handshakeNew sampleEnv (samplePipe true) TR_ENCRYPTION_PREFERRED)
      (Input.readable wholeHandshake)).map (fun w => w.dispatched) =
      some [(AWAITING_HANDSHAKE, false), (AWAITING_YA, false), (AWAITING_PAD_A, false),
        (AWAITING_CRYPTO_PROVIDE, false), (AWAITING_PAD_C, false), (AWAITING_IA, false),
        (AWAITING_HANDSHAKE, false), (AWAITING_PEER_ID, false)] ∧
    deliver sampleEnv 7 (tr_handshakeNew sampleEnv (samplePipe true) TR_ENCRYPTION_PREFERRED)
      (Input.readable wholeHandshake) = none :=
  ⟨fun _ _ _ => rfl,
    (canRead_terminates sampleEnv (fun _ _ _ => rfl)).1 (samplePipe true) TR_ENCRYPTION_PREFERRED
      [Input.readable wholeHandshake],
    by rfl, by rfl⟩

/-! ### Required mode never sends the BT handshake in the clear -/

theorem cleanWrites_refl (env : Env) (ws : List tr_write) : CleanWrites env ws ws :=
  ⟨[], by simp, fun r hr => by cases hr⟩

theorem cleanWrites_of_eq (env : Env) {old new : List tr_write} (h : new = old) :
    CleanWrites env old new := by
  rw [h]; exact cleanWrites_refl env old

theorem cleanWrites_trans (env : Env) {a b c : List tr_write}
    (h1 : CleanWrites env a b) (h2 : CleanWrites env b c) : CleanWrites env a c := by
  obtain ⟨x, rfl, hx⟩ := h1
  obtain ⟨y, rfl, hy⟩ := h2
  refine ⟨x ++ y, by rw [List.append_assoc], fun r hr => ?_⟩
  rcases List.mem_append.1 hr with h | h
  · exact hx r h
  · exact hy r h

theorem cleanWrites_rc4 (env : Env) (io : tr_peerIo) (bytes : List Nat)
    (h : io.encryption_type = 2) :
    CleanWrites env io.writes (tr_peerIoWriteBytes env io bytes).writes := by
  refine ⟨_, tr_peerIoWriteBytes_writes env io bytes, fun r hr => ?_⟩
  rw [List.mem_singleton] at hr
  rw [hr]
  exact Or.inl h

theorem cleanWrites_key (env : Env) (io : tr_peerIo) (bytes : List Nat)
    (h : KeyExchangeMessage env bytes) :
    CleanWrites env io.writes (tr_peerIoWriteBytes env io bytes).writes := by
  refine ⟨_, tr_peerIoWriteBytes_writes env io bytes, fun r hr => ?_⟩
  rw [List.mem_singleton] at hr
  rw [hr]
  exact Or.inr h

theorem requiredStep_refl (env : Env) (w : World) (h : RequiredFacts w) : RequiredStep env w w :=
  ⟨h, cleanWrites_refl env _⟩

theorem requiredStep_trans (env : Env) {w1 w2 w3 : World}
    (h1 : RequiredStep env w1 w2) (h2 : RequiredStep env w2 w3) : RequiredStep env w1 w3 :=
  ⟨h2.1, cleanWrites_trans env h1.2 h2.2⟩

theorem requiredStep_done (env : Env) (w w1 : World) (b : Bool) (h : RequiredStep env w w1) :
    RequiredStep env w (tr_handshakeDone env w1 b).2 :=
  ⟨⟨h.1.1, h.1.2⟩, h.2⟩

/-- A step into a state other than `AWAITING_PAD_C` and `AWAITING_IA`. -/
theorem requiredStep_to (env : Env) (w w' : World) (h : RequiredFacts w)
    (hm : w'.hs.encryptionMode = w.hs.encryptionMode)
    (hc : w'.hs.state ≠ AWAITING_PAD_C) (hi : w'.hs.state ≠ AWAITING_IA)
    (hw : CleanWrites env w.io.writes w'.io.writes) : RequiredStep env w w' :=
  ⟨⟨hm.trans h.1, fun hs => hs.elim (fun x => absurd x hc) (fun x => absurd x hi)⟩, hw⟩

/-- A step that leaves the pipe in RC4 mode. -/
theorem requiredStep_rc4 (env : Env) (w w' : World) (h : RequiredFacts w)
    (hm : w'.hs.encryptionMode = w.hs.encryptionMode)
    (he : w'.io.encryption_type = 2)
    (hw : CleanWrites env w.io.writes w'.io.writes) : RequiredStep env w w' :=
  ⟨⟨hm.trans h.1, fun _ => he⟩, hw⟩

theorem readHandshakeReply_required (env : Env) (w : World) (h : RequiredFacts w)
    (henc : w.io.encryption_type = 2) :
    RequiredStep env w (readHandshakeReply env w).2 := by
  dsimp only [readHandshakeReply]
  split
  · split
    · exact requiredStep_done env w w false (requiredStep_refl env w h)
    · exact requiredStep_to env w _ h rfl (by simp [setReadState, setState])
        (by simp [setReadState, setState]) (cleanWrites_rc4 env w.io _ henc)
  · exact requiredStep_to env w _ h rfl (by simp [setReadState, setState])
      (by simp [setReadState, setState]) (cleanWrites_refl env _)

/-- A step that changes neither the state nor the mode of the pipe and writes nothing. -/
theorem requiredStep_quiet (env : Env) (w w' : World) (h : RequiredFacts w)
    (hm : w'.hs.encryptionMode = w.hs.encryptionMode) (hs : w'.hs.state = w.hs.state)
    (he : w'.io.encryption_type = w.io.encryption_type) (hw : w'.io.writes = w.io.writes) :
    RequiredStep env w w' :=
  ⟨⟨hm.trans h.1, fun hst => by rw [he]; rw [hs] at hst; exact h.2 hst⟩, cleanWrites_of_eq env hw⟩

theorem readHandshakeParse_required (env : Env) (w : World) (h : RequiredFacts w)
    (henc : w.io.encryption_type = 2) :
    RequiredStep env w (readHandshakeParse env w).2 := by
  have hq : ∀ io' : tr_peerIo, io'.encryption_type = w.io.encryption_type →
      io'.writes = w.io.writes → RequiredStep env w { w with io := io' } :=
    fun io' he hw => requiredStep_quiet env w _ h rfl rfl he hw
  have h1 : RequiredStep env w { w with io := (tr_peerIoReadBytes env w.io HANDSHAKE_NAME_LEN).2 } :=
    hq _ (by simp) (by simp)
  have h2 : RequiredStep env w { w with io := (tr_peerIoReadBytes env
      (tr_peerIoEnableFEXT (tr_peerIoEnableLTEP (tr_peerIoEnableDHT
        (tr_peerIoReadBytes env (tr_peerIoReadBytes env w.io HANDSHAKE_NAME_LEN).2
          HANDSHAKE_FLAGS_LEN).2
        (HANDSHAKE_HAS_DHT (tr_peerIoReadBytes env
          (tr_peerIoReadBytes env w.io HANDSHAKE_NAME_LEN).2 HANDSHAKE_FLAGS_LEN).1))
        (HANDSHAKE_HAS_LTEP (tr_peerIoReadBytes env
          (tr_peerIoReadBytes env w.io HANDSHAKE_NAME_LEN).2 HANDSHAKE_FLAGS_LEN).1))
        (HANDSHAKE_HAS_FASTEXT (tr_peerIoReadBytes env
          (tr_peerIoReadBytes env w.io HANDSHAKE_NAME_LEN).2 HANDSHAKE_FLAGS_LEN).1))
      SHA_DIGEST_LENGTH).2 } :=
    hq _ (by simp [tr_peerIoEnableDHT, tr_peerIoEnableLTEP, tr_peerIoEnableFEXT])
      (by simp [tr_peerIoEnableDHT, tr_peerIoEnableLTEP, tr_peerIoEnableFEXT])
  dsimp only [readHandshakeParse]
  split
  · exact requiredStep_done env w _ false h1
  · split
    · split
      · exact requiredStep_done env w _ false h2
      · split
        · exact requiredStep_done env w _ false h2
        · refine requiredStep_trans env ?_ (readHandshakeReply_required env _ ?_ ?_)
          · exact hq _ (by simp [tr_peerIoSetTorrentHash, tr_peerIoEnableDHT, tr_peerIoEnableLTEP,
              tr_peerIoEnableFEXT]) (by simp [tr_peerIoSetTorrentHash, tr_peerIoEnableDHT,
              tr_peerIoEnableLTEP, tr_peerIoEnableFEXT])
          · exact (hq _ (by simp [tr_peerIoSetTorrentHash, tr_peerIoEnableDHT, tr_peerIoEnableLTEP,
              tr_peerIoEnableFEXT]) (by simp [tr_peerIoSetTorrentHash, tr_peerIoEnableDHT,
              tr_peerIoEnableLTEP, tr_peerIoEnableFEXT])).1
          · simp [tr_peerIoSetTorrentHash, tr_peerIoEnableDHT, tr_peerIoEnableLTEP,
              tr_peerIoEnableFEXT, henc]
    · split
      · exact requiredStep_done env w _ false h2
      · refine requiredStep_trans env h2 (readHandshakeReply_required env _ h2.1 ?_)
        simp [tr_peerIoEnableDHT, tr_peerIoEnableLTEP, tr_peerIoEnableFEXT, henc]

theorem readHandshake_required (env : Env) (w : World) (h : RequiredFacts w) :
    RequiredStep env w (readHandshake env w).2 := by
  have h1 : RequiredStep env w { w with hs := { w.hs with haveReadAnythingFromPeer := true } } :=
    requiredStep_quiet env w _ h rfl rfl rfl rfl
  dsimp only [readHandshake]
  split
  · exact requiredStep_refl env w h
  · split
    · split
      · exact requiredStep_done env w _ false h1
      · rename_i hm
        exact absurd h.1 hm
    · split
      · exact requiredStep_to env w _ h rfl (by simp [setState]) (by simp [setState])
          (cleanWrites_refl env _)
      · split
        · exact requiredStep_done env w _ false h1
        · rename_i he
          have henc : w.io.encryption_type = 2 := by
            simpa [tr_peerIoIsEncrypted] using he
          exact requiredStep_trans env h1 (readHandshakeParse_required env _ h1.1 henc)

theorem readPeerId_required (env : Env) (w : World) (h : RequiredFacts w) :
    RequiredStep env w (readPeerId env w).2 := by
  dsimp only [readPeerId]
  split
  · exact requiredStep_refl env w h
  · exact requiredStep_done env w _ _
      (requiredStep_quiet env w _ h rfl rfl (by simp [tr_peerIoSetPeersId])
        (by simp [tr_peerIoSetPeersId]))

theorem tr_cryptoComputeSecret_quiet (env : Env) (io : tr_peerIo) (key : List Nat) :
    (tr_cryptoComputeSecret env io key).2.encryption_type = io.encryption_type ∧
    (tr_cryptoComputeSecret env io key).2.writes = io.writes := by
  unfold tr_cryptoComputeSecret
  split <;> exact ⟨rfl, rfl⟩

theorem readYa_required (env : Env) (w : World) (h : RequiredFacts w) :
    RequiredStep env w (readYa env w).2 := by
  have hq := tr_cryptoComputeSecret_quiet env (evbuffer_remove w.io KEY_LEN).2
    (evbuffer_remove w.io KEY_LEN).1
  dsimp only [readYa]
  split
  · exact requiredStep_refl env w h
  · split
    · exact requiredStep_done env w _ false
        (requiredStep_quiet env w _ h rfl rfl hq.1 hq.2)
    · refine requiredStep_to env w _ h rfl (by simp [setReadState, setState])
        (by simp [setReadState, setState]) ?_
      refine cleanWrites_trans env (cleanWrites_of_eq env ?_)
        (cleanWrites_key env _ _ (Or.inl ⟨_, _, rfl⟩))
      exact hq.2

theorem readPadA_required (env : Env) (w : World) (h : RequiredFacts w) :
    RequiredStep env w (readPadA env w).2 := by
  dsimp only [readPadA]
  split
  · exact requiredStep_to env w _ h rfl (by simp [setState]) (by simp [setState])
      (cleanWrites_refl env _)
  · split
    · exact requiredStep_quiet env w _ h rfl rfl rfl rfl
    · exact requiredStep_refl env w h

theorem readCryptoProvideParse_required (env : Env) (w0 w : World) (h : RequiredFacts w0)
    (hm : w.hs.encryptionMode = w0.hs.encryptionMode) (hw : w.io.writes = w0.io.writes) :
    RequiredStep env w0 (readCryptoProvideParse env w).2 := by
  dsimp only [readCryptoProvideParse]
  split
  · exact requiredStep_done env w0 _ false
      (requiredStep_rc4 env w0 _ h hm
        (by simp [tr_peerIoReadUint32, tr_peerIoReadUint16, tr_peerIoSetEncryption])
        (cleanWrites_of_eq env (by
          simp [tr_peerIoReadUint32, tr_peerIoReadUint16, tr_peerIoSetEncryption,
            tr_cryptoEncryptInit, tr_cryptoDecryptInit, hw])))
  · exact requiredStep_rc4 env w0 _ h hm
      (by simp [setState, tr_peerIoReadUint32, tr_peerIoReadUint16, tr_peerIoSetEncryption])
      (cleanWrites_of_eq env (by
        simp [setState, tr_peerIoReadUint32, tr_peerIoReadUint16, tr_peerIoSetEncryption,
          tr_cryptoEncryptInit, tr_cryptoDecryptInit, hw]))

theorem readCryptoProvide_required (env : Env) (w : World) (h : RequiredFacts w)
    (hst : w.hs.state = AWAITING_CRYPTO_PROVIDE) :
    RequiredStep env w (readCryptoProvide env w).2 := by
  have hc : w.hs.state ≠ AWAITING_PAD_C := by rw [hst]; decide
  have hi : w.hs.state ≠ AWAITING_IA := by rw [hst]; decide
  dsimp only [readCryptoProvide]
  split
  · exact requiredStep_refl env w h
  · split
    · split
      · exact requiredStep_done env w _ false
          (requiredStep_to env w _ h rfl hc hi (cleanWrites_refl env _))
      · split
        · exact requiredStep_done env w _ false
            (requiredStep_to env w _ h rfl hc hi (cleanWrites_refl env _))
        · exact readCryptoProvideParse_required env w _ h rfl rfl
    · exact requiredStep_done env w _ false
        (requiredStep_to env w _ h rfl hc hi (cleanWrites_refl env _))

theorem readPadC_required (env : Env) (w : World) (h : RequiredFacts w)
    (hst : w.hs.state = AWAITING_PAD_C) :
    RequiredStep env w (readPadC env w).2 := by
  have henc : w.io.encryption_type = 2 := h.2 (Or.inl hst)
  dsimp only [readPadC]
  split
  · exact requiredStep_refl env w h
  · exact requiredStep_rc4 env w _ h rfl
      (by simp [setState, tr_peerIoReadUint16, evbuffer_drain, henc])
      (cleanWrites_of_eq env (by simp [setState, tr_peerIoReadUint16, evbuffer_drain]))

theorem getCryptoSelect_required (p : Nat) :
    getCryptoSelect TR_ENCRYPTION_REQUIRED p ≠ CRYPTO_PROVIDE_PLAINTEXT := by
  simp only [getCryptoSelect, getCryptoSelectChoices, getCryptoSelectLoop]
  split <;> decide

theorem readIA_required (env : Env) (w : World) (h : RequiredFacts w)
    (hst : w.hs.state = AWAITING_IA) :
    RequiredStep env w (readIA env w).2 := by
  have henc : w.io.encryption_type = 2 := h.2 (Or.inr hst)
  have hsel : ¬ getCryptoSelect w.hs.encryptionMode w.hs.crypto_provide =
      CRYPTO_PROVIDE_PLAINTEXT := by
    rw [h.1]; exact getCryptoSelect_required _
  dsimp only [readIA]
  split
  · exact requiredStep_refl env w h
  · split
    · exact requiredStep_done env w w false (requiredStep_refl env w h)
    · dsimp only
      split
      · exact requiredStep_done env w _ false (requiredStep_refl env w h)
      · exact requiredStep_to env w _ h rfl (by simp [setState]) (by simp [setState])
          (cleanWrites_rc4 env w.io _ henc)

theorem readYb_required (env : Env) (w : World) (h : RequiredFacts w)
    (hst : w.hs.state = AWAITING_YB) :
    RequiredStep env w (readYb env w).2 := by
  have hc : w.hs.state ≠ AWAITING_PAD_C := by rw [hst]; decide
  have hi : w.hs.state ≠ AWAITING_IA := by rw [hst]; decide
  have hq := tr_cryptoComputeSecret_quiet env (evbuffer_remove w.io KEY_LEN).2
    (evbuffer_remove w.io KEY_LEN).1
  have hw1 : CleanWrites env w.io.writes
      (tr_peerIoWriteBuf env
        (tr_cryptoComputeSecret env (evbuffer_remove w.io KEY_LEN).2
          (evbuffer_remove w.io KEY_LEN).1).2
        (computeRequestHash env
            (tr_cryptoComputeSecret env (evbuffer_remove w.io KEY_LEN).2
              (evbuffer_remove w.io KEY_LEN).1).2 req1Name ++
          xorDigest
            (env.sha1 (req2Name ++
              (tr_cryptoComputeSecret env (evbuffer_remove w.io KEY_LEN).2
                (evbuffer_remove w.io KEY_LEN).1).2.torrentHash.getD []))
            (computeRequestHash env
              (tr_cryptoComputeSecret env (evbuffer_remove w.io KEY_LEN).2
                (evbuffer_remove w.io KEY_LEN).1).2 req3Name))).writes :=
    cleanWrites_trans env (cleanWrites_of_eq env hq.2)
      (cleanWrites_key env _ _ (Or.inr ⟨_, _, rfl⟩))
  dsimp only [readYb]
  split
  · exact requiredStep_refl env w h
  · split
    · exact requiredStep_refl env w h
    · split
      · exact requiredStep_to env w _ h rfl (by simp [setState]) (by simp [setState])
          (cleanWrites_refl env _)
      · split
        · exact requiredStep_done env w _ false
            (requiredStep_to env w _ h rfl hc hi (cleanWrites_of_eq env hq.2))
        · split
          · exact requiredStep_done env w _ false
              (requiredStep_to env w _ h rfl hc hi hw1)
          · refine requiredStep_to env w _ h rfl (by simp [setReadState, setState])
              (by simp [setReadState, setState]) ?_
            refine cleanWrites_trans env hw1 ?_
            exact cleanWrites_rc4 env
              (tr_peerIoSetEncryption (tr_cryptoEncryptInit _) PEER_ENCRYPTION_RC4) _ rfl

theorem readVC_required (env : Env) (w : World) (h : RequiredFacts w)
    (hst : w.hs.state = AWAITING_VC) :
    RequiredStep env w (readVC env w).2 := by
  have hc : w.hs.state ≠ AWAITING_PAD_C := by rw [hst]; decide
  have hi : w.hs.state ≠ AWAITING_IA := by rw [hst]; decide
  have hw := readVC_writes env w
  dsimp only [readVC] at hw ⊢
  split
  · rename_i hr
    rw [if_pos hr] at hw
    exact requiredStep_to env w _ h rfl hc hi (cleanWrites_of_eq env hw)
  · rename_i hr
    rw [if_neg hr] at hw
    exact requiredStep_to env w _ h rfl (by simp [setState]) (by simp [setState])
      (cleanWrites_of_eq env hw)

theorem readCryptoSelect_required (env : Env) (w : World) (h : RequiredFacts w)
    (hst : w.hs.state = AWAITING_CRYPTO_SELECT) :
    RequiredStep env w (readCryptoSelect env w).2 := by
  have hc : w.hs.state ≠ AWAITING_PAD_C := by rw [hst]; decide
  have hi : w.hs.state ≠ AWAITING_IA := by rw [hst]; decide
  dsimp only [readCryptoSelect]
  split
  · exact requiredStep_refl env w h
  · split
    · exact requiredStep_done env w _ false
        (requiredStep_to env w _ h rfl hc hi
          (cleanWrites_of_eq env (by simp [tr_peerIoReadUint32])))
    · split
      · exact requiredStep_done env w _ false
          (requiredStep_to env w _ h rfl hc hi
            (cleanWrites_of_eq env (by simp [tr_peerIoReadUint32, tr_peerIoReadUint16])))
      · exact requiredStep_to env w _ h rfl (by simp [setState]) (by simp [setState])
          (cleanWrites_of_eq env (by simp [setState, tr_peerIoReadUint32, tr_peerIoReadUint16]))

theorem readPadD_required (env : Env) (w : World) (h : RequiredFacts w) :
    RequiredStep env w (readPadD env w).2 := by
  dsimp only [readPadD]
  split
  · exact requiredStep_refl env w h
  · exact requiredStep_to env w _ h rfl (by simp [setState]) (by simp [setState])
      (cleanWrites_of_eq env (by simp [setState, tr_peerIoDrain, tr_peerIoSetEncryption]))

theorem canReadStep_required (env : Env) (w : World) (h : RequiredFacts w) :
    RequiredStep env w (canReadStep env w).2 := by
  have h' : RequiredFacts { w with dispatched := w.dispatched ++ [(w.hs.state, w.hs.freed)] } := h
  dsimp only [canReadStep, canReadSwitch]
  split
  · exact readHandshake_required env _ h'
  · exact readPeerId_required env _ h'
  · exact readYa_required env _ h'
  · exact readPadA_required env _ h'
  · rename_i hst; exact readCryptoProvide_required env _ h' hst
  · rename_i hst; exact readPadC_required env _ h' hst
  · rename_i hst; exact readIA_required env _ h' hst
  · rename_i hst; exact readYb_required env _ h' hst
  · rename_i hst; exact readVC_required env _ h' hst
  · rename_i hst; exact readCryptoSelect_required env _ h' hst
  · exact readPadD_required env _ h'

theorem sendYa_required (env : Env) (w : World) (h : RequiredFacts w) :
    RequiredStep env w (sendYa env w) :=
  requiredStep_to env w _ h rfl (by simp [sendYa, setReadState, setState])
    (by simp [sendYa, setReadState, setState])
    (cleanWrites_key env w.io _ (Or.inl ⟨_, _, rfl⟩))

theorem gotErrorFinish_required (env : Env) (w : World) (b : Bool)
    (h : w.hs.encryptionMode = TR_ENCRYPTION_REQUIRED) :
    gotErrorFinish env w b = (tr_handshakeDone env w false).2 := by
  dsimp only [gotErrorFinish]
  rw [if_neg (fun hc => hc.2 h)]

theorem gotErrorTcp_required (env : Env) (w : World) (b : Bool)
    (h : w.hs.encryptionMode = TR_ENCRYPTION_REQUIRED) :
    gotErrorTcp env w b = (tr_handshakeDone env w false).2 := by
  dsimp only [gotErrorTcp]
  split <;> exact gotErrorFinish_required env w _ h

theorem gotErrorUtp_required (env : Env) (w w1 : World) (h : RequiredFacts w)
    (h1 : w1.hs = w.hs) (h2 : w1.io = w.io) (w' : World)
    (hw : w' = (if w1.hs.state = AWAITING_YB then
        if (tr_peerIoReconnect env w1).1 = true then
          sendYa env { (tr_peerIoReconnect env w1).2 with
            io := tr_peerIoSetEncryption (tr_peerIoReconnect env w1).2.io PEER_ENCRYPTION_NONE }
        else gotErrorTcp env (tr_peerIoReconnect env w1).2 false
      else gotErrorTcp env w1 true)) :
    RequiredStep env w w' ∧
      ((∃ w2, w' = sendYa env w2) ∨ ∃ w2, w' = (tr_handshakeDone env w2 false).2) := by
  have hq : RequiredStep env w w1 :=
    requiredStep_quiet env w w1 h (by rw [h1]) (by rw [h1]) (by rw [h2]) (by rw [h2])
  rw [hw]
  split
  · rename_i hst
    have hc : w1.hs.state ≠ AWAITING_PAD_C := by rw [hst]; decide
    have hi : w1.hs.state ≠ AWAITING_IA := by rw [hst]; decide
    have key : ∀ X : World, X.hs = w1.hs → X.io.writes = w1.io.writes → RequiredStep env w1 X :=
      fun X hh hx => requiredStep_to env w1 X hq.1 (by rw [hh]) (by rw [hh]; exact hc)
        (by rw [hh]; exact hi) (cleanWrites_of_eq env hx)
    have keyF : ∀ X : World, X.hs = w1.hs → X.io.writes = w1.io.writes → RequiredFacts X :=
      fun X hh hx => (key X hh hx).1
    rcases tr_peerIoReconnect_cases env w1 with hf | ⟨t, _, hf⟩
    · rw [hf]
      simp only [Bool.false_eq_true, if_false]
      rw [gotErrorTcp_required env { w1 with reconnects := w1.reconnects ++ [false] } false hq.1.1]
      exact ⟨requiredStep_done env w _ false (requiredStep_trans env hq (key _ rfl rfl)),
        Or.inr ⟨_, rfl⟩⟩
    · rw [hf]
      simp only [if_true]
      exact ⟨requiredStep_trans env hq
          (requiredStep_trans env (key _ rfl rfl) (sendYa_required env _ (keyF _ rfl rfl))),
        Or.inl ⟨_, rfl⟩⟩
  · rw [gotErrorTcp_required env w1 true hq.1.1]
    exact ⟨requiredStep_done env w w1 false hq, Or.inr ⟨_, rfl⟩⟩

theorem gotError_required (env : Env) (w : World) (e : Nat) (h : RequiredFacts w) :
    RequiredStep env w (gotError env w e) ∧
      ((∃ w1, gotError env w e = sendYa env w1) ∨
        ∃ w1, gotError env w e = (tr_handshakeDone env w1 false).2) := by
  by_cases hc : w.io.socketType = TR_PEER_SOCKET_TYPE_UTP ∧ w.io.isIncoming = false ∧
      (w.hs.state = AWAITING_YB ∨
        (w.hs.state = AWAITING_HANDSHAKE ∧ w.hs.haveReadAnythingFromPeer = false))
  · refine gotErrorUtp_required env w ?w1 h ?h1 ?h2 _ ?hw
    case hw =>
      dsimp only [gotError]
      rw [if_pos hc]
      exact rfl
    all_goals repeat' split
    all_goals rfl
  · have hw : gotError env w e = gotErrorTcp env w false := by
      dsimp only [gotError]
      rw [if_neg hc]
    rw [hw, gotErrorTcp_required env w false h.1]
    exact ⟨requiredStep_done env w w false (requiredStep_refl env w h), Or.inr ⟨_, rfl⟩⟩

theorem arrive_required (env : Env) (w : World) (bytes : List Nat) (h : RequiredFacts w) :
    RequiredStep env w (arrive w bytes) :=
  requiredStep_quiet env w _ h rfl rfl rfl rfl

theorem canRead_required (env : Env) :
    ∀ fuel w r, RequiredFacts w → canRead env fuel w = some r → RequiredStep env w r.2 := by
  intro fuel
  induction fuel with
  | zero =>
    intro w r _ h
    simp [canRead] at h
  | succ n ih =>
    intro w r ha h
    have hs := canReadStep_required env w ha
    simp only [canRead] at h
    split at h
    · cases h; exact hs
    · split at h
      · exact requiredStep_trans env hs (ih _ r hs.1 h)
      · cases h; exact hs

theorem deliver_required (env : Env) (fuel : Nat) (w w' : World) (i : Input)
    (h : RequiredFacts w) (hd : deliver env fuel w i = some w') : RequiredStep env w w' := by
  cases i with
  | readable bytes =>
    simp only [deliver] at hd
    split at hd
    · cases hr : canRead env fuel (arrive w bytes) with
      | none => rw [hr] at hd; cases hd
      | some r =>
        rw [hr] at hd
        cases hd
        exact requiredStep_trans env (arrive_required env w bytes h)
          (canRead_required env fuel (arrive w bytes) r (arrive_required env w bytes h).1 hr)
    · cases hd
      exact arrive_required env w bytes h
  | error e =>
    simp only [deliver] at hd
    split at hd
    · cases hd
      exact (gotError_required env w e h).1
    · cases hd
      exact requiredStep_refl env w h
  | timeout =>
    simp only [deliver] at hd
    split at hd
    · cases hd
      exact requiredStep_done env w w false (requiredStep_refl env w h)
    · cases hd
      exact requiredStep_refl env w h
  | abort =>
    simp only [deliver] at hd
    cases hd
    exact requiredStep_done env w w false (requiredStep_refl env w h)

theorem run_required (env : Env) (fuel : Nat) (events : List Input) :
    ∀ w w', RequiredFacts w → run env fuel w events = some w' → RequiredStep env w w' := by
  induction events with
  | nil =>
    intro w w' h hr
    simp only [run] at hr
    cases hr
    exact requiredStep_refl env w h
  | cons i rest ih =>
    intro w w' h hr
    simp only [run] at hr
    cases hd : deliver env fuel w i with
    | none => rw [hd] at hr; cases hr
    | some w1 =>
      rw [hd] at hr
      have h1 := deliver_required env fuel w w1 i h hd
      exact requiredStep_trans env h1 (ih w1 w' h1.1 hr)

theorem tr_handshakeNew_required_eq (env : Env) (io : tr_peerIo) :
    tr_handshakeNew env io TR_ENCRYPTION_REQUIRED =
      if io.isIncoming = true then setReadState (freshSession io TR_ENCRYPTION_REQUIRED) AWAITING_HANDSHAKE
      else sendYa env (freshSession io TR_ENCRYPTION_REQUIRED) := by
  dsimp only [tr_handshakeNew, freshSession]
  split
  · rename_i h
    have h' : io.isIncoming = true := h
    rw [if_pos h']
  · rename_i h
    have h' : ¬ io.isIncoming = true := h
    rw [if_neg h']
    simp

theorem freshSession_required (io : tr_peerIo) :
    RequiredFacts (freshSession io TR_ENCRYPTION_REQUIRED) :=
  ⟨rfl, fun h => by simp [freshSession, newHandshake] at h⟩

theorem tr_handshakeNew_required (env : Env) (io : tr_peerIo) :
    RequiredFacts (tr_handshakeNew env io TR_ENCRYPTION_REQUIRED) ∧
      CleanWrites env io.writes (tr_handshakeNew env io TR_ENCRYPTION_REQUIRED).io.writes := by
  rw [tr_handshakeNew_required_eq]
  split
  · exact requiredStep_quiet env (freshSession io TR_ENCRYPTION_REQUIRED) _
      (freshSession_required io) rfl rfl rfl rfl
  · exact sendYa_required env _ (freshSession_required io)

theorem encryptedWrites_of_eq {old new : List tr_write} (h : new = old) :
    EncryptedWrites old new :=
  ⟨[], by simp [h], fun r hr => by cases hr⟩

theorem encryptedWrites_trans {a b c : List tr_write}
    (h1 : EncryptedWrites a b) (h2 : EncryptedWrites b c) : EncryptedWrites a c := by
  obtain ⟨x, rfl, hx⟩ := h1
  obtain ⟨y, rfl, hy⟩ := h2
  refine ⟨x ++ y, by rw [List.append_assoc], fun r hr => ?_⟩
  rcases List.mem_append.1 hr with h | h
  · exact hx r h
  · exact hy r h

theorem encryptedWrites_rc4 (env : Env) (io : tr_peerIo) (bytes : List Nat)
    (h : io.encryption_type = 2) :
    EncryptedWrites io.writes (tr_peerIoWriteBytes env io bytes).writes := by
  refine ⟨_, tr_peerIoWriteBytes_writes env io bytes, fun r hr => ?_⟩
  rw [List.mem_singleton] at hr
  rw [hr]
  exact h

theorem readHandshakeReply_rc4_writes (env : Env) (w : World)
    (henc : w.io.encryption_type = 2) :
    EncryptedWrites w.io.writes (readHandshakeReply env w).2.io.writes := by
  dsimp only [readHandshakeReply]
  split
  · split
    · exact encryptedWrites_of_eq rfl
    · exact encryptedWrites_rc4 env w.io _ henc
  · exact encryptedWrites_of_eq rfl

theorem readHandshakeParse_rc4_writes (env : Env) (w : World)
    (henc : w.io.encryption_type = 2) :
    EncryptedWrites w.io.writes (readHandshakeParse env w).2.io.writes := by
  dsimp only [readHandshakeParse]
  split
  · exact encryptedWrites_of_eq (by simp)
  · split
    · split
      · exact encryptedWrites_of_eq
          (by simp [tr_peerIoEnableDHT, tr_peerIoEnableLTEP, tr_peerIoEnableFEXT])
      · split
        · exact encryptedWrites_of_eq
            (by simp [tr_peerIoEnableDHT, tr_peerIoEnableLTEP, tr_peerIoEnableFEXT])
        · refine encryptedWrites_trans (encryptedWrites_of_eq ?_)
            (readHandshakeReply_rc4_writes env _ ?_)
          · simp [tr_peerIoSetTorrentHash, tr_peerIoEnableDHT, tr_peerIoEnableLTEP,
              tr_peerIoEnableFEXT]
          · simp [tr_peerIoSetTorrentHash, tr_peerIoEnableDHT, tr_peerIoEnableLTEP,
              tr_peerIoEnableFEXT, henc]
    · split
      · exact encryptedWrites_of_eq
          (by simp [tr_peerIoEnableDHT, tr_peerIoEnableLTEP, tr_peerIoEnableFEXT])
      · refine encryptedWrites_trans (encryptedWrites_of_eq ?_)
          (readHandshakeReply_rc4_writes env _ ?_)
        · simp [tr_peerIoEnableDHT, tr_peerIoEnableLTEP, tr_peerIoEnableFEXT]
        · simp [tr_peerIoEnableDHT, tr_peerIoEnableLTEP, tr_peerIoEnableFEXT, henc]

theorem readHandshake_rc4_writes (env : Env) (w : World)
    (hm : w.hs.encryptionMode = TR_ENCRYPTION_REQUIRED) :
    EncryptedWrites w.io.writes (readHandshake env w).2.io.writes := by
  dsimp only [readHandshake]
  split
  · exact encryptedWrites_of_eq rfl
  · split
    · exact encryptedWrites_of_eq rfl
    · split
      · exact encryptedWrites_of_eq rfl
      · split
        · exact encryptedWrites_of_eq rfl
        · rename_i he
          have henc : w.io.encryption_type = 2 := by
            simpa [tr_peerIoIsEncrypted] using he
          exact readHandshakeParse_rc4_writes env _ henc

theorem readIA_rc4_writes (env : Env) (w : World) (h : RequiredFacts w)
    (hst : w.hs.state = AWAITING_IA) :
    EncryptedWrites w.io.writes (readIA env w).2.io.writes := by
  have henc : w.io.encryption_type = 2 := h.2 (Or.inr hst)
  have hsel : ¬ getCryptoSelect w.hs.encryptionMode w.hs.crypto_provide =
      CRYPTO_PROVIDE_PLAINTEXT := by
    rw [h.1]; exact getCryptoSelect_required _
  dsimp only [readIA]
  split
  · exact encryptedWrites_of_eq rfl
  · split
    · exact encryptedWrites_of_eq rfl
    · dsimp only
      split
      · exact encryptedWrites_of_eq rfl
      · exact encryptedWrites_rc4 env w.io _ henc

theorem readYb_hashesOrEncrypted (env : Env) (w : World) :
    HashesOrEncrypted env w.io.writes (readYb env w).2.io.writes := by
  have hq := tr_cryptoComputeSecret_quiet env (evbuffer_remove w.io KEY_LEN).2
    (evbuffer_remove w.io KEY_LEN).1
  have hw1 := tr_peerIoWriteBytes_writes env
    (tr_cryptoComputeSecret env (evbuffer_remove w.io KEY_LEN).2
      (evbuffer_remove w.io KEY_LEN).1).2
    (computeRequestHash env
        (tr_cryptoComputeSecret env (evbuffer_remove w.io KEY_LEN).2
          (evbuffer_remove w.io KEY_LEN).1).2 req1Name ++
      xorDigest
        (env.sha1 (req2Name ++
          (tr_cryptoComputeSecret env (evbuffer_remove w.io KEY_LEN).2
            (evbuffer_remove w.io KEY_LEN).1).2.torrentHash.getD []))
        (computeRequestHash env
          (tr_cryptoComputeSecret env (evbuffer_remove w.io KEY_LEN).2
            (evbuffer_remove w.io KEY_LEN).1).2 req3Name))
  rw [hq.2] at hw1
  dsimp only [readYb]
  split
  · exact ⟨[], by simp, fun r hr => by cases hr⟩
  · split
    · exact ⟨[], by simp, fun r hr => by cases hr⟩
    · split
      · exact ⟨[], by simp [setState], fun r hr => by cases hr⟩
      · split
        · exact ⟨[], by rw [List.append_nil]; exact hq.2, fun r hr => by cases hr⟩
        · split
          · refine ⟨_, hw1, fun r hr => ?_⟩
            rw [List.mem_singleton] at hr
            rw [hr]
            exact Or.inr ⟨_, _, rfl⟩
          · refine ⟨_, ((tr_peerIoWriteBytes_writes env
                (tr_peerIoSetEncryption (tr_cryptoEncryptInit _) PEER_ENCRYPTION_RC4) _).trans
                (congrArg (fun l => l ++ _) hw1)).trans (List.append_assoc _ _ _), fun r hr => ?_⟩
            rcases List.mem_append.1 hr with hr | hr
            · rw [List.mem_singleton] at hr
              rw [hr]
              exact Or.inr ⟨_, _, rfl⟩
            · rw [List.mem_singleton] at hr
              rw [hr]
              exact Or.inl rfl

/-- C31: in Required mode the BT handshake is never sent in the clear. `tr_handshakeNew` in
Required mode sets the read state or sends Ya, and the error handler never takes the branch
that calls `sendPlainTextHandshake`: it re-sends Ya or ends the session. Every step of a
session in Required mode, freed or not (bytes arriving, a pass of the `canRead` loop, a
transport error, an abort), keeps the mode and writes with the pipe in RC4 mode only, the
messages of the key exchange apart (a public key with its padding, the two hashes that open
message 3). Of the transitions that write the BT handshake, `readHandshake` and `readIA`
write with the pipe in RC4 mode only, and `readYb` writes in another mode nothing but the two
hashes. Hence over every run from `tr_handshakeNew` in Required mode, whatever the events,
every write added to the pipe went out in RC4 mode or is a message of the key exchange. -/
theorem required_mode_never_sends_in_clear (env : Env) :
    (∀ io, tr_handshakeNew env io TR_ENCRYPTION_REQUIRED =
        if io.isIncoming = true then
          setReadState (freshSession io TR_ENCRYPTION_REQUIRED) AWAITING_HANDSHAKE
        else sendYa env (freshSession io TR_ENCRYPTION_REQUIRED)) ∧
    (∀ w b, w.hs.encryptionMode = TR_ENCRYPTION_REQUIRED →
        gotErrorFinish env w b = (tr_handshakeDone env w false).2) ∧
    (∀ w, RequiredFacts w →
        (∀ bytes, RequiredStep env w (arrive w bytes)) ∧
        RequiredStep env w (canReadStep env w).2 ∧
        (∀ e, RequiredStep env w (gotError env w e) ∧
          ((∃ w1, gotError env w e = sendYa env w1) ∨
            ∃ w1, gotError env w e = (tr_handshakeDone env w1 false).2)) ∧
        RequiredStep env w (tr_handshakeAbort env w)) ∧
    (∀ w, RequiredFacts w →
        EncryptedWrites w.io.writes (readHandshake env w).2.io.writes ∧
        (w.hs.state = AWAITING_IA → EncryptedWrites w.io.writes (readIA env w).2.io.writes) ∧
        HashesOrEncrypted env w.io.writes (readYb env w).2.io.writes) ∧
    (∀ io fuel events w,
        run env fuel (tr_handshakeNew env io TR_ENCRYPTION_REQUIRED) events = some w →
        RequiredFacts w ∧ CleanWrites env io.writes w.io.writes) := by
  refine ⟨tr_handshakeNew_required_eq env, gotErrorFinish_required env, fun w h => ?_,
    fun w h => ?_, fun io fuel events w hr => ?_⟩
  · exact ⟨fun bytes => arrive_required env w bytes h, canReadStep_required env w h,
      fun e => gotError_required env w e h,
      requiredStep_done env w w false (requiredStep_refl env w h)⟩
  · exact ⟨readHandshake_rc4_writes env w h.1, fun hst => readIA_rc4_writes env w h hst,
      readYb_hashesOrEncrypted env w⟩
  · have h0 := tr_handshakeNew_required env io
    have h1 := run_required env fuel events _ w h0.1 hr
    exact ⟨h1.1, cleanWrites_trans env h0.2 h1.2⟩

set_option maxRecDepth 100000 in
theorem required_mode_never_sends_in_clear_witness :
    run sampleEnv 8 (tr_handshakeNew sampleEnv (samplePipe true) TR_ENCRYPTION_REQUIRED)
      [Input.readable wholeHandshake] = some requiredResponder ∧
    requiredResponder.io.writes.map (fun r => (r.encryption_type, r.data)) =
      [(PEER_ENCRYPTION_NONE, sampleEnv.myPublicKey ++ randomPad sampleEnv 0 512),
       (PEER_ENCRYPTION_RC4, List.replicate 8 0 ++ [0, 0, 0, 2] ++ [0, 0] ++
          ourHandshake sampleEnv sampleHash sampleId)] ∧
    RequiredFacts requiredResponder ∧
    CleanWrites sampleEnv [] requiredResponder.io.writes ∧
    run sampleEnv 8 (tr_handshakeNew sampleEnv utpPipe TR_ENCRYPTION_REQUIRED)
      [Input.error sampleEnv.ETIMEDOUT, Input.error sampleEnv.ETIMEDOUT] =
      some requiredInitiator ∧
    requiredInitiator.io.writes.map (fun r => (r.encryption_type, r.data)) =
      [(PEER_ENCRYPTION_NONE, sampleEnv.myPublicKey ++ randomPad sampleEnv 0 512),
       (PEER_ENCRYPTION_NONE, sampleEnv.myPublicKey ++ randomPad sampleEnv 1 512)] ∧
    requiredInitiator.doneCalls.map (fun c => c.isConnected) = [false] ∧
    CleanWrites sampleEnv [] requiredInitiator.io.writes :=
  have h1 : run sampleEnv 8 (tr_handshakeNew sampleEnv (samplePipe true) TR_ENCRYPTION_REQUIRED)
      [Input.readable wholeHandshake] = some requiredResponder := by rfl
  have h2 : run sampleEnv 8 (tr_handshakeNew sampleEnv utpPipe TR_ENCRYPTION_REQUIRED)
      [Input.error sampleEnv.ETIMEDOUT, Input.error sampleEnv.ETIMEDOUT] =
      some requiredInitiator := by rfl
  have r1 := (required_mode_never_sends_in_clear sampleEnv).2.2.2.2 (samplePipe true) 8 _ _ h1
  have r2 := (required_mode_never_sends_in_clear sampleEnv).2.2.2.2 utpPipe 8 _ _ h2
  ⟨h1, by decide, r1.1, r1.2, h2, by decide, by decide, r2.2⟩

end Handshake
